import Mathlib

/-!
# gfilter: a streaming G-code rewriter for laser cutters and drag knives

A shallow embedding of the block transformers of `gfilter`
(`mm_mode.c`, `absmode.c`, `gcode.c:update_state`, `geom.c`, `dragmode.c`,
`lasermode.c`) and the properties of the specification that concern them.

Conventions of the embedding.

* C `float`/`double` values are rational numbers (`ℚ`) and the operations on them are
  exact, except where the section on floating-point arithmetic rounds a result to
  `float`.  Division by zero follows `ℚ` (`x / 0 = 0`); the theorems that depend on a
  quotient say so.
* The functions of the C mathematics library (`sqrt`, `cos`, `sin`, `acos`) are not
  part of the repository; they are the fields of a parameter `Libm`.
* `uint8_t`/`uint16_t` fields are natural numbers; where the C code can wrap
  (`1 - state->units`) the reduction modulo `2^8` is written out.
* A failing `assert` aborts the process: functions that can reach one return `Option`.
* A function that mutates `*state` and `*block` returns the new state and block; a
  function that fills the block buffer returns the list of the blocks it hands back
  (its return value is the length of that list).
-/

namespace Gfilter

/-! ## Data model (`gcode.h`) -/

/-- Three-element `float` array (`xyz[N_AXIS]`, `ijk[N_AXIS]`): `e0`, `e1`, `e2` are
the elements at index 0, 1 and 2. -/
structure vec3 where
  e0 : ℚ
  e1 : ℚ
  e2 : ℚ
deriving DecidableEq, Repr

/-- Two-element `float` array (`v[2]`, `v0[2]`, `x1[2]`, ...). -/
structure vec2 where
  e0 : ℚ
  e1 : ℚ
deriving DecidableEq, Repr

/-- Modelled from the spec: the header `gcode.h` is not among the sources. The fields of
`gc_modal_t` are those the code accesses and §3 lists (motion, plane_select, distance,
feed_rate, units, tool_length, coord_select, program_flow, spindle, coolant, override);
each is a byte. -/
structure gc_modal_t where
  motion : Nat
  feed_rate : Nat
  units : Nat
  distance : Nat
  plane_select : Nat
  tool_length : Nat
  coord_select : Nat
  program_flow : Nat
  coolant : Nat
  spindle : Nat
  override : Nat
deriving DecidableEq, Repr

/-- Modelled from the spec: the header `gcode.h` is not among the sources. The word slots
of `gc_values_t` are the scalars F, L, N, P, R, S, T and the three-vectors XYZ and IJK
(§3); L, N and T are integers, the others floats. -/
structure gc_values_t where
  f : ℚ
  ijk : vec3
  l : Nat
  n : Int
  p : ℚ
  r : ℚ
  s : ℚ
  t : Nat
  xyz : vec3
deriving DecidableEq, Repr

/-- Modelled from the spec: the header `gcode.h` is not among the sources. A parser block
(§3): the tag of the non-modal command, the modal fields, the value slots and the two
16-bit sets `command_words` (indexed by modal group) and `value_words` (indexed by word
letter). -/
structure parser_block_t where
  non_modal_command : Nat
  modal : gc_modal_t
  values : gc_values_t
  command_words : Nat
  value_words : Nat
deriving DecidableEq, Repr

/-- The all-zero vector (`memset(.., 0, ..)`). -/
def vec3.zero : vec3 := ⟨0, 0, 0⟩

/-- The all-zero modal record (`memset(&modal, 0, sizeof(modal))`). -/
def gc_modal_t.zero : gc_modal_t := ⟨0, 0, 0, 0, 0, 0, 0, 0, 0, 0, 0⟩

/-- The all-zero value record (`memset(&values, 0, sizeof(values))`). -/
def gc_values_t.zero : gc_values_t := ⟨0, vec3.zero, 0, 0, 0, 0, 0, 0, vec3.zero⟩

/-- The all-zero block (`memset(gc_block, 0, sizeof(parser_block_t))` in `gc_parse_line`). -/
def parser_block_t.zero : parser_block_t := ⟨0, gc_modal_t.zero, gc_values_t.zero, 0, 0⟩

/-! ### Constants of `gcode.h` and `nuts_bolts.h`

Modelled from §3 of the specification: the modal groups and the word letters index the
two bit sets in the order in which §3 lists them, and the modal enumerations have the
integer codes of the §3 table. -/

/-- Modelled from the spec: group index of the non-modal commands (first of the §3 list
G0, G1, G2, G3, G4, G5, G6, G7, G8, G12, G13, M4, M7, M8, M9). -/
def MODAL_GROUP_G0 : Nat := 0
/-- Modelled from the spec: group index of the motion modes. -/
def MODAL_GROUP_G1 : Nat := 1
/-- Modelled from the spec: group index of plane selection. -/
def MODAL_GROUP_G2 : Nat := 2
/-- Modelled from the spec: group index of the distance mode (G90/G91). -/
def MODAL_GROUP_G3 : Nat := 3
/-- Modelled from the spec: group index of the arc distance mode (G91.1). -/
def MODAL_GROUP_G4 : Nat := 4
/-- Modelled from the spec: group index of the feed-rate mode (G93/G94). -/
def MODAL_GROUP_G5 : Nat := 5
/-- Modelled from the spec: group index of the units (G20/G21). -/
def MODAL_GROUP_G6 : Nat := 6
/-- Modelled from the spec: group index of cutter compensation (G40). -/
def MODAL_GROUP_G7 : Nat := 7
/-- Modelled from the spec: group index of the tool-length offset (G43.1/G49). -/
def MODAL_GROUP_G8 : Nat := 8
/-- Modelled from the spec: group index of coordinate-system selection (G54..G59). -/
def MODAL_GROUP_G12 : Nat := 9
/-- Modelled from the spec: group index of the control mode (G61). -/
def MODAL_GROUP_G13 : Nat := 10
/-- Modelled from the spec: group index of program flow (M0/M1/M2/M30). -/
def MODAL_GROUP_M4 : Nat := 11
/-- Modelled from the spec: group index of the spindle (M3/M4/M5). -/
def MODAL_GROUP_M7 : Nat := 12
/-- Modelled from the spec: group index of the coolant (M7/M8/M9). -/
def MODAL_GROUP_M8 : Nat := 13
/-- Modelled from the spec: group index of override control (M56). -/
def MODAL_GROUP_M9 : Nat := 14

/-- Modelled from the spec: index of word F (first of the §3 list F, I, J, K, L, N, P,
R, S, T, X, Y, Z). -/
def WORD_F : Nat := 0
/-- Modelled from the spec: index of word I. -/
def WORD_I : Nat := 1
/-- Modelled from the spec: index of word J. -/
def WORD_J : Nat := 2
/-- Modelled from the spec: index of word K. -/
def WORD_K : Nat := 3
/-- Modelled from the spec: index of word L. -/
def WORD_L : Nat := 4
/-- Modelled from the spec: index of word N. -/
def WORD_N : Nat := 5
/-- Modelled from the spec: index of word P. -/
def WORD_P : Nat := 6
/-- Modelled from the spec: index of word R. -/
def WORD_R : Nat := 7
/-- Modelled from the spec: index of word S. -/
def WORD_S : Nat := 8
/-- Modelled from the spec: index of word T. -/
def WORD_T : Nat := 9
/-- Modelled from the spec: index of word X. -/
def WORD_X : Nat := 10
/-- Modelled from the spec: index of word Y. -/
def WORD_Y : Nat := 11
/-- Modelled from the spec: index of word Z. -/
def WORD_Z : Nat := 12

/-- Modelled from the spec: motion code of G0 (§3: motion 0,1,2,3 = G0/G1/G2/G3). -/
def MOTION_MODE_SEEK : Nat := 0
/-- Modelled from the spec: motion code of G1. -/
def MOTION_MODE_LINEAR : Nat := 1
/-- Modelled from the spec: motion code of G2 (clockwise arc). -/
def MOTION_MODE_CW_ARC : Nat := 2
/-- Modelled from the spec: motion code of G3 (counter-clockwise arc). -/
def MOTION_MODE_CCW_ARC : Nat := 3
/-- Modelled from the spec: distance code of G90 (§3: 0 = absolute). -/
def DISTANCE_MODE_ABSOLUTE : Nat := 0
/-- Modelled from the spec: distance code of G91 (§3: 1 = incremental). -/
def DISTANCE_MODE_INCREMENTAL : Nat := 1
/-- Modelled from the spec: units code of G21 (§3: 0 = mm). -/
def UNITS_MODE_MM : Nat := 0
/-- Modelled from the spec: units code of G20 (§3: 1 = inches). -/
def UNITS_MODE_INCHES : Nat := 1

/-- Modelled from the spec: `bit(n)` of `nuts_bolts.h` (not among the sources), the mask
of element `n` of a bit set, `1 << n`. -/
def bit (n : Nat) : Nat := 1 <<< n

/-- The C test `x & mask` used as a condition (non-zero means true). -/
def bit_istrue (x mask : Nat) : Bool := (x &&& mask) != 0

/-- The C statement `x &= ~mask` on a 16-bit set. -/
def bit_false (x mask : Nat) : Nat := x &&& (65535 ^^^ mask)

/-- The C statement `x |= mask`. -/
def bit_true (x mask : Nat) : Nat := x ||| mask

/-! ## Floating-point arithmetic

The value slots and the locals of the program are `float`s. The embedding computes with
rational numbers. It rounds where a property of the program turns on the rounding: the
float products of line 10 of `geom.c` (`normarcs`, through `Libm.fl`) and the float
additions and subtractions of `absmode.c` (`toabs_fl`, `fromabs_fl`); every other
operation is exact. -/

/-- Rounding of a rational number to the nearest integer, a tie to the even one: the
rounding of the arithmetic of IEEE 754. -/
def round_half_even (x : ℚ) : ℤ :=
  if x - ⌊x⌋ < 1 / 2 then ⌊x⌋
  else if 1 / 2 < x - ⌊x⌋ then ⌊x⌋ + 1
  else if ⌊x⌋ % 2 = 0 then ⌊x⌋ else ⌊x⌋ + 1

/-- Rounding of a rational number to `float` (24 bits of precision, round to nearest, a
tie to the even significand). The range of the exponent is not modelled: no overflow and
no subnormal numbers. -/
def f32 (q : ℚ) : ℚ :=
  if q = 0 then 0
  else (round_half_even (q / 2 ^ (Int.log 2 |q| - 23)) : ℚ) * 2 ^ (Int.log 2 |q| - 23)

/-- The arithmetic that the program takes from outside the repository: the functions of
the C mathematics library that it calls, and `fl`, the rounding of the result of a float
operation to `float`. They are kept abstract; theorems state what they need of them. -/
structure Libm where
  sqrt : ℚ → ℚ
  cos : ℚ → ℚ
  sin : ℚ → ℚ
  acos : ℚ → ℚ
  fl : ℚ → ℚ

/-! ## `mm_mode.c` -/

/-- State of `to_mm` and `from_mm`: the units shadow (`to_mm_state_t`, `from_mm_state_t`). -/
structure to_mm_state_t where
  units : Nat
deriving DecidableEq, Repr

/-- Multiplication of the three elements of a vector by a factor (the body of the loop
`for (i = 0; i < 3; i++) v[i] *= c`). -/
def vec3.scale (c : ℚ) (v : vec3) : vec3 := ⟨v.e0 * c, v.e1 * c, v.e2 * c⟩

/-- Division of the three elements of a vector (`for (i = 0; i < 3; i++) v[i] /= c`). -/
def vec3.unscale (c : ℚ) (v : vec3) : vec3 := ⟨v.e0 / c, v.e1 / c, v.e2 / c⟩

/-- Embeds `to_mm_init`. -/
def to_mm_init : to_mm_state_t := ⟨UNITS_MODE_MM⟩

/-- The values of a block after the scaling loop of `to_mm`: XYZ, IJK, F and R are
multiplied by 25.4. -/
def values_to_mm (values : gc_values_t) : gc_values_t :=
  { values with
      xyz := values.xyz.scale (254 / 10)
      ijk := values.ijk.scale (254 / 10)
      f := values.f * (254 / 10)
      r := values.r * (254 / 10) }

/-- The values of a block after the scaling loop of `from_mm`: XYZ, IJK, F and R are
divided by 25.4. -/
def values_from_mm (values : gc_values_t) : gc_values_t :=
  { values with
      xyz := values.xyz.unscale (254 / 10)
      ijk := values.ijk.unscale (254 / 10)
      f := values.f / (254 / 10)
      r := values.r / (254 / 10) }

/-- First statement of `to_mm` (lines 8-15 of `mm_mode.c`): the handling of a G20/G21. -/
def to_mm_group (state : to_mm_state_t) (block : parser_block_t) :
    to_mm_state_t × parser_block_t :=
  if bit_istrue block.command_words (bit MODAL_GROUP_G6) then
    if state.units = block.modal.units then
      (state, { block with command_words := bit_false block.command_words (bit MODAL_GROUP_G6) })
    else
      (({ units := block.modal.units } : to_mm_state_t),
       { block with modal := { block.modal with units := UNITS_MODE_MM } })
  else (state, block)

/-- Embeds `to_mm` (`mm_mode.c`). -/
def to_mm (state : to_mm_state_t) (block : parser_block_t) : to_mm_state_t × parser_block_t :=
  let r := to_mm_group state block
  if r.1.units = UNITS_MODE_INCHES then
    (r.1, { r.2 with values := values_to_mm r.2.values })
  else r

/-- Embeds `from_mm_init`: the shadow starts at the sentinel 255. -/
def from_mm_init : to_mm_state_t := ⟨255⟩

/-- First statement of `from_mm` (lines 33-44 of `mm_mode.c`): the handling of the units
group. The toggle `1 - state->units` is computed in `int` and stored in a byte. -/
def from_mm_group (state : to_mm_state_t) (block : parser_block_t) :
    to_mm_state_t × parser_block_t :=
  if state.units = 255 then
    if bit_istrue block.command_words (bit MODAL_GROUP_G6) = false then
      (({ units := UNITS_MODE_MM } : to_mm_state_t),
       { block with
           command_words := bit_true block.command_words (bit MODAL_GROUP_G6)
           modal := { block.modal with units := UNITS_MODE_MM } })
    else
      (({ units := UNITS_MODE_INCHES } : to_mm_state_t),
       { block with modal := { block.modal with units := UNITS_MODE_INCHES } })
  else if bit_istrue block.command_words (bit MODAL_GROUP_G6) then
    (({ units := (1 + 256 - state.units % 256) % 256 } : to_mm_state_t),
     { block with modal := { block.modal with units := (1 + 256 - state.units % 256) % 256 } })
  else (state, block)

/-- Embeds `from_mm` (`mm_mode.c`). -/
def from_mm (state : to_mm_state_t) (block : parser_block_t) : to_mm_state_t × parser_block_t :=
  let r := from_mm_group state block
  if r.1.units = UNITS_MODE_INCHES then
    (r.1, { r.2 with values := values_from_mm r.2.values })
  else r

/-! ## `absmode.c` -/

/-- State of `toabs` and `fromabs` (`toabs_state_t`, `fromabs_state_t`): the position
shadow and the distance shadow. -/
structure toabs_state_t where
  xyz : vec3
  distance : Nat
deriving DecidableEq, Repr

/-- Embeds `toabs_init`. -/
def toabs_init : toabs_state_t := ⟨vec3.zero, DISTANCE_MODE_ABSOLUTE⟩

/-- Body of the axis loop of `toabs` for one axis: `present` is
`block->value_words & bit(WORD_X + i)`, `s` is `state->xyz[i]`, `b` is
`block->values.xyz[i]`; the result is the new pair of the two. The addition is exact;
`toabs_axis_fl` is the body with the float addition rounded. -/
def toabs_axis (distance : Nat) (present : Bool) (s b : ℚ) : ℚ × ℚ :=
  if present then
    if distance = DISTANCE_MODE_ABSOLUTE then (b, b)
    else (s + b, s + b)
  else (s, b)

/-- First statement of `toabs` (lines 11-18 of `absmode.c`): the handling of a G90/G91. -/
def toabs_group (state : toabs_state_t) (block : parser_block_t) :
    toabs_state_t × parser_block_t :=
  if bit_istrue block.command_words (bit MODAL_GROUP_G3) then
    if state.distance = block.modal.distance then
      (state, { block with command_words := bit_false block.command_words (bit MODAL_GROUP_G3) })
    else
      ({ state with distance := block.modal.distance },
       { block with modal := { block.modal with distance := DISTANCE_MODE_ABSOLUTE } })
  else (state, block)

/-- The axis loop of `toabs` and of `fromabs` (`for (i = 0; i < 3; i++)`), `axis` being
the body for one axis. -/
def abs_axes (axis : Nat → Bool → ℚ → ℚ → ℚ × ℚ) (state : toabs_state_t)
    (block : parser_block_t) : toabs_state_t × parser_block_t :=
  let a0 := axis state.distance (bit_istrue block.value_words (bit (WORD_X + 0)))
    state.xyz.e0 block.values.xyz.e0
  let a1 := axis state.distance (bit_istrue block.value_words (bit (WORD_X + 1)))
    state.xyz.e1 block.values.xyz.e1
  let a2 := axis state.distance (bit_istrue block.value_words (bit (WORD_X + 2)))
    state.xyz.e2 block.values.xyz.e2
  ({ state with xyz := ⟨a0.1, a1.1, a2.1⟩ },
   { block with values := { block.values with xyz := ⟨a0.2, a1.2, a2.2⟩ } })

/-- Embeds `toabs` (`absmode.c`). -/
def toabs (state : toabs_state_t) (block : parser_block_t) : toabs_state_t × parser_block_t :=
  let r := toabs_group state block
  abs_axes toabs_axis r.1 r.2

/-- Embeds `fromabs_init`: the distance shadow starts at the sentinel 255. -/
def fromabs_init : toabs_state_t := ⟨vec3.zero, 255⟩

/-- Body of the axis loop of `fromabs` for one axis (arguments as in `toabs_axis`):
in incremental mode `block->values.xyz[i] -= state->xyz[i]` and then
`state->xyz[i] += block->values.xyz[i]`. Both operations are exact; `fromabs_axis_fl` is
the body with the float operations rounded. -/
def fromabs_axis (distance : Nat) (present : Bool) (s b : ℚ) : ℚ × ℚ :=
  if present then
    if distance = DISTANCE_MODE_ABSOLUTE then (b, b)
    else (s + (b - s), b - s)
  else (s, b)

/-- First statement of `fromabs` (lines 39-50 of `absmode.c`): the handling of the
distance group. The toggle `1 - state->distance` is computed in `int` and stored in a
byte. -/
def fromabs_group (state : toabs_state_t) (block : parser_block_t) :
    toabs_state_t × parser_block_t :=
  if state.distance = 255 then
    if bit_istrue block.command_words (bit MODAL_GROUP_G3) then
      ({ state with distance := DISTANCE_MODE_INCREMENTAL },
       { block with modal := { block.modal with distance := DISTANCE_MODE_INCREMENTAL } })
    else
      ({ state with distance := DISTANCE_MODE_ABSOLUTE },
       { block with
           command_words := bit_true block.command_words (bit MODAL_GROUP_G3)
           modal := { block.modal with distance := DISTANCE_MODE_ABSOLUTE } })
  else if bit_istrue block.command_words (bit MODAL_GROUP_G3) then
    ({ state with distance := (1 + 256 - state.distance % 256) % 256 },
     { block with modal := { block.modal with distance := (1 + 256 - state.distance % 256) % 256 } })
  else (state, block)

/-- Embeds `fromabs` (`absmode.c`). -/
def fromabs (state : toabs_state_t) (block : parser_block_t) : toabs_state_t × parser_block_t :=
  let r := fromabs_group state block
  abs_axes fromabs_axis r.1 r.2

/-- Body of the axis loop of `toabs` for one axis, with the float addition
`state->xyz[i] += block->values.xyz[i]` of line 25 rounded to `float` by `fl`. -/
def toabs_axis_fl (fl : ℚ → ℚ) (distance : Nat) (present : Bool) (s b : ℚ) : ℚ × ℚ :=
  if present then
    if distance = DISTANCE_MODE_ABSOLUTE then (b, b)
    else (fl (s + b), fl (s + b))
  else (s, b)

/-- Embeds `toabs` (`absmode.c`) in float arithmetic: `toabs` with the addition of line 25
rounded by `fl`. -/
def toabs_fl (fl : ℚ → ℚ) (state : toabs_state_t) (block : parser_block_t) :
    toabs_state_t × parser_block_t :=
  let r := toabs_group state block
  abs_axes (toabs_axis_fl fl) r.1 r.2

/-- Body of the axis loop of `fromabs` for one axis, with the float subtraction
`block->values.xyz[i] -= state->xyz[i]` of line 56 and the float addition
`state->xyz[i] += block->values.xyz[i]` of line 57 rounded to `float` by `fl`. -/
def fromabs_axis_fl (fl : ℚ → ℚ) (distance : Nat) (present : Bool) (s b : ℚ) : ℚ × ℚ :=
  if present then
    if distance = DISTANCE_MODE_ABSOLUTE then (b, b)
    else (fl (s + fl (b - s)), fl (b - s))
  else (s, b)

/-- Embeds `fromabs` (`absmode.c`) in float arithmetic: `fromabs` with the operations of
lines 56 and 57 rounded by `fl`. -/
def fromabs_fl (fl : ℚ → ℚ) (state : toabs_state_t) (block : parser_block_t) :
    toabs_state_t × parser_block_t :=
  let r := fromabs_group state block
  abs_axes (fromabs_axis_fl fl) r.1 r.2

/-! ## `gcode.c`: `update_state` -/

/-- The pattern of `update_state` for a word or command that persists: when the bit
`w` is set in `words`, the bit is cleared if the block's value `bv` equals the shadow's
value `sv`, and the shadow takes the block's value otherwise. The result is the new bit
set and the new shadow value. -/
def strip_or_update {α : Type} [DecidableEq α] (words w : Nat) (bv sv : α) : Nat × α :=
  if bit_istrue words (bit w) then
    if bv = sv then (bit_false words (bit w), sv) else (words, bv)
  else (words, sv)

/-- The pattern of `update_state` for I, J, K and R: a present word whose value is zero
is cleared. -/
def strip_zero (words w : Nat) (bv : ℚ) : Nat :=
  if bit_istrue words (bit w) && decide (bv = 0) then bit_false words (bit w) else words

/-- Body of the axis loop of `update_state` in the incremental branch: a present word
whose value is zero is cleared, and in every other case (the `else` belongs to that
single `if`) the block's slot is added to the shadow. -/
def incremental_axis (words w : Nat) (bv sv : ℚ) : Nat × ℚ :=
  if bit_istrue words (bit w) && decide (bv = 0) then (bit_false words (bit w), sv)
  else (words, sv + bv)

/-- Body of the axis loops of `update_state` (lines 465-480) for one axis: the branch is
chosen by the distance mode of the shadow after the modal groups have been folded in. -/
def update_axis (distance words w : Nat) (bv sv : ℚ) : Nat × ℚ :=
  if distance = DISTANCE_MODE_ABSOLUTE then strip_or_update words w bv sv
  else incremental_axis words w bv sv

/-- Embeds `update_state` (`gcode.c`): folds the block into the shadow `modal`, `values`
and removes from the block the words and commands that are redundant. The statements
are in the order of the source; each `w..` is `block->value_words` (and the shadow slot)
after the statement for that word, each `c..` is `block->command_words` (and the shadow
field) after the statement for that group. -/
def update_state (modal : gc_modal_t) (values : gc_values_t) (block : parser_block_t) :
    gc_modal_t × gc_values_t × parser_block_t :=
  let bv := block.values
  let bm := block.modal
  let wF := strip_or_update block.value_words WORD_F bv.f values.f
  let wI := strip_zero wF.1 WORD_I bv.ijk.e0
  let wJ := strip_zero wI WORD_J bv.ijk.e1
  let wK := strip_zero wJ WORD_K bv.ijk.e2
  let wL := strip_or_update wK WORD_L bv.l values.l
  let wN := strip_or_update wL.1 WORD_N bv.n values.n
  let wP := strip_or_update wN.1 WORD_P bv.p values.p
  let wR := strip_zero wP.1 WORD_R bv.r
  let wS := strip_or_update wR WORD_S bv.s values.s
  let wT := strip_or_update wS.1 WORD_T bv.t values.t
  let cG1 := strip_or_update block.command_words MODAL_GROUP_G1 bm.motion modal.motion
  let cG2 := strip_or_update cG1.1 MODAL_GROUP_G2 bm.plane_select modal.plane_select
  let cG3 := strip_or_update cG2.1 MODAL_GROUP_G3 bm.distance modal.distance
  let cG5 := strip_or_update cG3.1 MODAL_GROUP_G5 bm.feed_rate modal.feed_rate
  let cG6 := strip_or_update cG5.1 MODAL_GROUP_G6 bm.units modal.units
  let cG8 := strip_or_update cG6.1 MODAL_GROUP_G8 bm.tool_length modal.tool_length
  let cG12 := strip_or_update cG8.1 MODAL_GROUP_G12 bm.coord_select modal.coord_select
  let cM4 := strip_or_update cG12.1 MODAL_GROUP_M4 bm.program_flow modal.program_flow
  let cM7 := strip_or_update cM4.1 MODAL_GROUP_M7 bm.spindle modal.spindle
  let cM8 := strip_or_update cM7.1 MODAL_GROUP_M8 bm.coolant modal.coolant
  let wX := update_axis cG3.2 wT.1 (WORD_X + 0) bv.xyz.e0 values.xyz.e0
  let wY := update_axis cG3.2 wX.1 (WORD_X + 1) bv.xyz.e1 values.xyz.e1
  let wZ := update_axis cG3.2 wY.1 (WORD_X + 2) bv.xyz.e2 values.xyz.e2
  ({ modal with motion := cG1.2, plane_select := cG2.2, distance := cG3.2,
                feed_rate := cG5.2, units := cG6.2, tool_length := cG8.2,
                coord_select := cG12.2, program_flow := cM4.2, spindle := cM7.2,
                coolant := cM8.2 },
   { values with f := wF.2, l := wL.2, n := wN.2, p := wP.2, s := wS.2, t := wT.2,
                 xyz := ⟨wX.2, wY.2, wZ.2⟩ },
   { block with value_words := wZ.1, command_words := cM8.1 })

/-! ## `cleanup.c` -/

/-- State of `cleanup` (`cleanup_state_t`): a modal and a value shadow. -/
structure cleanup_state_t where
  modal : gc_modal_t
  values : gc_values_t
deriving DecidableEq, Repr

/-- Embeds `cleanup_init`: every byte of the modal shadow is 255, the values are zero. -/
def cleanup_init : cleanup_state_t :=
  ⟨⟨255, 255, 255, 255, 255, 255, 255, 255, 255, 255, 255⟩, gc_values_t.zero⟩

/-- Embeds `cleanup` (`cleanup.c`). -/
def cleanup (state : cleanup_state_t) (block : parser_block_t) :
    cleanup_state_t × parser_block_t :=
  let r := update_state state.modal state.values block
  (⟨r.1, r.2.1⟩, r.2.2)

/-! ## `geom.c` -/

/-- Modelled from the spec: `hypot_f` of `nuts_bolts.h` is not among the sources; §4.8
writes `hypot(dx,dy)`, the Euclidean norm of the two arguments. -/
def hypot_f (L : Libm) (x y : ℚ) : ℚ := L.sqrt (x * x + y * y)

/-- Embeds `normarcs` (`geom.c`). `none` is a failing `assert`. In line 10 the product
`4.0 * r * r` is computed in `double`, where it is exact, and the products `x * x` and
`y * y` in `float`, where they are rounded (`L.fl`); the two subtractions, made in
`double`, are exact here. Where the chord is zero, line 15
divides by `hypot_f(x, y) = 0`: the C program goes on with values that are not numbers,
the embedding with the quotient of the rationals, and no theorem states the centre offset
there. -/
def normarcs (L : Libm) (block : parser_block_t) (motion : Nat) (x y : ℚ) :
    Option parser_block_t :=
  if bit_istrue block.value_words (bit WORD_R) then
    let h_x2_div_d := 4 * block.values.r * block.values.r - L.fl (x * x) - L.fl (y * y)
    if h_x2_div_d ≥ 0 then
      let h_x2_div_d := -(L.sqrt h_x2_div_d) / hypot_f L x y
      let h_x2_div_d := if motion = MOTION_MODE_CCW_ARC then -h_x2_div_d else h_x2_div_d
      let hr : ℚ × ℚ :=
        if block.values.r < 0 then (-h_x2_div_d, -block.values.r)
        else (h_x2_div_d, block.values.r)
      some { block with values := { block.values with
        r := hr.2
        ijk := ⟨(1 / 2) * (x - (y * hr.1)), (1 / 2) * (y + (x * hr.1)), block.values.ijk.e2⟩ } }
    else none
  else if bit_istrue block.value_words (bit WORD_I ||| bit WORD_J) then
    let x := x - block.values.ijk.e0
    let y := y - block.values.ijk.e1
    let target_r := hypot_f L x y
    let r := hypot_f L block.values.ijk.e0 block.values.ijk.e1
    let delta_r := |target_r - r|
    if delta_r < 1 / 2 then
      if delta_r < (1 / 1000) * r then
        some { block with values := { block.values with r := r } }
      else none
    else none
  else some block

/-- Embeds `calcv` (`geom.c`). The argument `v1` is the content of the caller's array
`v1` on entry (it is left as it is by a straight move of length zero); the result is the
pair `(v0, v1)` on return. -/
def calcv (L : Libm) (block : parser_block_t) (motion : Nat) (dx dy : ℚ) (v1 : vec2) :
    vec2 × vec2 :=
  if block.values.r ≠ 0 then
    let v0 : vec2 := ⟨-block.values.ijk.e1, block.values.ijk.e0⟩
    let v0 : vec2 := ⟨v0.e0 / block.values.r, v0.e1 / block.values.r⟩
    let v0 : vec2 := if motion = MOTION_MODE_CCW_ARC then ⟨-v0.e0, -v0.e1⟩ else v0
    let v1 : vec2 := ⟨dy - block.values.ijk.e1, -dx + block.values.ijk.e0⟩
    let v1 : vec2 := ⟨v1.e0 / block.values.r, v1.e1 / block.values.r⟩
    (v0, v1)
  else
    let v0 : vec2 := ⟨dx, dy⟩
    let d2 : ℚ := 0 + v0.e0 * v0.e0 + v0.e1 * v0.e1
    if d2 ≠ 0 then
      let d := L.sqrt d2
      let v1 : vec2 := ⟨v0.e0 / d, v0.e1 / d⟩
      (v1, v1)
    else (v0, v1)

/-! ## `dragmode.c` -/

/-- State of the drag transformer (`drag_state_t`). `values.xyz` is the position of the
blade tip, `v` the blade direction, `d` the blade offset. -/
structure drag_state_t where
  modal : gc_modal_t
  values : gc_values_t
  v : vec2
  d : ℚ
  angle0 : ℚ
  cosminangle : ℚ
deriving DecidableEq, Repr

/-- Embeds `dragmode_init` (`dragmode.c`). -/
def dragmode_init (L : Libm) (d angle0 minangle : ℚ) : drag_state_t :=
  let v : vec2 := ⟨L.cos (angle0 * (3141 / 1000) / 180), L.sin (angle0 * (3141 / 1000) / 180)⟩
  { modal := gc_modal_t.zero
    values := { gc_values_t.zero with xyz := ⟨-v.e0 * d, -v.e1 * d, 0⟩ }
    v := v
    d := d
    angle0 := angle0
    cosminangle := L.cos (minangle / 180 * (3141 / 1000)) }

/-- The rewriting of the arc words in `dragmode` (lines 63-73): an R word becomes
`sqrt(r*r + d*d)`; otherwise, when I or J is present, both become present (an absent one
counting as zero) and the old offset vector is subtracted. -/
def drag_arc_words (L : Libm) (oldstate state : drag_state_t) (block : parser_block_t) :
    parser_block_t :=
  if bit_istrue block.value_words (bit WORD_R) then
    { block with values := { block.values with
        r := L.sqrt (block.values.r * block.values.r + state.d * state.d) } }
  else if bit_istrue block.value_words (bit WORD_I ||| bit WORD_J) then
    let i0 := if bit_istrue block.value_words (bit WORD_I) = false then 0 else block.values.ijk.e0
    let i1 := if bit_istrue block.value_words (bit WORD_J) = false then 0 else block.values.ijk.e1
    { block with
        value_words := bit_true block.value_words (bit WORD_I ||| bit WORD_J)
        values := { block.values with
          ijk := ⟨i0 - oldstate.v.e0 * oldstate.d, i1 - oldstate.v.e1 * oldstate.d,
                  block.values.ijk.e2⟩ } }
  else block

/-- The first two statements of `dragmode` (lines 29-33): the spindle bit of the block is
cleared and `update_state` folds the block into the shadow. The result is the new modal
shadow, the new value shadow (the blade-tip target) and the stripped block. -/
def drag_update (state : drag_state_t) (block : parser_block_t) :
    gc_modal_t × gc_values_t × parser_block_t :=
  update_state state.modal state.values
    { block with command_words := bit_false block.command_words (bit MODAL_GROUP_M7) }

/-- The entry tangent `v0` of `dragmode` (lines 37-51): the first vector that `calcv`
returns for the block as `normarcs` leaves it; `none` when an `assert` of `normarcs`
fails. -/
def drag_v0 (L : Libm) (state : drag_state_t) (block : parser_block_t) : Option vec2 :=
  let u := drag_update state block
  let dx := u.2.1.xyz.e0 - state.values.xyz.e0
  let dy := u.2.1.xyz.e1 - state.values.xyz.e1
  (normarcs L u.2.2 u.1.motion dx dy).map (fun nb => (calcv L nb u.1.motion dx dy state.v).1)

/-- The state `*state` of `dragmode` after line 53: the shadow is the one `update_state`
left (`modal`, `values`), and the blade direction is the exit tangent `v1` of `calcv`,
unless the blade is lifted at either end of the move (Z >= 0), when it stays as it was. -/
def drag_new_state (oldstate : drag_state_t) (modal : gc_modal_t) (values : gc_values_t)
    (v1 : vec2) : drag_state_t :=
  { oldstate with
      modal := modal
      values := values
      v := if values.xyz.e2 ≥ 0 ∨ oldstate.values.xyz.e2 ≥ 0 then oldstate.v else v1 }

/-- The block `block[0]` of `dragmode` after line 75: the XY target is the blade-tip
target plus `d` times the blade direction, the arc words are rewritten, and the X and Y
words are present. -/
def drag_block (L : Libm) (oldstate state : drag_state_t) (block : parser_block_t) :
    parser_block_t :=
  let block : parser_block_t := { block with values := { block.values with
    xyz := ⟨state.values.xyz.e0 + state.v.e0 * state.d,
            state.values.xyz.e1 + state.v.e1 * state.d, block.values.xyz.e2⟩ } }
  let block := drag_arc_words L oldstate state block
  { block with value_words := bit_true block.value_words (bit WORD_X ||| bit WORD_Y) }

/-- The pivot arc, `block[0]` of `dragmode` after line 95; `v0` is the entry tangent and
`block` the rewritten move of line 75. -/
def drag_pivot (oldstate state : drag_state_t) (v0 : vec2) (block : parser_block_t) :
    parser_block_t :=
  { block with
      modal := { block.modal with
        motion := if v0.e0 * oldstate.v.e1 - v0.e1 * oldstate.v.e0 > 0 then MOTION_MODE_CW_ARC
                  else MOTION_MODE_CCW_ARC }
      command_words := bit MODAL_GROUP_G1
      values := { block.values with
        xyz := ⟨oldstate.values.xyz.e0 + v0.e0 * state.d,
                oldstate.values.xyz.e1 + v0.e1 * state.d, block.values.xyz.e2⟩
        r := state.d }
      value_words := bit WORD_R ||| bit WORD_X ||| bit WORD_Y }

/-- The move after a pivot arc, `block[1]` of `dragmode` after line 97: the copy of the
rewritten move with the motion of the shadow stated. -/
def drag_moved (state : drag_state_t) (block : parser_block_t) : parser_block_t :=
  { block with
      modal := { block.modal with motion := state.modal.motion }
      command_words := bit_true block.command_words (bit MODAL_GROUP_G1) }

/-- Embeds `dragmode` (`dragmode.c`). The result is the new state and the blocks
`block[0 .. retval-1]`; `none` is a failing `assert` of `normarcs`. -/
def dragmode (L : Libm) (state : drag_state_t) (block : parser_block_t) :
    Option (drag_state_t × List parser_block_t) :=
  let oldstate := state
  let u := drag_update state block
  let dx := u.2.1.xyz.e0 - oldstate.values.xyz.e0
  let dy := u.2.1.xyz.e1 - oldstate.values.xyz.e1
  match normarcs L u.2.2 u.1.motion dx dy with
  | none => none
  | some block =>
    let c := calcv L block u.1.motion dx dy oldstate.v
    let state := drag_new_state oldstate u.1 u.2.1 c.2
    let block := drag_block L oldstate state block
    if c.1.e0 * oldstate.v.e0 + c.1.e1 * oldstate.v.e1 < state.cosminangle ∧
        state.values.xyz.e2 < 0 ∧ oldstate.values.xyz.e2 < 0 then
      some (state, [drag_pivot oldstate state c.1 block, drag_moved state block])
    else some (state, [block])

/-! ## `lasermode.c` -/

/-- State of the laser transformer (`laser_state_t`). -/
structure laser_state_t where
  modal : gc_modal_t
  values : gc_values_t
  a : ℚ
  v : vec2
  M : ℚ
deriving DecidableEq, Repr

/-- Embeds `lasermode_init` (`lasermode.c`). The argument `state` is the content of
`*state` on entry (uninitialised memory in `main`): the function leaves its `v` as it is. -/
def lasermode_init (L : Libm) (state : laser_state_t) (a max_angle_deg : ℚ) : laser_state_t :=
  let M := L.acos (max_angle_deg / 180 * (314 / 100))
  { state with modal := gc_modal_t.zero, values := gc_values_t.zero, a := a, M := M * M }

/-- The value `d` of `lasermode` (lines 85-88 and 95-98): `f / 60`, squared, divided by 2
and by the acceleration. -/
def lead_distance (f a : ℚ) : ℚ :=
  let d := f / 60
  let d := d * d
  d / 2 / a

/-- The rewriting that `lasermode` applies to each synthesised block (lines 109-114,
124-130, 139-145): only X, Y, S and a present F remain as words, S is zero, the motion is
G1 and is the only command, and the XY target is `x`. -/
def lead_block (b : parser_block_t) (x : vec2) : parser_block_t :=
  { b with
      value_words := bit WORD_X ||| bit WORD_Y ||| bit WORD_S ||| (b.value_words &&& bit WORD_F)
      values := { b.values with s := 0, xyz := ⟨x.e0, x.e1, b.values.xyz.e2⟩ }
      modal := { b.modal with motion := MOTION_MODE_LINEAR }
      command_words := bit MODAL_GROUP_G1 }

/-- The test of lines 49-51 of `lasermode`: the junction between the previous move
(`oldstate`) and this one (`state`, entry tangent `v0`) is a discontinuity. -/
def laser_discontinuity (oldstate state : laser_state_t) (v0 : vec2) : Prop :=
  0 + v0.e0 * oldstate.v.e0 + v0.e1 * oldstate.v.e1 < state.M ∨
  state.values.f ≠ oldstate.values.f ∨
  (decide (state.values.s = 0) ≠ decide (oldstate.values.s = 0)) ∨
  state.modal.spindle ≠ oldstate.modal.spindle

instance (oldstate state : laser_state_t) (v0 : vec2) :
    Decidable (laser_discontinuity oldstate state v0) := by
  unfold laser_discontinuity; infer_instance

/-- The second half of the tests of lines 52-57 of `lasermode`: the move described by
the shadow `modal`, `values` cuts (S is not zero, the spindle is enabled, the motion is
not G0). `SPINDLE_DISABLE` is the constant of `gcode.h`, which is not among the sources
and whose value §3 does not give. -/
def laser_cutting (SPINDLE_DISABLE : Nat) (modal : gc_modal_t) (values : gc_values_t) : Bool :=
  decide (values.s ≠ 0) && decide (modal.spindle ≠ SPINDLE_DISABLE) &&
    decide (modal.motion ≠ MOTION_MODE_SEEK)

/-- The entry tangent `v0` of `lasermode` (lines 27-38): the first vector that `calcv`
returns for the block as `normarcs` leaves it; `none` when an `assert` of `normarcs`
fails. -/
def laser_v0 (L : Libm) (state : laser_state_t) (block : parser_block_t) : Option vec2 :=
  let u := update_state state.modal state.values block
  let dx := u.2.1.xyz.e0 - state.values.xyz.e0
  let dy := u.2.1.xyz.e1 - state.values.xyz.e1
  (normarcs L u.2.2 u.1.motion dx dy).map (fun nb => (calcv L nb u.1.motion dx dy state.v).1)

/-- The real move, `block[retval-1]` of `lasermode` when `retval > 1` (lines 71-75): the
copy of the block with the S word and the motion of the shadow stated. -/
def laser_last (state : laser_state_t) (block : parser_block_t) : parser_block_t :=
  { block with
      value_words := bit_true block.value_words (bit WORD_S)
      values := { block.values with s := state.values.s }
      command_words := bit_true block.command_words (bit MODAL_GROUP_G1)
      modal := { block.modal with motion := state.modal.motion } }

/-- The point `x1` of `lasermode` (lines 86-91): the end of the previous move extended by
the lead distance along the previous direction. -/
def laser_x1 (oldstate : laser_state_t) : vec2 :=
  ⟨oldstate.values.xyz.e0 + lead_distance oldstate.values.f oldstate.a * oldstate.v.e0,
   oldstate.values.xyz.e1 + lead_distance oldstate.values.f oldstate.a * oldstate.v.e1⟩

/-- The point `x2` of `lasermode` (lines 96-101): the start of this move extended
backwards by the lead distance along the entry tangent `v0`. -/
def laser_x2 (oldstate state : laser_state_t) (v0 : vec2) : vec2 :=
  ⟨oldstate.values.xyz.e0 - lead_distance state.values.f state.a * v0.e0,
   oldstate.values.xyz.e1 - lead_distance state.values.f state.a * v0.e1⟩

/-- The block that the `extnext` step of `lasermode` writes (lines 122-130): a copy of
`block[0]` (`block0`, which the `extprev` step may have rewritten) with the F of the
shadow, turned into a lead block to `x2`. -/
def laser_next (oldstate state : laser_state_t) (v0 : vec2) (block0 : parser_block_t) :
    parser_block_t :=
  lead_block { block0 with values := { block0.values with f := state.values.f } }
    (laser_x2 oldstate state v0)

/-- The block that the last step of `lasermode` writes (lines 138-145): a copy of the real
move `block[retval-1]` with the F of the shadow, turned into a lead block to the junction
(the end of the previous move). -/
def laser_junction (oldstate state : laser_state_t) (block : parser_block_t) :
    parser_block_t :=
  lead_block
    { laser_last state block with
        values := { (laser_last state block).values with f := state.values.f } }
    ⟨oldstate.values.xyz.e0, oldstate.values.xyz.e1⟩

/-- The flag `extprev` of `lasermode` (lines 45-54): the junction is a discontinuity and
the previous move cuts. -/
def laser_extprev (SPINDLE_DISABLE : Nat) (oldstate state : laser_state_t) (v0 : vec2) : Bool :=
  decide (laser_discontinuity oldstate state v0) &&
    laser_cutting SPINDLE_DISABLE oldstate.modal oldstate.values

/-- The flag `extnext` of `lasermode` (lines 46-57): the junction is a discontinuity and
this move cuts. -/
def laser_extnext (SPINDLE_DISABLE : Nat) (oldstate state : laser_state_t) (v0 : vec2) : Bool :=
  decide (laser_discontinuity oldstate state v0) &&
    laser_cutting SPINDLE_DISABLE state.modal state.values

/-- The blocks `block[0 .. retval-1]` that `lasermode` leaves (lines 62-151), from the
state before the call (`oldstate`), the state after `calcv` (`state`), the entry tangent
`v0` and the block as `normarcs` left it. -/
def laser_blocks (SPINDLE_DISABLE : Nat) (oldstate state : laser_state_t) (v0 : vec2)
    (block : parser_block_t) : List parser_block_t :=
  let extprev := laser_extprev SPINDLE_DISABLE oldstate state v0
  let extnext := laser_extnext SPINDLE_DISABLE oldstate state v0
  -- `block[0]` after the `extprev` step (lines 107-118)
  let block0 : parser_block_t :=
    if extprev then lead_block block (laser_x1 oldstate) else block
  (if extprev then [block0] else []) ++
  (if extnext then [laser_next oldstate state v0 block0] else []) ++
  (if extnext || extprev then [laser_junction oldstate state block, laser_last state block]
   else [block])

/-- Embeds `lasermode` (`lasermode.c`). The result is the new state and the blocks
`block[0 .. retval-1]`; `none` is a failing `assert` of `normarcs`. -/
def lasermode (L : Libm) (SPINDLE_DISABLE : Nat) (state : laser_state_t)
    (block : parser_block_t) : Option (laser_state_t × List parser_block_t) :=
  let oldstate := state
  let u := update_state state.modal state.values block
  let dx := u.2.1.xyz.e0 - oldstate.values.xyz.e0
  let dy := u.2.1.xyz.e1 - oldstate.values.xyz.e1
  match normarcs L u.2.2 u.1.motion dx dy with
  | none => none
  | some block =>
    let c := calcv L block u.1.motion dx dy oldstate.v
    let state : laser_state_t := { oldstate with modal := u.1, values := u.2.1, v := c.2 }
    some (state, laser_blocks SPINDLE_DISABLE oldstate state c.1 block)

/-! ## The driver loop of `main` over a stream of blocks, and reference semantics -/

/-- Runs a transformer that maps one block to one block over a stream of blocks, the
state being threaded from block to block as the driver loop of `main` does. The result is
the final state and the stream of the output blocks. -/
def run_stream {σ : Type} (step : σ → parser_block_t → σ × parser_block_t) (s : σ) :
    List parser_block_t → σ × List parser_block_t
  | [] => (s, [])
  | b :: bs =>
    ((run_stream step (step s b).1 bs).1, (step s b).2 :: (run_stream step (step s b).1 bs).2)

/-- Two transformers applied one after the other to the same block (`f` first), each with
its own state, as `main` calls `to_mm` and `toabs`, or `fromabs` and `from_mm`, on
`blocks[i]`. -/
def chain {σ τ : Type} (f : σ → parser_block_t → σ × parser_block_t)
    (g : τ → parser_block_t → τ × parser_block_t) (st : σ × τ) (b : parser_block_t) :
    (σ × τ) × parser_block_t :=
  (((f st.1 b).1, (g st.2 (f st.1 b).2).1), (g st.2 (f st.1 b).2).2)

/-- Reference semantics of the units of a stream: the units selected by the most recent
G20/G21 of the stream `bs`, and `u0` when the stream has none. -/
def units_in_force (u0 : Nat) (bs : List parser_block_t) : Nat :=
  bs.foldl
    (fun u b => if bit_istrue b.command_words (bit MODAL_GROUP_G6) then b.modal.units else u) u0

/-- Reference semantics of the distance mode of a stream: the mode selected by the most
recent G90/G91 of the stream `bs`, and `d0` when the stream has none. -/
def distance_in_force (d0 : Nat) (bs : List parser_block_t) : Nat :=
  bs.foldl
    (fun d b => if bit_istrue b.command_words (bit MODAL_GROUP_G3) then b.modal.distance else d)
    d0

/-- Reference semantics of one axis word: in absolute mode a present word is the new
position of the axis, in incremental mode it is added to the position; an absent word
leaves the position as it is. -/
def axis_target (distance : Nat) (present : Bool) (pos word : ℚ) : ℚ :=
  if present then (if distance = DISTANCE_MODE_ABSOLUTE then word else pos + word) else pos

/-- Reference semantics of the position of a stream: the absolute position reached after
the blocks `bs`, from the position `p0` with the distance mode `d0` in force. A G90/G91
applies to the axis words of its own block. -/
def position_after (d0 : Nat) (p0 : vec3) : List parser_block_t → vec3
  | [] => p0
  | b :: bs =>
    let d := if bit_istrue b.command_words (bit MODAL_GROUP_G3) then b.modal.distance else d0
    position_after d
      ⟨axis_target d (bit_istrue b.value_words (bit WORD_X)) p0.e0 b.values.xyz.e0,
       axis_target d (bit_istrue b.value_words (bit WORD_Y)) p0.e1 b.values.xyz.e1,
       axis_target d (bit_istrue b.value_words (bit WORD_Z)) p0.e2 b.values.xyz.e2⟩ bs

/-! ## Blocks and streams of the scenarios of §8 -/

/-- The block that `gc_parse_line` stores for a line that consists of one G20 or G21:
`units` is `21 - int_value`. -/
def block_units (units : Nat) : parser_block_t :=
  { parser_block_t.zero with
      command_words := bit MODAL_GROUP_G6
      modal := { gc_modal_t.zero with units := units } }

/-- The block that `gc_parse_line` stores for a line that consists of one G90 or G91:
`distance` is `int_value - 90`. -/
def block_distance (distance : Nat) : parser_block_t :=
  { parser_block_t.zero with
      command_words := bit MODAL_GROUP_G3
      modal := { gc_modal_t.zero with distance := distance } }

/-- The block that `gc_parse_line` stores for the line `G0 X<x>`. -/
def block_G0_X (x : ℚ) : parser_block_t :=
  { parser_block_t.zero with
      command_words := bit MODAL_GROUP_G1
      modal := { gc_modal_t.zero with motion := MOTION_MODE_SEEK }
      value_words := bit WORD_X
      values := { gc_values_t.zero with xyz := ⟨x, 0, 0⟩ } }

/-- Scenario S1: the stream `G20`, `G0 X1`, `G21`, `G0 X1`. -/
def stream_S1 : List parser_block_t :=
  [block_units UNITS_MODE_INCHES, block_G0_X 1, block_units UNITS_MODE_MM, block_G0_X 1]

/-- Scenario S2: the stream `G91`, `G0 X10`, `G0 X5`, `G90`, `G0 X0`. -/
def stream_S2 : List parser_block_t :=
  [block_distance DISTANCE_MODE_INCREMENTAL, block_G0_X 10, block_G0_X 5,
   block_distance DISTANCE_MODE_ABSOLUTE, block_G0_X 0]

/-! ## A rational mathematics library and the blocks of the scenarios S3 and S4 -/

/-- A mathematics library on the rationals, to evaluate the scenarios: the square root is
exact on squares of rationals, cosine, sine and arc cosine are the first terms of their
power series, and the float products are exact. -/
def libmQ : Libm where
  sqrt := fun q => Rat.sqrt q
  cos := fun x => 1 - x * x / 2 + x * x * x * x / 24
  sin := fun x => x - x * x * x / 6
  acos := fun x => 1571 / 1000 - x - x * x * x / 6
  fl := fun q => q

/-- A rational square root, standing for the `sqrt` of the C library, whose results are
not rational numbers: the integer square root of numerator times denominator, scaled by
4^16, over the denominator scaled by 2^16. The square of the result is at most `x` and
below it by at most `x / 2^15`. -/
def sqrt_approx (x : ℚ) : ℚ :=
  (Nat.sqrt (x.num.toNat * x.den * 4 ^ 16) : ℚ) / ((x.den : ℚ) * 2 ^ 16)

/-- A library in float arithmetic: the float products are rounded to `float` (`f32`) and
the square root is `sqrt_approx`; the other functions are those of `libmQ`. -/
def libm32 : Libm := { libmQ with sqrt := sqrt_approx, fl := f32 }

/-- The block that `gc_parse_line` stores for the line `G1 X10 Y0 Z-1` (first line of
scenario S4). -/
def block_S4_1 : parser_block_t :=
  { parser_block_t.zero with
      command_words := bit MODAL_GROUP_G1
      modal := { gc_modal_t.zero with motion := MOTION_MODE_LINEAR }
      value_words := bit WORD_X ||| bit WORD_Y ||| bit WORD_Z
      values := { gc_values_t.zero with xyz := ⟨10, 0, -1⟩ } }

/-- The block that `gc_parse_line` stores for the line `G1 X10 Y10` (second line of
scenario S4). -/
def block_S4_2 : parser_block_t :=
  { parser_block_t.zero with
      command_words := bit MODAL_GROUP_G1
      modal := { gc_modal_t.zero with motion := MOTION_MODE_LINEAR }
      value_words := bit WORD_X ||| bit WORD_Y
      values := { gc_values_t.zero with xyz := ⟨10, 10, 0⟩ } }

/-- The block that `gc_parse_line` stores for the line `G1 X10 F600 S100 M3`, a cutting
move; `SPINDLE_ENABLE_CW` is the constant of `gcode.h` that M3 stores. -/
def block_cut_1 (SPINDLE_ENABLE_CW : Nat) : parser_block_t :=
  { parser_block_t.zero with
      command_words := bit MODAL_GROUP_G1 ||| bit MODAL_GROUP_M7
      modal := { gc_modal_t.zero with motion := MOTION_MODE_LINEAR, spindle := SPINDLE_ENABLE_CW }
      value_words := bit WORD_F ||| bit WORD_S ||| bit WORD_X
      values := { gc_values_t.zero with f := 600, s := 100, xyz := ⟨10, 0, 0⟩ } }

/-- The block that `gc_parse_line` stores for the line `G1 X20`, the collinear
continuation of `block_cut_1`. -/
def block_cut_2 : parser_block_t :=
  { parser_block_t.zero with
      command_words := bit MODAL_GROUP_G1
      modal := { gc_modal_t.zero with motion := MOTION_MODE_LINEAR }
      value_words := bit WORD_X
      values := { gc_values_t.zero with xyz := ⟨20, 0, 0⟩ } }

/-- State of the drag transformer after `dragmode_init(d = 1, angle0 = 0, minangle)`,
with `c` the threshold `cosminangle`, when the mathematics library has cos 0 = 1 and
sin 0 = 0: the blade points along +X and its tip is at (-1, 0, 0). -/
def drag_S4_state_0 (c : ℚ) : drag_state_t :=
  ⟨gc_modal_t.zero, { gc_values_t.zero with xyz := ⟨-1, 0, 0⟩ }, ⟨1, 0⟩, 1, 0, c⟩

/-- State of the drag transformer after the first line of scenario S4. -/
def drag_S4_state_1 (c : ℚ) : drag_state_t :=
  ⟨{ gc_modal_t.zero with motion := MOTION_MODE_LINEAR },
   { gc_values_t.zero with xyz := ⟨10, 0, -1⟩ }, ⟨1, 0⟩, 1, 0, c⟩

/-- State of the drag transformer after the second line of scenario S4. -/
def drag_S4_state_2 (c : ℚ) : drag_state_t :=
  ⟨{ gc_modal_t.zero with motion := MOTION_MODE_LINEAR },
   { gc_values_t.zero with xyz := ⟨10, 10, -1⟩ }, ⟨0, 1⟩, 1, 0, c⟩

/-- State of the laser transformer after `lasermode_init(a = 1000, max_angle_deg)` when
`M` is the threshold it computes and `v` the direction left in the uninitialised state. -/
def laser_cut_state_0 (M : ℚ) (v : vec2) : laser_state_t :=
  ⟨gc_modal_t.zero, gc_values_t.zero, 1000, v, M⟩

/-- State of the laser transformer after the line `G1 X10 F600 S100 M3`. -/
def laser_cut_state_1 (SPINDLE_ENABLE_CW : Nat) (M : ℚ) : laser_state_t :=
  ⟨{ gc_modal_t.zero with motion := MOTION_MODE_LINEAR, spindle := SPINDLE_ENABLE_CW },
   { gc_values_t.zero with f := 600, s := 100, xyz := ⟨10, 0, 0⟩ }, 1000, ⟨1, 0⟩, M⟩

/-- State of the laser transformer after the following line `G1 X20`. -/
def laser_cut_state_2 (SPINDLE_ENABLE_CW : Nat) (M : ℚ) : laser_state_t :=
  ⟨{ gc_modal_t.zero with motion := MOTION_MODE_LINEAR, spindle := SPINDLE_ENABLE_CW },
   { gc_values_t.zero with f := 600, s := 100, xyz := ⟨20, 0, 0⟩ }, 1000, ⟨1, 0⟩, M⟩

/-- State of the laser transformer after the line `G1 X10 F600 S100 M3` followed by the
line `G1 X10 Y10`. -/
def laser_cut_state_3 (SPINDLE_ENABLE_CW : Nat) (M : ℚ) : laser_state_t :=
  ⟨{ gc_modal_t.zero with motion := MOTION_MODE_LINEAR, spindle := SPINDLE_ENABLE_CW },
   { gc_values_t.zero with f := 600, s := 100, xyz := ⟨10, 10, 0⟩ }, 1000, ⟨0, 1⟩, M⟩

/-- The block that `gc_parse_line` stores for the line `G2 X15 Y-5 J-5`: a clockwise
quarter circle about the point 5 below the start. -/
def block_arc_J : parser_block_t :=
  { parser_block_t.zero with
      command_words := bit MODAL_GROUP_G1
      modal := { gc_modal_t.zero with motion := MOTION_MODE_CW_ARC }
      value_words := bit WORD_J ||| bit WORD_X ||| bit WORD_Y
      values := { gc_values_t.zero with xyz := ⟨15, -5, 0⟩, ijk := ⟨0, -5, 0⟩ } }

/-- The block that `gc_parse_line` stores for the line `G2 X15 Y-5 I0 J0`: an arc whose
I and J words are both zero. -/
def block_arc_0 : parser_block_t :=
  { parser_block_t.zero with
      command_words := bit MODAL_GROUP_G1
      modal := { gc_modal_t.zero with motion := MOTION_MODE_CW_ARC }
      value_words := bit WORD_I ||| bit WORD_J ||| bit WORD_X ||| bit WORD_Y
      values := { gc_values_t.zero with xyz := ⟨15, -5, 0⟩ } }

/-- The rule "clear bit if unchanged, else update shadow" for one field, in the words of
the specification: `present` and `kept` are the bit of the field in the block before and
after the call, `bv` the value in the block, `sv` and `sv'` the value in the shadow
before and after the call. A present field has its bit cleared exactly when the two
values are equal and leaves the block's value in the shadow; an absent field leaves the
shadow as it is. -/
def strip_or_update_rule {α : Type} (present kept : Bool) (bv sv sv' : α) : Prop :=
  (present = true → ((kept = false ↔ bv = sv) ∧ sv' = bv)) ∧
  (present = false → sv' = sv)

/-- A block with the single word X0, as `gc_parse_line` stores the line `X0`. -/
def block_X0 : parser_block_t :=
  { parser_block_t.zero with value_words := bit WORD_X }

/-- A block with the words X5 and Z-2, as `gc_parse_line` stores the line `X5 Z-2`. -/
def block_X5_Z : parser_block_t :=
  { parser_block_t.zero with
      value_words := bit WORD_X ||| bit WORD_Z
      values := { gc_values_t.zero with xyz := ⟨5, 0, -2⟩ } }

/-- A modal shadow in incremental distance mode (after a G91). -/
def modal_incremental : gc_modal_t :=
  { gc_modal_t.zero with distance := DISTANCE_MODE_INCREMENTAL }

/-- Modelled from the spec: the status kinds of `report.h`, which is not among the
sources; §7 lists them, "each a distinct status kind". -/
inductive status_t where
  | STATUS_OK
  | STATUS_EXPECTED_COMMAND_LETTER
  | STATUS_BAD_NUMBER_FORMAT
  | STATUS_OVERFLOW
  | STATUS_GCODE_UNSUPPORTED_COMMAND
  | STATUS_GCODE_COMMAND_VALUE_NOT_INTEGER
  | STATUS_GCODE_MODAL_GROUP_VIOLATION
  | STATUS_GCODE_WORD_REPEATED
  | STATUS_GCODE_AXIS_COMMAND_CONFLICT
  | STATUS_GCODE_MAX_VALUE_EXCEEDED
  | STATUS_NEGATIVE_VALUE
deriving DecidableEq, Repr

open status_t

/-- One word of a line as the loop of `gc_parse_line` meets it: the character `letter` at
`line[char_counter]` and the result of `read_float` after it, `none` when `read_float`
fails. `read_float` belongs to `nuts_bolts.c`, which is not among the sources, so a line
is presented to the embedding as the sequence of its words. -/
structure gc_word where
  letter : Char
  value : Option ℚ
deriving DecidableEq, Repr

/-- The constants of `gcode.h` that the parser and the printer use and whose value §3 of
the specification leaves open, and the two compile-time switches of the parser. -/
structure gcode_consts where
  PROGRAM_FLOW_PAUSED : Nat
  SPINDLE_ENABLE_CW : Nat
  SPINDLE_ENABLE_CCW : Nat
  SPINDLE_DISABLE : Nat
  COOLANT_MIST_ENABLE : Nat
  COOLANT_FLOOD_ENABLE : Nat
  COOLANT_DISABLE : Nat
  OVERRIDE_PARKING_MOTION : Nat
  ENABLE_M7 : Bool
  ENABLE_PARKING_OVERRIDE_CONTROL : Bool
deriving DecidableEq, Repr

/-- Modelled from the spec: tool-length code of G49 (§3: 0 = cancel). -/
def TOOL_LENGTH_OFFSET_CANCEL : Nat := 0
/-- Modelled from the spec: tool-length code of G43.1 (§3: 1 = dynamic). -/
def TOOL_LENGTH_OFFSET_ENABLE_DYNAMIC : Nat := 1

/-- No axis command met yet (`gcode.c` line 34). -/
def AXIS_COMMAND_NONE : Nat := 0
/-- A non-modal axis command was met (line 35). -/
def AXIS_COMMAND_NON_MODAL : Nat := 1
/-- A motion mode was met (line 36). -/
def AXIS_COMMAND_MOTION_MODE : Nat := 2
/-- A tool-length command was met (line 37). -/
def AXIS_COMMAND_TOOL_LENGTH_OFFSET : Nat := 3
/-- Largest tool number (line 32). -/
def MAX_TOOL_NUMBER : ℚ := 255

/-- The C function `trunc`: the integer part, rounded toward zero. -/
def c_trunc (q : ℚ) : Int := if 0 ≤ q then ⌊q⌋ else ⌈q⌉

/-- The conversion of a floating-point number with the integer value `z` to `int`, the
type of the N slot (`gc_print_line` prints it with `%d`): `z` when it fits 32 bits. Out of
range the conversion is undefined in C; the conversion instruction of the x86 gives the
smallest `int`. -/
def c_float_to_int (z : Int) : Int :=
  if -2147483648 ≤ z ∧ z ≤ 2147483647 then z else -2147483648

/-- The C function `round`: the nearest integer, halves rounded away from zero. -/
def c_round (q : ℚ) : Int := if 0 ≤ q then ⌊q + 1 / 2⌋ else ⌈q - 1 / 2⌉

/-- The statement `int_value = trunc(value)` (line 109): `int_value` is a `uint8_t`, the
conversion keeps the low eight bits. -/
def int_value_of (value : ℚ) : Nat := (c_trunc value % 256).toNat

/-- The statement `mantissa = round(100*(value - int_value))` (line 110): `mantissa` is a
`uint16_t`, the conversion keeps the low sixteen bits. -/
def mantissa_of (value : ℚ) : Nat :=
  (c_round (100 * (value - (int_value_of value : ℚ))) % 65536).toNat

/-- The variables that the loop of `gc_parse_line` carries from word to word and reads
again: the block under construction and `axis_command`. (`axis_words`, `ijk_words`,
`coord_select` and `gc_parser_flags` are written and never read.) -/
structure parse_state where
  block : parser_block_t
  axis_command : Nat
deriving DecidableEq, Repr

/-- Outcome of the inner `switch` of a word: `fail` is the status of a `FAIL` reached
inside it, `word_bit` the bit index it assigns (meaningless after a `FAIL`), `state` the
variables and `mantissa` the mantissa when the `switch` is left. -/
structure switch_result where
  fail : Option status_t
  word_bit : Nat
  state : parse_state
  mantissa : Nat
deriving DecidableEq, Repr

/-- The statement `gc_block->non_modal_command = v`. -/
def set_non_modal_command (s : parse_state) (v : Nat) : parse_state :=
  { s with block := { s.block with non_modal_command := v } }

/-- The statement `gc_block->modal.motion = v`. -/
def set_motion (s : parse_state) (v : Nat) : parse_state :=
  { s with block := { s.block with modal := { s.block.modal with motion := v } } }

/-- The statement `gc_block->modal.plane_select = v`. -/
def set_plane_select (s : parse_state) (v : Nat) : parse_state :=
  { s with block := { s.block with modal := { s.block.modal with plane_select := v } } }

/-- The statement `gc_block->modal.distance = v`. -/
def set_distance (s : parse_state) (v : Nat) : parse_state :=
  { s with block := { s.block with modal := { s.block.modal with distance := v } } }

/-- The statement `gc_block->modal.feed_rate = v`. -/
def set_feed_rate (s : parse_state) (v : Nat) : parse_state :=
  { s with block := { s.block with modal := { s.block.modal with feed_rate := v } } }

/-- The statement `gc_block->modal.units = v`. -/
def set_units (s : parse_state) (v : Nat) : parse_state :=
  { s with block := { s.block with modal := { s.block.modal with units := v } } }

/-- The statement `gc_block->modal.tool_length = v`. -/
def set_tool_length (s : parse_state) (v : Nat) : parse_state :=
  { s with block := { s.block with modal := { s.block.modal with tool_length := v } } }

/-- The statement `gc_block->modal.coord_select = v`. -/
def set_coord_select (s : parse_state) (v : Nat) : parse_state :=
  { s with block := { s.block with modal := { s.block.modal with coord_select := v } } }

/-- The statement `gc_block->modal.program_flow = v`. -/
def set_program_flow (s : parse_state) (v : Nat) : parse_state :=
  { s with block := { s.block with modal := { s.block.modal with program_flow := v } } }

/-- The statement `gc_block->modal.spindle = v`. -/
def set_spindle (s : parse_state) (v : Nat) : parse_state :=
  { s with block := { s.block with modal := { s.block.modal with spindle := v } } }

/-- The statement `gc_block->modal.coolant = v`. -/
def set_coolant (s : parse_state) (v : Nat) : parse_state :=
  { s with block := { s.block with modal := { s.block.modal with coolant := v } } }

/-- The statement `gc_block->modal.override = v`. -/
def set_override (s : parse_state) (v : Nat) : parse_state :=
  { s with block := { s.block with modal := { s.block.modal with override := v } } }

/-- The statement `axis_command = v`. -/
def set_axis_command (s : parse_state) (v : Nat) : parse_state :=
  { s with axis_command := v }

/-- Lines 131-139: the cases 4 and 53 of the `switch` on `int_value` for the letter G,
into which the cases 10, 28, 30 and 92 fall through. -/
def gc_G_non_modal (s : parse_state) (int_value mantissa : Nat) : switch_result :=
  if int_value = 28 ∨ int_value = 30 ∨ int_value = 92 then
    if ¬(mantissa = 0 ∨ mantissa = 10) then
      ⟨some STATUS_GCODE_UNSUPPORTED_COMMAND, MODAL_GROUP_G0,
        set_non_modal_command s int_value, mantissa⟩
    else ⟨none, MODAL_GROUP_G0, set_non_modal_command s (int_value + mantissa), 0⟩
  else ⟨none, MODAL_GROUP_G0, set_non_modal_command s int_value, mantissa⟩

/-- Lines 146-156: the case 80 of the `switch` on `int_value` for the letter G, into
which the cases 0, 1, 2, 3 and 38 fall through. -/
def gc_G_motion (s : parse_state) (int_value mantissa : Nat) : switch_result :=
  if int_value = 38 then
    if ¬(mantissa = 20 ∨ mantissa = 30 ∨ mantissa = 40 ∨ mantissa = 50) then
      ⟨some STATUS_GCODE_UNSUPPORTED_COMMAND, MODAL_GROUP_G1, set_motion s int_value, mantissa⟩
    else ⟨none, MODAL_GROUP_G1, set_motion s (int_value + (mantissa / 10 + 100)), 0⟩
  else ⟨none, MODAL_GROUP_G1, set_motion s int_value, mantissa⟩

/-- Lines 186-199: the cases 43 and 49 of the `switch` on `int_value` for the letter G. -/
def gc_G_tool_length (s : parse_state) (int_value mantissa : Nat) : switch_result :=
  if s.axis_command ≠ 0 then
    ⟨some STATUS_GCODE_AXIS_COMMAND_CONFLICT, MODAL_GROUP_G8, s, mantissa⟩
  else if int_value = 49 then
    ⟨none, MODAL_GROUP_G8,
      set_tool_length (set_axis_command s AXIS_COMMAND_TOOL_LENGTH_OFFSET)
        TOOL_LENGTH_OFFSET_CANCEL, 0⟩
  else if mantissa = 10 then
    ⟨none, MODAL_GROUP_G8,
      set_tool_length (set_axis_command s AXIS_COMMAND_TOOL_LENGTH_OFFSET)
        TOOL_LENGTH_OFFSET_ENABLE_DYNAMIC, 0⟩
  else
    ⟨some STATUS_GCODE_UNSUPPORTED_COMMAND, MODAL_GROUP_G8,
      set_axis_command s AXIS_COMMAND_TOOL_LENGTH_OFFSET, mantissa⟩

/-- Lines 161-171: the cases 90 and 91 of the `switch` on `int_value` for the letter G. -/
def gc_G_distance (s : parse_state) (int_value mantissa : Nat) : switch_result :=
  if mantissa = 0 then ⟨none, MODAL_GROUP_G3, set_distance s (int_value - 90), mantissa⟩
  else if mantissa ≠ 10 ∨ int_value = 90 then
    ⟨some STATUS_GCODE_UNSUPPORTED_COMMAND, MODAL_GROUP_G4, s, mantissa⟩
  else ⟨none, MODAL_GROUP_G4, s, 0⟩

/-- Lines 122-211: the `switch` on `int_value` for the letter G. -/
def gc_G (s : parse_state) (int_value mantissa : Nat) : switch_result :=
  if int_value = 10 ∨ int_value = 28 ∨ int_value = 30 ∨ int_value = 92 then
    if mantissa = 0 then
      if s.axis_command ≠ 0 then ⟨some STATUS_GCODE_AXIS_COMMAND_CONFLICT, 0, s, mantissa⟩
      else gc_G_non_modal (set_axis_command s AXIS_COMMAND_NON_MODAL) int_value mantissa
    else gc_G_non_modal s int_value mantissa
  else if int_value = 4 ∨ int_value = 53 then gc_G_non_modal s int_value mantissa
  else if int_value = 0 ∨ int_value = 1 ∨ int_value = 2 ∨ int_value = 3 ∨ int_value = 38 then
    if s.axis_command ≠ 0 then ⟨some STATUS_GCODE_AXIS_COMMAND_CONFLICT, 0, s, mantissa⟩
    else gc_G_motion (set_axis_command s AXIS_COMMAND_MOTION_MODE) int_value mantissa
  else if int_value = 80 then gc_G_motion s int_value mantissa
  else if int_value = 17 ∨ int_value = 18 ∨ int_value = 19 then
    ⟨none, MODAL_GROUP_G2, set_plane_select s (int_value - 17), mantissa⟩
  else if int_value = 90 ∨ int_value = 91 then gc_G_distance s int_value mantissa
  else if int_value = 93 ∨ int_value = 94 then
    ⟨none, MODAL_GROUP_G5, set_feed_rate s (94 - int_value), mantissa⟩
  else if int_value = 20 ∨ int_value = 21 then
    ⟨none, MODAL_GROUP_G6, set_units s (21 - int_value), mantissa⟩
  else if int_value = 40 then ⟨none, MODAL_GROUP_G7, s, mantissa⟩
  else if int_value = 43 ∨ int_value = 49 then gc_G_tool_length s int_value mantissa
  else if int_value = 54 ∨ int_value = 55 ∨ int_value = 56 ∨ int_value = 57 ∨
      int_value = 58 ∨ int_value = 59 then
    ⟨none, MODAL_GROUP_G12, set_coord_select s (int_value - 54), mantissa⟩
  else if int_value = 61 then
    if mantissa ≠ 0 then ⟨some STATUS_GCODE_UNSUPPORTED_COMMAND, MODAL_GROUP_G13, s, mantissa⟩
    else ⟨none, MODAL_GROUP_G13, s, mantissa⟩
  else ⟨some STATUS_GCODE_UNSUPPORTED_COMMAND, 0, s, mantissa⟩

/-- Lines 223-261: the `switch` on `int_value` for the letter M. -/
def gc_M (K : gcode_consts) (s : parse_state) (int_value mantissa : Nat) : switch_result :=
  if int_value = 0 ∨ int_value = 1 ∨ int_value = 2 ∨ int_value = 30 then
    if int_value = 0 then
      ⟨none, MODAL_GROUP_M4, set_program_flow s K.PROGRAM_FLOW_PAUSED, mantissa⟩
    else if int_value = 1 then ⟨none, MODAL_GROUP_M4, s, mantissa⟩
    else ⟨none, MODAL_GROUP_M4, set_program_flow s int_value, mantissa⟩
  else if int_value = 3 ∨ int_value = 4 ∨ int_value = 5 then
    ⟨none, MODAL_GROUP_M7,
      set_spindle s (if int_value = 3 then K.SPINDLE_ENABLE_CW
        else if int_value = 4 then K.SPINDLE_ENABLE_CCW else K.SPINDLE_DISABLE), mantissa⟩
  else if (K.ENABLE_M7 = true ∧ int_value = 7) ∨ int_value = 8 ∨ int_value = 9 then
    ⟨none, MODAL_GROUP_M8,
      set_coolant s (if int_value = 7 then s.block.modal.coolant ||| K.COOLANT_MIST_ENABLE
        else if int_value = 8 then s.block.modal.coolant ||| K.COOLANT_FLOOD_ENABLE
        else K.COOLANT_DISABLE), mantissa⟩
  else if K.ENABLE_PARKING_OVERRIDE_CONTROL = true ∧ int_value = 56 then
    ⟨none, MODAL_GROUP_M9, set_override s K.OVERRIDE_PARKING_MOTION, mantissa⟩
  else ⟨some STATUS_GCODE_UNSUPPORTED_COMMAND, 0, s, mantissa⟩

/-- Lines 212-217 and 263-267: after the `switch` of a command word, the test of the
modal group and the update of `command_words`. -/
def gc_command_bit (r : switch_result) : status_t × parse_state :=
  if bit_istrue r.state.block.command_words (bit r.word_bit) then
    (STATUS_GCODE_MODAL_GROUP_VIOLATION, r.state)
  else
    (STATUS_OK, { r.state with block := { r.state.block with
      command_words := bit_true r.state.block.command_words (bit r.word_bit) } })

/-- Lines 120-217: a word with the letter G. -/
def gc_parse_G (s : parse_state) (int_value mantissa : Nat) : status_t × parse_state :=
  match (gc_G s int_value mantissa).fail with
  | some status => (status, (gc_G s int_value mantissa).state)
  | none =>
    if (gc_G s int_value mantissa).mantissa > 0 then
      (STATUS_GCODE_COMMAND_VALUE_NOT_INTEGER, (gc_G s int_value mantissa).state)
    else gc_command_bit (gc_G s int_value mantissa)

/-- Lines 219-267: a word with the letter M. -/
def gc_parse_M (K : gcode_consts) (s : parse_state) (int_value mantissa : Nat) :
    status_t × parse_state :=
  if mantissa > 0 then (STATUS_GCODE_COMMAND_VALUE_NOT_INTEGER, s)
  else
    match (gc_M K s int_value mantissa).fail with
    | some status => (status, (gc_M K s int_value mantissa).state)
    | none => gc_command_bit (gc_M K s int_value mantissa)

/-- Lines 275-300: the `switch` on the letter of a value word: the bit index of the
letter and the block with the value stored in its slot. -/
def gc_value (b : parser_block_t) (letter : Char) (value : ℚ) (int_value : Nat) :
    Option status_t × Nat × parser_block_t :=
  if letter = 'F' then (none, WORD_F, { b with values := { b.values with f := value } })
  else if letter = 'I' then
    (none, WORD_I, { b with values := { b.values with ijk := { b.values.ijk with e0 := value } } })
  else if letter = 'J' then
    (none, WORD_J, { b with values := { b.values with ijk := { b.values.ijk with e1 := value } } })
  else if letter = 'K' then
    (none, WORD_K, { b with values := { b.values with ijk := { b.values.ijk with e2 := value } } })
  else if letter = 'L' then (none, WORD_L, { b with values := { b.values with l := int_value } })
  else if letter = 'N' then
    (none, WORD_N, { b with values := { b.values with n := c_float_to_int (c_trunc value) } })
  else if letter = 'P' then (none, WORD_P, { b with values := { b.values with p := value } })
  else if letter = 'R' then (none, WORD_R, { b with values := { b.values with r := value } })
  else if letter = 'S' then (none, WORD_S, { b with values := { b.values with s := value } })
  else if letter = 'T' then
    if value > MAX_TOOL_NUMBER then (some STATUS_GCODE_MAX_VALUE_EXCEEDED, WORD_T, b)
    else (none, WORD_T, { b with values := { b.values with t := int_value } })
  else if letter = 'X' then
    (none, WORD_X, { b with values := { b.values with xyz := { b.values.xyz with e0 := value } } })
  else if letter = 'Y' then
    (none, WORD_Y, { b with values := { b.values with xyz := { b.values.xyz with e1 := value } } })
  else if letter = 'Z' then
    (none, WORD_Z, { b with values := { b.values with xyz := { b.values.xyz with e2 := value } } })
  else (some STATUS_GCODE_UNSUPPORTED_COMMAND, 0, b)

/-- Lines 270-309: a word whose letter is neither G nor M. -/
def gc_parse_value (s : parse_state) (letter : Char) (value : ℚ) (int_value : Nat) :
    status_t × parse_state :=
  match (gc_value s.block letter value int_value).1 with
  | some status => (status, { s with block := (gc_value s.block letter value int_value).2.2 })
  | none =>
    if bit_istrue (gc_value s.block letter value int_value).2.2.value_words
        (bit (gc_value s.block letter value int_value).2.1) then
      (STATUS_GCODE_WORD_REPEATED,
        { s with block := (gc_value s.block letter value int_value).2.2 })
    else if bit_istrue (bit (gc_value s.block letter value int_value).2.1)
        (bit WORD_F ||| bit WORD_N ||| bit WORD_P ||| bit WORD_T ||| bit WORD_S) ∧ value < 0 then
      (STATUS_NEGATIVE_VALUE, { s with block := (gc_value s.block letter value int_value).2.2 })
    else
      (STATUS_OK, { s with block := { (gc_value s.block letter value int_value).2.2 with
        value_words := bit_true (gc_value s.block letter value int_value).2.2.value_words
          (bit (gc_value s.block letter value int_value).2.1) } })

/-- One turn of the loop of `gc_parse_line` (lines 94-311): `STATUS_OK` stands for
reaching the end of the loop body, any other status for a `FAIL`. -/
def gc_parse_word (K : gcode_consts) (s : parse_state) (w : gc_word) : status_t × parse_state :=
  if w.letter < 'A' ∨ w.letter > 'Z' then (STATUS_EXPECTED_COMMAND_LETTER, s)
  else
    match w.value with
    | none => (STATUS_BAD_NUMBER_FORMAT, s)
    | some value =>
      if w.letter = 'G' then gc_parse_G s (int_value_of value) (mantissa_of value)
      else if w.letter = 'M' then gc_parse_M K s (int_value_of value) (mantissa_of value)
      else gc_parse_value s w.letter value (int_value_of value)

/-- The loop of `gc_parse_line` over the words of the line. -/
def gc_parse_words (K : gcode_consts) (s : parse_state) : List gc_word → status_t × parse_state
  | [] => (STATUS_OK, s)
  | w :: ws =>
    if (gc_parse_word K s w).1 = STATUS_OK then gc_parse_words K (gc_parse_word K s w).2 ws
    else gc_parse_word K s w

/-- Embeds `gc_parse_line` (`gcode.c`) for a line that does not begin with `$` and has
at most 255 characters, which is all the driver hands over: it prints a line that begins
with `$` and does not parse it (`gfilter.c` line 126), and its line counter is a byte.
The result is the status returned and the block as the call leaves it, which after a
`FAIL` holds what the words before the failure and the failing word have stored. -/
def gc_parse_line (K : gcode_consts) (line : List gc_word) : status_t × parser_block_t :=
  ((gc_parse_words K ⟨parser_block_t.zero, AXIS_COMMAND_NONE⟩ line).1,
   (gc_parse_words K ⟨parser_block_t.zero, AXIS_COMMAND_NONE⟩ line).2.block)

/-- The state in which `gc_parse_line` enters its loop: the zeroed block and no axis
command. -/
def parse_init : parse_state := ⟨parser_block_t.zero, AXIS_COMMAND_NONE⟩

/-- The bit index of a value letter (the assignments to `word_bit` of lines 280-298);
`none` for every other letter. -/
def value_index (letter : Char) : Option Nat :=
  if letter = 'F' then some WORD_F
  else if letter = 'I' then some WORD_I
  else if letter = 'J' then some WORD_J
  else if letter = 'K' then some WORD_K
  else if letter = 'L' then some WORD_L
  else if letter = 'N' then some WORD_N
  else if letter = 'P' then some WORD_P
  else if letter = 'R' then some WORD_R
  else if letter = 'S' then some WORD_S
  else if letter = 'T' then some WORD_T
  else if letter = 'X' then some WORD_X
  else if letter = 'Y' then some WORD_Y
  else if letter = 'Z' then some WORD_Z
  else none

/-- The slot of the value word with bit index `i`, as a rational number; 0 for an index
that is not the index of a value word. -/
def value_slot (b : parser_block_t) (i : Nat) : ℚ :=
  if i = WORD_F then b.values.f
  else if i = WORD_I then b.values.ijk.e0
  else if i = WORD_J then b.values.ijk.e1
  else if i = WORD_K then b.values.ijk.e2
  else if i = WORD_L then (b.values.l : ℚ)
  else if i = WORD_N then (b.values.n : ℚ)
  else if i = WORD_P then b.values.p
  else if i = WORD_R then b.values.r
  else if i = WORD_S then b.values.s
  else if i = WORD_T then (b.values.t : ℚ)
  else if i = WORD_X then b.values.xyz.e0
  else if i = WORD_Y then b.values.xyz.e1
  else if i = WORD_Z then b.values.xyz.e2
  else 0

/-- The number that the parser stores for the value `v` of the word with bit index `i`:
the low byte of the integer part for L and T, the integer part for N, and `v` itself for
every other word. -/
def stored_value (i : Nat) (v : ℚ) : ℚ :=
  if i = WORD_L ∨ i = WORD_T then (int_value_of v : ℚ)
  else if i = WORD_N then (c_float_to_int (c_trunc v) : ℚ)
  else v

/-- The condition under which the `switch` for G treats a command as an axis command
(the tests of `axis_command` at lines 126, 143 and 191). -/
def is_axis_command (int_value mantissa : Nat) : Prop :=
  ((int_value = 10 ∨ int_value = 28 ∨ int_value = 30 ∨ int_value = 92) ∧ mantissa = 0) ∨
  (int_value = 0 ∨ int_value = 1 ∨ int_value = 2 ∨ int_value = 3 ∨ int_value = 38) ∨
  (int_value = 43 ∨ int_value = 49)

instance (iv m : Nat) : Decidable (is_axis_command iv m) := by
  unfold is_axis_command
  infer_instance

/-- The modal group of a command word: the bit index that the `switch` of its letter
assigns when the word is the first of a line; `none` for a word that is not a command or
that the `switch` rejects. -/
def command_group (K : gcode_consts) (w : gc_word) : Option Nat :=
  match w.value with
  | none => none
  | some v =>
    if w.letter = 'G' then
      if (gc_G parse_init (int_value_of v) (mantissa_of v)).fail = none then
        some (gc_G parse_init (int_value_of v) (mantissa_of v)).word_bit
      else none
    else if w.letter = 'M' then
      if (gc_M K parse_init (int_value_of v) (mantissa_of v)).fail = none then
        some (gc_M K parse_init (int_value_of v) (mantissa_of v)).word_bit
      else none
    else none

/-- A word is an axis command: a G word for which the `switch` tests `axis_command`. -/
def axis_word (w : gc_word) : Prop :=
  w.letter = 'G' ∧ ∃ v, w.value = some v ∧ is_axis_command (int_value_of v) (mantissa_of v)

/-- One assignment of the constants of `gcode.h`, that of Grbl 1.1 with both compile-time
switches on, to evaluate the examples. -/
def grbl_consts : gcode_consts where
  PROGRAM_FLOW_PAUSED := 3
  SPINDLE_ENABLE_CW := 16
  SPINDLE_ENABLE_CCW := 32
  SPINDLE_DISABLE := 0
  COOLANT_MIST_ENABLE := 128
  COOLANT_FLOOD_ENABLE := 64
  COOLANT_DISABLE := 0
  OVERRIDE_PARKING_MOTION := 1
  ENABLE_M7 := true
  ENABLE_PARKING_OVERRIDE_CONTROL := true

/-- The words of the line `G0 G1 X5` (scenario S5). -/
def line_G0_G1_X5 : List gc_word := [⟨'G', some 0⟩, ⟨'G', some 1⟩, ⟨'X', some 5⟩]

/-- The words of the line `G17 G18`. -/
def line_G17_G18 : List gc_word := [⟨'G', some 17⟩, ⟨'G', some 18⟩]

/-- The words of the line `G0 X1 X2` (scenario S6). -/
def line_G0_X1_X2 : List gc_word := [⟨'G', some 0⟩, ⟨'X', some 1⟩, ⟨'X', some 2⟩]

/-- The words of the line `T1 T300`. -/
def line_T1_T300 : List gc_word := [⟨'T', some 1⟩, ⟨'T', some 300⟩]

/-- The words of the line `G1 G92 X0`. -/
def line_G1_G92_X0 : List gc_word := [⟨'G', some 1⟩, ⟨'G', some 92⟩, ⟨'X', some 0⟩]

/-- The words of the line `X1 F-100`. -/
def line_X1_Fneg : List gc_word := [⟨'X', some 1⟩, ⟨'F', some (-100)⟩]

/-- The words of the line `L300`. -/
def line_L300 : List gc_word := [⟨'L', some 300⟩]

/-- The words of the line `X5`. -/
def line_X5 : List gc_word := [⟨'X', some 5⟩]

/-! ## `gcode.c`: `gc_print_line` -/

/-- The conversion `%g` of `fprintf`, which belongs to the C library and not to the
repository: `g x` is the text that `%g` prints for the float `x`. The conversion `%d` is
the decimal numeral, `toString`. -/
structure Printf where
  g : ℚ → String

/-- Lines 499-524 of `gc_print_line`: the value words. -/
def print_value_words (P : Printf) (block : parser_block_t) : String :=
  (if bit_istrue block.value_words (bit WORD_F) then "F" ++ P.g block.values.f else "") ++
  (if bit_istrue block.value_words (bit WORD_I) then "I" ++ P.g block.values.ijk.e0 else "") ++
  (if bit_istrue block.value_words (bit WORD_J) then "J" ++ P.g block.values.ijk.e1 else "") ++
  (if bit_istrue block.value_words (bit WORD_K) then "K" ++ P.g block.values.ijk.e2 else "") ++
  (if bit_istrue block.value_words (bit WORD_L) then "L" ++ toString block.values.l else "") ++
  (if bit_istrue block.value_words (bit WORD_N) then "N" ++ toString block.values.n else "") ++
  (if bit_istrue block.value_words (bit WORD_P) then "P" ++ P.g block.values.p else "") ++
  (if bit_istrue block.value_words (bit WORD_R) then "R" ++ P.g block.values.r else "") ++
  (if bit_istrue block.value_words (bit WORD_S) then "S" ++ P.g block.values.s else "") ++
  (if bit_istrue block.value_words (bit WORD_T) then "T" ++ toString block.values.t else "") ++
  (if bit_istrue block.value_words (bit WORD_X) then "X" ++ P.g block.values.xyz.e0 else "") ++
  (if bit_istrue block.value_words (bit WORD_Y) then "Y" ++ P.g block.values.xyz.e1 else "") ++
  (if bit_istrue block.value_words (bit WORD_Z) then "Z" ++ P.g block.values.xyz.e2 else "")

/-- Lines 526-537: the non-modal command. -/
def print_G0 (block : parser_block_t) : String :=
  if bit_istrue block.command_words (bit MODAL_GROUP_G0) then
    if block.non_modal_command = 38 ∨ block.non_modal_command = 40 ∨
        block.non_modal_command = 102 then
      "G" ++ toString (block.non_modal_command - 10) ++ ".1"
    else "G" ++ toString block.non_modal_command
  else ""

/-- Lines 538-544: the motion mode. -/
def print_G1 (P : Printf) (block : parser_block_t) : String :=
  if bit_istrue block.command_words (bit MODAL_GROUP_G1) then
    "G" ++ P.g (if (block.modal.motion : ℚ) > 100 then
      ((block.modal.motion : ℚ) - 138) / 10 + 38 else (block.modal.motion : ℚ))
  else ""

/-- Lines 545-579: the groups G2 to G13. -/
def print_G2_G13 (block : parser_block_t) : String :=
  (if bit_istrue block.command_words (bit MODAL_GROUP_G2) then
    "G" ++ toString (17 + block.modal.plane_select) else "") ++
  (if bit_istrue block.command_words (bit MODAL_GROUP_G3) then
    "G" ++ toString (90 + block.modal.distance) else "") ++
  (if bit_istrue block.command_words (bit MODAL_GROUP_G4) then "G91.1" else "") ++
  (if bit_istrue block.command_words (bit MODAL_GROUP_G5) then
    "G" ++ toString ((94 : Int) - block.modal.feed_rate) else "") ++
  (if bit_istrue block.command_words (bit MODAL_GROUP_G6) then
    "G" ++ toString ((21 : Int) - block.modal.units) else "") ++
  (if bit_istrue block.command_words (bit MODAL_GROUP_G7) then "G40" else "") ++
  (if bit_istrue block.command_words (bit MODAL_GROUP_G8) then
    if block.modal.tool_length = TOOL_LENGTH_OFFSET_CANCEL then "G49"
    else if block.modal.tool_length = TOOL_LENGTH_OFFSET_ENABLE_DYNAMIC then "G43.1"
    else ""
   else "") ++
  (if bit_istrue block.command_words (bit MODAL_GROUP_G12) then
    "G" ++ toString (block.modal.coord_select + 54) else "") ++
  (if bit_istrue block.command_words (bit MODAL_GROUP_G13) then "G61" else "")

/-- Lines 580-609: the M commands. -/
def print_M (K : gcode_consts) (block : parser_block_t) : String :=
  (if bit_istrue block.command_words (bit MODAL_GROUP_M4) then
    if block.modal.program_flow = K.PROGRAM_FLOW_PAUSED then "M0"
    else "M" ++ toString block.modal.program_flow
   else "") ++
  (if bit_istrue block.command_words (bit MODAL_GROUP_M7) then
    if block.modal.spindle = K.SPINDLE_ENABLE_CW then "M3"
    else if block.modal.spindle = K.SPINDLE_ENABLE_CCW then "M4"
    else if block.modal.spindle = K.SPINDLE_DISABLE then "M5"
    else ""
   else "") ++
  (if bit_istrue block.command_words (bit MODAL_GROUP_M8) then
    (if block.modal.coolant &&& K.COOLANT_MIST_ENABLE ≠ 0 then "M7" else "") ++
    (if block.modal.coolant &&& K.COOLANT_FLOOD_ENABLE ≠ 0 then "M8" else "") ++
    (if block.modal.coolant = K.COOLANT_DISABLE then "M9" else "")
   else "") ++
  (if bit_istrue block.command_words (bit MODAL_GROUP_M9) then "M56" else "")

/-- Embeds `gc_print_line` (`gcode.c`): the text written to the output, without the end of
line that the driver adds. -/
def gc_print_line (P : Printf) (K : gcode_consts) (block : parser_block_t) : String :=
  print_value_words P block ++ print_G0 block ++ print_G1 P block ++ print_G2_G13 block ++
    print_M K block

/-- The commands of the round trip, each with the word that the parser reads for its
text: the letter and the number that the digits after it denote. -/
def recognised_commands : List (String × gc_word) :=
  [("G0", ⟨'G', some 0⟩), ("G1", ⟨'G', some 1⟩), ("G2", ⟨'G', some 2⟩),
   ("G3", ⟨'G', some 3⟩), ("G4", ⟨'G', some 4⟩), ("G10", ⟨'G', some 10⟩),
   ("G17", ⟨'G', some 17⟩), ("G18", ⟨'G', some 18⟩), ("G19", ⟨'G', some 19⟩),
   ("G20", ⟨'G', some 20⟩), ("G21", ⟨'G', some 21⟩), ("G28", ⟨'G', some 28⟩),
   ("G28.1", ⟨'G', some 28.1⟩), ("G30", ⟨'G', some 30⟩), ("G30.1", ⟨'G', some 30.1⟩),
   ("G38.2", ⟨'G', some 38.2⟩), ("G38.3", ⟨'G', some 38.3⟩), ("G38.4", ⟨'G', some 38.4⟩),
   ("G38.5", ⟨'G', some 38.5⟩), ("G40", ⟨'G', some 40⟩), ("G43.1", ⟨'G', some 43.1⟩),
   ("G49", ⟨'G', some 49⟩), ("G53", ⟨'G', some 53⟩), ("G54", ⟨'G', some 54⟩),
   ("G55", ⟨'G', some 55⟩), ("G56", ⟨'G', some 56⟩), ("G57", ⟨'G', some 57⟩),
   ("G58", ⟨'G', some 58⟩), ("G59", ⟨'G', some 59⟩), ("G61", ⟨'G', some 61⟩),
   ("G80", ⟨'G', some 80⟩), ("G90", ⟨'G', some 90⟩), ("G91", ⟨'G', some 91⟩),
   ("G91.1", ⟨'G', some 91.1⟩), ("G92", ⟨'G', some 92⟩), ("G92.1", ⟨'G', some 92.1⟩),
   ("G93", ⟨'G', some 93⟩), ("G94", ⟨'G', some 94⟩),
   ("M0", ⟨'M', some 0⟩), ("M2", ⟨'M', some 2⟩), ("M3", ⟨'M', some 3⟩),
   ("M4", ⟨'M', some 4⟩), ("M5", ⟨'M', some 5⟩), ("M8", ⟨'M', some 8⟩),
   ("M9", ⟨'M', some 9⟩), ("M30", ⟨'M', some 30⟩)]

/-- A `%g` for the examples: the numeral of an integer, and one decimal otherwise. -/
def printf_example : Printf where
  g := fun x =>
    if x.den = 1 then toString x.num
    else toString (x.num / x.den) ++ "." ++ toString ((10 * x.num / x.den) % 10)

/-- The words of the line `M1 M2`. -/
def line_M1_M2 : List gc_word := [⟨'M', some 1⟩, ⟨'M', some 2⟩]

/-- A block with the command G91 alone, as a transformer may hand it on: the slot of the
absent word X holds 5. -/
def block_G91_slot : parser_block_t :=
  { parser_block_t.zero with
      command_words := bit MODAL_GROUP_G3
      modal := { gc_modal_t.zero with distance := DISTANCE_MODE_INCREMENTAL }
      values := { gc_values_t.zero with xyz := ⟨5, 0, 0⟩ } }

/-- The block of the line `G90 X5`. -/
def block_G90_X5 : parser_block_t :=
  { parser_block_t.zero with
      command_words := bit MODAL_GROUP_G3
      value_words := bit WORD_X
      values := { gc_values_t.zero with xyz := ⟨5, 0, 0⟩ } }

/-- The stream of the two blocks `G91` (with 5 in the slot of the absent X) and
`G90 X5`. -/
def stream_G91_G90_X5 : List parser_block_t := [block_G91_slot, block_G90_X5]

/-- The block that `gc_parse_line` leaves for the line `G0 X1 X2`: the command G0, the
X bit of the first X word and the value of the second X word. -/
def block_G0_X2 : parser_block_t :=
  { parser_block_t.zero with
      command_words := bit MODAL_GROUP_G1
      value_words := bit WORD_X
      values := { gc_values_t.zero with xyz := ⟨2, 0, 0⟩ } }


/-! ## `gfilter.c`: the driver -/

/-- Size of the line buffer of `main` (`#define LINE_BUFFER_SIZE 1024`). -/
def LINE_BUFFER_SIZE : Nat := 1024

/-- Flag of `line_flags`: the line does not fit the buffer (`LINE_FLAG_OVERFLOW`). -/
def LINE_FLAG_OVERFLOW : Nat := 1

/-- Flag of `line_flags`: inside a `(...)` comment. -/
def LINE_FLAG_COMMENT_PARENTHESES : Nat := 2

/-- Flag of `line_flags`: inside a `;` comment. -/
def LINE_FLAG_COMMENT_SEMICOLON : Nat := 4

/-- The variables of the character loop of `main` (lines 81-84): the buffer `line`, as a
function from the index to the character code, and the two `uint8_t` variables
`line_flags` and `char_counter`. -/
structure line_state_t where
  line : Nat → Nat
  line_flags : Nat
  char_counter : Nat

/-- Embeds the `else` branch of the loop of `main` (lines 158-202): the character `c`,
which is neither `\n` nor `\r`, is dropped or stored in the buffer. Characters are their
codes, as `fgetc` returns them; the increment of `char_counter` is that of a `uint8_t`,
modulo 256. -/
def filter_char (s : line_state_t) (c : Nat) : line_state_t :=
  if s.line_flags ≠ 0 then
    if c = ')'.toNat then
      if s.line_flags &&& LINE_FLAG_COMMENT_PARENTHESES ≠ 0 then
        { s with line_flags := s.line_flags &&& (255 ^^^ LINE_FLAG_COMMENT_PARENTHESES) }
      else s
    else s
  else if c ≤ ' '.toNat then s
  else if c = '/'.toNat then s
  else if c = '('.toNat then
    { s with line_flags := (s.line_flags ||| LINE_FLAG_COMMENT_PARENTHESES) % 256 }
  else if c = ';'.toNat then
    { s with line_flags := (s.line_flags ||| LINE_FLAG_COMMENT_SEMICOLON) % 256 }
  else if s.char_counter ≥ LINE_BUFFER_SIZE - 1 then
    { s with line_flags := (s.line_flags ||| LINE_FLAG_OVERFLOW) % 256 }
  else if c ≥ 'a'.toNat ∧ c ≤ 'z'.toNat then
    { s with line := Function.update s.line s.char_counter (c - 'a'.toNat + 'A'.toNat),
             char_counter := (s.char_counter + 1) % 256 }
  else
    { s with line := Function.update s.line s.char_counter c,
             char_counter := (s.char_counter + 1) % 256 }

/-- What `main` does with a line at its end (lines 119-154): it reports
`STATUS_OVERFLOW`, prints an empty line, copies a `$` system command, or parses and
executes the text of the buffer. -/
inductive line_action_t
  | overflow
  | empty
  | system (text : List Nat)
  | gcode (text : List Nat)
deriving DecidableEq, Repr

/-- The C string that starts at `line[0]`: the characters before the first zero. -/
def c_string (line : Nat → Nat) : List Nat :=
  ((List.range LINE_BUFFER_SIZE).map line).takeWhile (fun c => c ≠ 0)

/-- Embeds the end-of-line branch of the loop of `main` (lines 115-156) up to the choice
of the action: the terminator is stored at `line[char_counter]`, the action is chosen from
`line_flags` and `line[0]`, and the two counters are reset. -/
def end_of_line (s : line_state_t) : line_action_t × line_state_t :=
  let line := Function.update s.line s.char_counter 0
  (if s.line_flags &&& LINE_FLAG_OVERFLOW ≠ 0 then line_action_t.overflow
   else if line 0 = 0 then line_action_t.empty
   else if line 0 = '$'.toNat then line_action_t.system (c_string line)
   else line_action_t.gcode (c_string line),
   { line := line, line_flags := 0, char_counter := 0 })

/-- One turn of the loop of `main` (lines 112-203) on the character `c`: the action of
the line that `c` ends, if it ends one, and the variables after the turn. -/
def main_char (s : line_state_t) (c : Nat) : Option line_action_t × line_state_t :=
  if c = 10 ∨ c = 13 then (some (end_of_line s).1, (end_of_line s).2)
  else (none, filter_char s c)

/-- The variables after the characters `cs` of one line, none of them `\n` or `\r`. -/
def read_chars (s : line_state_t) (cs : List Nat) : line_state_t :=
  cs.foldl filter_char s

/-- A character that the filter stores when it meets it outside a comment: above the
space, and none of `/`, `(` and `;`. -/
def stored_char (c : Nat) : Prop :=
  ' '.toNat < c ∧ c ≠ '/'.toNat ∧ c ≠ '('.toNat ∧ c ≠ ';'.toNat

instance (c : Nat) : Decidable (stored_char c) :=
  inferInstanceAs (Decidable (_ ∧ _ ∧ _ ∧ _))

/-- The transformer of the mode that `main` runs in: `laser_state` with `-l`,
`drag_state` with `-d`. -/
inductive mode_state_t
  | laser (state : laser_state_t)
  | drag (state : drag_state_t)

/-- The states of the transformers that `main` declares (lines 88-109). -/
structure main_state_t where
  to_mm_state : to_mm_state_t
  toabs_state : toabs_state_t
  mode_state : mode_state_t
  fromabs_state : toabs_state_t
  from_mm_state : to_mm_state_t
  cleanup_state : cleanup_state_t

/-- The initialisations of `main` (lines 88-109), `mode_state` being the result of
`lasermode_init` or of `dragmode_init`. -/
def main_init (mode_state : mode_state_t) : main_state_t :=
  ⟨to_mm_init, toabs_init, mode_state, fromabs_init, from_mm_init, cleanup_init⟩

/-- The call of the transformer of the mode (lines 138-145). -/
def mode_step (L : Libm) (K : gcode_consts) (m : mode_state_t) (block : parser_block_t) :
    Option (mode_state_t × List parser_block_t) :=
  match m with
  | mode_state_t.laser state =>
    (lasermode L K.SPINDLE_DISABLE state block).map (fun r => (mode_state_t.laser r.1, r.2))
  | mode_state_t.drag state =>
    (dragmode L state block).map (fun r => (mode_state_t.drag r.1, r.2))

/-- The output loop of `main` (lines 147-153): every block goes through `fromabs`,
`from_mm` and `cleanup` and is printed on a line of its own. The result is the three
states and the lines printed. -/
def emit_blocks (P : Printf) (K : gcode_consts)
    (s : toabs_state_t × to_mm_state_t × cleanup_state_t) :
    List parser_block_t → (toabs_state_t × to_mm_state_t × cleanup_state_t) × List String
  | [] => (s, [])
  | b :: bs =>
    let r1 := fromabs s.1 b
    let r2 := from_mm s.2.1 r1.2
    let r3 := cleanup s.2.2 r2.2
    let rest := emit_blocks P K (r1.1, r2.1, r3.1) bs
    (rest.1, (gc_print_line P K r3.2 ++ "\n") :: rest.2)

/-- Embeds the last branch of the end-of-line code of `main` (lines 129-154) for a line
that the parser reads as the words `line`: the status that is handed to
`report_status_message`, the states of the transformers afterwards and the lines printed.
The result is `none` when an assertion of the transformer of the mode fails. -/
def execute_line (L : Libm) (P : Printf) (K : gcode_consts) (s : main_state_t)
    (line : List gc_word) : Option (status_t × main_state_t × List String) :=
  let p := gc_parse_line K line
  let r1 := to_mm s.to_mm_state p.2
  let r2 := toabs s.toabs_state r1.2
  match mode_step L K s.mode_state r2.2 with
  | none => none
  | some r =>
    let e := emit_blocks P K (s.fromabs_state, s.from_mm_state, s.cleanup_state) r.2
    some (p.1, ⟨r1.1, r2.1, r.1, e.1.1, e.1.2.1, e.1.2.2⟩, e.2)

/-- The block of the line `G3 I5` as `normarcs` leaves it: a full counter-clockwise
circle about the point 5 to the right of the start, with the radius 5 in the R slot. -/
def block_circle_I5 : parser_block_t :=
  { parser_block_t.zero with
      command_words := bit MODAL_GROUP_G1
      modal := { gc_modal_t.zero with motion := MOTION_MODE_CCW_ARC }
      value_words := bit WORD_I
      values := { gc_values_t.zero with ijk := ⟨5, 0, 0⟩, r := 5 } }

/-- The block of the line `G2 X6 R-5`: an arc in R form the long way round. -/
def block_arc_Rneg : parser_block_t :=
  { parser_block_t.zero with
      command_words := bit MODAL_GROUP_G1
      modal := { gc_modal_t.zero with motion := MOTION_MODE_CW_ARC }
      value_words := bit WORD_R ||| bit WORD_X
      values := { gc_values_t.zero with xyz := ⟨6, 0, 0⟩, r := -5 } }

/-- The block of the line `Z-2`: a move of the Z axis alone. -/
def block_Z_down : parser_block_t :=
  { parser_block_t.zero with
      value_words := bit WORD_Z
      values := { gc_values_t.zero with xyz := ⟨0, 0, -2⟩ } }

/-- The modal shadow of the transformer of the mode. -/
def mode_modal (m : mode_state_t) : gc_modal_t :=
  match m with
  | mode_state_t.laser state => state.modal
  | mode_state_t.drag state => state.modal

/-- Lines 133-145 of `main` for one parsed block: `to_mm`, `toabs` and the transformer of
the mode. The result is the three states and the blocks `blocks[0 .. nblocks-1]`; `none`
is a failing `assert`. -/
def transform_line (L : Libm) (K : gcode_consts)
    (s : to_mm_state_t × toabs_state_t × mode_state_t) (block : parser_block_t) :
    Option ((to_mm_state_t × toabs_state_t × mode_state_t) × List parser_block_t) :=
  (mode_step L K s.2.2 (toabs s.2.1 (to_mm s.1 block).2).2).map
    (fun r => (((to_mm s.1 block).1, (toabs s.2.1 (to_mm s.1 block).2).1, r.1), r.2))

/-- The blocks that reach the output loop of `main` for a stream of parsed blocks, line
after line, with the states threaded through. -/
def transform_stream (L : Libm) (K : gcode_consts)
    (s : to_mm_state_t × toabs_state_t × mode_state_t) :
    List parser_block_t →
      Option ((to_mm_state_t × toabs_state_t × mode_state_t) × List parser_block_t)
  | [] => some (s, [])
  | b :: bs =>
    match transform_line L K s b with
    | none => none
    | some r =>
      match transform_stream L K r.1 bs with
      | none => none
      | some r' => some (r'.1, r.2 ++ r'.2)

/-- A block with the commands G90 and G21 added: the distance and the units group are
present, with the codes of absolute distances and of millimetres. -/
def with_G90_G21 (b : parser_block_t) : parser_block_t :=
  { b with
      command_words :=
        bit_true (bit_true b.command_words (bit MODAL_GROUP_G3)) (bit MODAL_GROUP_G6)
      modal := { b.modal with distance := DISTANCE_MODE_ABSOLUTE, units := UNITS_MODE_MM } }

/-- The block of the line `G20 G91 X1`: inches, incremental distances, and an X word. -/
def block_G20_G91_X1 : parser_block_t :=
  { parser_block_t.zero with
      command_words := bit MODAL_GROUP_G3 ||| bit MODAL_GROUP_G6
      modal := { gc_modal_t.zero with
        distance := DISTANCE_MODE_INCREMENTAL, units := UNITS_MODE_INCHES }
      value_words := bit WORD_X
      values := { gc_values_t.zero with xyz := ⟨1, 0, 0⟩ } }

/-- The block of the line `X16777216` (2^24, a number that a `float` holds exactly). -/
def block_X_2pow24 : parser_block_t :=
  { parser_block_t.zero with
      value_words := bit WORD_X
      values := { gc_values_t.zero with xyz := ⟨16777216, 0, 0⟩ } }

/-- The block of the line `G91 X1`. -/
def block_G91_X1 : parser_block_t :=
  { parser_block_t.zero with
      command_words := bit MODAL_GROUP_G3
      modal := { gc_modal_t.zero with distance := DISTANCE_MODE_INCREMENTAL }
      value_words := bit WORD_X
      values := { gc_values_t.zero with xyz := ⟨1, 0, 0⟩ } }

/-- Reference semantics of one block: the modal state and the values in force after the
block `b`, from those in force before it (`m`, `v`). A command that is present sets the
mode of its group and a word F, L, N, P, S or T that is present sets its value; an axis
word that is present sets the position of its axis, or moves it, according to the
distance mode in force after the commands of the block. Nothing else changes. -/
def interpret_block (m : gc_modal_t) (v : gc_values_t) (b : parser_block_t) :
    gc_modal_t × gc_values_t :=
  let c := fun (g : Nat) => bit_istrue b.command_words (bit g)
  let w := fun (i : Nat) => bit_istrue b.value_words (bit i)
  let distance := if c MODAL_GROUP_G3 then b.modal.distance else m.distance
  ({ m with
      motion := if c MODAL_GROUP_G1 then b.modal.motion else m.motion
      plane_select := if c MODAL_GROUP_G2 then b.modal.plane_select else m.plane_select
      distance := distance
      feed_rate := if c MODAL_GROUP_G5 then b.modal.feed_rate else m.feed_rate
      units := if c MODAL_GROUP_G6 then b.modal.units else m.units
      tool_length := if c MODAL_GROUP_G8 then b.modal.tool_length else m.tool_length
      coord_select := if c MODAL_GROUP_G12 then b.modal.coord_select else m.coord_select
      program_flow := if c MODAL_GROUP_M4 then b.modal.program_flow else m.program_flow
      spindle := if c MODAL_GROUP_M7 then b.modal.spindle else m.spindle
      coolant := if c MODAL_GROUP_M8 then b.modal.coolant else m.coolant },
   { v with
      f := if w WORD_F then b.values.f else v.f
      l := if w WORD_L then b.values.l else v.l
      n := if w WORD_N then b.values.n else v.n
      p := if w WORD_P then b.values.p else v.p
      s := if w WORD_S then b.values.s else v.s
      t := if w WORD_T then b.values.t else v.t
      xyz := ⟨axis_target distance (w WORD_X) v.xyz.e0 b.values.xyz.e0,
              axis_target distance (w WORD_Y) v.xyz.e1 b.values.xyz.e1,
              axis_target distance (w WORD_Z) v.xyz.e2 b.values.xyz.e2⟩ })

/-- Reference semantics of a stream: the modal state and the values in force after each
of its blocks, from those in force before the stream. -/
def interpret_trace (m : gc_modal_t) (v : gc_values_t) :
    List parser_block_t → List (gc_modal_t × gc_values_t)
  | [] => []
  | b :: bs =>
    interpret_block m v b ::
      interpret_trace (interpret_block m v b).1 (interpret_block m v b).2 bs

/-- The distance mode in force stays absolute over the stream `bs`, `d` being the mode in
force before it: every distance command of the stream is G90 and, when `d` is not
absolute, the first block carries one. -/
def stays_absolute (d : Nat) : List parser_block_t → Prop
  | [] => True
  | b :: bs =>
    (if bit_istrue b.command_words (bit MODAL_GROUP_G3) then b.modal.distance else d) =
        DISTANCE_MODE_ABSOLUTE ∧
      stays_absolute DISTANCE_MODE_ABSOLUTE bs

/-- The stream of the two blocks `G90 X5` and `G90 X5`: the second is redundant. -/
def stream_G90_X5_twice : List parser_block_t := [block_G90_X5, block_G90_X5]

/-- The three classes of axis commands as C15 lists them, the reference with which the
test of the parser (`axis_word`) is compared: class 1 is G10, G28, G30 and G92 without
suffix, class 2 is G0, G1, G2, G3 and the probe commands G38.2 to G38.5, class 3 is G43.1
and G49. The result is the class of the word, `none` for every other word. -/
def claimed_axis_class (w : gc_word) : Option Nat :=
  if w.letter = 'G' then
    match w.value with
    | none => none
    | some v =>
      if v = 10 ∨ v = 28 ∨ v = 30 ∨ v = 92 then some 1
      else if v = 0 ∨ v = 1 ∨ v = 2 ∨ v = 3 ∨
          v = 382 / 10 ∨ v = 383 / 10 ∨ v = 384 / 10 ∨ v = 385 / 10 then some 2
      else if v = 431 / 10 ∨ v = 49 then some 3
      else none
  else none

/-- The words of the line `G1 G43`. -/
def line_G1_G43 : List gc_word := [⟨'G', some 1⟩, ⟨'G', some 43⟩]

/-- The block of the line `G2 X1 Y1 R1`: a quarter circle from the origin. -/
def block_arc_R1 : parser_block_t :=
  { parser_block_t.zero with
      command_words := bit MODAL_GROUP_G1
      modal := { gc_modal_t.zero with motion := MOTION_MODE_CW_ARC }
      value_words := bit WORD_R ||| bit WORD_X ||| bit WORD_Y
      values := { gc_values_t.zero with xyz := ⟨1, 1, 0⟩, r := 1 } }

/-- A state of the drag transformer with the negative blade offset d = -1 (the option
`-d -1`): the blade tip at (0, 0, -1), the blade direction (1, 0) and the threshold
0.999. -/
def drag_state_dneg : drag_state_t :=
  ⟨{ gc_modal_t.zero with motion := MOTION_MODE_LINEAR },
   { gc_values_t.zero with xyz := ⟨0, 0, -1⟩ }, ⟨1, 0⟩, -1, 0, 999 / 1000⟩

/-! # Properties -/

/-! ## Bit sets -/

theorem bit_eq_two_pow (k : Nat) : bit k = 2 ^ k := by
  simp [bit, Nat.one_shiftLeft]

theorem bit_istrue_bit (w k : Nat) : bit_istrue w (bit k) = w.testBit k := by
  unfold bit_istrue
  rw [bit_eq_two_pow]
  cases h : w.testBit k
  · have : w &&& 2 ^ k = 0 := by
      apply Nat.eq_of_testBit_eq
      intro i
      simp only [Nat.testBit_and, Nat.testBit_two_pow, Nat.zero_testBit]
      by_cases hk : k = i
      · subst hk; simp [h]
      · simp [hk]
    simp [this]
  · have : (w &&& 2 ^ k).testBit k = true := by
      simp [Nat.testBit_and, Nat.testBit_two_pow, h]
    have hne : w &&& 2 ^ k ≠ 0 := by
      intro h0
      rw [h0] at this
      simp at this
    simpa using hne

theorem testBit_bit_false (w k j : Nat) (hk : k < 16) :
    (bit_false w (bit k)).testBit j = (w.testBit j && decide (j < 16) && !decide (k = j)) := by
  unfold bit_false
  rw [bit_eq_two_pow]
  have h16 : (65535 : Nat) = 2 ^ 16 - 1 := by norm_num
  rw [Nat.testBit_and, Nat.testBit_xor, h16, Nat.testBit_two_pow_sub_one, Nat.testBit_two_pow]
  by_cases h1 : j < 16 <;> by_cases h2 : k = j <;> simp [h1, h2]
  omega

theorem testBit_bit_true (w k j : Nat) :
    (bit_true w (bit k)).testBit j = (w.testBit j || decide (k = j)) := by
  unfold bit_true
  rw [bit_eq_two_pow, Nat.testBit_or, Nat.testBit_two_pow]

theorem to_mm_group_units (s : to_mm_state_t) (b : parser_block_t) :
    (to_mm_group s b).1.units =
      if bit_istrue b.command_words (bit MODAL_GROUP_G6) then b.modal.units else s.units := by
  unfold to_mm_group
  split_ifs <;> simp_all

theorem to_mm_units (s : to_mm_state_t) (b : parser_block_t) :
    (to_mm s b).1.units =
      if bit_istrue b.command_words (bit MODAL_GROUP_G6) then b.modal.units else s.units := by
  rw [← to_mm_group_units]
  simp only [to_mm]
  split_ifs <;> rfl

theorem to_mm_group_block (s : to_mm_state_t) (b : parser_block_t) :
    (to_mm_group s b).2.values = b.values ∧
    (bit_istrue (to_mm_group s b).2.command_words (bit MODAL_GROUP_G6) = true →
        (to_mm_group s b).2.modal.units = UNITS_MODE_MM) := by
  unfold to_mm_group
  split_ifs <;> simp_all [bit_istrue_bit, testBit_bit_false, MODAL_GROUP_G6]

theorem to_mm_block (s : to_mm_state_t) (b : parser_block_t) :
    ((to_mm s b).1.units = UNITS_MODE_INCHES →
        (to_mm s b).2.values = values_to_mm b.values) ∧
    ((to_mm s b).1.units ≠ UNITS_MODE_INCHES → (to_mm s b).2.values = b.values) ∧
    (bit_istrue (to_mm s b).2.command_words (bit MODAL_GROUP_G6) = true →
        (to_mm s b).2.modal.units = UNITS_MODE_MM) := by
  have h := to_mm_group_block s b
  simp only [to_mm]
  split_ifs with h1 <;> simp_all

theorem run_stream_cons {σ : Type} (step : σ → parser_block_t → σ × parser_block_t) (s : σ)
    (b : parser_block_t) (bs : List parser_block_t) :
    run_stream step s (b :: bs) =
      ((run_stream step (step s b).1 bs).1, (step s b).2 :: (run_stream step (step s b).1 bs).2) :=
  rfl

theorem run_stream_length {σ : Type} (step : σ → parser_block_t → σ × parser_block_t)
    (bs : List parser_block_t) : ∀ s : σ, (run_stream step s bs).2.length = bs.length := by
  induction bs with
  | nil => intro s; rfl
  | cons b bs ih => intro s; simp [run_stream_cons, ih]

theorem units_in_force_cons (u0 : Nat) (b : parser_block_t) (bs : List parser_block_t) :
    units_in_force u0 (b :: bs) =
      units_in_force
        (if bit_istrue b.command_words (bit MODAL_GROUP_G6) then b.modal.units else u0) bs := by
  simp [units_in_force]

theorem to_mm_stream (bs : List parser_block_t) :
    ∀ (s : to_mm_state_t) (i : Nat) (inb : parser_block_t), bs[i]? = some inb →
      ∃ out, (run_stream to_mm s bs).2[i]? = some out ∧
        (units_in_force s.units (bs.take (i + 1)) = UNITS_MODE_INCHES →
          out.values = values_to_mm inb.values) ∧
        (units_in_force s.units (bs.take (i + 1)) ≠ UNITS_MODE_INCHES →
          out.values = inb.values) ∧
        (bit_istrue out.command_words (bit MODAL_GROUP_G6) = true →
          out.modal.units = UNITS_MODE_MM) := by
  induction bs with
  | nil => intro s i inb h; simp at h
  | cons b bs ih =>
    intro s i inb h
    cases i with
    | zero =>
      simp only [List.getElem?_cons_zero, Option.some.injEq] at h
      subst h
      refine ⟨(to_mm s b).2, by simp [run_stream_cons], ?_⟩
      have hb := to_mm_block s b
      have hu := to_mm_units s b
      simp only [List.take_succ_cons, List.take_zero, units_in_force_cons, zero_add]
      simp only [units_in_force, List.foldl_nil]
      rw [← hu]
      exact hb
    | succ j =>
      simp only [List.getElem?_cons_succ] at h
      obtain ⟨out, h1, h2⟩ := ih (to_mm s b).1 j inb h
      refine ⟨out, by simpa [run_stream_cons] using h1, ?_⟩
      simp only [List.take_succ_cons, units_in_force_cons]
      rw [← to_mm_units]
      exact h2

/-- C7: `to_mm` normalises to millimetres. For every stream fed to `to_mm` from
`to_mm_init`, the output block at each index has XYZ, IJK, F and R equal to the input
values times 25.4 when the most recent G20/G21 up to and including that block selected
inches, and equal to the input values otherwise (initial mode mm); an output block that
still carries the units group has units = mm. For the stream G20, G0 X1, G21, G0 X1 the
X words after `to_mm` are 25.4 and 1. -/
theorem to_mm_normalises :
    (∀ (bs : List parser_block_t) (i : Nat) (inb : parser_block_t), bs[i]? = some inb →
      ∃ out, (run_stream to_mm to_mm_init bs).2[i]? = some out ∧
        (units_in_force UNITS_MODE_MM (bs.take (i + 1)) = UNITS_MODE_INCHES →
          out.values.xyz = ⟨inb.values.xyz.e0 * (254 / 10), inb.values.xyz.e1 * (254 / 10),
                            inb.values.xyz.e2 * (254 / 10)⟩ ∧
          out.values.ijk = ⟨inb.values.ijk.e0 * (254 / 10), inb.values.ijk.e1 * (254 / 10),
                            inb.values.ijk.e2 * (254 / 10)⟩ ∧
          out.values.f = inb.values.f * (254 / 10) ∧
          out.values.r = inb.values.r * (254 / 10)) ∧
        (units_in_force UNITS_MODE_MM (bs.take (i + 1)) ≠ UNITS_MODE_INCHES →
          out.values.xyz = inb.values.xyz ∧ out.values.ijk = inb.values.ijk ∧
          out.values.f = inb.values.f ∧ out.values.r = inb.values.r) ∧
        (bit_istrue out.command_words (bit MODAL_GROUP_G6) = true →
          out.modal.units = UNITS_MODE_MM)) ∧
    (∃ o0 o1 o2 o3, (run_stream to_mm to_mm_init stream_S1).2 = [o0, o1, o2, o3] ∧
      bit_istrue o1.value_words (bit WORD_X) = true ∧ o1.values.xyz.e0 = 254 / 10 ∧
      bit_istrue o3.value_words (bit WORD_X) = true ∧ o3.values.xyz.e0 = 1) := by
  constructor
  · intro bs i inb h
    obtain ⟨out, h1, h2, h3, h4⟩ := to_mm_stream bs to_mm_init i inb h
    refine ⟨out, h1, ?_, ?_, h4⟩
    · intro hu
      have := h2 hu
      simp [this, values_to_mm, vec3.scale]
    · intro hu
      have := h3 hu
      simp [this]
  · refine ⟨_, _, _, _, rfl, ?_, ?_, ?_, ?_⟩
    · decide
    · simp +decide [to_mm, to_mm_group, to_mm_init, block_units, block_G0_X, values_to_mm, vec3.scale, parser_block_t.zero, gc_values_t.zero, gc_modal_t.zero, vec3.zero, bit_istrue, bit, bit_false, MODAL_GROUP_G6, MODAL_GROUP_G1, UNITS_MODE_MM, UNITS_MODE_INCHES]
    · decide
    · simp +decide [to_mm, to_mm_group, to_mm_init, block_units, block_G0_X, values_to_mm, vec3.scale, parser_block_t.zero, gc_values_t.zero, gc_modal_t.zero, vec3.zero, bit_istrue, bit, bit_false, MODAL_GROUP_G6, MODAL_GROUP_G1, UNITS_MODE_MM, UNITS_MODE_INCHES]

theorem distance_in_force_cons (d0 : Nat) (b : parser_block_t) (bs : List parser_block_t) :
    distance_in_force d0 (b :: bs) =
      distance_in_force
        (if bit_istrue b.command_words (bit MODAL_GROUP_G3) then b.modal.distance else d0) bs := by
  simp [distance_in_force]

theorem toabs_group_facts (s : toabs_state_t) (b : parser_block_t) :
    (toabs_group s b).1.distance =
      (if bit_istrue b.command_words (bit MODAL_GROUP_G3) then b.modal.distance else s.distance) ∧
    (toabs_group s b).1.xyz = s.xyz ∧
    (toabs_group s b).2.values = b.values ∧
    (toabs_group s b).2.value_words = b.value_words ∧
    (bit_istrue (toabs_group s b).2.command_words (bit MODAL_GROUP_G3) = true →
      (toabs_group s b).2.modal.distance = DISTANCE_MODE_ABSOLUTE) ∧
    (bit_istrue b.command_words (bit MODAL_GROUP_G3) = true → s.distance = b.modal.distance →
      bit_istrue (toabs_group s b).2.command_words (bit MODAL_GROUP_G3) = false) := by
  unfold toabs_group
  split_ifs <;> simp_all [bit_istrue_bit, testBit_bit_false, MODAL_GROUP_G3]

theorem toabs_facts (s : toabs_state_t) (b : parser_block_t) :
    (toabs s b).1.distance =
      (if bit_istrue b.command_words (bit MODAL_GROUP_G3) then b.modal.distance else s.distance) ∧
    (toabs s b).1.xyz =
      ⟨axis_target (toabs s b).1.distance (bit_istrue b.value_words (bit WORD_X)) s.xyz.e0 b.values.xyz.e0,
       axis_target (toabs s b).1.distance (bit_istrue b.value_words (bit WORD_Y)) s.xyz.e1 b.values.xyz.e1,
       axis_target (toabs s b).1.distance (bit_istrue b.value_words (bit WORD_Z)) s.xyz.e2 b.values.xyz.e2⟩ ∧
    (toabs s b).2.value_words = b.value_words ∧
    (bit_istrue b.value_words (bit WORD_X) = true → (toabs s b).2.values.xyz.e0 = (toabs s b).1.xyz.e0) ∧
    (bit_istrue b.value_words (bit WORD_Y) = true → (toabs s b).2.values.xyz.e1 = (toabs s b).1.xyz.e1) ∧
    (bit_istrue b.value_words (bit WORD_Z) = true → (toabs s b).2.values.xyz.e2 = (toabs s b).1.xyz.e2) ∧
    (bit_istrue (toabs s b).2.command_words (bit MODAL_GROUP_G3) = true →
      (toabs s b).2.modal.distance = DISTANCE_MODE_ABSOLUTE) ∧
    (bit_istrue b.command_words (bit MODAL_GROUP_G3) = true → s.distance = b.modal.distance →
      bit_istrue (toabs s b).2.command_words (bit MODAL_GROUP_G3) = false) := by
  obtain ⟨h1, h2, h3, h4, h5, h6⟩ := toabs_group_facts s b
  simp only [toabs, abs_axes, h1, h2, h3, h4, WORD_X, WORD_Y, WORD_Z]
  refine ⟨trivial, ?_, trivial, ?_, ?_, ?_, h5, h6⟩
  · simp only [toabs_axis, axis_target]
    split_ifs <;> rfl
  all_goals
    intro h
    simp [toabs_axis, h]
    split_ifs <;> rfl

theorem position_after_cons_toabs (s : toabs_state_t) (b : parser_block_t)
    (bs : List parser_block_t) :
    position_after s.distance s.xyz (b :: bs) =
      position_after (toabs s b).1.distance (toabs s b).1.xyz bs := by
  obtain ⟨h1, h2, -⟩ := toabs_facts s b
  rw [h2, h1]
  rfl

theorem toabs_stream (bs : List parser_block_t) :
    ∀ (s : toabs_state_t) (i : Nat) (inb : parser_block_t), bs[i]? = some inb →
      ∃ out, (run_stream toabs s bs).2[i]? = some out ∧
        out.value_words = inb.value_words ∧
        (bit_istrue inb.value_words (bit WORD_X) = true →
          out.values.xyz.e0 = (position_after s.distance s.xyz (bs.take (i + 1))).e0) ∧
        (bit_istrue inb.value_words (bit WORD_Y) = true →
          out.values.xyz.e1 = (position_after s.distance s.xyz (bs.take (i + 1))).e1) ∧
        (bit_istrue inb.value_words (bit WORD_Z) = true →
          out.values.xyz.e2 = (position_after s.distance s.xyz (bs.take (i + 1))).e2) ∧
        (bit_istrue out.command_words (bit MODAL_GROUP_G3) = true →
          out.modal.distance = DISTANCE_MODE_ABSOLUTE) ∧
        (bit_istrue inb.command_words (bit MODAL_GROUP_G3) = true →
          distance_in_force s.distance (bs.take i) = inb.modal.distance →
          bit_istrue out.command_words (bit MODAL_GROUP_G3) = false) := by
  induction bs with
  | nil => intro s i inb h; simp at h
  | cons b bs ih =>
    intro s i inb h
    cases i with
    | zero =>
      simp only [List.getElem?_cons_zero, Option.some.injEq] at h
      subst h
      refine ⟨(toabs s b).2, by simp [run_stream_cons], ?_⟩
      obtain ⟨h1, h2, h3, h4, h5, h6, h7, h8⟩ := toabs_facts s b
      simp only [zero_add, List.take_succ_cons, List.take_zero, position_after_cons_toabs]
      exact ⟨h3, h4, h5, h6, h7, h8⟩
    | succ j =>
      simp only [List.getElem?_cons_succ] at h
      obtain ⟨out, h1, h2⟩ := ih (toabs s b).1 j inb h
      refine ⟨out, by simpa [run_stream_cons] using h1, ?_⟩
      simp only [List.take_succ_cons, position_after_cons_toabs, distance_in_force_cons]
      rw [← (toabs_facts s b).1]
      exact h2

/-- C8: `toabs` normalises to absolute coordinates. For every stream fed to `toabs`
from `toabs_init`, the words of a block stay the same words, every present X/Y/Z word of
an output block holds the absolute position of that axis after the block (the input value
in G90 mode, the running sum in G91 mode), an output block that still carries the distance
group has distance = absolute, and a G90/G91 that selects the mode already in force is
removed. For the stream G91, G0 X10, G0 X5, G90, G0 X0 the X words after `toabs` are
10, 15 and 0. -/
theorem toabs_normalises :
    (∀ (bs : List parser_block_t) (i : Nat) (inb : parser_block_t), bs[i]? = some inb →
      ∃ out, (run_stream toabs toabs_init bs).2[i]? = some out ∧
        out.value_words = inb.value_words ∧
        (bit_istrue inb.value_words (bit WORD_X) = true →
          out.values.xyz.e0 =
            (position_after DISTANCE_MODE_ABSOLUTE vec3.zero (bs.take (i + 1))).e0) ∧
        (bit_istrue inb.value_words (bit WORD_Y) = true →
          out.values.xyz.e1 =
            (position_after DISTANCE_MODE_ABSOLUTE vec3.zero (bs.take (i + 1))).e1) ∧
        (bit_istrue inb.value_words (bit WORD_Z) = true →
          out.values.xyz.e2 =
            (position_after DISTANCE_MODE_ABSOLUTE vec3.zero (bs.take (i + 1))).e2) ∧
        (bit_istrue out.command_words (bit MODAL_GROUP_G3) = true →
          out.modal.distance = DISTANCE_MODE_ABSOLUTE) ∧
        (bit_istrue inb.command_words (bit MODAL_GROUP_G3) = true →
          distance_in_force DISTANCE_MODE_ABSOLUTE (bs.take i) = inb.modal.distance →
          bit_istrue out.command_words (bit MODAL_GROUP_G3) = false)) ∧
    (∃ o0 o1 o2 o3 o4, (run_stream toabs toabs_init stream_S2).2 = [o0, o1, o2, o3, o4] ∧
      bit_istrue o1.value_words (bit WORD_X) = true ∧ o1.values.xyz.e0 = 10 ∧
      bit_istrue o2.value_words (bit WORD_X) = true ∧ o2.values.xyz.e0 = 15 ∧
      bit_istrue o4.value_words (bit WORD_X) = true ∧ o4.values.xyz.e0 = 0) := by
  constructor
  · intro bs i inb h
    exact toabs_stream bs toabs_init i inb h
  · refine ⟨_, _, _, _, _, rfl, ?_, ?_, ?_, ?_, ?_, ?_⟩
    · decide
    · simp +decide [toabs, toabs_group, abs_axes, toabs_axis, toabs_init, block_distance,
        block_G0_X, parser_block_t.zero, gc_values_t.zero, gc_modal_t.zero, vec3.zero,
        bit_istrue, bit, bit_false, MODAL_GROUP_G3, MODAL_GROUP_G1, WORD_X,
        DISTANCE_MODE_ABSOLUTE, DISTANCE_MODE_INCREMENTAL]
    · decide
    · simp +decide [toabs, toabs_group, abs_axes, toabs_axis, toabs_init, block_distance,
        block_G0_X, parser_block_t.zero, gc_values_t.zero, gc_modal_t.zero, vec3.zero,
        bit_istrue, bit, bit_false, MODAL_GROUP_G3, MODAL_GROUP_G1, WORD_X,
        DISTANCE_MODE_ABSOLUTE, DISTANCE_MODE_INCREMENTAL]
      norm_num
    · decide
    · simp +decide [toabs, toabs_group, abs_axes, toabs_axis, toabs_init, block_distance,
        block_G0_X, parser_block_t.zero, gc_values_t.zero, gc_modal_t.zero, vec3.zero,
        bit_istrue, bit, bit_false, MODAL_GROUP_G3, MODAL_GROUP_G1, WORD_X,
        DISTANCE_MODE_ABSOLUTE, DISTANCE_MODE_INCREMENTAL]

/-! ## Round trips -/

theorem values_from_mm_to_mm (v : gc_values_t) : values_from_mm (values_to_mm v) = v := by
  simp [values_from_mm, values_to_mm, vec3.scale, vec3.unscale]

theorem mm_round_trip_step (s1 s2 : to_mm_state_t) (b : parser_block_t)
    (hs : (s1 = to_mm_init ∧ s2 = from_mm_init) ∨ (s2 = s1 ∧ s1.units ≤ 1))
    (hb : bit_istrue b.command_words (bit MODAL_GROUP_G6) = true → b.modal.units ≤ 1) :
    let r := chain to_mm from_mm (s1, s2) b
    r.1.2 = r.1.1 ∧ r.1.1.units ≤ 1 ∧
    r.1.1.units =
      (if bit_istrue b.command_words (bit MODAL_GROUP_G6) then b.modal.units else s1.units) ∧
    { r.2 with command_words := b.command_words,
               modal := { r.2.modal with units := b.modal.units } } = b ∧
    (bit_istrue r.2.command_words (bit MODAL_GROUP_G6) = true → r.2.modal.units = r.1.1.units) ∧
    (∀ k, k < 16 → k ≠ MODAL_GROUP_G6 →
      bit_istrue r.2.command_words (bit k) = bit_istrue b.command_words (bit k)) ∧
    (bit_istrue r.2.command_words (bit MODAL_GROUP_G6) = true →
      bit_istrue b.command_words (bit MODAL_GROUP_G6) = true ∨ s2 = from_mm_init) ∧
    (s2 = from_mm_init → bit_istrue r.2.command_words (bit MODAL_GROUP_G6) = true) := by
  obtain ⟨nmc, ⟨mo, fr, un, di, pl, tl, cs, pf, co, sp, ov⟩, v, cw, vw⟩ := b
  obtain ⟨u1⟩ := s1
  obtain ⟨u2⟩ := s2
  simp only at hb
  have hk : ∀ k, k < 16 → ¬k = 6 →
      (cw.testBit k && decide (k < 16) && !decide (6 = k) || decide (6 = k)) = cw.testBit k := by
    intro k hk hne
    have : ¬ 6 = k := fun h => hne h.symm
    simp [hk, this]
  have hk2 : ∀ k, k < 16 → ¬k = 6 →
      (cw.testBit k && decide (k < 16) && !decide (6 = k)) = cw.testBit k := by
    intro k hk hne
    have : ¬ 6 = k := fun h => hne h.symm
    simp [hk, this]
  have hk3 : ∀ k, k < 16 → ¬k = 6 → (cw.testBit k || decide (6 = k)) = cw.testBit k := by
    intro k hk hne
    have : ¬ 6 = k := fun h => hne h.symm
    simp [this]
  by_cases hbit : bit_istrue cw (bit MODAL_GROUP_G6) = true
  · have hun := hb hbit
    have hbit2 : cw.testBit 6 = true := by simpa [bit_istrue_bit, MODAL_GROUP_G6] using hbit
    rcases hs with ⟨h1, h2⟩ | ⟨h1, h2⟩
    · simp only [to_mm_init, from_mm_init, to_mm_state_t.mk.injEq] at h1 h2
      subst h1 h2
      rcases Nat.le_one_iff_eq_zero_or_eq_one.mp hun with h0 | h0 <;> subst h0 <;>
        simp [chain, to_mm, from_mm, to_mm_group, from_mm_group, from_mm_init, hbit,
          UNITS_MODE_MM, UNITS_MODE_INCHES, values_from_mm_to_mm, bit_istrue_bit,
          testBit_bit_false, testBit_bit_true, MODAL_GROUP_G6, hbit2] <;>
        first | exact hk | exact hk2 | exact hk3
    · simp only [to_mm_state_t.mk.injEq] at h1
      simp only at h2
      subst h1
      rcases Nat.le_one_iff_eq_zero_or_eq_one.mp hun with h0 | h0 <;>
      rcases Nat.le_one_iff_eq_zero_or_eq_one.mp h2 with h3 | h3 <;> subst h0 <;> subst h3 <;>
        simp [chain, to_mm, from_mm, to_mm_group, from_mm_group, from_mm_init, hbit,
          UNITS_MODE_MM, UNITS_MODE_INCHES, values_from_mm_to_mm, bit_istrue_bit,
          testBit_bit_false, testBit_bit_true, MODAL_GROUP_G6, hbit2] <;>
        first | exact hk | exact hk2 | exact hk3
  · have hbit2 : cw.testBit 6 = false := by simpa [bit_istrue_bit, MODAL_GROUP_G6] using hbit
    rcases hs with ⟨h1, h2⟩ | ⟨h1, h2⟩
    · simp only [to_mm_init, from_mm_init, to_mm_state_t.mk.injEq] at h1 h2
      subst h1 h2
      simp [chain, to_mm, from_mm, to_mm_group, from_mm_group, from_mm_init, hbit,
          UNITS_MODE_MM, UNITS_MODE_INCHES, values_from_mm_to_mm, bit_istrue_bit,
          testBit_bit_false, testBit_bit_true, MODAL_GROUP_G6, hbit2]
      intro k _ h6 h6k
      exact absurd h6k.symm h6
    · simp only [to_mm_state_t.mk.injEq] at h1
      simp only at h2
      subst h1
      rcases Nat.le_one_iff_eq_zero_or_eq_one.mp h2 with h3 | h3 <;> subst h3 <;>
        simp [chain, to_mm, from_mm, to_mm_group, from_mm_group, from_mm_init, hbit,
          UNITS_MODE_MM, UNITS_MODE_INCHES, values_from_mm_to_mm, bit_istrue_bit,
          testBit_bit_false, testBit_bit_true, MODAL_GROUP_G6, hbit2]

theorem mm_round_trip_stream (bs : List parser_block_t) :
    ∀ (s1 s2 : to_mm_state_t),
      ((s1 = to_mm_init ∧ s2 = from_mm_init) ∨ (s2 = s1 ∧ s1.units ≤ 1)) →
      (∀ b ∈ bs, bit_istrue b.command_words (bit MODAL_GROUP_G6) = true → b.modal.units ≤ 1) →
      (bs ≠ [] →
        (run_stream (chain to_mm from_mm) (s1, s2) bs).1.2 =
          (run_stream (chain to_mm from_mm) (s1, s2) bs).1.1) ∧
      (run_stream (chain to_mm from_mm) (s1, s2) bs).1.1.units = units_in_force s1.units bs ∧
      ∀ (i : Nat) (inb : parser_block_t), bs[i]? = some inb →
        ∃ out, (run_stream (chain to_mm from_mm) (s1, s2) bs).2[i]? = some out ∧
          { out with command_words := inb.command_words,
                     modal := { out.modal with units := inb.modal.units } } = inb ∧
          (bit_istrue out.command_words (bit MODAL_GROUP_G6) = true →
            out.modal.units = units_in_force s1.units (bs.take (i + 1))) ∧
          (∀ k, k < 16 → k ≠ MODAL_GROUP_G6 →
            bit_istrue out.command_words (bit k) = bit_istrue inb.command_words (bit k)) ∧
          (bit_istrue out.command_words (bit MODAL_GROUP_G6) = true →
            bit_istrue inb.command_words (bit MODAL_GROUP_G6) = true ∨
              (i = 0 ∧ s2 = from_mm_init)) ∧
          (i = 0 → s2 = from_mm_init →
            bit_istrue out.command_words (bit MODAL_GROUP_G6) = true) := by
  induction bs with
  | nil =>
    intro s1 s2 _ _
    refine ⟨fun h => absurd rfl h, rfl, ?_⟩
    intro i inb h
    simp at h
  | cons b bs ih =>
    intro s1 s2 hs hwf
    have hb := hwf b (List.mem_cons_self b bs)
    obtain ⟨e1, e2, e3, e4, e5, e6, e7, e8⟩ := mm_round_trip_step s1 s2 b hs hb
    have hwf2 : ∀ c ∈ bs, bit_istrue c.command_words (bit MODAL_GROUP_G6) = true →
        c.modal.units ≤ 1 := fun c hc => hwf c (List.mem_cons_of_mem b hc)
    obtain ⟨i1, i2, i3⟩ := ih (chain to_mm from_mm (s1, s2) b).1.1
      (chain to_mm from_mm (s1, s2) b).1.2 (Or.inr ⟨e1, e2⟩) hwf2
    have hne : (chain to_mm from_mm (s1, s2) b).1.2 ≠ from_mm_init := by
      rw [e1]
      intro h
      rw [h] at e2
      simp [from_mm_init] at e2
    refine ⟨?_, ?_, ?_⟩
    · intro _
      rw [run_stream_cons]
      by_cases hbs : bs = []
      · subst hbs
        exact e1
      · exact i1 hbs
    · rw [run_stream_cons, units_in_force_cons, ← e3]
      exact i2
    · intro i inb h
      cases i with
      | zero =>
        simp only [List.getElem?_cons_zero, Option.some.injEq] at h
        subst h
        refine ⟨(chain to_mm from_mm (s1, s2) b).2, by simp [run_stream_cons], e4, ?_, e6, ?_, ?_⟩
        · intro hbit
          simp only [zero_add, List.take_succ_cons, List.take_zero, units_in_force_cons]
          simp only [units_in_force, List.foldl_nil]
          rw [← e3]
          exact e5 hbit
        · intro hbit
          rcases e7 hbit with h | h
          · exact Or.inl h
          · exact Or.inr ⟨rfl, h⟩
        · intro _ h
          exact e8 h
      | succ j =>
        simp only [List.getElem?_cons_succ] at h
        obtain ⟨out, o1, o2, o3, o4, o5, -⟩ := i3 j inb h
        refine ⟨out, by simpa [run_stream_cons] using o1, o2, ?_, o4, ?_, ?_⟩
        · intro hbit
          simp only [List.take_succ_cons, units_in_force_cons]
          rw [← e3]
          exact o3 hbit
        · intro hbit
          rcases o5 hbit with h | ⟨_, h⟩
          · exact Or.inl h
          · exact absurd h hne
        · intro h0
          exact absurd h0 (Nat.succ_ne_zero j)


/-- C10: units round trip. For every stream whose G20/G21 blocks carry a units code of
0 or 1 (as `gc_parse_line` stores them), passing each block through `to_mm` and then
`from_mm`, both from their init states: after every non-empty prefix of the stream the
units shadow of `from_mm` equals that of `to_mm`; every output block equals the input
block in everything but `command_words` and `modal.units` (so XYZ, IJK, F and R are
restored exactly); an output block that carries the units group has the units the input
stream is in at that block; the bits of the other groups are those of the input; and the
units bit of an output block is one of the input or belongs to the first block, which
always carries it. -/
theorem units_round_trip (bs : List parser_block_t)
    (hwf : ∀ b ∈ bs, bit_istrue b.command_words (bit MODAL_GROUP_G6) = true → b.modal.units ≤ 1) :
    (∀ n, 0 < n → n ≤ bs.length →
      (run_stream (chain to_mm from_mm) (to_mm_init, from_mm_init) (bs.take n)).1.2 =
        (run_stream (chain to_mm from_mm) (to_mm_init, from_mm_init) (bs.take n)).1.1) ∧
    ∀ (i : Nat) (inb : parser_block_t), bs[i]? = some inb →
      ∃ out, (run_stream (chain to_mm from_mm) (to_mm_init, from_mm_init) bs).2[i]? = some out ∧
        { out with command_words := inb.command_words,
                   modal := { out.modal with units := inb.modal.units } } = inb ∧
        (bit_istrue out.command_words (bit MODAL_GROUP_G6) = true →
          out.modal.units = units_in_force UNITS_MODE_MM (bs.take (i + 1))) ∧
        (∀ k, k < 16 → k ≠ MODAL_GROUP_G6 →
          bit_istrue out.command_words (bit k) = bit_istrue inb.command_words (bit k)) ∧
        (bit_istrue out.command_words (bit MODAL_GROUP_G6) = true →
          bit_istrue inb.command_words (bit MODAL_GROUP_G6) = true ∨ i = 0) ∧
        (i = 0 → bit_istrue out.command_words (bit MODAL_GROUP_G6) = true) := by
  constructor
  · intro n hn hle
    have hwf2 : ∀ b ∈ bs.take n,
        bit_istrue b.command_words (bit MODAL_GROUP_G6) = true → b.modal.units ≤ 1 :=
      fun b hb => hwf b (List.mem_of_mem_take hb)
    have hne : bs.take n ≠ [] := by
      intro h
      have := congrArg List.length h
      rw [List.length_take, List.length_nil] at this
      omega
    exact (mm_round_trip_stream (bs.take n) to_mm_init from_mm_init (Or.inl ⟨rfl, rfl⟩) hwf2).1 hne
  · intro i inb h
    obtain ⟨out, o1, o2, o3, o4, o5, o6⟩ :=
      (mm_round_trip_stream bs to_mm_init from_mm_init (Or.inl ⟨rfl, rfl⟩) hwf).2.2 i inb h
    refine ⟨out, o1, o2, o3, o4, ?_, fun h0 => o6 h0 rfl⟩
    intro hbit
    rcases o5 hbit with h | ⟨h, -⟩
    · exact Or.inl h
    · exact Or.inr h

/-- Witness of C10 on the stream of scenario S1 (G20, G0 X1, G21, G0 X1): its units
codes are 0 or 1, and the values of its second block come back from the round trip. -/
theorem units_round_trip_witness :
    (∀ b ∈ stream_S1,
      bit_istrue b.command_words (bit MODAL_GROUP_G6) = true → b.modal.units ≤ 1) ∧
    ∃ out, (run_stream (chain to_mm from_mm) (to_mm_init, from_mm_init) stream_S1).2[1]? =
        some out ∧ out.values = (block_G0_X 1).values :=
  ⟨by decide,
    match (units_round_trip stream_S1 (by decide)).2 1 (block_G0_X 1) rfl with
    | ⟨out, h1, h2, _⟩ => ⟨out, h1, by rw [← h2]⟩⟩

theorem axis_round_trip (d : Nat) (p : Bool) (s b : ℚ) :
    fromabs_axis d p s (toabs_axis d p s b).2 = ((toabs_axis d p s b).1, b) := by
  unfold fromabs_axis toabs_axis
  split_ifs <;> simp

theorem abs_round_trip_step (s1 s2 : toabs_state_t) (b : parser_block_t)
    (hs : (s1 = toabs_init ∧ s2 = fromabs_init) ∨ (s2 = s1 ∧ s1.distance ≤ 1))
    (hb : bit_istrue b.command_words (bit MODAL_GROUP_G3) = true → b.modal.distance ≤ 1) :
    let r := chain toabs fromabs (s1, s2) b
    r.1.2 = r.1.1 ∧ r.1.1.distance ≤ 1 ∧
    r.1.1.distance =
      (if bit_istrue b.command_words (bit MODAL_GROUP_G3) then b.modal.distance
       else s1.distance) ∧
    { r.2 with command_words := b.command_words,
               modal := { r.2.modal with distance := b.modal.distance } } = b ∧
    (bit_istrue r.2.command_words (bit MODAL_GROUP_G3) = true →
      r.2.modal.distance = r.1.1.distance) ∧
    (∀ k, k < 16 → k ≠ MODAL_GROUP_G3 →
      bit_istrue r.2.command_words (bit k) = bit_istrue b.command_words (bit k)) ∧
    (bit_istrue r.2.command_words (bit MODAL_GROUP_G3) = true →
      bit_istrue b.command_words (bit MODAL_GROUP_G3) = true ∨ s2 = fromabs_init) ∧
    (s2 = fromabs_init → bit_istrue r.2.command_words (bit MODAL_GROUP_G3) = true) := by
  obtain ⟨nmc, ⟨mo, fr, un, di, pl, tl, cs, pf, co, sp, ov⟩,
    ⟨f, ijk, l, n, p, r, s, t, ⟨x0, x1, x2⟩⟩, cw, vw⟩ := b
  obtain ⟨⟨p0, p1, p2⟩, d1⟩ := s1
  obtain ⟨q, d2⟩ := s2
  simp only at hb
  have hk : ∀ k, k < 16 → ¬k = 3 →
      (cw.testBit k && decide (k < 16) && !decide (3 = k) || decide (3 = k)) = cw.testBit k := by
    intro k hk hne
    have : ¬ 3 = k := fun h => hne h.symm
    simp [hk, this]
  have hk2 : ∀ k, k < 16 → ¬k = 3 →
      (cw.testBit k && decide (k < 16) && !decide (3 = k)) = cw.testBit k := by
    intro k hk hne
    have : ¬ 3 = k := fun h => hne h.symm
    simp [hk, this]
  have hk3 : ∀ k, k < 16 → ¬k = 3 → (cw.testBit k || decide (3 = k)) = cw.testBit k := by
    intro k hk hne
    have : ¬ 3 = k := fun h => hne h.symm
    simp [this]
  by_cases hbit : bit_istrue cw (bit MODAL_GROUP_G3) = true
  · have hun := hb hbit
    have hbit2 : cw.testBit 3 = true := by simpa [bit_istrue_bit, MODAL_GROUP_G3] using hbit
    rcases hs with ⟨h1, h2⟩ | ⟨h1, h2⟩
    · simp only [toabs_init, fromabs_init, toabs_state_t.mk.injEq, vec3.zero, vec3.mk.injEq] at h1 h2
      obtain ⟨⟨rfl, rfl, rfl⟩, rfl⟩ := h1
      obtain ⟨rfl, rfl⟩ := h2
      rcases Nat.le_one_iff_eq_zero_or_eq_one.mp hun with h0 | h0 <;> subst h0 <;>
        simp [chain, toabs, fromabs, toabs_group, fromabs_group, fromabs_init, abs_axes, hbit,
          DISTANCE_MODE_ABSOLUTE, DISTANCE_MODE_INCREMENTAL, axis_round_trip, bit_istrue_bit,
          testBit_bit_false, testBit_bit_true, MODAL_GROUP_G3, hbit2, vec3.zero] <;>
        first | exact hk | exact hk2 | exact hk3
    · simp only [toabs_state_t.mk.injEq] at h1
      simp only at h2
      obtain ⟨rfl, rfl⟩ := h1
      rcases Nat.le_one_iff_eq_zero_or_eq_one.mp hun with h0 | h0 <;>
      rcases Nat.le_one_iff_eq_zero_or_eq_one.mp h2 with h3 | h3 <;> subst h0 <;> subst h3 <;>
        simp [chain, toabs, fromabs, toabs_group, fromabs_group, fromabs_init, abs_axes, hbit,
          DISTANCE_MODE_ABSOLUTE, DISTANCE_MODE_INCREMENTAL, axis_round_trip, bit_istrue_bit,
          testBit_bit_false, testBit_bit_true, MODAL_GROUP_G3, hbit2, vec3.zero] <;>
        first | exact hk | exact hk2 | exact hk3
  · have hbit2 : cw.testBit 3 = false := by simpa [bit_istrue_bit, MODAL_GROUP_G3] using hbit
    rcases hs with ⟨h1, h2⟩ | ⟨h1, h2⟩
    · simp only [toabs_init, fromabs_init, toabs_state_t.mk.injEq, vec3.zero, vec3.mk.injEq] at h1 h2
      obtain ⟨⟨rfl, rfl, rfl⟩, rfl⟩ := h1
      obtain ⟨rfl, rfl⟩ := h2
      simp [chain, toabs, fromabs, toabs_group, fromabs_group, fromabs_init, abs_axes, hbit,
          DISTANCE_MODE_ABSOLUTE, DISTANCE_MODE_INCREMENTAL, axis_round_trip, bit_istrue_bit,
          testBit_bit_false, testBit_bit_true, MODAL_GROUP_G3, hbit2, vec3.zero]
      intro k _ h6 h6k
      exact absurd h6k.symm h6
    · simp only [toabs_state_t.mk.injEq] at h1
      simp only at h2
      obtain ⟨rfl, rfl⟩ := h1
      rcases Nat.le_one_iff_eq_zero_or_eq_one.mp h2 with h3 | h3 <;> subst h3 <;>
        simp [chain, toabs, fromabs, toabs_group, fromabs_group, fromabs_init, abs_axes, hbit,
          DISTANCE_MODE_ABSOLUTE, DISTANCE_MODE_INCREMENTAL, axis_round_trip, bit_istrue_bit,
          testBit_bit_false, testBit_bit_true, MODAL_GROUP_G3, hbit2, vec3.zero]

theorem abs_round_trip_stream (bs : List parser_block_t) :
    ∀ (s1 s2 : toabs_state_t),
      ((s1 = toabs_init ∧ s2 = fromabs_init) ∨ (s2 = s1 ∧ s1.distance ≤ 1)) →
      (∀ b ∈ bs, bit_istrue b.command_words (bit MODAL_GROUP_G3) = true → b.modal.distance ≤ 1) →
      (bs ≠ [] →
        (run_stream (chain toabs fromabs) (s1, s2) bs).1.2 =
          (run_stream (chain toabs fromabs) (s1, s2) bs).1.1) ∧
      (run_stream (chain toabs fromabs) (s1, s2) bs).1.1.distance = distance_in_force s1.distance bs ∧
      ∀ (i : Nat) (inb : parser_block_t), bs[i]? = some inb →
        ∃ out, (run_stream (chain toabs fromabs) (s1, s2) bs).2[i]? = some out ∧
          { out with command_words := inb.command_words,
                     modal := { out.modal with distance := inb.modal.distance } } = inb ∧
          (bit_istrue out.command_words (bit MODAL_GROUP_G3) = true →
            out.modal.distance = distance_in_force s1.distance (bs.take (i + 1))) ∧
          (∀ k, k < 16 → k ≠ MODAL_GROUP_G3 →
            bit_istrue out.command_words (bit k) = bit_istrue inb.command_words (bit k)) ∧
          (bit_istrue out.command_words (bit MODAL_GROUP_G3) = true →
            bit_istrue inb.command_words (bit MODAL_GROUP_G3) = true ∨
              (i = 0 ∧ s2 = fromabs_init)) ∧
          (i = 0 → s2 = fromabs_init →
            bit_istrue out.command_words (bit MODAL_GROUP_G3) = true) := by
  induction bs with
  | nil =>
    intro s1 s2 _ _
    refine ⟨fun h => absurd rfl h, rfl, ?_⟩
    intro i inb h
    simp at h
  | cons b bs ih =>
    intro s1 s2 hs hwf
    have hb := hwf b (List.mem_cons_self b bs)
    obtain ⟨e1, e2, e3, e4, e5, e6, e7, e8⟩ := abs_round_trip_step s1 s2 b hs hb
    have hwf2 : ∀ c ∈ bs, bit_istrue c.command_words (bit MODAL_GROUP_G3) = true →
        c.modal.distance ≤ 1 := fun c hc => hwf c (List.mem_cons_of_mem b hc)
    obtain ⟨i1, i2, i3⟩ := ih (chain toabs fromabs (s1, s2) b).1.1
      (chain toabs fromabs (s1, s2) b).1.2 (Or.inr ⟨e1, e2⟩) hwf2
    have hne : (chain toabs fromabs (s1, s2) b).1.2 ≠ fromabs_init := by
      rw [e1]
      intro h
      rw [h] at e2
      simp [fromabs_init] at e2
    refine ⟨?_, ?_, ?_⟩
    · intro _
      rw [run_stream_cons]
      by_cases hbs : bs = []
      · subst hbs
        exact e1
      · exact i1 hbs
    · rw [run_stream_cons, distance_in_force_cons, ← e3]
      exact i2
    · intro i inb h
      cases i with
      | zero =>
        simp only [List.getElem?_cons_zero, Option.some.injEq] at h
        subst h
        refine ⟨(chain toabs fromabs (s1, s2) b).2, by simp [run_stream_cons], e4, ?_, e6, ?_, ?_⟩
        · intro hbit
          simp only [zero_add, List.take_succ_cons, List.take_zero, distance_in_force_cons]
          simp only [distance_in_force, List.foldl_nil]
          rw [← e3]
          exact e5 hbit
        · intro hbit
          rcases e7 hbit with h | h
          · exact Or.inl h
          · exact Or.inr ⟨rfl, h⟩
        · intro _ h
          exact e8 h
      | succ j =>
        simp only [List.getElem?_cons_succ] at h
        obtain ⟨out, o1, o2, o3, o4, o5, -⟩ := i3 j inb h
        refine ⟨out, by simpa [run_stream_cons] using o1, o2, ?_, o4, ?_, ?_⟩
        · intro hbit
          simp only [List.take_succ_cons, distance_in_force_cons]
          rw [← e3]
          exact o3 hbit
        · intro hbit
          rcases o5 hbit with h | ⟨_, h⟩
          · exact Or.inl h
          · exact absurd h hne
        · intro h0
          exact absurd h0 (Nat.succ_ne_zero j)


/-- With an exact rounding the float embeddings of `toabs` and `fromabs` are `toabs` and
`fromabs`. -/
theorem abs_fl_exact :
    toabs_fl (fun q => q) = toabs ∧ fromabs_fl (fun q => q) = fromabs :=
  ⟨rfl, rfl⟩

/-- C9 (amended): distance-mode round trip in exact arithmetic. Let the additions and
subtractions of `absmode.c` be exact (the rounding `fl` changes no number). For every
stream whose G90/G91 blocks carry a distance code of 0 or 1 (as `gc_parse_line` stores
them), passing each block through `toabs` and then `fromabs`, both from their init states: after every non-empty prefix of the stream
the distance and position shadows of `fromabs` equal those of `toabs`; every output block
equals the input block in everything but `command_words` and `modal.distance` (so every
X/Y/Z word has its original value again); an output block that carries the distance group
has the distance mode the input stream is in at that block; the bits of the other groups
are those of the input; and the distance bit of an output block is one of the input or
belongs to the first block, which always carries it. -/
theorem distance_round_trip (fl : ℚ → ℚ) (hfl : ∀ q, fl q = q) (bs : List parser_block_t)
    (hwf : ∀ b ∈ bs, bit_istrue b.command_words (bit MODAL_GROUP_G3) = true → b.modal.distance ≤ 1) :
    (∀ n, 0 < n → n ≤ bs.length →
      (run_stream (chain (toabs_fl fl) (fromabs_fl fl)) (toabs_init, fromabs_init) (bs.take n)).1.2 =
        (run_stream (chain (toabs_fl fl) (fromabs_fl fl)) (toabs_init, fromabs_init) (bs.take n)).1.1) ∧
    ∀ (i : Nat) (inb : parser_block_t), bs[i]? = some inb →
      ∃ out, (run_stream (chain (toabs_fl fl) (fromabs_fl fl)) (toabs_init, fromabs_init) bs).2[i]? = some out ∧
        { out with command_words := inb.command_words,
                   modal := { out.modal with distance := inb.modal.distance } } = inb ∧
        (bit_istrue out.command_words (bit MODAL_GROUP_G3) = true →
          out.modal.distance = distance_in_force DISTANCE_MODE_ABSOLUTE (bs.take (i + 1))) ∧
        (∀ k, k < 16 → k ≠ MODAL_GROUP_G3 →
          bit_istrue out.command_words (bit k) = bit_istrue inb.command_words (bit k)) ∧
        (bit_istrue out.command_words (bit MODAL_GROUP_G3) = true →
          bit_istrue inb.command_words (bit MODAL_GROUP_G3) = true ∨ i = 0) ∧
        (i = 0 → bit_istrue out.command_words (bit MODAL_GROUP_G3) = true) := by
  have e : fl = fun q => q := funext hfl
  subst e
  rw [abs_fl_exact.1, abs_fl_exact.2]
  constructor
  · intro n hn hle
    have hwf2 : ∀ b ∈ bs.take n,
        bit_istrue b.command_words (bit MODAL_GROUP_G3) = true → b.modal.distance ≤ 1 :=
      fun b hb => hwf b (List.mem_of_mem_take hb)
    have hne : bs.take n ≠ [] := by
      intro h
      have := congrArg List.length h
      rw [List.length_take, List.length_nil] at this
      omega
    exact (abs_round_trip_stream (bs.take n) toabs_init fromabs_init (Or.inl ⟨rfl, rfl⟩) hwf2).1 hne
  · intro i inb h
    obtain ⟨out, o1, o2, o3, o4, o5, o6⟩ :=
      (abs_round_trip_stream bs toabs_init fromabs_init (Or.inl ⟨rfl, rfl⟩) hwf).2.2 i inb h
    refine ⟨out, o1, o2, o3, o4, ?_, fun h0 => o6 h0 rfl⟩
    intro hbit
    rcases o5 hbit with h | ⟨h, -⟩
    · exact Or.inl h
    · exact Or.inr h

/-- Witness of C9 on the stream of scenario S2 (G91, G0 X10, G0 X5, G90, G0 X0) with the
exact operations: its distance codes are 0 or 1, and the values of its second block come
back from the round trip. -/
theorem distance_round_trip_witness :
    (∀ q : ℚ, (fun r : ℚ => r) q = q) ∧
    (∀ b ∈ stream_S2,
      bit_istrue b.command_words (bit MODAL_GROUP_G3) = true → b.modal.distance ≤ 1) ∧
    ∃ out, (run_stream (chain (toabs_fl (fun q => q)) (fromabs_fl (fun q => q)))
        (toabs_init, fromabs_init) stream_S2).2[1]? =
        some out ∧ out.values = (block_G0_X 10).values :=
  ⟨fun _ => rfl, by decide,
    match (distance_round_trip (fun q => q) (fun _ => rfl) stream_S2 (by decide)).2 1
      (block_G0_X 10) rfl with
    | ⟨out, h1, h2, _⟩ => ⟨out, h1, by rw [← h2]⟩⟩

/-! ## `update_state` and `cleanup` -/

/-- Effect on the bit set of a step of `update_state` that clears the bit `w` when the
condition `p` holds. -/
theorem strip_or_update_words {α : Type} [DecidableEq α] (W w : Nat) (bv sv : α) (j : Nat)
    (hw : w < 16) :
    (strip_or_update W w bv sv).1.testBit j =
      (W.testBit j && !(W.testBit w && decide (bv = sv) && (decide (w = j) || !decide (j < 16)))) := by
  unfold strip_or_update
  rw [bit_istrue_bit]
  by_cases h1 : W.testBit w = true <;> by_cases h2 : bv = sv <;>
    simp [h1, h2, testBit_bit_false, hw]
  by_cases h3 : w = j <;> by_cases h4 : j < 16 <;> simp [h3, h4]

theorem strip_or_update_shadow {α : Type} [DecidableEq α] (W w : Nat) (bv sv : α) :
    (strip_or_update W w bv sv).2 = if W.testBit w = true ∧ bv ≠ sv then bv else sv := by
  unfold strip_or_update
  rw [bit_istrue_bit]
  by_cases h1 : W.testBit w = true <;> by_cases h2 : bv = sv <;> simp [h1, h2]

theorem strip_zero_words (W w : Nat) (bv : ℚ) (j : Nat) (hw : w < 16) :
    (strip_zero W w bv).testBit j =
      (W.testBit j && !(W.testBit w && decide (bv = 0) && (decide (w = j) || !decide (j < 16)))) := by
  unfold strip_zero
  rw [bit_istrue_bit]
  by_cases h1 : W.testBit w = true <;> by_cases h2 : bv = 0 <;>
    simp [h1, h2, testBit_bit_false, hw]
  by_cases h3 : w = j <;> by_cases h4 : j < 16 <;> simp [h3, h4]

theorem update_axis_words (d W w : Nat) (bv sv : ℚ) (j : Nat) (hw : w < 16) :
    (update_axis d W w bv sv).1.testBit j =
      (W.testBit j && !(W.testBit w &&
        decide (if d = DISTANCE_MODE_ABSOLUTE then bv = sv else bv = 0) &&
        (decide (w = j) || !decide (j < 16)))) := by
  unfold update_axis
  split_ifs with hd
  · exact strip_or_update_words W w bv sv j hw
  · unfold incremental_axis
    rw [bit_istrue_bit]
    by_cases h1 : W.testBit w = true <;> by_cases h2 : bv = 0 <;>
      simp [h1, h2, testBit_bit_false, hw]
    by_cases h3 : w = j <;> by_cases h4 : j < 16 <;> simp [h3, h4]

theorem update_axis_shadow (d W w : Nat) (bv sv : ℚ) :
    (update_axis d W w bv sv).2 =
      if d = DISTANCE_MODE_ABSOLUTE then (if W.testBit w = true ∧ bv ≠ sv then bv else sv)
      else (if W.testBit w = true ∧ bv = 0 then sv else sv + bv) := by
  unfold update_axis
  by_cases hd : d = DISTANCE_MODE_ABSOLUTE
  · simp [hd, strip_or_update_shadow]
  · unfold incremental_axis
    rw [bit_istrue_bit]
    by_cases h1 : W.testBit w = true <;> by_cases h2 : bv = 0 <;> simp [hd, h1, h2]


theorem update_state_value_words (m : gc_modal_t) (v : gc_values_t) (b : parser_block_t)
    (j : Nat) :
    (update_state m v b).2.2.value_words.testBit j =
      (b.value_words.testBit j &&
       !(b.value_words.testBit WORD_F && decide (b.values.f = v.f) &&
          (decide (WORD_F = j) || !decide (j < 16))) &&
       !(b.value_words.testBit WORD_I && decide (b.values.ijk.e0 = 0) &&
          (decide (WORD_I = j) || !decide (j < 16))) &&
       !(b.value_words.testBit WORD_J && decide (b.values.ijk.e1 = 0) &&
          (decide (WORD_J = j) || !decide (j < 16))) &&
       !(b.value_words.testBit WORD_K && decide (b.values.ijk.e2 = 0) &&
          (decide (WORD_K = j) || !decide (j < 16))) &&
       !(b.value_words.testBit WORD_L && decide (b.values.l = v.l) &&
          (decide (WORD_L = j) || !decide (j < 16))) &&
       !(b.value_words.testBit WORD_N && decide (b.values.n = v.n) &&
          (decide (WORD_N = j) || !decide (j < 16))) &&
       !(b.value_words.testBit WORD_P && decide (b.values.p = v.p) &&
          (decide (WORD_P = j) || !decide (j < 16))) &&
       !(b.value_words.testBit WORD_R && decide (b.values.r = 0) &&
          (decide (WORD_R = j) || !decide (j < 16))) &&
       !(b.value_words.testBit WORD_S && decide (b.values.s = v.s) &&
          (decide (WORD_S = j) || !decide (j < 16))) &&
       !(b.value_words.testBit WORD_T && decide (b.values.t = v.t) &&
          (decide (WORD_T = j) || !decide (j < 16))) &&
       !(b.value_words.testBit (WORD_X + 0) && decide (if (update_state m v b).1.distance = DISTANCE_MODE_ABSOLUTE then b.values.xyz.e0 = v.xyz.e0 else b.values.xyz.e0 = 0) &&
          (decide ((WORD_X + 0) = j) || !decide (j < 16))) &&
       !(b.value_words.testBit (WORD_X + 1) && decide (if (update_state m v b).1.distance = DISTANCE_MODE_ABSOLUTE then b.values.xyz.e1 = v.xyz.e1 else b.values.xyz.e1 = 0) &&
          (decide ((WORD_X + 1) = j) || !decide (j < 16))) &&
       !(b.value_words.testBit (WORD_X + 2) && decide (if (update_state m v b).1.distance = DISTANCE_MODE_ABSOLUTE then b.values.xyz.e2 = v.xyz.e2 else b.values.xyz.e2 = 0) &&
          (decide ((WORD_X + 2) = j) || !decide (j < 16)))) := by
  simp [update_state, strip_or_update_words, strip_zero_words, update_axis_words, WORD_F, WORD_I,
    WORD_J, WORD_K, WORD_L, WORD_N, WORD_P, WORD_R, WORD_S, WORD_T, WORD_X, -Nat.testBit_zero]

theorem update_state_command_words (m : gc_modal_t) (v : gc_values_t) (b : parser_block_t)
    (j : Nat) :
    (update_state m v b).2.2.command_words.testBit j =
      (b.command_words.testBit j &&
       !(b.command_words.testBit MODAL_GROUP_G1 && decide (b.modal.motion = m.motion) &&
          (decide (MODAL_GROUP_G1 = j) || !decide (j < 16))) &&
       !(b.command_words.testBit MODAL_GROUP_G2 && decide (b.modal.plane_select = m.plane_select) &&
          (decide (MODAL_GROUP_G2 = j) || !decide (j < 16))) &&
       !(b.command_words.testBit MODAL_GROUP_G3 && decide (b.modal.distance = m.distance) &&
          (decide (MODAL_GROUP_G3 = j) || !decide (j < 16))) &&
       !(b.command_words.testBit MODAL_GROUP_G5 && decide (b.modal.feed_rate = m.feed_rate) &&
          (decide (MODAL_GROUP_G5 = j) || !decide (j < 16))) &&
       !(b.command_words.testBit MODAL_GROUP_G6 && decide (b.modal.units = m.units) &&
          (decide (MODAL_GROUP_G6 = j) || !decide (j < 16))) &&
       !(b.command_words.testBit MODAL_GROUP_G8 && decide (b.modal.tool_length = m.tool_length) &&
          (decide (MODAL_GROUP_G8 = j) || !decide (j < 16))) &&
       !(b.command_words.testBit MODAL_GROUP_G12 && decide (b.modal.coord_select = m.coord_select) &&
          (decide (MODAL_GROUP_G12 = j) || !decide (j < 16))) &&
       !(b.command_words.testBit MODAL_GROUP_M4 && decide (b.modal.program_flow = m.program_flow) &&
          (decide (MODAL_GROUP_M4 = j) || !decide (j < 16))) &&
       !(b.command_words.testBit MODAL_GROUP_M7 && decide (b.modal.spindle = m.spindle) &&
          (decide (MODAL_GROUP_M7 = j) || !decide (j < 16))) &&
       !(b.command_words.testBit MODAL_GROUP_M8 && decide (b.modal.coolant = m.coolant) &&
          (decide (MODAL_GROUP_M8 = j) || !decide (j < 16)))) := by
  simp [update_state, strip_or_update_words, MODAL_GROUP_G1, MODAL_GROUP_G2, MODAL_GROUP_G3,
    MODAL_GROUP_G5, MODAL_GROUP_G6, MODAL_GROUP_G8, MODAL_GROUP_G12, MODAL_GROUP_M4,
    MODAL_GROUP_M7, MODAL_GROUP_M8, -Nat.testBit_zero]

theorem update_state_block (m : gc_modal_t) (v : gc_values_t) (b : parser_block_t) :
    (update_state m v b).2.2 =
      { b with value_words := (update_state m v b).2.2.value_words,
                command_words := (update_state m v b).2.2.command_words } := rfl

theorem update_state_modal (m : gc_modal_t) (v : gc_values_t) (b : parser_block_t) :
    (update_state m v b).1 =
      { m with
        motion := if b.command_words.testBit MODAL_GROUP_G1 = true ∧ b.modal.motion ≠ m.motion then b.modal.motion
          else m.motion,
        plane_select := if b.command_words.testBit MODAL_GROUP_G2 = true ∧ b.modal.plane_select ≠ m.plane_select then b.modal.plane_select
          else m.plane_select,
        distance := if b.command_words.testBit MODAL_GROUP_G3 = true ∧ b.modal.distance ≠ m.distance then b.modal.distance
          else m.distance,
        feed_rate := if b.command_words.testBit MODAL_GROUP_G5 = true ∧ b.modal.feed_rate ≠ m.feed_rate then b.modal.feed_rate
          else m.feed_rate,
        units := if b.command_words.testBit MODAL_GROUP_G6 = true ∧ b.modal.units ≠ m.units then b.modal.units
          else m.units,
        tool_length := if b.command_words.testBit MODAL_GROUP_G8 = true ∧ b.modal.tool_length ≠ m.tool_length then b.modal.tool_length
          else m.tool_length,
        coord_select := if b.command_words.testBit MODAL_GROUP_G12 = true ∧ b.modal.coord_select ≠ m.coord_select then b.modal.coord_select
          else m.coord_select,
        program_flow := if b.command_words.testBit MODAL_GROUP_M4 = true ∧ b.modal.program_flow ≠ m.program_flow then b.modal.program_flow
          else m.program_flow,
        spindle := if b.command_words.testBit MODAL_GROUP_M7 = true ∧ b.modal.spindle ≠ m.spindle then b.modal.spindle
          else m.spindle,
        coolant := if b.command_words.testBit MODAL_GROUP_M8 = true ∧ b.modal.coolant ≠ m.coolant then b.modal.coolant
          else m.coolant } := by
  simp [update_state, strip_or_update_words, strip_or_update_shadow, MODAL_GROUP_G1,
    MODAL_GROUP_G2, MODAL_GROUP_G3,
    MODAL_GROUP_G5, MODAL_GROUP_G6, MODAL_GROUP_G8, MODAL_GROUP_G12, MODAL_GROUP_M4,
    MODAL_GROUP_M7, MODAL_GROUP_M8, -Nat.testBit_zero]

theorem update_state_values (m : gc_modal_t) (v : gc_values_t) (b : parser_block_t) :
    (update_state m v b).2.1 =
      { v with
        f := if b.value_words.testBit WORD_F = true ∧ b.values.f ≠ v.f then b.values.f
          else v.f,
        l := if b.value_words.testBit WORD_L = true ∧ b.values.l ≠ v.l then b.values.l
          else v.l,
        n := if b.value_words.testBit WORD_N = true ∧ b.values.n ≠ v.n then b.values.n
          else v.n,
        p := if b.value_words.testBit WORD_P = true ∧ b.values.p ≠ v.p then b.values.p
          else v.p,
        s := if b.value_words.testBit WORD_S = true ∧ b.values.s ≠ v.s then b.values.s
          else v.s,
        t := if b.value_words.testBit WORD_T = true ∧ b.values.t ≠ v.t then b.values.t
          else v.t,
        xyz :=
          ⟨(update_axis (update_state m v b).1.distance b.value_words (WORD_X + 0)
              b.values.xyz.e0 v.xyz.e0).2,
           (update_axis (update_state m v b).1.distance b.value_words (WORD_X + 1)
              b.values.xyz.e1 v.xyz.e1).2,
           (update_axis (update_state m v b).1.distance b.value_words (WORD_X + 2)
              b.values.xyz.e2 v.xyz.e2).2⟩ } := by
  simp [update_state, strip_or_update_words, strip_zero_words, update_axis_words,
    strip_or_update_shadow, update_axis_shadow, WORD_F, WORD_I,
    WORD_J, WORD_K, WORD_L, WORD_N, WORD_P, WORD_R, WORD_S, WORD_T, WORD_X, -Nat.testBit_zero]

theorem strip_bool (a p : Bool) : (a && (!a || !p)) = (a && !p) := by
  cases a <;> cases p <;> rfl

theorem fire_twice (a p : Bool) : (a && !p && p) = false := by
  cases a <;> cases p <;> rfl

theorem idem_field {α : Type} [DecidableEq α] (c : Bool) (bv sv : α) :
    (if (c && !decide (bv = sv)) = true ∧ bv ≠ sv then bv else sv) =
      (if c = true ∧ bv ≠ sv then bv else sv) := by
  cases c <;> by_cases h : bv = sv <;> simp [h]

theorem idem_axis (d W W2 w : Nat) (bv sv : ℚ)
    (h : W2.testBit w =
      (W.testBit w && !decide (if d = DISTANCE_MODE_ABSOLUTE then bv = sv else bv = 0))) :
    (update_axis d W2 w bv sv).2 = (update_axis d W w bv sv).2 := by
  rw [update_axis_shadow, update_axis_shadow, h]
  by_cases hd : d = DISTANCE_MODE_ABSOLUTE
  · simp only [hd, if_true]
    exact idem_field _ _ _
  · simp only [hd, if_false]
    cases W.testBit w <;> by_cases h0 : bv = 0 <;> simp [h0]

/-- The bit of each modal group after `update_state`: the bit of the block, cleared when
the block's field equals the shadow's. -/
theorem update_state_command_bits (m : gc_modal_t) (v : gc_values_t) (b : parser_block_t) :
    (update_state m v b).2.2.command_words.testBit MODAL_GROUP_G1 =
      (b.command_words.testBit MODAL_GROUP_G1 && !decide (b.modal.motion = m.motion)) ∧
    (update_state m v b).2.2.command_words.testBit MODAL_GROUP_G2 =
      (b.command_words.testBit MODAL_GROUP_G2 && !decide (b.modal.plane_select = m.plane_select)) ∧
    (update_state m v b).2.2.command_words.testBit MODAL_GROUP_G3 =
      (b.command_words.testBit MODAL_GROUP_G3 && !decide (b.modal.distance = m.distance)) ∧
    (update_state m v b).2.2.command_words.testBit MODAL_GROUP_G5 =
      (b.command_words.testBit MODAL_GROUP_G5 && !decide (b.modal.feed_rate = m.feed_rate)) ∧
    (update_state m v b).2.2.command_words.testBit MODAL_GROUP_G6 =
      (b.command_words.testBit MODAL_GROUP_G6 && !decide (b.modal.units = m.units)) ∧
    (update_state m v b).2.2.command_words.testBit MODAL_GROUP_G8 =
      (b.command_words.testBit MODAL_GROUP_G8 && !decide (b.modal.tool_length = m.tool_length)) ∧
    (update_state m v b).2.2.command_words.testBit MODAL_GROUP_G12 =
      (b.command_words.testBit MODAL_GROUP_G12 && !decide (b.modal.coord_select = m.coord_select)) ∧
    (update_state m v b).2.2.command_words.testBit MODAL_GROUP_M4 =
      (b.command_words.testBit MODAL_GROUP_M4 && !decide (b.modal.program_flow = m.program_flow)) ∧
    (update_state m v b).2.2.command_words.testBit MODAL_GROUP_M7 =
      (b.command_words.testBit MODAL_GROUP_M7 && !decide (b.modal.spindle = m.spindle)) ∧
    (update_state m v b).2.2.command_words.testBit MODAL_GROUP_M8 =
      (b.command_words.testBit MODAL_GROUP_M8 && !decide (b.modal.coolant = m.coolant)) := by
  simp [update_state_command_words, strip_bool, MODAL_GROUP_G1, MODAL_GROUP_G2, MODAL_GROUP_G3,
    MODAL_GROUP_G5, MODAL_GROUP_G6, MODAL_GROUP_G8, MODAL_GROUP_G12, MODAL_GROUP_M4,
    MODAL_GROUP_M7, MODAL_GROUP_M8, -Nat.testBit_zero]

/-- The bit of each value word after `update_state`: the bit of the block, cleared when
the word is redundant. -/
theorem update_state_value_bits (m : gc_modal_t) (v : gc_values_t) (b : parser_block_t) :
    (update_state m v b).2.2.value_words.testBit WORD_F =
      (b.value_words.testBit WORD_F &&
        !decide (b.values.f = v.f)) ∧
    (update_state m v b).2.2.value_words.testBit WORD_I =
      (b.value_words.testBit WORD_I &&
        !decide (b.values.ijk.e0 = 0)) ∧
    (update_state m v b).2.2.value_words.testBit WORD_J =
      (b.value_words.testBit WORD_J &&
        !decide (b.values.ijk.e1 = 0)) ∧
    (update_state m v b).2.2.value_words.testBit WORD_K =
      (b.value_words.testBit WORD_K &&
        !decide (b.values.ijk.e2 = 0)) ∧
    (update_state m v b).2.2.value_words.testBit WORD_L =
      (b.value_words.testBit WORD_L &&
        !decide (b.values.l = v.l)) ∧
    (update_state m v b).2.2.value_words.testBit WORD_N =
      (b.value_words.testBit WORD_N &&
        !decide (b.values.n = v.n)) ∧
    (update_state m v b).2.2.value_words.testBit WORD_P =
      (b.value_words.testBit WORD_P &&
        !decide (b.values.p = v.p)) ∧
    (update_state m v b).2.2.value_words.testBit WORD_R =
      (b.value_words.testBit WORD_R &&
        !decide (b.values.r = 0)) ∧
    (update_state m v b).2.2.value_words.testBit WORD_S =
      (b.value_words.testBit WORD_S &&
        !decide (b.values.s = v.s)) ∧
    (update_state m v b).2.2.value_words.testBit WORD_T =
      (b.value_words.testBit WORD_T &&
        !decide (b.values.t = v.t)) ∧
    (update_state m v b).2.2.value_words.testBit (WORD_X + 0) =
      (b.value_words.testBit (WORD_X + 0) &&
        !decide (if (update_state m v b).1.distance = DISTANCE_MODE_ABSOLUTE then b.values.xyz.e0 = v.xyz.e0 else b.values.xyz.e0 = 0)) ∧
    (update_state m v b).2.2.value_words.testBit (WORD_X + 1) =
      (b.value_words.testBit (WORD_X + 1) &&
        !decide (if (update_state m v b).1.distance = DISTANCE_MODE_ABSOLUTE then b.values.xyz.e1 = v.xyz.e1 else b.values.xyz.e1 = 0)) ∧
    (update_state m v b).2.2.value_words.testBit (WORD_X + 2) =
      (b.value_words.testBit (WORD_X + 2) &&
        !decide (if (update_state m v b).1.distance = DISTANCE_MODE_ABSOLUTE then b.values.xyz.e2 = v.xyz.e2 else b.values.xyz.e2 = 0)) := by
  simp [update_state_value_words, strip_bool, WORD_F, WORD_I, WORD_J, WORD_K, WORD_L, WORD_N,
    WORD_P, WORD_R, WORD_S, WORD_T, WORD_X, -Nat.testBit_zero]

theorem update_state_idem_modal (m : gc_modal_t) (v : gc_values_t) (b : parser_block_t) :
    (update_state m v (update_state m v b).2.2).1 = (update_state m v b).1 := by
  have hm : (update_state m v b).2.2.modal = b.modal := rfl
  obtain ⟨h1, h2, h3, h4, h5, h6, h7, h8, h9, h10⟩ := update_state_command_bits m v b
  rw [update_state_modal, update_state_modal m v b]
  simp only [hm, h1, h2, h3, h4, h5, h6, h7, h8, h9, h10, idem_field]

theorem update_state_idem_values (m : gc_modal_t) (v : gc_values_t) (b : parser_block_t) :
    (update_state m v (update_state m v b).2.2).2.1 = (update_state m v b).2.1 := by
  have hv : (update_state m v b).2.2.values = b.values := rfl
  obtain ⟨h1, -, -, -, h5, h6, h7, -, h9, h10, h11, h12, h13⟩ := update_state_value_bits m v b
  rw [update_state_values, update_state_values m v b]
  simp only [hv, update_state_idem_modal, h1, h5, h6, h7, h9, h10, idem_field,
    idem_axis _ _ _ _ _ _ h11, idem_axis _ _ _ _ _ _ h12, idem_axis _ _ _ _ _ _ h13]

theorem update_state_idem_block (m : gc_modal_t) (v : gc_values_t) (b : parser_block_t) :
    (update_state m v (update_state m v b).2.2).2.2 = (update_state m v b).2.2 := by
  have hv : (update_state m v b).2.2.values = b.values := rfl
  have hm : (update_state m v b).2.2.modal = b.modal := rfl
  obtain ⟨c1, c2, c3, c4, c5, c6, c7, c8, c9, c10⟩ := update_state_command_bits m v b
  obtain ⟨h1, h2, h3, h4, h5, h6, h7, h8, h9, h10, h11, h12, h13⟩ :=
    update_state_value_bits m v b
  have hw : (update_state m v (update_state m v b).2.2).2.2.value_words =
      (update_state m v b).2.2.value_words := by
    apply Nat.eq_of_testBit_eq
    intro j
    rw [update_state_value_words m v (update_state m v b).2.2 j]
    simp only [hv, update_state_idem_modal, h1, h2, h3, h4, h5, h6, h7, h8, h9, h10, h11, h12,
      h13, fire_twice, Bool.false_and, Bool.not_false, Bool.and_true]
  have hc : (update_state m v (update_state m v b).2.2).2.2.command_words =
      (update_state m v b).2.2.command_words := by
    apply Nat.eq_of_testBit_eq
    intro j
    rw [update_state_command_words m v (update_state m v b).2.2 j]
    simp only [hm, c1, c2, c3, c4, c5, c6, c7, c8, c9, c10, fire_twice, Bool.false_and,
      Bool.not_false, Bool.and_true]
  rw [update_state_block m v (update_state m v b).2.2, hw, hc]

/-- One call of `update_state` on a block that an earlier call with the same shadow has
stripped changes nothing more: it returns the same shadow and the same block. -/
theorem update_state_idem (m : gc_modal_t) (v : gc_values_t) (b : parser_block_t) :
    update_state m v (update_state m v b).2.2 = update_state m v b :=
  Prod.ext (update_state_idem_modal m v b)
    (Prod.ext (update_state_idem_values m v b) (update_state_idem_block m v b))

theorem cleanup_idem_step (s : cleanup_state_t) (b : parser_block_t) :
    cleanup s (cleanup s b).2 = cleanup s b := by
  simp only [cleanup, update_state_idem]

theorem cleanup_stream_idem (bs : List parser_block_t) :
    ∀ s : cleanup_state_t,
      run_stream cleanup s (run_stream cleanup s bs).2 = run_stream cleanup s bs := by
  induction bs with
  | nil => intro s; rfl
  | cons b bs ih =>
    intro s
    simp only [run_stream_cons, cleanup_idem_step, ih]

/-- C11: cleanup is idempotent. For every stream, running `cleanup` from `cleanup_init`
over the output of a first `cleanup` pass from `cleanup_init` returns that output again,
block for block (so the `value_words`, the `command_words` and the values of every block
are unchanged), and ends in the same shadow as the first pass. -/
theorem cleanup_idempotent (bs : List parser_block_t) :
    run_stream cleanup cleanup_init (run_stream cleanup cleanup_init bs).2 =
      run_stream cleanup cleanup_init bs :=
  cleanup_stream_idem bs cleanup_init

/-! ## `dragmode` -/

theorem bit_istrue_mask (x m : Nat) :
    bit_istrue x m = true ↔ ∃ j, x.testBit j = true ∧ m.testBit j = true := by
  unfold bit_istrue
  constructor
  · intro h
    have hne : x &&& m ≠ 0 := by simpa using h
    obtain ⟨j, hj⟩ := Nat.ne_zero_implies_bit_true hne
    exact ⟨j, by simpa [Nat.testBit_and] using hj⟩
  · rintro ⟨j, h1, h2⟩
    have : (x &&& m).testBit j = true := by simp [Nat.testBit_and, h1, h2]
    have hne : x &&& m ≠ 0 := by
      intro h0
      rw [h0] at this
      simp at this
    simpa using hne

theorem bit_istrue_bit_true (x m k : Nat) :
    bit_istrue (bit_true x m) (bit k) = (bit_istrue x (bit k) || m.testBit k) := by
  simp [bit_istrue_bit, bit_true, Nat.testBit_or]

theorem drag_arc_words_xyz (L : Libm) (o s : drag_state_t) (b : parser_block_t) :
    (drag_arc_words L o s b).values.xyz = b.values.xyz := by
  unfold drag_arc_words
  split_ifs <;> rfl

theorem drag_block_facts (L : Libm) (o s : drag_state_t) (b : parser_block_t) :
    (drag_block L o s b).values.xyz.e0 = s.values.xyz.e0 + s.v.e0 * s.d ∧
    (drag_block L o s b).values.xyz.e1 = s.values.xyz.e1 + s.v.e1 * s.d ∧
    (drag_block L o s b).values.xyz.e2 = b.values.xyz.e2 ∧
    bit_istrue (drag_block L o s b).value_words (bit WORD_X) = true ∧
    bit_istrue (drag_block L o s b).value_words (bit WORD_Y) = true := by
  simp only [drag_block, drag_arc_words_xyz, bit_istrue_bit_true]
  refine ⟨trivial, trivial, trivial, ?_, ?_⟩ <;> simp +decide [WORD_X, WORD_Y, bit]

/-- The two ways in which `dragmode` returns: with the block `nb` that `normarcs` leaves,
the new state is `drag_new_state`, and the blocks are the rewritten move alone, or the
pivot arc and the rewritten move. -/
theorem dragmode_some (L : Libm) (state : drag_state_t) (block : parser_block_t)
    (s' : drag_state_t) (out : List parser_block_t)
    (h : dragmode L state block = some (s', out)) :
    ∃ nb v0 v1,
      normarcs L (drag_update state block).2.2 (drag_update state block).1.motion
        ((drag_update state block).2.1.xyz.e0 - state.values.xyz.e0)
        ((drag_update state block).2.1.xyz.e1 - state.values.xyz.e1) = some nb ∧
      calcv L nb (drag_update state block).1.motion
        ((drag_update state block).2.1.xyz.e0 - state.values.xyz.e0)
        ((drag_update state block).2.1.xyz.e1 - state.values.xyz.e1) state.v = (v0, v1) ∧
      s' = drag_new_state state (drag_update state block).1 (drag_update state block).2.1 v1 ∧
      out =
        if v0.e0 * state.v.e0 + v0.e1 * state.v.e1 < s'.cosminangle ∧
            s'.values.xyz.e2 < 0 ∧ state.values.xyz.e2 < 0 then
          [drag_pivot state s' v0 (drag_block L state s' nb),
           drag_moved s' (drag_block L state s' nb)]
        else [drag_block L state s' nb] := by
  unfold dragmode at h
  simp only [] at h
  split at h
  · simp at h
  · rename_i nb hnb
    generalize hc : calcv L nb (drag_update state block).1.motion
        ((drag_update state block).2.1.xyz.e0 - state.values.xyz.e0)
        ((drag_update state block).2.1.xyz.e1 - state.values.xyz.e1) state.v = c at h
    obtain ⟨v0, v1⟩ := c
    refine ⟨nb, v0, v1, hnb, hc, ?_⟩
    split_ifs at h with h1 <;>
    · simp only [Option.some.injEq, Prod.mk.injEq] at h
      obtain ⟨rfl, rfl⟩ := h
      simp [h1]


theorem update_state_value_words_sub (m : gc_modal_t) (v : gc_values_t) (b : parser_block_t)
    (j : Nat) (h : (update_state m v b).2.2.value_words.testBit j = true) :
    b.value_words.testBit j = true := by
  rw [update_state_value_words] at h
  revert h
  cases b.value_words.testBit j <;> simp

theorem update_state_no_arc_words (m : gc_modal_t) (v : gc_values_t) (b : parser_block_t)
    (hR : bit_istrue b.value_words (bit WORD_R) = false)
    (hIJ : bit_istrue b.value_words (bit WORD_I ||| bit WORD_J) = false) :
    bit_istrue (update_state m v b).2.2.value_words (bit WORD_R) = false ∧
    bit_istrue (update_state m v b).2.2.value_words (bit WORD_I ||| bit WORD_J) = false := by
  constructor
  · rw [bit_istrue_bit] at hR ⊢
    cases h : (update_state m v b).2.2.value_words.testBit WORD_R
    · rfl
    · rw [update_state_value_words_sub m v b _ h] at hR
      exact absurd hR (by decide)
  · cases h : bit_istrue (update_state m v b).2.2.value_words (bit WORD_I ||| bit WORD_J)
    · rfl
    · obtain ⟨j, h1, h2⟩ := (bit_istrue_mask _ _).mp h
      have := (bit_istrue_mask b.value_words _).mpr ⟨j, update_state_value_words_sub m v b j h1, h2⟩
      rw [this] at hIJ
      exact absurd hIJ (by decide)

theorem normarcs_no_arc_words (L : Libm) (b : parser_block_t) (motion : Nat) (x y : ℚ)
    (hR : bit_istrue b.value_words (bit WORD_R) = false)
    (hIJ : bit_istrue b.value_words (bit WORD_I ||| bit WORD_J) = false) :
    normarcs L b motion x y = some b := by
  simp [normarcs, hR, hIJ]

/-- A block without R, I and J words reaches no `assert`: `dragmode` returns. -/
theorem dragmode_defined (L : Libm) (state : drag_state_t) (block : parser_block_t)
    (hR : bit_istrue block.value_words (bit WORD_R) = false)
    (hIJ : bit_istrue block.value_words (bit WORD_I ||| bit WORD_J) = false) :
    ∃ s' out, dragmode L state block = some (s', out) := by
  obtain ⟨h1, h2⟩ := update_state_no_arc_words state.modal state.values
    { block with command_words := bit_false block.command_words (bit MODAL_GROUP_M7) } hR hIJ
  unfold dragmode
  simp only []
  rw [show (drag_update state block).2.2 = _ from rfl]
  unfold drag_update
  rw [normarcs_no_arc_words L _ _ _ _ h1 h2]
  simp only []
  split_ifs <;> exact ⟨_, _, rfl⟩

/-- C1: drag blade-tip fidelity. Whenever `dragmode` returns, from any state and for any
block: the new shadow is the one `update_state` leaves (the blade-tip target), the offset
`d` is unchanged, and the last block returned has as XY target the blade-tip target plus
`d` times the new blade direction, so that the blade-tip target is the machine target
minus `d` times the new blade direction, and it carries the X and the Y word. A block
without R, I and J words reaches no `assert`, so `dragmode` returns for it. -/
theorem drag_blade_tip_fidelity (L : Libm) (state : drag_state_t) (block : parser_block_t) :
    (∀ s' out, dragmode L state block = some (s', out) →
      s'.modal = (drag_update state block).1 ∧ s'.values = (drag_update state block).2.1 ∧
      s'.d = state.d ∧
      ∃ last, out.getLast? = some last ∧
        last.values.xyz.e0 = s'.values.xyz.e0 + s'.d * s'.v.e0 ∧
        last.values.xyz.e1 = s'.values.xyz.e1 + s'.d * s'.v.e1 ∧
        s'.values.xyz.e0 = last.values.xyz.e0 - s'.d * s'.v.e0 ∧
        s'.values.xyz.e1 = last.values.xyz.e1 - s'.d * s'.v.e1 ∧
        bit_istrue last.value_words (bit WORD_X) = true ∧
        bit_istrue last.value_words (bit WORD_Y) = true) ∧
    (bit_istrue block.value_words (bit WORD_R) = false →
      bit_istrue block.value_words (bit WORD_I ||| bit WORD_J) = false →
      ∃ s' out, dragmode L state block = some (s', out)) := by
  refine ⟨?_, dragmode_defined L state block⟩
  intro s' out h
  obtain ⟨nb, v0, v1, -, -, hs, hout⟩ := dragmode_some L state block s' out h
  refine ⟨by rw [hs]; rfl, by rw [hs]; rfl, by rw [hs]; rfl, ?_⟩
  obtain ⟨b0, b1, -, b3, b4⟩ := drag_block_facts L state s' nb
  have key : ∀ last : parser_block_t,
      last.values.xyz.e0 = s'.values.xyz.e0 + s'.v.e0 * s'.d →
      last.values.xyz.e1 = s'.values.xyz.e1 + s'.v.e1 * s'.d →
      last.values.xyz.e0 = s'.values.xyz.e0 + s'.d * s'.v.e0 ∧
      last.values.xyz.e1 = s'.values.xyz.e1 + s'.d * s'.v.e1 ∧
      s'.values.xyz.e0 = last.values.xyz.e0 - s'.d * s'.v.e0 ∧
      s'.values.xyz.e1 = last.values.xyz.e1 - s'.d * s'.v.e1 := by
    intro last e0 e1
    rw [e0, e1]
    refine ⟨by ring, by ring, by ring, by ring⟩
  split_ifs at hout
  · obtain ⟨k0, k1, k2, k3⟩ := key (drag_moved s' (drag_block L state s' nb)) b0 b1
    exact ⟨drag_moved s' (drag_block L state s' nb), by rw [hout]; rfl, k0, k1, k2, k3, b3, b4⟩
  · obtain ⟨k0, k1, k2, k3⟩ := key (drag_block L state s' nb) b0 b1
    exact ⟨drag_block L state s' nb, by rw [hout]; rfl, k0, k1, k2, k3, b3, b4⟩

theorem dragmode_v0 (L : Libm) (state : drag_state_t) (block : parser_block_t)
    (nb : parser_block_t) (v0 v1 : vec2)
    (hn : normarcs L (drag_update state block).2.2 (drag_update state block).1.motion
        ((drag_update state block).2.1.xyz.e0 - state.values.xyz.e0)
        ((drag_update state block).2.1.xyz.e1 - state.values.xyz.e1) = some nb)
    (hc : calcv L nb (drag_update state block).1.motion
        ((drag_update state block).2.1.xyz.e0 - state.values.xyz.e0)
        ((drag_update state block).2.1.xyz.e1 - state.values.xyz.e1) state.v = (v0, v1)) :
    drag_v0 L state block = some v0 := by
  unfold drag_v0
  simp only [hn, Option.map_some', hc]

/-- C2: `dragmode` returns 1 or 2 blocks. Whenever it returns, with `v0` the entry tangent
it computes: the number of blocks is 1 or 2; it is 2 exactly when the dot product of `v0`
with the previous blade direction is below the threshold `cosminangle` and the blade-tip Z
is below 0 both before and after the block; the two blocks are then the pivot arc (a G2 or
G3 of radius `d` about the blade tip) followed by the rewritten move, and otherwise the
rewritten move alone. The threshold is `cos(minangle / 180 * 3.141)` at `dragmode_init`
and no call changes it. A block without R, I and J words reaches no `assert`. -/
theorem dragmode_returns_one_or_two (L : Libm) (state : drag_state_t)
    (block : parser_block_t) :
    (∀ s' out, dragmode L state block = some (s', out) →
      ∃ v0, drag_v0 L state block = some v0 ∧
        (out.length = 1 ∨ out.length = 2) ∧
        (out.length = 2 ↔
          (v0.e0 * state.v.e0 + v0.e1 * state.v.e1 < state.cosminangle ∧
            s'.values.xyz.e2 < 0 ∧ state.values.xyz.e2 < 0)) ∧
        (out.length = 2 →
          ∃ pivot moved, out = [pivot, moved] ∧
            (pivot.modal.motion = MOTION_MODE_CW_ARC ∨
              pivot.modal.motion = MOTION_MODE_CCW_ARC) ∧
            pivot.command_words = bit MODAL_GROUP_G1 ∧ pivot.values.r = state.d ∧
            moved.values.xyz.e0 = s'.values.xyz.e0 + s'.v.e0 * s'.d ∧
            moved.values.xyz.e1 = s'.values.xyz.e1 + s'.v.e1 * s'.d) ∧
        s'.cosminangle = state.cosminangle) ∧
    (∀ d angle0 minangle : ℚ,
      (dragmode_init L d angle0 minangle).cosminangle = L.cos (minangle / 180 * (3141 / 1000))) ∧
    (bit_istrue block.value_words (bit WORD_R) = false →
      bit_istrue block.value_words (bit WORD_I ||| bit WORD_J) = false →
      ∃ s' out, dragmode L state block = some (s', out)) := by
  refine ⟨?_, fun _ _ _ => rfl, dragmode_defined L state block⟩
  intro s' out h
  obtain ⟨nb, v0, v1, hn, hc, hs, hout⟩ := dragmode_some L state block s' out h
  have hcos : s'.cosminangle = state.cosminangle := by rw [hs]; rfl
  have hd : s'.d = state.d := by rw [hs]; rfl
  obtain ⟨b0, b1, -, -, -⟩ := drag_block_facts L state s' nb
  refine ⟨v0, dragmode_v0 L state block nb v0 v1 hn hc, ?_⟩
  rw [hcos] at hout
  by_cases hcond : v0.e0 * state.v.e0 + v0.e1 * state.v.e1 < state.cosminangle ∧
      s'.values.xyz.e2 < 0 ∧ state.values.xyz.e2 < 0
  · rw [if_pos hcond] at hout
    subst hout
    refine ⟨Or.inr rfl, ⟨fun _ => hcond, fun _ => rfl⟩, fun _ => ⟨_, _, rfl, ?_, rfl, hd, b0, b1⟩, hcos⟩
    simp only [drag_pivot]
    split_ifs
    · exact Or.inl rfl
    · exact Or.inr rfl
  · rw [if_neg hcond] at hout
    subst hout
    refine ⟨Or.inl rfl, ⟨fun h => absurd h (by simp), fun h => absurd h hcond⟩,
      fun h => absurd h (by simp), hcos⟩

/-! ## Scenario S4 -/

theorem dragmode_eq (L : Libm) (state : drag_state_t) (block nb : parser_block_t)
    (v0 v1 : vec2)
    (hn : normarcs L (drag_update state block).2.2 (drag_update state block).1.motion
        ((drag_update state block).2.1.xyz.e0 - state.values.xyz.e0)
        ((drag_update state block).2.1.xyz.e1 - state.values.xyz.e1) = some nb)
    (hc : calcv L nb (drag_update state block).1.motion
        ((drag_update state block).2.1.xyz.e0 - state.values.xyz.e0)
        ((drag_update state block).2.1.xyz.e1 - state.values.xyz.e1) state.v = (v0, v1)) :
    dragmode L state block =
      some (drag_new_state state (drag_update state block).1 (drag_update state block).2.1 v1,
        if v0.e0 * state.v.e0 + v0.e1 * state.v.e1 < state.cosminangle ∧
            (drag_update state block).2.1.xyz.e2 < 0 ∧ state.values.xyz.e2 < 0 then
          [drag_pivot state
              (drag_new_state state (drag_update state block).1 (drag_update state block).2.1 v1)
              v0
              (drag_block L state
                (drag_new_state state (drag_update state block).1 (drag_update state block).2.1 v1)
                nb),
           drag_moved
              (drag_new_state state (drag_update state block).1 (drag_update state block).2.1 v1)
              (drag_block L state
                (drag_new_state state (drag_update state block).1 (drag_update state block).2.1 v1)
                nb)]
        else
          [drag_block L state
            (drag_new_state state (drag_update state block).1 (drag_update state block).2.1 v1)
            nb]) := by
  unfold dragmode
  simp only [hn, hc]
  split_ifs with h1 h2 h2
  · rfl
  · exact absurd h1 h2
  · exact absurd h2 h1
  · rfl

theorem drag_S4_update_1 (c : ℚ) :
    (drag_update (drag_S4_state_0 c) block_S4_1).1 = (drag_S4_state_1 c).modal ∧
    (drag_update (drag_S4_state_0 c) block_S4_1).2.1 = (drag_S4_state_1 c).values := by
  unfold drag_update
  rw [update_state_modal, update_state_values, update_state_modal]
  simp +decide [update_axis_shadow, bit_false, block_S4_1, drag_S4_state_0, drag_S4_state_1,
    parser_block_t.zero, gc_modal_t.zero, gc_values_t.zero,
    vec3.zero, bit_eq_two_pow, Nat.testBit_or, Nat.testBit_two_pow, testBit_bit_false,
    MODAL_GROUP_G1, MODAL_GROUP_G2, MODAL_GROUP_G3,
    MODAL_GROUP_G5, MODAL_GROUP_G6, MODAL_GROUP_G8, MODAL_GROUP_G12, MODAL_GROUP_M4,
    MODAL_GROUP_M7, MODAL_GROUP_M8, WORD_F, WORD_I, WORD_J, WORD_K, WORD_L, WORD_N,
    WORD_P, WORD_R, WORD_S, WORD_T, WORD_X, WORD_Y, WORD_Z, MOTION_MODE_LINEAR,
    DISTANCE_MODE_ABSOLUTE, -Nat.testBit_zero]

theorem drag_S4_update_2 (c : ℚ) :
    (drag_update (drag_S4_state_1 c) block_S4_2).1 = (drag_S4_state_2 c).modal ∧
    (drag_update (drag_S4_state_1 c) block_S4_2).2.1 = (drag_S4_state_2 c).values := by
  unfold drag_update
  rw [update_state_modal, update_state_values, update_state_modal]
  simp +decide [update_axis_shadow, bit_false, block_S4_2, drag_S4_state_1, drag_S4_state_2,
    parser_block_t.zero, gc_modal_t.zero, gc_values_t.zero,
    vec3.zero, bit_eq_two_pow, Nat.testBit_or, Nat.testBit_two_pow, testBit_bit_false,
    MODAL_GROUP_G1, MODAL_GROUP_G2, MODAL_GROUP_G3,
    MODAL_GROUP_G5, MODAL_GROUP_G6, MODAL_GROUP_G8, MODAL_GROUP_G12, MODAL_GROUP_M4,
    MODAL_GROUP_M7, MODAL_GROUP_M8, WORD_F, WORD_I, WORD_J, WORD_K, WORD_L, WORD_N,
    WORD_P, WORD_R, WORD_S, WORD_T, WORD_X, WORD_Y, WORD_Z, MOTION_MODE_LINEAR,
    DISTANCE_MODE_ABSOLUTE, -Nat.testBit_zero]

theorem drag_update_no_arc_words (state : drag_state_t) (block : parser_block_t)
    (hR : bit_istrue block.value_words (bit WORD_R) = false)
    (hIJ : bit_istrue block.value_words (bit WORD_I ||| bit WORD_J) = false) (L : Libm)
    (motion : Nat) (x y : ℚ) :
    normarcs L (drag_update state block).2.2 motion x y = some (drag_update state block).2.2 := by
  obtain ⟨h1, h2⟩ := update_state_no_arc_words state.modal state.values
    { block with command_words := bit_false block.command_words (bit MODAL_GROUP_M7) } hR hIJ
  exact normarcs_no_arc_words L _ motion x y h1 h2

theorem drag_update_values (state : drag_state_t) (block : parser_block_t) :
    (drag_update state block).2.2.values = block.values := rfl

theorem drag_S4_call_1 (L : Libm) (c : ℚ) (h121 : L.sqrt 121 = 11) :
    dragmode L (drag_S4_state_0 c) block_S4_1 =
      some (drag_S4_state_1 c,
        [drag_block L (drag_S4_state_0 c) (drag_S4_state_1 c)
          (drag_update (drag_S4_state_0 c) block_S4_1).2.2]) := by
  obtain ⟨um, uv⟩ := drag_S4_update_1 c
  have hc : calcv L (drag_update (drag_S4_state_0 c) block_S4_1).2.2
      (drag_update (drag_S4_state_0 c) block_S4_1).1.motion
      ((drag_update (drag_S4_state_0 c) block_S4_1).2.1.xyz.e0 - (drag_S4_state_0 c).values.xyz.e0)
      ((drag_update (drag_S4_state_0 c) block_S4_1).2.1.xyz.e1 - (drag_S4_state_0 c).values.xyz.e1)
      (drag_S4_state_0 c).v = (⟨1, 0⟩, ⟨1, 0⟩) := by
    have e : (0 : ℚ) + (10 - -1) * (10 - -1) + (0 - 0) * (0 - 0) = 121 := by norm_num
    have hr : block_S4_1.values.r = 0 := rfl
    rw [uv]
    simp only [calcv, drag_update_values, hr, drag_S4_state_0, drag_S4_state_1, e, h121]
    norm_num
  rw [dragmode_eq L (drag_S4_state_0 c) block_S4_1 _ ⟨1, 0⟩ ⟨1, 0⟩
    (drag_update_no_arc_words _ _ (by decide) (by decide) L _ _ _) hc, um, uv]
  have hs : drag_new_state (drag_S4_state_0 c) (drag_S4_state_1 c).modal
      (drag_S4_state_1 c).values ⟨1, 0⟩ = drag_S4_state_1 c := by
    simp [drag_new_state, drag_S4_state_0, drag_S4_state_1]
  rw [hs, if_neg]
  simp [drag_S4_state_0, gc_values_t.zero, vec3.zero]

theorem drag_S4_call_2 (L : Libm) (c : ℚ) (h100 : L.sqrt 100 = 10) (hc0 : 0 < c) :
    dragmode L (drag_S4_state_1 c) block_S4_2 =
      some (drag_S4_state_2 c,
        [drag_pivot (drag_S4_state_1 c) (drag_S4_state_2 c) ⟨0, 1⟩
          (drag_block L (drag_S4_state_1 c) (drag_S4_state_2 c)
            (drag_update (drag_S4_state_1 c) block_S4_2).2.2),
         drag_moved (drag_S4_state_2 c)
          (drag_block L (drag_S4_state_1 c) (drag_S4_state_2 c)
            (drag_update (drag_S4_state_1 c) block_S4_2).2.2)]) := by
  obtain ⟨um, uv⟩ := drag_S4_update_2 c
  have hc : calcv L (drag_update (drag_S4_state_1 c) block_S4_2).2.2
      (drag_update (drag_S4_state_1 c) block_S4_2).1.motion
      ((drag_update (drag_S4_state_1 c) block_S4_2).2.1.xyz.e0 - (drag_S4_state_1 c).values.xyz.e0)
      ((drag_update (drag_S4_state_1 c) block_S4_2).2.1.xyz.e1 - (drag_S4_state_1 c).values.xyz.e1)
      (drag_S4_state_1 c).v = (⟨0, 1⟩, ⟨0, 1⟩) := by
    have e : (0 : ℚ) + (10 - 10) * (10 - 10) + (10 - 0) * (10 - 0) = 100 := by norm_num
    have hr : block_S4_2.values.r = 0 := rfl
    rw [uv]
    simp only [calcv, drag_update_values, hr, drag_S4_state_1, drag_S4_state_2, e, h100]
    norm_num
  rw [dragmode_eq L (drag_S4_state_1 c) block_S4_2 _ ⟨0, 1⟩ ⟨0, 1⟩
    (drag_update_no_arc_words _ _ (by decide) (by decide) L _ _ _) hc, um, uv]
  have hs : drag_new_state (drag_S4_state_1 c) (drag_S4_state_2 c).modal
      (drag_S4_state_2 c).values ⟨0, 1⟩ = drag_S4_state_2 c := by
    simp [drag_new_state, drag_S4_state_1, drag_S4_state_2]
  rw [hs, if_pos]
  simp [drag_S4_state_1, drag_S4_state_2, hc0]

theorem dragmode_init_S4 (L : Libm) (hcos : L.cos 0 = 1) (hsin : L.sin 0 = 0) :
    dragmode_init L 1 0 2 = drag_S4_state_0 (L.cos (2 / 180 * (3141 / 1000))) := by
  simp [dragmode_init, drag_S4_state_0, hcos, hsin]


theorem drag_S4_pivot_facts (c : ℚ) (b : parser_block_t) :
    (drag_pivot (drag_S4_state_1 c) (drag_S4_state_2 c) ⟨0, 1⟩ b).modal.motion =
      MOTION_MODE_CCW_ARC ∧
    (drag_pivot (drag_S4_state_1 c) (drag_S4_state_2 c) ⟨0, 1⟩ b).command_words =
      bit MODAL_GROUP_G1 ∧
    (drag_pivot (drag_S4_state_1 c) (drag_S4_state_2 c) ⟨0, 1⟩ b).value_words =
      bit WORD_R ||| bit WORD_X ||| bit WORD_Y ∧
    (drag_pivot (drag_S4_state_1 c) (drag_S4_state_2 c) ⟨0, 1⟩ b).values.r = 1 ∧
    (drag_pivot (drag_S4_state_1 c) (drag_S4_state_2 c) ⟨0, 1⟩ b).values.xyz.e0 = 10 ∧
    (drag_pivot (drag_S4_state_1 c) (drag_S4_state_2 c) ⟨0, 1⟩ b).values.xyz.e1 = 1 := by
  refine ⟨?_, rfl, rfl, rfl, ?_, ?_⟩ <;> simp [drag_pivot, drag_S4_state_1, drag_S4_state_2]

theorem drag_S4_moved_facts (L : Libm) (c : ℚ) (b : parser_block_t) :
    (drag_moved (drag_S4_state_2 c)
      (drag_block L (drag_S4_state_1 c) (drag_S4_state_2 c) b)).values.xyz.e0 = 10 ∧
    (drag_moved (drag_S4_state_2 c)
      (drag_block L (drag_S4_state_1 c) (drag_S4_state_2 c) b)).values.xyz.e1 = 11 := by
  obtain ⟨b0, b1, -⟩ := drag_block_facts L (drag_S4_state_1 c) (drag_S4_state_2 c) b
  constructor
  · show (drag_block L (drag_S4_state_1 c) (drag_S4_state_2 c) b).values.xyz.e0 = 10
    rw [b0]
    simp [drag_S4_state_2]
  · show (drag_block L (drag_S4_state_1 c) (drag_S4_state_2 c) b).values.xyz.e1 = 11
    rw [b1]
    simp [drag_S4_state_2]
    norm_num

/-- Scenario S4 for any mathematics library that is exact at the values the scenario
needs: the two calls of `dragmode` and the blocks they return. -/
theorem drag_S4 (L : Libm) (hcos : L.cos 0 = 1) (hsin : L.sin 0 = 0)
    (h121 : L.sqrt 121 = 11) (h100 : L.sqrt 100 = 10)
    (hmin : 0 < L.cos (2 / 180 * (3141 / 1000))) :
    ∃ s1 o1 s2 pivot moved,
      dragmode L (dragmode_init L 1 0 2) block_S4_1 = some (s1, [o1]) ∧
      dragmode L s1 block_S4_2 = some (s2, [pivot, moved]) ∧
      pivot.modal.motion = MOTION_MODE_CCW_ARC ∧
      pivot.command_words = bit MODAL_GROUP_G1 ∧
      pivot.value_words = bit WORD_R ||| bit WORD_X ||| bit WORD_Y ∧
      pivot.values.r = 1 ∧ pivot.values.xyz.e0 = 10 ∧ pivot.values.xyz.e1 = 1 ∧
      moved.values.xyz.e0 = 10 ∧ moved.values.xyz.e1 = 11 := by
  rw [dragmode_init_S4 L hcos hsin]
  obtain ⟨p1, p2, p3, p4, p5, p6⟩ := drag_S4_pivot_facts (L.cos (2 / 180 * (3141 / 1000)))
    (drag_block L (drag_S4_state_1 (L.cos (2 / 180 * (3141 / 1000))))
      (drag_S4_state_2 (L.cos (2 / 180 * (3141 / 1000))))
      (drag_update (drag_S4_state_1 (L.cos (2 / 180 * (3141 / 1000)))) block_S4_2).2.2)
  obtain ⟨m1, m2⟩ := drag_S4_moved_facts L (L.cos (2 / 180 * (3141 / 1000)))
    (drag_update (drag_S4_state_1 (L.cos (2 / 180 * (3141 / 1000)))) block_S4_2).2.2
  exact ⟨drag_S4_state_1 (L.cos (2 / 180 * (3141 / 1000))), _,
    drag_S4_state_2 (L.cos (2 / 180 * (3141 / 1000))), _, _,
    drag_S4_call_1 L _ h121, drag_S4_call_2 L _ h100 hmin, p1, p2, p3, p4, p5, p6, m1, m2⟩

theorem libmQ_facts :
    libmQ.cos 0 = 1 ∧ libmQ.sin 0 = 0 ∧ libmQ.sqrt 121 = 11 ∧ libmQ.sqrt 100 = 10 ∧
    0 < libmQ.cos (2 / 180 * (3141 / 1000)) := by
  refine ⟨by norm_num [libmQ], by norm_num [libmQ], ?_, ?_, by norm_num [libmQ]⟩
  · have h := Rat.sqrt_eq 11
    rw [show (11 : ℚ) * 11 = 121 by norm_num, abs_of_pos (by norm_num)] at h
    exact h
  · have h := Rat.sqrt_eq 10
    rw [show (10 : ℚ) * 10 = 100 by norm_num, abs_of_pos (by norm_num)] at h
    exact h

/-- C3 (amended): scenario S4. With `dragmode_init(d = 1, angle0 = 0, minangle = 2)` and a
mathematics library that is exact at the values the scenario needs (cos 0 = 1, sin 0 = 0,
sqrt 121 = 11, sqrt 100 = 10, cos of 2 degrees positive), the call for `G1 X10 Y0 Z-1`
returns one block and the call for `G1 X10 Y10` returns two, of which the first is the
pivot arc: a G3 (counter-clockwise) arc of radius 1 with the words R, X and Y, from the
machine position (11, 0) to (10, 1) about the blade tip (10, 0); the second is the move,
to the machine position (10, 11). -/
theorem drag_S4_pivot_is_G3 (L : Libm) (hcos : L.cos 0 = 1) (hsin : L.sin 0 = 0)
    (h121 : L.sqrt 121 = 11) (h100 : L.sqrt 100 = 10)
    (hmin : 0 < L.cos (2 / 180 * (3141 / 1000))) :
    ∃ s1 o1 s2 pivot moved,
      dragmode L (dragmode_init L 1 0 2) block_S4_1 = some (s1, [o1]) ∧
      dragmode L s1 block_S4_2 = some (s2, [pivot, moved]) ∧
      pivot.modal.motion = MOTION_MODE_CCW_ARC ∧
      pivot.command_words = bit MODAL_GROUP_G1 ∧
      pivot.value_words = bit WORD_R ||| bit WORD_X ||| bit WORD_Y ∧
      pivot.values.r = 1 ∧ pivot.values.xyz.e0 = 10 ∧ pivot.values.xyz.e1 = 1 ∧
      moved.values.xyz.e0 = 10 ∧ moved.values.xyz.e1 = 11 :=
  drag_S4 L hcos hsin h121 h100 hmin

/-- Witness of C3 (amended) at the rational mathematics library `libmQ`. -/
theorem drag_S4_pivot_is_G3_witness :
    (libmQ.cos 0 = 1 ∧ libmQ.sin 0 = 0 ∧ libmQ.sqrt 121 = 11 ∧ libmQ.sqrt 100 = 10 ∧
      0 < libmQ.cos (2 / 180 * (3141 / 1000))) ∧
    ∃ s1 o1 s2 pivot moved,
      dragmode libmQ (dragmode_init libmQ 1 0 2) block_S4_1 = some (s1, [o1]) ∧
      dragmode libmQ s1 block_S4_2 = some (s2, [pivot, moved]) ∧
      pivot.modal.motion = MOTION_MODE_CCW_ARC ∧
      pivot.command_words = bit MODAL_GROUP_G1 ∧
      pivot.value_words = bit WORD_R ||| bit WORD_X ||| bit WORD_Y ∧
      pivot.values.r = 1 ∧ pivot.values.xyz.e0 = 10 ∧ pivot.values.xyz.e1 = 1 ∧
      moved.values.xyz.e0 = 10 ∧ moved.values.xyz.e1 = 11 :=
  ⟨libmQ_facts,
    drag_S4_pivot_is_G3 libmQ libmQ_facts.1 libmQ_facts.2.1 libmQ_facts.2.2.1
      libmQ_facts.2.2.2.1 libmQ_facts.2.2.2.2⟩

/-- Counterexample to C3 as stated: in scenario S4, evaluated with the rational
mathematics library `libmQ`, the second call returns two blocks and the motion of the
inserted first block is G3 (counter-clockwise), which is not G2 (clockwise). -/
theorem drag_S4_pivot_not_G2 :
    ∃ s1 o1 s2 pivot moved,
      dragmode libmQ (dragmode_init libmQ 1 0 2) block_S4_1 = some (s1, [o1]) ∧
      dragmode libmQ s1 block_S4_2 = some (s2, [pivot, moved]) ∧
      pivot.modal.motion = MOTION_MODE_CCW_ARC ∧
      pivot.modal.motion ≠ MOTION_MODE_CW_ARC :=
  match drag_S4 libmQ libmQ_facts.1 libmQ_facts.2.1 libmQ_facts.2.2.1
      libmQ_facts.2.2.2.1 libmQ_facts.2.2.2.2 with
  | ⟨s1, o1, s2, pivot, moved, h1, h2, h3, _⟩ =>
    ⟨s1, o1, s2, pivot, moved, h1, h2, h3, by rw [h3]; decide⟩

/-! ## `lasermode` -/

theorem lasermode_some (L : Libm) (SD : Nat) (state : laser_state_t) (block : parser_block_t)
    (s' : laser_state_t) (out : List parser_block_t)
    (h : lasermode L SD state block = some (s', out)) :
    ∃ nb v0 v1,
      normarcs L (update_state state.modal state.values block).2.2
        (update_state state.modal state.values block).1.motion
        ((update_state state.modal state.values block).2.1.xyz.e0 - state.values.xyz.e0)
        ((update_state state.modal state.values block).2.1.xyz.e1 - state.values.xyz.e1) =
          some nb ∧
      calcv L nb (update_state state.modal state.values block).1.motion
        ((update_state state.modal state.values block).2.1.xyz.e0 - state.values.xyz.e0)
        ((update_state state.modal state.values block).2.1.xyz.e1 - state.values.xyz.e1)
        state.v = (v0, v1) ∧
      s' = { state with modal := (update_state state.modal state.values block).1,
                        values := (update_state state.modal state.values block).2.1,
                        v := v1 } ∧
      out = laser_blocks SD state s' v0 nb := by
  unfold lasermode at h
  simp only [] at h
  split at h
  · simp at h
  · rename_i nb hnb
    generalize hc : calcv L nb (update_state state.modal state.values block).1.motion
        ((update_state state.modal state.values block).2.1.xyz.e0 - state.values.xyz.e0)
        ((update_state state.modal state.values block).2.1.xyz.e1 - state.values.xyz.e1)
        state.v = c at h
    obtain ⟨v0, v1⟩ := c
    simp only [Option.some.injEq, Prod.mk.injEq] at h
    obtain ⟨rfl, rfl⟩ := h
    exact ⟨nb, v0, v1, hnb, hc, rfl, rfl⟩

theorem lasermode_eq (L : Libm) (SD : Nat) (state : laser_state_t) (block nb : parser_block_t)
    (v0 v1 : vec2)
    (hn : normarcs L (update_state state.modal state.values block).2.2
        (update_state state.modal state.values block).1.motion
        ((update_state state.modal state.values block).2.1.xyz.e0 - state.values.xyz.e0)
        ((update_state state.modal state.values block).2.1.xyz.e1 - state.values.xyz.e1) =
          some nb)
    (hc : calcv L nb (update_state state.modal state.values block).1.motion
        ((update_state state.modal state.values block).2.1.xyz.e0 - state.values.xyz.e0)
        ((update_state state.modal state.values block).2.1.xyz.e1 - state.values.xyz.e1)
        state.v = (v0, v1)) :
    lasermode L SD state block =
      some ({ state with modal := (update_state state.modal state.values block).1,
                         values := (update_state state.modal state.values block).2.1,
                         v := v1 },
        laser_blocks SD state
          { state with modal := (update_state state.modal state.values block).1,
                       values := (update_state state.modal state.values block).2.1,
                       v := v1 } v0 nb) := by
  unfold lasermode
  simp only [hn, hc]

/-- A block without R, I and J words reaches no `assert`: `lasermode` returns. -/
theorem lasermode_defined (L : Libm) (SD : Nat) (state : laser_state_t)
    (block : parser_block_t)
    (hR : bit_istrue block.value_words (bit WORD_R) = false)
    (hIJ : bit_istrue block.value_words (bit WORD_I ||| bit WORD_J) = false) :
    ∃ s' out, lasermode L SD state block = some (s', out) := by
  obtain ⟨h1, h2⟩ := update_state_no_arc_words state.modal state.values block hR hIJ
  exact ⟨_, _, lasermode_eq L SD state block _ _ _
    (normarcs_no_arc_words L _ _ _ _ h1 h2) rfl⟩

theorem lasermode_v0 (L : Libm) (state : laser_state_t) (block : parser_block_t)
    (nb : parser_block_t) (v0 v1 : vec2)
    (hn : normarcs L (update_state state.modal state.values block).2.2
        (update_state state.modal state.values block).1.motion
        ((update_state state.modal state.values block).2.1.xyz.e0 - state.values.xyz.e0)
        ((update_state state.modal state.values block).2.1.xyz.e1 - state.values.xyz.e1) =
          some nb)
    (hc : calcv L nb (update_state state.modal state.values block).1.motion
        ((update_state state.modal state.values block).2.1.xyz.e0 - state.values.xyz.e0)
        ((update_state state.modal state.values block).2.1.xyz.e1 - state.values.xyz.e1)
        state.v = (v0, v1)) :
    laser_v0 L state block = some v0 := by
  unfold laser_v0
  simp only [hn, Option.map_some', hc]

theorem laser_discontinuity_iff (o s : laser_state_t) (v0 : vec2) :
    laser_discontinuity o s v0 ↔
      (v0.e0 * o.v.e0 + v0.e1 * o.v.e1 < s.M ∨ s.values.f ≠ o.values.f ∨
        ¬(s.values.s = 0 ↔ o.values.s = 0) ∨ s.modal.spindle ≠ o.modal.spindle) := by
  unfold laser_discontinuity
  rw [zero_add]
  have : (decide (s.values.s = 0) ≠ decide (o.values.s = 0)) ↔
      ¬(s.values.s = 0 ↔ o.values.s = 0) := by
    by_cases h1 : s.values.s = 0 <;> by_cases h2 : o.values.s = 0 <;> simp [h1, h2]
  rw [this]

theorem laser_cutting_iff (SD : Nat) (m : gc_modal_t) (v : gc_values_t) :
    laser_cutting SD m v = true ↔
      (v.s ≠ 0 ∧ m.spindle ≠ SD ∧ m.motion ≠ MOTION_MODE_SEEK) := by
  simp [laser_cutting, and_assoc]

theorem laser_extprev_iff (SD : Nat) (o s : laser_state_t) (v0 : vec2) :
    laser_extprev SD o s v0 = true ↔
      (laser_discontinuity o s v0 ∧ o.values.s ≠ 0 ∧ o.modal.spindle ≠ SD ∧
        o.modal.motion ≠ MOTION_MODE_SEEK) := by
  unfold laser_extprev
  rw [Bool.and_eq_true, laser_cutting_iff, decide_eq_true_iff]

theorem laser_extnext_iff (SD : Nat) (o s : laser_state_t) (v0 : vec2) :
    laser_extnext SD o s v0 = true ↔
      (laser_discontinuity o s v0 ∧ s.values.s ≠ 0 ∧ s.modal.spindle ≠ SD ∧
        s.modal.motion ≠ MOTION_MODE_SEEK) := by
  unfold laser_extnext
  rw [Bool.and_eq_true, laser_cutting_iff, decide_eq_true_iff]

/-- The blocks of `lasermode` in each of the four cases of the two flags. -/
theorem laser_blocks_cases (SD : Nat) (o s : laser_state_t) (v0 : vec2) (b : parser_block_t) :
    (laser_extprev SD o s v0 = true → laser_extnext SD o s v0 = true →
      laser_blocks SD o s v0 b =
        [lead_block b (laser_x1 o), laser_next o s v0 (lead_block b (laser_x1 o)),
         laser_junction o s b, laser_last s b]) ∧
    (laser_extprev SD o s v0 = true → laser_extnext SD o s v0 = false →
      laser_blocks SD o s v0 b =
        [lead_block b (laser_x1 o), laser_junction o s b, laser_last s b]) ∧
    (laser_extprev SD o s v0 = false → laser_extnext SD o s v0 = true →
      laser_blocks SD o s v0 b =
        [laser_next o s v0 b, laser_junction o s b, laser_last s b]) ∧
    (laser_extprev SD o s v0 = false → laser_extnext SD o s v0 = false →
      laser_blocks SD o s v0 b = [b]) := by
  refine ⟨?_, ?_, ?_, ?_⟩ <;> intro h1 h2 <;> simp [laser_blocks, h1, h2]

/-- C4: `lasermode` returns 1, 3 or 4 blocks. Whenever it returns, with `v0` the entry
tangent it computes, `disc` the discontinuity test (dot product of `v0` and the previous
direction below `M`, or F changed, or S = 0 changed, or the spindle mode changed),
`ext_prev` (`disc` and the previous move cuts: S not 0, spindle enabled, motion not G0)
and `ext_next` (`disc` and this move cuts): the number of blocks is 4 when both hold, 3
when exactly one holds and 1 when neither holds. The threshold `M` is not changed by the
call. A block without R, I and J words reaches no `assert`, so `lasermode` returns. -/
theorem lasermode_returns_one_three_or_four (L : Libm) (SPINDLE_DISABLE : Nat)
    (state : laser_state_t) (block : parser_block_t) :
    (∀ s' out, lasermode L SPINDLE_DISABLE state block = some (s', out) →
      ∃ v0, laser_v0 L state block = some v0 ∧ s'.M = state.M ∧
        ∀ disc ext_prev ext_next : Prop,
          (disc ↔ (v0.e0 * state.v.e0 + v0.e1 * state.v.e1 < state.M ∨
            s'.values.f ≠ state.values.f ∨ ¬(s'.values.s = 0 ↔ state.values.s = 0) ∨
            s'.modal.spindle ≠ state.modal.spindle)) →
          (ext_prev ↔ (disc ∧ state.values.s ≠ 0 ∧ state.modal.spindle ≠ SPINDLE_DISABLE ∧
            state.modal.motion ≠ MOTION_MODE_SEEK)) →
          (ext_next ↔ (disc ∧ s'.values.s ≠ 0 ∧ s'.modal.spindle ≠ SPINDLE_DISABLE ∧
            s'.modal.motion ≠ MOTION_MODE_SEEK)) →
          (ext_prev ∧ ext_next → out.length = 4) ∧
          ((ext_prev ∧ ¬ext_next) ∨ (¬ext_prev ∧ ext_next) → out.length = 3) ∧
          (¬ext_prev ∧ ¬ext_next → out.length = 1)) ∧
    (bit_istrue block.value_words (bit WORD_R) = false →
      bit_istrue block.value_words (bit WORD_I ||| bit WORD_J) = false →
      ∃ s' out, lasermode L SPINDLE_DISABLE state block = some (s', out)) := by
  refine ⟨?_, lasermode_defined L SPINDLE_DISABLE state block⟩
  intro s' out h
  obtain ⟨nb, v0, v1, hn, hc, hs, hout⟩ := lasermode_some L SPINDLE_DISABLE state block s' out h
  have hM : s'.M = state.M := by rw [hs]
  refine ⟨v0, lasermode_v0 L state block nb v0 v1 hn hc, hM, ?_⟩
  intro disc ext_prev ext_next hd hp hx
  have hd2 : disc ↔ laser_discontinuity state s' v0 := by
    rw [hd, laser_discontinuity_iff, hM]
  have hp2 : ext_prev ↔ laser_extprev SPINDLE_DISABLE state s' v0 = true := by
    rw [hp, laser_extprev_iff, hd2]
  have hx2 : ext_next ↔ laser_extnext SPINDLE_DISABLE state s' v0 = true := by
    rw [hx, laser_extnext_iff, hd2]
  obtain ⟨c1, c2, c3, c4⟩ := laser_blocks_cases SPINDLE_DISABLE state s' v0 nb
  rw [hp2, hx2, hout]
  refine ⟨?_, ?_, ?_⟩
  · rintro ⟨a, b⟩
    rw [c1 a b]
    rfl
  · rintro (⟨a, b⟩ | ⟨a, b⟩)
    · rw [c2 a (by simpa using b)]
      rfl
    · rw [c3 (by simpa using a) b]
      rfl
  · rintro ⟨a, b⟩
    rw [c4 (by simpa using a) (by simpa using b)]
    rfl

theorem lead_distance_eq (f a : ℚ) : lead_distance f a = (f / 60) ^ 2 / (2 * a) := by
  unfold lead_distance
  rw [div_div, sq]

theorem lead_block_facts (b : parser_block_t) (x : vec2) :
    (lead_block b x).values.xyz.e0 = x.e0 ∧ (lead_block b x).values.xyz.e1 = x.e1 ∧
    (lead_block b x).values.xyz.e2 = b.values.xyz.e2 ∧
    (lead_block b x).values.s = 0 ∧ (lead_block b x).modal.motion = MOTION_MODE_LINEAR ∧
    (lead_block b x).command_words = bit MODAL_GROUP_G1 ∧
    (lead_block b x).value_words =
      bit WORD_X ||| bit WORD_Y ||| bit WORD_S ||| (b.value_words &&& bit WORD_F) :=
  ⟨rfl, rfl, rfl, rfl, rfl, rfl, rfl⟩

theorem and_bit_cases (x k : Nat) : x &&& bit k = 0 ∨ x &&& bit k = bit k := by
  rw [bit_eq_two_pow]
  by_cases h : x.testBit k = true
  · right
    apply Nat.eq_of_testBit_eq
    intro j
    rw [Nat.testBit_and, Nat.testBit_two_pow]
    by_cases hj : k = j
    · subst hj; simp [h]
    · simp [hj]
  · left
    apply Nat.eq_of_testBit_eq
    intro j
    rw [Nat.testBit_and, Nat.testBit_two_pow, Nat.zero_testBit]
    by_cases hj : k = j
    · subst hj; simp at h; simp [h]
    · simp [hj]

/-- C5: laser lead length. Whenever `lasermode` returns, with `v0` the entry tangent:
when it extends the previous move (discontinuity, and the previous move cuts) the first
block returned targets the previous position plus `(F_prev/60)^2 / (2a)` times the previous
direction; when it extends this move (discontinuity, and this move cuts) a block returned
targets the previous position minus `(F_new/60)^2 / (2a)` times `v0`, and the block after
it targets the previous position; for a unit direction the squared length of the lead
segment is the square of `(F/60)^2 / (2a)`. The lead distance for F = 600 and a = 1000 is
1/20. The acceleration is not changed by the call. -/
theorem laser_lead_length (L : Libm) (SPINDLE_DISABLE : Nat) (state : laser_state_t)
    (block : parser_block_t) :
    (∀ s' out, lasermode L SPINDLE_DISABLE state block = some (s', out) →
      ∃ v0, laser_v0 L state block = some v0 ∧ s'.a = state.a ∧
        ((laser_discontinuity state s' v0 ∧ state.values.s ≠ 0 ∧
            state.modal.spindle ≠ SPINDLE_DISABLE ∧ state.modal.motion ≠ MOTION_MODE_SEEK) →
          ∃ first, out[0]? = some first ∧
            first.values.xyz.e0 =
              state.values.xyz.e0 + (state.values.f / 60) ^ 2 / (2 * state.a) * state.v.e0 ∧
            first.values.xyz.e1 =
              state.values.xyz.e1 + (state.values.f / 60) ^ 2 / (2 * state.a) * state.v.e1 ∧
            (state.v.e0 ^ 2 + state.v.e1 ^ 2 = 1 →
              (first.values.xyz.e0 - state.values.xyz.e0) ^ 2 +
                (first.values.xyz.e1 - state.values.xyz.e1) ^ 2 =
                ((state.values.f / 60) ^ 2 / (2 * state.a)) ^ 2)) ∧
        ((laser_discontinuity state s' v0 ∧ s'.values.s ≠ 0 ∧
            s'.modal.spindle ≠ SPINDLE_DISABLE ∧ s'.modal.motion ≠ MOTION_MODE_SEEK) →
          ∃ i lead junction, out[i]? = some lead ∧ out[i + 1]? = some junction ∧
            lead.values.xyz.e0 =
              state.values.xyz.e0 - (s'.values.f / 60) ^ 2 / (2 * s'.a) * v0.e0 ∧
            lead.values.xyz.e1 =
              state.values.xyz.e1 - (s'.values.f / 60) ^ 2 / (2 * s'.a) * v0.e1 ∧
            junction.values.xyz.e0 = state.values.xyz.e0 ∧
            junction.values.xyz.e1 = state.values.xyz.e1 ∧
            (v0.e0 ^ 2 + v0.e1 ^ 2 = 1 →
              (lead.values.xyz.e0 - junction.values.xyz.e0) ^ 2 +
                (lead.values.xyz.e1 - junction.values.xyz.e1) ^ 2 =
                ((s'.values.f / 60) ^ 2 / (2 * s'.a)) ^ 2))) ∧
    lead_distance 600 1000 = 1 / 20 ∧
    (bit_istrue block.value_words (bit WORD_R) = false →
      bit_istrue block.value_words (bit WORD_I ||| bit WORD_J) = false →
      ∃ s' out, lasermode L SPINDLE_DISABLE state block = some (s', out)) := by
  refine ⟨?_, by norm_num [lead_distance], lasermode_defined L SPINDLE_DISABLE state block⟩
  intro s' out h
  obtain ⟨nb, v0, v1, hn, hc, hs, hout⟩ := lasermode_some L SPINDLE_DISABLE state block s' out h
  have ha : s'.a = state.a := by rw [hs]
  refine ⟨v0, lasermode_v0 L state block nb v0 v1 hn hc, ha, ?_, ?_⟩
  · intro hp
    have hp2 := (laser_extprev_iff SPINDLE_DISABLE state s' v0).mpr hp
    have hfirst : out[0]? = some (lead_block nb (laser_x1 state)) := by
      rw [hout]
      simp [laser_blocks, hp2]
    refine ⟨_, hfirst, ?_, ?_, ?_⟩
    · simp only [lead_block, laser_x1, lead_distance_eq]
    · simp only [lead_block, laser_x1, lead_distance_eq]
    · intro hu
      simp only [lead_block, laser_x1, lead_distance_eq]
      linear_combination ((state.values.f / 60) ^ 2 / (2 * state.a)) ^ 2 * hu
  · intro hx
    have hx2 := (laser_extnext_iff SPINDLE_DISABLE state s' v0).mpr hx
    have key : ∀ b0 : parser_block_t,
        (laser_next state s' v0 b0).values.xyz.e0 =
          state.values.xyz.e0 - (s'.values.f / 60) ^ 2 / (2 * s'.a) * v0.e0 ∧
        (laser_next state s' v0 b0).values.xyz.e1 =
          state.values.xyz.e1 - (s'.values.f / 60) ^ 2 / (2 * s'.a) * v0.e1 ∧
        (laser_junction state s' nb).values.xyz.e0 = state.values.xyz.e0 ∧
        (laser_junction state s' nb).values.xyz.e1 = state.values.xyz.e1 ∧
        (v0.e0 ^ 2 + v0.e1 ^ 2 = 1 →
          ((laser_next state s' v0 b0).values.xyz.e0 -
              (laser_junction state s' nb).values.xyz.e0) ^ 2 +
            ((laser_next state s' v0 b0).values.xyz.e1 -
              (laser_junction state s' nb).values.xyz.e1) ^ 2 =
            ((s'.values.f / 60) ^ 2 / (2 * s'.a)) ^ 2) := by
      intro b0
      refine ⟨?_, ?_, rfl, rfl, ?_⟩
      · simp only [laser_next, lead_block, laser_x2, lead_distance_eq]
      · simp only [laser_next, lead_block, laser_x2, lead_distance_eq]
      · intro hu
        simp only [laser_next, laser_junction, lead_block, laser_x2, lead_distance_eq]
        linear_combination ((s'.values.f / 60) ^ 2 / (2 * s'.a)) ^ 2 * hu
    obtain ⟨c1, -, c3, -⟩ := laser_blocks_cases SPINDLE_DISABLE state s' v0 nb
    by_cases hp : laser_extprev SPINDLE_DISABLE state s' v0 = true
    · obtain ⟨k1, k2, k3, k4, k5⟩ := key (lead_block nb (laser_x1 state))
      refine ⟨1, _, _, ?_, ?_, k1, k2, k3, k4, k5⟩
      · rw [hout, c1 hp hx2]
        rfl
      · rw [hout, c1 hp hx2]
        rfl
    · obtain ⟨k1, k2, k3, k4, k5⟩ := key nb
      refine ⟨0, _, _, ?_, ?_, k1, k2, k3, k4, k5⟩
      · rw [hout, c3 (by simpa using hp) hx2]
        rfl
      · rw [hout, c3 (by simpa using hp) hx2]
        rfl

/-! ## Scenario of two collinear cutting moves -/

theorem laser_cut_update_1 (CW : Nat) (M : ℚ) (v : vec2) :
    (update_state (laser_cut_state_0 M v).modal (laser_cut_state_0 M v).values
      (block_cut_1 CW)).1 = (laser_cut_state_1 CW M).modal ∧
    (update_state (laser_cut_state_0 M v).modal (laser_cut_state_0 M v).values
      (block_cut_1 CW)).2.1 = (laser_cut_state_1 CW M).values := by
  rw [update_state_modal, update_state_values, update_state_modal]
  simp +decide [update_axis_shadow, bit_false, block_cut_1, laser_cut_state_0, laser_cut_state_1,
    parser_block_t.zero, gc_modal_t.zero, gc_values_t.zero,
    vec3.zero, bit_eq_two_pow, Nat.testBit_or, Nat.testBit_two_pow, testBit_bit_false,
    MODAL_GROUP_G1, MODAL_GROUP_G2, MODAL_GROUP_G3,
    MODAL_GROUP_G5, MODAL_GROUP_G6, MODAL_GROUP_G8, MODAL_GROUP_G12, MODAL_GROUP_M4,
    MODAL_GROUP_M7, MODAL_GROUP_M8, WORD_F, WORD_I, WORD_J, WORD_K, WORD_L, WORD_N,
    WORD_P, WORD_R, WORD_S, WORD_T, WORD_X, WORD_Y, WORD_Z, MOTION_MODE_LINEAR,
    DISTANCE_MODE_ABSOLUTE, -Nat.testBit_zero]
  intro h
  exact h.symm

theorem laser_cut_update_2 (CW : Nat) (M : ℚ) :
    (update_state (laser_cut_state_1 CW M).modal (laser_cut_state_1 CW M).values
      block_cut_2).1 = (laser_cut_state_2 CW M).modal ∧
    (update_state (laser_cut_state_1 CW M).modal (laser_cut_state_1 CW M).values
      block_cut_2).2.1 = (laser_cut_state_2 CW M).values := by
  rw [update_state_modal, update_state_values, update_state_modal]
  simp +decide [update_axis_shadow, bit_false, block_cut_2, laser_cut_state_1, laser_cut_state_2,
    parser_block_t.zero, gc_modal_t.zero, gc_values_t.zero,
    vec3.zero, bit_eq_two_pow, Nat.testBit_or, Nat.testBit_two_pow, testBit_bit_false,
    MODAL_GROUP_G1, MODAL_GROUP_G2, MODAL_GROUP_G3,
    MODAL_GROUP_G5, MODAL_GROUP_G6, MODAL_GROUP_G8, MODAL_GROUP_G12, MODAL_GROUP_M4,
    MODAL_GROUP_M7, MODAL_GROUP_M8, WORD_F, WORD_I, WORD_J, WORD_K, WORD_L, WORD_N,
    WORD_P, WORD_R, WORD_S, WORD_T, WORD_X, WORD_Y, WORD_Z, MOTION_MODE_LINEAR,
    DISTANCE_MODE_ABSOLUTE, -Nat.testBit_zero]

theorem update_state_block_values (m : gc_modal_t) (v : gc_values_t) (b : parser_block_t) :
    (update_state m v b).2.2.values = b.values := rfl

theorem block_cut_1_no_arc_words (CW : Nat) :
    bit_istrue (block_cut_1 CW).value_words (bit WORD_R) = false ∧
    bit_istrue (block_cut_1 CW).value_words (bit WORD_I ||| bit WORD_J) = false := by
  constructor
  · show bit_istrue (bit WORD_F ||| bit WORD_S ||| bit WORD_X) (bit WORD_R) = false
    decide
  · show bit_istrue (bit WORD_F ||| bit WORD_S ||| bit WORD_X) (bit WORD_I ||| bit WORD_J) = false
    decide

theorem laser_cut_call_1 (L : Libm) (SD CW : Nat) (M : ℚ) (v : vec2)
    (h100 : L.sqrt 100 = 10) :
    ∃ o1, lasermode L SD (laser_cut_state_0 M v) (block_cut_1 CW) =
      some (laser_cut_state_1 CW M, o1) := by
  obtain ⟨um, uv⟩ := laser_cut_update_1 CW M v
  have hn := normarcs_no_arc_words L
    (update_state (laser_cut_state_0 M v).modal (laser_cut_state_0 M v).values
      (block_cut_1 CW)).2.2
    (update_state (laser_cut_state_0 M v).modal (laser_cut_state_0 M v).values
      (block_cut_1 CW)).1.motion
    ((update_state (laser_cut_state_0 M v).modal (laser_cut_state_0 M v).values
      (block_cut_1 CW)).2.1.xyz.e0 - (laser_cut_state_0 M v).values.xyz.e0)
    ((update_state (laser_cut_state_0 M v).modal (laser_cut_state_0 M v).values
      (block_cut_1 CW)).2.1.xyz.e1 - (laser_cut_state_0 M v).values.xyz.e1)
    (update_state_no_arc_words _ _ _ (block_cut_1_no_arc_words CW).1
      (block_cut_1_no_arc_words CW).2).1
    (update_state_no_arc_words _ _ _ (block_cut_1_no_arc_words CW).1
      (block_cut_1_no_arc_words CW).2).2
  have hc : calcv L (update_state (laser_cut_state_0 M v).modal (laser_cut_state_0 M v).values
      (block_cut_1 CW)).2.2
      (update_state (laser_cut_state_0 M v).modal (laser_cut_state_0 M v).values
        (block_cut_1 CW)).1.motion
      ((update_state (laser_cut_state_0 M v).modal (laser_cut_state_0 M v).values
        (block_cut_1 CW)).2.1.xyz.e0 - (laser_cut_state_0 M v).values.xyz.e0)
      ((update_state (laser_cut_state_0 M v).modal (laser_cut_state_0 M v).values
        (block_cut_1 CW)).2.1.xyz.e1 - (laser_cut_state_0 M v).values.xyz.e1)
      (laser_cut_state_0 M v).v = (⟨1, 0⟩, ⟨1, 0⟩) := by
    have e : (0 : ℚ) + (10 - 0) * (10 - 0) + (0 - 0) * (0 - 0) = 100 := by norm_num
    have hr : (block_cut_1 CW).values.r = 0 := rfl
    rw [uv]
    simp only [calcv, update_state_block_values, hr, laser_cut_state_0, laser_cut_state_1,
      gc_values_t.zero, vec3.zero, e, h100]
    norm_num
  have h := lasermode_eq L SD (laser_cut_state_0 M v) (block_cut_1 CW) _ ⟨1, 0⟩ ⟨1, 0⟩ hn hc
  rw [um, uv] at h
  exact ⟨_, h⟩

theorem laser_cut_call_2 (L : Libm) (SD CW : Nat) (M : ℚ) (h100 : L.sqrt 100 = 10) :
    lasermode L SD (laser_cut_state_1 CW M) block_cut_2 =
      some (laser_cut_state_2 CW M,
        laser_blocks SD (laser_cut_state_1 CW M) (laser_cut_state_2 CW M) ⟨1, 0⟩
          (update_state (laser_cut_state_1 CW M).modal (laser_cut_state_1 CW M).values
            block_cut_2).2.2) := by
  obtain ⟨um, uv⟩ := laser_cut_update_2 CW M
  have hn := normarcs_no_arc_words L
    (update_state (laser_cut_state_1 CW M).modal (laser_cut_state_1 CW M).values
      block_cut_2).2.2
    (update_state (laser_cut_state_1 CW M).modal (laser_cut_state_1 CW M).values
      block_cut_2).1.motion
    ((update_state (laser_cut_state_1 CW M).modal (laser_cut_state_1 CW M).values
      block_cut_2).2.1.xyz.e0 - (laser_cut_state_1 CW M).values.xyz.e0)
    ((update_state (laser_cut_state_1 CW M).modal (laser_cut_state_1 CW M).values
      block_cut_2).2.1.xyz.e1 - (laser_cut_state_1 CW M).values.xyz.e1)
    (update_state_no_arc_words _ _ _ (by decide) (by decide)).1
    (update_state_no_arc_words _ _ _ (by decide) (by decide)).2
  have hc : calcv L (update_state (laser_cut_state_1 CW M).modal (laser_cut_state_1 CW M).values
      block_cut_2).2.2
      (update_state (laser_cut_state_1 CW M).modal (laser_cut_state_1 CW M).values
        block_cut_2).1.motion
      ((update_state (laser_cut_state_1 CW M).modal (laser_cut_state_1 CW M).values
        block_cut_2).2.1.xyz.e0 - (laser_cut_state_1 CW M).values.xyz.e0)
      ((update_state (laser_cut_state_1 CW M).modal (laser_cut_state_1 CW M).values
        block_cut_2).2.1.xyz.e1 - (laser_cut_state_1 CW M).values.xyz.e1)
      (laser_cut_state_1 CW M).v = (⟨1, 0⟩, ⟨1, 0⟩) := by
    have e : (0 : ℚ) + (20 - 10) * (20 - 10) + (0 - 0) * (0 - 0) = 100 := by norm_num
    have hr : block_cut_2.values.r = 0 := rfl
    rw [uv]
    simp only [calcv, update_state_block_values, hr, laser_cut_state_1, laser_cut_state_2,
      gc_values_t.zero, vec3.zero, e, h100]
    norm_num
  rw [lasermode_eq L SD (laser_cut_state_1 CW M) block_cut_2 _ ⟨1, 0⟩ ⟨1, 0⟩ hn hc, um, uv]
  rfl

/-- With a threshold `M` above 1 the junction of the two collinear cutting moves is a
discontinuity and both moves are extended. -/
theorem laser_cut_flags (SD CW : Nat) (M : ℚ) (hM : 1 < M) (hcw : CW ≠ SD) :
    laser_extprev SD (laser_cut_state_1 CW M) (laser_cut_state_2 CW M) ⟨1, 0⟩ = true ∧
    laser_extnext SD (laser_cut_state_1 CW M) (laser_cut_state_2 CW M) ⟨1, 0⟩ = true := by
  have hd : laser_discontinuity (laser_cut_state_1 CW M) (laser_cut_state_2 CW M) ⟨1, 0⟩ := by
    rw [laser_discontinuity_iff]
    left
    simpa [laser_cut_state_1, laser_cut_state_2] using hM
  constructor
  · rw [laser_extprev_iff]
    refine ⟨hd, ?_, ?_, ?_⟩ <;> simp [laser_cut_state_1, hcw, MOTION_MODE_LINEAR, MOTION_MODE_SEEK]
  · rw [laser_extnext_iff]
    refine ⟨hd, ?_, ?_, ?_⟩ <;> simp [laser_cut_state_2, hcw, MOTION_MODE_LINEAR, MOTION_MODE_SEEK]

/-- With a threshold `M` of at most 1 and nothing else changed, the junction of the two
collinear cutting moves is continuous: no move is extended. -/
theorem laser_cut_flags_continuous (SD CW : Nat) (M : ℚ) (hM : M ≤ 1) :
    laser_extprev SD (laser_cut_state_1 CW M) (laser_cut_state_2 CW M) ⟨1, 0⟩ = false ∧
    laser_extnext SD (laser_cut_state_1 CW M) (laser_cut_state_2 CW M) ⟨1, 0⟩ = false := by
  have hd : ¬laser_discontinuity (laser_cut_state_1 CW M) (laser_cut_state_2 CW M) ⟨1, 0⟩ := by
    rw [laser_discontinuity_iff]
    simpa [laser_cut_state_1, laser_cut_state_2] using hM
  constructor
  · simp [laser_extprev, hd]
  · simp [laser_extnext, hd]

theorem lasermode_init_cut (L : Libm) (s0 : laser_state_t) :
    lasermode_init L s0 1000 2 =
      laser_cut_state_0 (L.acos (2 / 180 * (314 / 100)) * L.acos (2 / 180 * (314 / 100))) s0.v :=
  rfl

/-- C6 (divergence of the code): the threshold that `lasermode_init` computes is the
square of the ARC cosine of `max_angle_deg / 180 * 3.14`, not of the cosine. With any
mathematics library whose arc cosine exceeds 1 at 2/180*3.14 (the true value is about
1.536) and that has sqrt 100 = 10, after `lasermode_init(a = 1000, 2)` the cutting move
`G1 X10 F600 S100 M3` followed by the collinear cutting move `G1 X20` (same direction,
same F, same S, same spindle mode) makes `lasermode` return 4 blocks for the second move:
the junction counts as a discontinuity and both moves are extended. With a threshold of
at most 1, as the square of a cosine is, the same call would return the move alone. -/
theorem laser_collinear_moves_extended (L : Libm) (SPINDLE_DISABLE SPINDLE_ENABLE_CW : Nat)
    (s0 : laser_state_t) (h100 : L.sqrt 100 = 10)
    (hacos : 1 < L.acos (2 / 180 * (314 / 100)))
    (hcw : SPINDLE_ENABLE_CW ≠ SPINDLE_DISABLE) :
    (∀ a theta : ℚ, (lasermode_init L s0 a theta).M =
      L.acos (theta / 180 * (314 / 100)) * L.acos (theta / 180 * (314 / 100))) ∧
    (∃ s1 o1 s2 out2,
      lasermode L SPINDLE_DISABLE (lasermode_init L s0 1000 2) (block_cut_1 SPINDLE_ENABLE_CW) =
        some (s1, o1) ∧
      lasermode L SPINDLE_DISABLE s1 block_cut_2 = some (s2, out2) ∧
      out2.length = 4) ∧
    (∀ M : ℚ, M ≤ 1 →
      ∃ s2 o2, lasermode L SPINDLE_DISABLE (laser_cut_state_1 SPINDLE_ENABLE_CW M) block_cut_2 =
        some (s2, [o2])) := by
  refine ⟨fun _ _ => rfl, ?_, ?_⟩
  · rw [lasermode_init_cut]
    obtain ⟨o1, h1⟩ := laser_cut_call_1 L SPINDLE_DISABLE SPINDLE_ENABLE_CW
      (L.acos (2 / 180 * (314 / 100)) * L.acos (2 / 180 * (314 / 100))) s0.v h100
    have hM : 1 < L.acos (2 / 180 * (314 / 100)) * L.acos (2 / 180 * (314 / 100)) := by
      nlinarith
    obtain ⟨f1, f2⟩ := laser_cut_flags SPINDLE_DISABLE SPINDLE_ENABLE_CW _ hM hcw
    refine ⟨_, o1, _, _, h1, laser_cut_call_2 L SPINDLE_DISABLE SPINDLE_ENABLE_CW _ h100, ?_⟩
    rw [(laser_blocks_cases _ _ _ _ _).1 f1 f2]
    rfl
  · intro M hM
    obtain ⟨f1, f2⟩ := laser_cut_flags_continuous SPINDLE_DISABLE SPINDLE_ENABLE_CW M hM
    have h := laser_cut_call_2 L SPINDLE_DISABLE SPINDLE_ENABLE_CW M h100
    rw [(laser_blocks_cases _ _ _ _ _).2.2.2 f1 f2] at h
    exact ⟨_, _, h⟩

theorem libmQ_acos_fact : 1 < libmQ.acos (2 / 180 * (314 / 100)) := by
  norm_num [libmQ]

/-- Witness of the C6 divergence at the rational mathematics library `libmQ`, with the
spindle codes 0 (disabled) and 1 (clockwise) and the all-zero state as the memory that
`lasermode_init` finds. -/
theorem laser_collinear_moves_extended_witness :
    (libmQ.sqrt 100 = 10 ∧ 1 < libmQ.acos (2 / 180 * (314 / 100)) ∧ (1 : Nat) ≠ 0) ∧
    ∃ s1 o1 s2 out2,
      lasermode libmQ 0 (lasermode_init libmQ (laser_cut_state_0 0 ⟨0, 0⟩) 1000 2)
        (block_cut_1 1) = some (s1, o1) ∧
      lasermode libmQ 0 s1 block_cut_2 = some (s2, out2) ∧ out2.length = 4 :=
  ⟨⟨libmQ_facts.2.2.2.1, libmQ_acos_fact, by decide⟩,
    (laser_collinear_moves_extended libmQ 0 1 (laser_cut_state_0 0 ⟨0, 0⟩)
      libmQ_facts.2.2.2.1 libmQ_acos_fact (by decide)).2.1⟩

/-! ## Blocks of a `lasermode` expansion -/

/-- What `normarcs` leaves as it is: the words, the commands, the modal fields and every
value but I, J and R. -/
theorem normarcs_frame (L : Libm) (b nb : parser_block_t) (motion : Nat) (x y : ℚ)
    (h : normarcs L b motion x y = some nb) :
    nb.value_words = b.value_words ∧ nb.command_words = b.command_words ∧
    nb.modal = b.modal ∧ nb.non_modal_command = b.non_modal_command ∧
    nb.values.xyz = b.values.xyz ∧ nb.values.f = b.values.f ∧ nb.values.s = b.values.s ∧
    nb.values.l = b.values.l ∧ nb.values.n = b.values.n ∧ nb.values.p = b.values.p ∧
    nb.values.t = b.values.t ∧ nb.values.ijk.e2 = b.values.ijk.e2 := by
  unfold normarcs at h
  simp only [] at h
  split_ifs at h <;>
    · simp only [Option.some.injEq] at h
      subst h
      exact ⟨rfl, rfl, rfl, rfl, rfl, rfl, rfl, rfl, rfl, rfl, rfl, rfl⟩

theorem lead_block_words (b : parser_block_t) (x : vec2) :
    (lead_block b x).value_words = bit WORD_X ||| bit WORD_Y ||| bit WORD_S ∨
    (lead_block b x).value_words = bit WORD_X ||| bit WORD_Y ||| bit WORD_S ||| bit WORD_F := by
  rcases and_bit_cases b.value_words WORD_F with h | h
  · left
    simp only [lead_block, h, Nat.or_zero]
  · right
    simp only [lead_block, h]

theorem lead_block_is_lead (b : parser_block_t) (x : vec2) :
    (lead_block b x).modal.motion = MOTION_MODE_LINEAR ∧
    (lead_block b x).command_words = bit MODAL_GROUP_G1 ∧
    (lead_block b x).values.s = 0 ∧
    bit_istrue (lead_block b x).value_words (bit WORD_S) = true ∧
    ((lead_block b x).value_words = bit WORD_X ||| bit WORD_Y ||| bit WORD_S ∨
      (lead_block b x).value_words =
        bit WORD_X ||| bit WORD_Y ||| bit WORD_S ||| bit WORD_F) := by
  refine ⟨rfl, rfl, rfl, ?_, lead_block_words b x⟩
  rcases lead_block_words b x with h | h <;> rw [h] <;> decide

theorem laser_last_facts (s : laser_state_t) (b : parser_block_t) :
    (laser_last s b).modal.motion = s.modal.motion ∧
    bit_istrue (laser_last s b).command_words (bit MODAL_GROUP_G1) = true ∧
    bit_istrue (laser_last s b).value_words (bit WORD_S) = true ∧
    (laser_last s b).values = { b.values with s := s.values.s } ∧
    (∀ j, j ≠ WORD_S → (laser_last s b).value_words.testBit j = b.value_words.testBit j) ∧
    (∀ j, j ≠ MODAL_GROUP_G1 →
      (laser_last s b).command_words.testBit j = b.command_words.testBit j) := by
  refine ⟨rfl, ?_, ?_, rfl, ?_, ?_⟩
  · simp only [laser_last]
    rw [bit_istrue_bit, testBit_bit_true]
    simp
  · simp only [laser_last]
    rw [bit_istrue_bit, testBit_bit_true]
    simp
  · intro j hj
    simp only [laser_last, testBit_bit_true]
    simp [Ne.symm hj]
  · intro j hj
    simp only [laser_last, testBit_bit_true]
    simp [Ne.symm hj]

/-- C27 (amended): the blocks of a `lasermode` expansion. Whenever `lasermode` returns
more than one block, the blocks are lead blocks followed by one last block. Every lead
block is a G1 move (motion linear, the motion group its only command) whose S slot is 0
with the S word present and whose words are exactly X, Y, S or X, Y, S, F. The last block
is the block as `update_state` and `normarcs` leave it (`nb`), with the S word added, S
set to the programmed S of the shadow, the motion group added and the motion of the
shadow: its XYZ values are those of the input block, and each of its words other than S
is a word of the input that `update_state` has not stripped as redundant. -/
theorem laser_expansion_blocks (L : Libm) (SPINDLE_DISABLE : Nat) (state : laser_state_t)
    (block : parser_block_t) (s' : laser_state_t) (out : List parser_block_t)
    (h : lasermode L SPINDLE_DISABLE state block = some (s', out)) (hlen : out.length ≠ 1) :
    ∃ leads last nb, out = leads ++ [last] ∧
      (leads.length = 2 ∨ leads.length = 3) ∧
      (∀ b ∈ leads, b.modal.motion = MOTION_MODE_LINEAR ∧
        b.command_words = bit MODAL_GROUP_G1 ∧ b.values.s = 0 ∧
        bit_istrue b.value_words (bit WORD_S) = true ∧
        (b.value_words = bit WORD_X ||| bit WORD_Y ||| bit WORD_S ∨
          b.value_words = bit WORD_X ||| bit WORD_Y ||| bit WORD_S ||| bit WORD_F)) ∧
      normarcs L (update_state state.modal state.values block).2.2
        (update_state state.modal state.values block).1.motion
        ((update_state state.modal state.values block).2.1.xyz.e0 - state.values.xyz.e0)
        ((update_state state.modal state.values block).2.1.xyz.e1 - state.values.xyz.e1) =
          some nb ∧
      last.modal.motion = s'.modal.motion ∧
      bit_istrue last.command_words (bit MODAL_GROUP_G1) = true ∧
      bit_istrue last.value_words (bit WORD_S) = true ∧
      last.values = { nb.values with s := s'.values.s } ∧
      last.values.xyz = block.values.xyz ∧
      (∀ j, j ≠ WORD_S →
        last.value_words.testBit j =
          (update_state state.modal state.values block).2.2.value_words.testBit j) ∧
      (∀ j, j ≠ WORD_S → last.value_words.testBit j = true →
        block.value_words.testBit j = true) := by
  obtain ⟨nb, v0, v1, hn, hc, hs, hout⟩ := lasermode_some L SPINDLE_DISABLE state block s' out h
  obtain ⟨c1, c2, c3, c4⟩ := laser_blocks_cases SPINDLE_DISABLE state s' v0 nb
  obtain ⟨l1, l2, l3, l4, l5, -⟩ := laser_last_facts s' nb
  obtain ⟨n1, -, -, -, n5, -⟩ := normarcs_frame L _ nb _ _ _ hn
  have hlast : (laser_last s' nb).values.xyz = block.values.xyz := by
    rw [l4]
    exact n5
  have hw : ∀ j, j ≠ WORD_S → (laser_last s' nb).value_words.testBit j =
      (update_state state.modal state.values block).2.2.value_words.testBit j := by
    intro j hj
    rw [l5 j hj, n1]
  have hw2 : ∀ j, j ≠ WORD_S → (laser_last s' nb).value_words.testBit j = true →
      block.value_words.testBit j = true := by
    intro j hj hb
    rw [hw j hj] at hb
    exact update_state_value_words_sub _ _ _ _ hb
  have hjun : ∀ b ∈ [laser_junction state s' nb],
      b.modal.motion = MOTION_MODE_LINEAR ∧
        b.command_words = bit MODAL_GROUP_G1 ∧ b.values.s = 0 ∧
        bit_istrue b.value_words (bit WORD_S) = true ∧
        (b.value_words = bit WORD_X ||| bit WORD_Y ||| bit WORD_S ∨
          b.value_words = bit WORD_X ||| bit WORD_Y ||| bit WORD_S ||| bit WORD_F) := by
    intro b hb
    rw [List.mem_singleton] at hb
    subst hb
    exact lead_block_is_lead _ _
  cases hp : laser_extprev SPINDLE_DISABLE state s' v0 <;>
    cases hx : laser_extnext SPINDLE_DISABLE state s' v0
  · rw [hout, c4 hp hx] at hlen
    exact absurd rfl hlen
  · refine ⟨[laser_next state s' v0 nb, laser_junction state s' nb], laser_last s' nb, nb,
      by rw [hout, c3 hp hx]; rfl, Or.inl rfl, ?_, hn, l1, l2, l3, l4, hlast, hw, hw2⟩
    intro b hb
    rw [List.mem_cons] at hb
    rcases hb with hb | hb
    · subst hb
      exact lead_block_is_lead _ _
    · exact hjun b hb
  · refine ⟨[lead_block nb (laser_x1 state), laser_junction state s' nb], laser_last s' nb, nb,
      by rw [hout, c2 hp hx]; rfl, Or.inl rfl, ?_, hn, l1, l2, l3, l4, hlast, hw, hw2⟩
    intro b hb
    rw [List.mem_cons] at hb
    rcases hb with hb | hb
    · subst hb
      exact lead_block_is_lead _ _
    · exact hjun b hb
  · refine ⟨[lead_block nb (laser_x1 state),
        laser_next state s' v0 (lead_block nb (laser_x1 state)), laser_junction state s' nb],
      laser_last s' nb, nb,
      by rw [hout, c1 hp hx]; rfl, Or.inr rfl, ?_, hn, l1, l2, l3, l4, hlast, hw, hw2⟩
    intro b hb
    rw [List.mem_cons] at hb
    rcases hb with hb | hb
    · subst hb
      exact lead_block_is_lead _ _
    · rw [List.mem_cons] at hb
      rcases hb with hb | hb
      · subst hb
        exact lead_block_is_lead _ _
      · exact hjun b hb

theorem laser_cut_update_3 (CW : Nat) (M : ℚ) :
    (update_state (laser_cut_state_1 CW M).modal (laser_cut_state_1 CW M).values
      block_S4_2).1 = (laser_cut_state_3 CW M).modal ∧
    (update_state (laser_cut_state_1 CW M).modal (laser_cut_state_1 CW M).values
      block_S4_2).2.1 = (laser_cut_state_3 CW M).values ∧
    (update_state (laser_cut_state_1 CW M).modal (laser_cut_state_1 CW M).values
      block_S4_2).2.2.value_words.testBit WORD_X = false := by
  refine ⟨?_, ?_, ?_⟩
  · rw [update_state_modal]
    simp +decide [bit_false, block_S4_2, laser_cut_state_1, laser_cut_state_3,
      parser_block_t.zero, gc_modal_t.zero, gc_values_t.zero,
      vec3.zero, bit_eq_two_pow, Nat.testBit_or, Nat.testBit_two_pow, testBit_bit_false,
      MODAL_GROUP_G1, MODAL_GROUP_G2, MODAL_GROUP_G3,
      MODAL_GROUP_G5, MODAL_GROUP_G6, MODAL_GROUP_G8, MODAL_GROUP_G12, MODAL_GROUP_M4,
      MODAL_GROUP_M7, MODAL_GROUP_M8, MOTION_MODE_LINEAR, -Nat.testBit_zero]
  · rw [update_state_values, update_state_modal]
    simp +decide [update_axis_shadow, bit_false, block_S4_2, laser_cut_state_1,
      laser_cut_state_3,
      parser_block_t.zero, gc_modal_t.zero, gc_values_t.zero,
      vec3.zero, bit_eq_two_pow, Nat.testBit_or, Nat.testBit_two_pow, testBit_bit_false,
      MODAL_GROUP_G1, MODAL_GROUP_G2, MODAL_GROUP_G3,
      MODAL_GROUP_G5, MODAL_GROUP_G6, MODAL_GROUP_G8, MODAL_GROUP_G12, MODAL_GROUP_M4,
      MODAL_GROUP_M7, MODAL_GROUP_M8, WORD_F, WORD_I, WORD_J, WORD_K, WORD_L, WORD_N,
      WORD_P, WORD_R, WORD_S, WORD_T, WORD_X, WORD_Y, WORD_Z, MOTION_MODE_LINEAR,
      DISTANCE_MODE_ABSOLUTE, -Nat.testBit_zero]
  · have h := (update_state_value_bits (laser_cut_state_1 CW M).modal
      (laser_cut_state_1 CW M).values block_S4_2).2.2.2.2.2.2.2.2.2.2.1
    have hd : (update_state (laser_cut_state_1 CW M).modal (laser_cut_state_1 CW M).values
        block_S4_2).1.distance = DISTANCE_MODE_ABSOLUTE := by
      rw [update_state_modal]
      simp +decide [bit_false, block_S4_2, laser_cut_state_1,
        parser_block_t.zero, gc_modal_t.zero, bit_eq_two_pow, Nat.testBit_two_pow,
        MODAL_GROUP_G1, MODAL_GROUP_G3, DISTANCE_MODE_ABSOLUTE, -Nat.testBit_zero]
    rw [hd] at h
    simp only [add_zero] at h
    rw [h]
    simp [block_S4_2, laser_cut_state_1, gc_values_t.zero]

theorem laser_cut_call_3 (L : Libm) (SD CW : Nat) (M : ℚ) (h100 : L.sqrt 100 = 10)
    (hM : 0 < M) (hcw : CW ≠ SD) :
    lasermode L SD (laser_cut_state_1 CW M) block_S4_2 =
      some (laser_cut_state_3 CW M,
        [lead_block (update_state (laser_cut_state_1 CW M).modal (laser_cut_state_1 CW M).values
            block_S4_2).2.2 (laser_x1 (laser_cut_state_1 CW M)),
         laser_next (laser_cut_state_1 CW M) (laser_cut_state_3 CW M) ⟨0, 1⟩
          (lead_block (update_state (laser_cut_state_1 CW M).modal
            (laser_cut_state_1 CW M).values block_S4_2).2.2 (laser_x1 (laser_cut_state_1 CW M))),
         laser_junction (laser_cut_state_1 CW M) (laser_cut_state_3 CW M)
          (update_state (laser_cut_state_1 CW M).modal (laser_cut_state_1 CW M).values
            block_S4_2).2.2,
         laser_last (laser_cut_state_3 CW M)
          (update_state (laser_cut_state_1 CW M).modal (laser_cut_state_1 CW M).values
            block_S4_2).2.2]) := by
  obtain ⟨um, uv, -⟩ := laser_cut_update_3 CW M
  have hn := normarcs_no_arc_words L
    (update_state (laser_cut_state_1 CW M).modal (laser_cut_state_1 CW M).values
      block_S4_2).2.2
    (update_state (laser_cut_state_1 CW M).modal (laser_cut_state_1 CW M).values
      block_S4_2).1.motion
    ((update_state (laser_cut_state_1 CW M).modal (laser_cut_state_1 CW M).values
      block_S4_2).2.1.xyz.e0 - (laser_cut_state_1 CW M).values.xyz.e0)
    ((update_state (laser_cut_state_1 CW M).modal (laser_cut_state_1 CW M).values
      block_S4_2).2.1.xyz.e1 - (laser_cut_state_1 CW M).values.xyz.e1)
    (update_state_no_arc_words _ _ _ (by decide) (by decide)).1
    (update_state_no_arc_words _ _ _ (by decide) (by decide)).2
  have hc : calcv L (update_state (laser_cut_state_1 CW M).modal (laser_cut_state_1 CW M).values
      block_S4_2).2.2
      (update_state (laser_cut_state_1 CW M).modal (laser_cut_state_1 CW M).values
        block_S4_2).1.motion
      ((update_state (laser_cut_state_1 CW M).modal (laser_cut_state_1 CW M).values
        block_S4_2).2.1.xyz.e0 - (laser_cut_state_1 CW M).values.xyz.e0)
      ((update_state (laser_cut_state_1 CW M).modal (laser_cut_state_1 CW M).values
        block_S4_2).2.1.xyz.e1 - (laser_cut_state_1 CW M).values.xyz.e1)
      (laser_cut_state_1 CW M).v = (⟨0, 1⟩, ⟨0, 1⟩) := by
    have e : (0 : ℚ) + (10 - 10) * (10 - 10) + (10 - 0) * (10 - 0) = 100 := by norm_num
    have hr : block_S4_2.values.r = 0 := rfl
    rw [uv]
    simp only [calcv, update_state_block_values, hr, laser_cut_state_1, laser_cut_state_3,
      gc_values_t.zero, vec3.zero, e, h100]
    norm_num
  have h := lasermode_eq L SD (laser_cut_state_1 CW M) block_S4_2 _ ⟨0, 1⟩ ⟨0, 1⟩ hn hc
  rw [um, uv] at h
  have hd : laser_discontinuity (laser_cut_state_1 CW M) (laser_cut_state_3 CW M) ⟨0, 1⟩ := by
    rw [laser_discontinuity_iff]
    left
    simpa [laser_cut_state_1, laser_cut_state_3] using hM
  have f1 : laser_extprev SD (laser_cut_state_1 CW M) (laser_cut_state_3 CW M) ⟨0, 1⟩ = true := by
    rw [laser_extprev_iff]
    refine ⟨hd, ?_, ?_, ?_⟩ <;> simp [laser_cut_state_1, hcw, MOTION_MODE_LINEAR, MOTION_MODE_SEEK]
  have f2 : laser_extnext SD (laser_cut_state_1 CW M) (laser_cut_state_3 CW M) ⟨0, 1⟩ = true := by
    rw [laser_extnext_iff]
    refine ⟨hd, ?_, ?_, ?_⟩ <;> simp [laser_cut_state_3, hcw, MOTION_MODE_LINEAR, MOTION_MODE_SEEK]
  rw [← (laser_blocks_cases _ _ _ _ _).1 f1 f2]
  exact h

/-- Witness of C27 (amended): the expansion of the move `G1 X10 Y10` after the cutting
move `G1 X10 F600 S100 M3` (threshold 1, spindle codes 0 and 1, library `libmQ`). -/
theorem laser_expansion_blocks_witness :
    ∃ s' out, lasermode libmQ 0 (laser_cut_state_1 1 1) block_S4_2 = some (s', out) ∧
      out.length ≠ 1 ∧
      ∃ leads last, out = leads ++ [last] ∧ last.modal.motion = s'.modal.motion ∧
        last.values.xyz = block_S4_2.values.xyz :=
  match laser_expansion_blocks libmQ 0 (laser_cut_state_1 1 1) block_S4_2 _ _
      (laser_cut_call_3 libmQ 0 1 1 libmQ_facts.2.2.2.1 (by norm_num) (by decide))
      (by simp) with
  | ⟨leads, last, _, h1, _, _, _, h2, _, _, _, h3, _⟩ =>
    ⟨_, _, laser_cut_call_3 libmQ 0 1 1 libmQ_facts.2.2.2.1 (by norm_num) (by decide),
      by simp, leads, last, h1, h2, h3⟩

/-- Counterexample to C27 as stated: after `lasermode_init(1000, 2)` and the cutting move
`G1 X10 F600 S100 M3`, the move `G1 X10 Y10` is expanded to 4 blocks, and the last of
them does not carry the X word of the input block (`update_state` has stripped it, X
being 10 already). Evaluated with the library `libmQ` and the spindle codes 0 and 1. -/
theorem laser_last_block_loses_word :
    ∃ s1 o1 s2 out last,
      lasermode libmQ 0 (lasermode_init libmQ (laser_cut_state_0 0 ⟨0, 0⟩) 1000 2)
        (block_cut_1 1) = some (s1, o1) ∧
      lasermode libmQ 0 s1 block_S4_2 = some (s2, out) ∧ out.length = 4 ∧
      out.getLast? = some last ∧
      bit_istrue block_S4_2.value_words (bit WORD_X) = true ∧
      bit_istrue last.value_words (bit WORD_X) = false := by
  rw [lasermode_init_cut]
  obtain ⟨o1, h1⟩ := laser_cut_call_1 libmQ 0 1
    (libmQ.acos (2 / 180 * (314 / 100)) * libmQ.acos (2 / 180 * (314 / 100))) ⟨0, 0⟩
    libmQ_facts.2.2.2.1
  have hM : (0 : ℚ) < libmQ.acos (2 / 180 * (314 / 100)) * libmQ.acos (2 / 180 * (314 / 100)) := by
    have := libmQ_acos_fact
    nlinarith
  have h2 := laser_cut_call_3 libmQ 0 1 _ libmQ_facts.2.2.2.1 hM (by decide)
  refine ⟨_, o1, _, _,
    laser_last
      (laser_cut_state_3 1
        (libmQ.acos (2 / 180 * (314 / 100)) * libmQ.acos (2 / 180 * (314 / 100))))
      (update_state
        (laser_cut_state_1 1
          (libmQ.acos (2 / 180 * (314 / 100)) * libmQ.acos (2 / 180 * (314 / 100)))).modal
        (laser_cut_state_1 1
          (libmQ.acos (2 / 180 * (314 / 100)) * libmQ.acos (2 / 180 * (314 / 100)))).values
        block_S4_2).2.2,
    h1, h2, rfl, rfl, by decide, ?_⟩
  rw [bit_istrue_bit, (laser_last_facts _ _).2.2.2.2.1 WORD_X (by decide)]
  exact (laser_cut_update_3 1 _).2.2

/-! ## Drag mode: spindle, pivot arc, lifted blade -/

theorem drag_update_spindle (state : drag_state_t) (block : parser_block_t) :
    (drag_update state block).2.2.command_words.testBit MODAL_GROUP_M7 = false ∧
    (drag_update state block).1.spindle = state.modal.spindle := by
  have hb : (bit_false block.command_words (bit MODAL_GROUP_M7)).testBit MODAL_GROUP_M7 =
      false := by
    rw [testBit_bit_false _ _ _ (by decide)]
    simp
  constructor
  · have h := (update_state_command_bits state.modal state.values
      { block with command_words := bit_false block.command_words (bit MODAL_GROUP_M7) }
      ).2.2.2.2.2.2.2.2.1
    unfold drag_update
    rw [h, hb]
    rfl
  · unfold drag_update
    rw [update_state_modal]
    simp only [hb]
    simp

theorem drag_arc_words_frame (L : Libm) (o s : drag_state_t) (b : parser_block_t) :
    (drag_arc_words L o s b).command_words = b.command_words ∧
    (drag_arc_words L o s b).modal = b.modal := by
  unfold drag_arc_words
  split_ifs <;> exact ⟨rfl, rfl⟩

theorem drag_block_frame (L : Libm) (o s : drag_state_t) (b : parser_block_t) :
    (drag_block L o s b).command_words = b.command_words ∧
    (drag_block L o s b).modal = b.modal := by
  simp only [drag_block, drag_arc_words_frame]
  exact ⟨trivial, trivial⟩

/-- C24: drag mode removes spindle commands. Whenever `dragmode` returns, no block it
returns (neither a pivot arc nor the rewritten move) carries the spindle group, and the
spindle field of the shadow is what it was before the call. A block without R, I and J
words reaches no `assert`, so `dragmode` returns for it. -/
theorem dragmode_no_spindle (L : Libm) (state : drag_state_t) (block : parser_block_t) :
    (∀ s' out, dragmode L state block = some (s', out) →
      (∀ b ∈ out, bit_istrue b.command_words (bit MODAL_GROUP_M7) = false) ∧
      s'.modal.spindle = state.modal.spindle) ∧
    (bit_istrue block.value_words (bit WORD_R) = false →
      bit_istrue block.value_words (bit WORD_I ||| bit WORD_J) = false →
      ∃ s' out, dragmode L state block = some (s', out)) := by
  refine ⟨?_, dragmode_defined L state block⟩
  intro s' out h
  obtain ⟨nb, v0, v1, hn, -, hs, hout⟩ := dragmode_some L state block s' out h
  obtain ⟨u1, u2⟩ := drag_update_spindle state block
  obtain ⟨-, n2, -⟩ := normarcs_frame L _ nb _ _ _ hn
  have hblock : (drag_block L state s' nb).command_words.testBit MODAL_GROUP_M7 = false := by
    rw [(drag_block_frame L state s' nb).1, n2]
    exact u1
  have hmoved :
      bit_istrue (drag_moved s' (drag_block L state s' nb)).command_words
        (bit MODAL_GROUP_M7) = false := by
    rw [bit_istrue_bit]
    simp only [drag_moved]
    rw [testBit_bit_true, hblock]
    decide
  have hpivot : ∀ b : parser_block_t,
      bit_istrue (drag_pivot state s' v0 b).command_words (bit MODAL_GROUP_M7) = false := by
    intro b
    simp only [drag_pivot]
    decide
  refine ⟨?_, by rw [hs]; exact u2⟩
  intro b hb
  split_ifs at hout
  · rw [hout, List.mem_cons, List.mem_singleton] at hb
    rcases hb with hb | hb
    · rw [hb]
      exact hpivot _
    · rw [hb]
      exact hmoved
  · rw [hout, List.mem_singleton] at hb
    rw [hb, bit_istrue_bit]
    exact hblock

/-- C28: pivot arc geometry. Whenever `dragmode` returns two blocks, with `v0` the entry
tangent: the first block (the pivot) carries exactly the words R, X and Y and, as its only
command, the motion; its R is `d`; its XY target is the previous blade-tip position plus
`d` times `v0`; its motion is G2 when `v0_x * prev_v_y - v0_y * prev_v_x > 0` and G3
otherwise; for unit `prev_v` and `v0` the previous machine position (blade tip plus `d`
times `prev_v`) and the pivot target both lie at squared distance `d^2` from the previous
blade-tip position; and the second block carries the motion group with the motion of the
shadow. -/
theorem drag_pivot_geometry (L : Libm) (state : drag_state_t) (block : parser_block_t)
    (s' : drag_state_t) (pivot moved : parser_block_t)
    (h : dragmode L state block = some (s', [pivot, moved])) :
    ∃ v0, drag_v0 L state block = some v0 ∧
      pivot.value_words = bit WORD_R ||| bit WORD_X ||| bit WORD_Y ∧
      pivot.command_words = bit MODAL_GROUP_G1 ∧
      pivot.values.r = state.d ∧ s'.d = state.d ∧
      pivot.values.xyz.e0 = state.values.xyz.e0 + state.d * v0.e0 ∧
      pivot.values.xyz.e1 = state.values.xyz.e1 + state.d * v0.e1 ∧
      (v0.e0 * state.v.e1 - v0.e1 * state.v.e0 > 0 →
        pivot.modal.motion = MOTION_MODE_CW_ARC) ∧
      (¬(v0.e0 * state.v.e1 - v0.e1 * state.v.e0 > 0) →
        pivot.modal.motion = MOTION_MODE_CCW_ARC) ∧
      (v0.e0 ^ 2 + v0.e1 ^ 2 = 1 →
        (pivot.values.xyz.e0 - state.values.xyz.e0) ^ 2 +
          (pivot.values.xyz.e1 - state.values.xyz.e1) ^ 2 = state.d ^ 2) ∧
      (state.v.e0 ^ 2 + state.v.e1 ^ 2 = 1 →
        (state.values.xyz.e0 + state.v.e0 * state.d - state.values.xyz.e0) ^ 2 +
          (state.values.xyz.e1 + state.v.e1 * state.d - state.values.xyz.e1) ^ 2 =
          state.d ^ 2) ∧
      moved.modal.motion = s'.modal.motion ∧
      bit_istrue moved.command_words (bit MODAL_GROUP_G1) = true := by
  obtain ⟨nb, v0, v1, hn, hc, hs, hout⟩ := dragmode_some L state block s' _ h
  have hd : s'.d = state.d := by rw [hs]; rfl
  refine ⟨v0, dragmode_v0 L state block nb v0 v1 hn hc, ?_⟩
  split_ifs at hout
  · simp only [List.cons.injEq, and_true] at hout
    obtain ⟨hp, hm⟩ := hout
    subst hp hm
    refine ⟨rfl, rfl, hd, hd, ?_, ?_, ?_, ?_, ?_, ?_, rfl, ?_⟩
    · simp only [drag_pivot, hd]
      ring
    · simp only [drag_pivot, hd]
      ring
    · intro hdir
      simp only [drag_pivot]
      rw [if_pos hdir]
    · intro hdir
      simp only [drag_pivot]
      rw [if_neg hdir]
    · intro hu
      simp only [drag_pivot, hd]
      linear_combination state.d ^ 2 * hu
    · intro hu
      linear_combination state.d ^ 2 * hu
    · simp only [drag_moved]
      rw [bit_istrue_bit, testBit_bit_true]
      simp
  · simp at hout

theorem dragmode_S4_second :
    dragmode libmQ (drag_S4_state_1 1) block_S4_2 =
      some (drag_S4_state_2 1,
        [drag_pivot (drag_S4_state_1 1) (drag_S4_state_2 1) ⟨0, 1⟩
          (drag_block libmQ (drag_S4_state_1 1) (drag_S4_state_2 1)
            (drag_update (drag_S4_state_1 1) block_S4_2).2.2),
         drag_moved (drag_S4_state_2 1)
          (drag_block libmQ (drag_S4_state_1 1) (drag_S4_state_2 1)
            (drag_update (drag_S4_state_1 1) block_S4_2).2.2)]) :=
  drag_S4_call_2 libmQ 1 libmQ_facts.2.2.2.1 (by norm_num)

/-- Witness of C28: the pivot of scenario S4 (second line `G1 X10 Y10`, threshold 1,
library `libmQ`). -/
theorem drag_pivot_geometry_witness :
    ∃ s' pivot moved, dragmode libmQ (drag_S4_state_1 1) block_S4_2 =
        some (s', [pivot, moved]) ∧
      pivot.values.r = (drag_S4_state_1 1).d ∧
      pivot.command_words = bit MODAL_GROUP_G1 :=
  match drag_pivot_geometry libmQ (drag_S4_state_1 1) block_S4_2 _ _ _ dragmode_S4_second with
  | ⟨_, _, _, h2, h3, _⟩ => ⟨_, _, _, dragmode_S4_second, h3, h2⟩

/-- C29: a lifted blade keeps its direction. Whenever `dragmode` returns for a block with
the blade-tip Z at or above 0 before the block or after it: the blade direction is the
previous one, one block is returned (no pivot), and its XY target is the blade-tip target
plus `d` times that direction. A block without R, I and J words reaches no `assert`, so
`dragmode` returns for it. -/
theorem drag_lifted_blade (L : Libm) (state : drag_state_t) (block : parser_block_t) :
    (∀ s' out, dragmode L state block = some (s', out) →
      (state.values.xyz.e2 ≥ 0 ∨ s'.values.xyz.e2 ≥ 0) →
      s'.v = state.v ∧
      ∃ b, out = [b] ∧
        b.values.xyz.e0 = s'.values.xyz.e0 + state.d * state.v.e0 ∧
        b.values.xyz.e1 = s'.values.xyz.e1 + state.d * state.v.e1) ∧
    (bit_istrue block.value_words (bit WORD_R) = false →
      bit_istrue block.value_words (bit WORD_I ||| bit WORD_J) = false →
      ∃ s' out, dragmode L state block = some (s', out)) := by
  refine ⟨?_, dragmode_defined L state block⟩
  intro s' out h hz
  obtain ⟨nb, v0, v1, -, -, hs, hout⟩ := dragmode_some L state block s' out h
  have hval : s'.values = (drag_update state block).2.1 := by rw [hs]; rfl
  have hd : s'.d = state.d := by rw [hs]; rfl
  have hv : s'.v = state.v := by
    rw [hs]
    simp only [drag_new_state]
    rw [if_pos]
    rw [← hval]
    exact hz.symm
  obtain ⟨b0, b1, -⟩ := drag_block_facts L state s' nb
  refine ⟨hv, ?_⟩
  rw [if_neg] at hout
  · refine ⟨_, hout, ?_, ?_⟩
    · rw [b0, hv, hd]
      ring
    · rw [b1, hv, hd]
      ring
  · rintro ⟨-, h1, h2⟩
    rcases hz with hz | hz
    · exact absurd h2 (not_lt.mpr hz)
    · exact absurd h1 (not_lt.mpr hz)

/-! ## Drag mode: arc words -/

theorem bit_istrue_IJ (w : Nat) :
    bit_istrue w (bit WORD_I ||| bit WORD_J) = (w.testBit WORD_I || w.testBit WORD_J) := by
  cases h : bit_istrue w (bit WORD_I ||| bit WORD_J)
  · cases hI : w.testBit WORD_I
    · cases hJ : w.testBit WORD_J
      · rfl
      · have := (bit_istrue_mask w (bit WORD_I ||| bit WORD_J)).mpr
          ⟨WORD_J, hJ, by decide⟩
        rw [this] at h
        exact absurd h (by decide)
    · have := (bit_istrue_mask w (bit WORD_I ||| bit WORD_J)).mpr
        ⟨WORD_I, hI, by decide⟩
      rw [this] at h
      exact absurd h (by decide)
  · obtain ⟨j, h1, h2⟩ := (bit_istrue_mask _ _).mp h
    have hj : j = WORD_I ∨ j = WORD_J := by
      rw [bit_eq_two_pow, bit_eq_two_pow, Nat.testBit_or, Nat.testBit_two_pow,
        Nat.testBit_two_pow] at h2
      simp only [Bool.or_eq_true, decide_eq_true_eq] at h2
      rcases h2 with h2 | h2
      · exact Or.inl h2.symm
      · exact Or.inr h2.symm
    rcases hj with hj | hj
    · rw [← hj, h1]
      rfl
    · rw [← hj, h1]
      simp

/-- What `normarcs` does to the arc words: without an R word the I, J values are kept,
with an R word the radius becomes its absolute value. -/
theorem normarcs_arc_values (L : Libm) (b nb : parser_block_t) (motion : Nat) (x y : ℚ)
    (h : normarcs L b motion x y = some nb) :
    (bit_istrue b.value_words (bit WORD_R) = false → nb.values.ijk = b.values.ijk) ∧
    (bit_istrue b.value_words (bit WORD_R) = true →
      nb.values.r * nb.values.r = b.values.r * b.values.r) := by
  unfold normarcs at h
  simp only [] at h
  split_ifs at h with h1
  all_goals simp only [Option.some.injEq] at h
  all_goals subst h
  all_goals constructor
  all_goals intro hb
  all_goals first
    | rfl
    | (simp [h1] at hb; done)
    | (dsimp only; ring1)

/-- The arc words of the block that `drag_block` leaves. -/
theorem drag_block_arc_words (L : Libm) (o s : drag_state_t) (b : parser_block_t) :
    (b.value_words.testBit WORD_R = true →
      (drag_block L o s b).value_words.testBit WORD_R = true ∧
      (drag_block L o s b).values.r = L.sqrt (b.values.r * b.values.r + s.d * s.d)) ∧
    (b.value_words.testBit WORD_R = false →
      (b.value_words.testBit WORD_I || b.value_words.testBit WORD_J) = true →
      (drag_block L o s b).value_words.testBit WORD_I = true ∧
      (drag_block L o s b).value_words.testBit WORD_J = true ∧
      (drag_block L o s b).values.ijk.e0 =
        (if b.value_words.testBit WORD_I then b.values.ijk.e0 else 0) - o.v.e0 * o.d ∧
      (drag_block L o s b).values.ijk.e1 =
        (if b.value_words.testBit WORD_J then b.values.ijk.e1 else 0) - o.v.e1 * o.d) ∧
    (b.value_words.testBit WORD_R = false →
      (b.value_words.testBit WORD_I || b.value_words.testBit WORD_J) = false →
      (drag_block L o s b).value_words.testBit WORD_I = false ∧
      (drag_block L o s b).value_words.testBit WORD_J = false) := by
  have hX : bit WORD_X ||| bit WORD_Y = 2 ^ 10 ||| 2 ^ 11 := by decide
  have hI : bit WORD_I ||| bit WORD_J = 2 ^ 1 ||| 2 ^ 2 := by decide
  refine ⟨?_, ?_, ?_⟩
  · intro hR
    simp only [drag_block, drag_arc_words, bit_istrue_bit, hR, if_true]
    refine ⟨?_, trivial⟩
    simp only [bit_true, hX, Nat.testBit_or, hR, Bool.true_or]
  · intro hR hIJ
    simp only [drag_block, drag_arc_words, bit_istrue_bit, bit_istrue_IJ, hR, hIJ, if_true]
    simp only [bit_true, hX, hI, Nat.testBit_or, Nat.testBit_two_pow]
    refine ⟨by simp +decide [WORD_I], by simp +decide [WORD_J], ?_, ?_⟩
    · cases b.value_words.testBit WORD_I <;> simp
    · cases b.value_words.testBit WORD_J <;> simp
  · intro hR hIJ
    simp only [drag_block, drag_arc_words, bit_istrue_bit, bit_istrue_IJ, hR, hIJ]
    simp only [bit_true, hX, Nat.testBit_or, Nat.testBit_two_pow]
    simp only [Bool.or_eq_false_iff] at hIJ
    simp only [WORD_I, WORD_J] at hIJ
    simp +decide [hIJ.1, hIJ.2, WORD_I, WORD_J]

/-- The arc words of the block that `dragmode` hands to `normarcs`: `update_state` has
cleared the bit of a zero I, J or R word and left the values. -/
theorem drag_update_arc_bits (state : drag_state_t) (block : parser_block_t) :
    (drag_update state block).2.2.value_words.testBit WORD_I =
      (block.value_words.testBit WORD_I && !decide (block.values.ijk.e0 = 0)) ∧
    (drag_update state block).2.2.value_words.testBit WORD_J =
      (block.value_words.testBit WORD_J && !decide (block.values.ijk.e1 = 0)) ∧
    (drag_update state block).2.2.value_words.testBit WORD_R =
      (block.value_words.testBit WORD_R && !decide (block.values.r = 0)) := by
  obtain ⟨-, h1, h2, -, -, -, -, h3, -⟩ := update_state_value_bits state.modal state.values
    { block with command_words := bit_false block.command_words (bit MODAL_GROUP_M7) }
  exact ⟨h1, h2, h3⟩

/-- The last block that `dragmode` returns is the rewritten move, up to the motion
command that follows a pivot. -/
theorem dragmode_last (L : Libm) (state : drag_state_t) (block : parser_block_t)
    (s' : drag_state_t) (out : List parser_block_t)
    (h : dragmode L state block = some (s', out)) :
    ∃ nb b, normarcs L (drag_update state block).2.2 (drag_update state block).1.motion
        ((drag_update state block).2.1.xyz.e0 - state.values.xyz.e0)
        ((drag_update state block).2.1.xyz.e1 - state.values.xyz.e1) = some nb ∧
      out.getLast? = some b ∧ s'.d = state.d ∧
      b.value_words = (drag_block L state s' nb).value_words ∧
      b.values = (drag_block L state s' nb).values := by
  obtain ⟨nb, v0, v1, hn, -, hs, hout⟩ := dragmode_some L state block s' out h
  have hd : s'.d = state.d := by rw [hs]; rfl
  split_ifs at hout
  · exact ⟨nb, drag_moved s' (drag_block L state s' nb), hn, by rw [hout]; simp, hd, rfl, rfl⟩
  · exact ⟨nb, drag_block L state s' nb, hn, by rw [hout]; simp, hd, rfl, rfl⟩

/-- C30 (amended): the arc centre is preserved in drag mode. Whenever `dragmode` returns,
the last block it returns (the rewritten move) is as follows. If the input block has no
R word (or a zero one) and an I or J word that is not zero, the block carries both I and
J, with I' = I - d * prev_v_x and J' = J - d * prev_v_y (an absent word counted as 0), so
that the previous machine position plus (I', J') is the previous blade-tip position plus
(I, J). If the input block has an R word that is not zero, the block carries R with
R' = sqrt (R * R + d * d), so that R' ^ 2 = R ^ 2 + d ^ 2 when the square root is exact
there. -/
theorem drag_arc_centre (L : Libm) (state : drag_state_t) (block : parser_block_t)
    (s' : drag_state_t) (out : List parser_block_t)
    (h : dragmode L state block = some (s', out)) :
    ∃ b, out.getLast? = some b ∧
      ((bit_istrue block.value_words (bit WORD_R) = false ∨ block.values.r = 0) →
        ((bit_istrue block.value_words (bit WORD_I) = true ∧ block.values.ijk.e0 ≠ 0) ∨
         (bit_istrue block.value_words (bit WORD_J) = true ∧ block.values.ijk.e1 ≠ 0)) →
        bit_istrue b.value_words (bit WORD_I) = true ∧
        bit_istrue b.value_words (bit WORD_J) = true ∧
        b.values.ijk.e0 =
          (if bit_istrue block.value_words (bit WORD_I) then block.values.ijk.e0 else 0) -
            state.d * state.v.e0 ∧
        b.values.ijk.e1 =
          (if bit_istrue block.value_words (bit WORD_J) then block.values.ijk.e1 else 0) -
            state.d * state.v.e1 ∧
        (state.values.xyz.e0 + state.v.e0 * state.d) + b.values.ijk.e0 =
          state.values.xyz.e0 +
            (if bit_istrue block.value_words (bit WORD_I) then block.values.ijk.e0 else 0) ∧
        (state.values.xyz.e1 + state.v.e1 * state.d) + b.values.ijk.e1 =
          state.values.xyz.e1 +
            (if bit_istrue block.value_words (bit WORD_J) then block.values.ijk.e1 else 0)) ∧
      (bit_istrue block.value_words (bit WORD_R) = true → block.values.r ≠ 0 →
        bit_istrue b.value_words (bit WORD_R) = true ∧
        b.values.r = L.sqrt (block.values.r * block.values.r + state.d * state.d) ∧
        (L.sqrt (block.values.r * block.values.r + state.d * state.d) *
            L.sqrt (block.values.r * block.values.r + state.d * state.d) =
            block.values.r * block.values.r + state.d * state.d →
          b.values.r ^ 2 = block.values.r ^ 2 + state.d ^ 2)) := by
  obtain ⟨nb, b, hn, hlast, hd, hw, hv⟩ := dragmode_last L state block s' out h
  obtain ⟨uI, uJ, uR⟩ := drag_update_arc_bits state block
  obtain ⟨nw, -, -, -, -, -, -, -, -, -, -, -⟩ := normarcs_frame L _ nb _ _ _ hn
  obtain ⟨nIJ, nR⟩ := normarcs_arc_values L _ nb _ _ _ hn
  obtain ⟨dR, dIJ, -⟩ := drag_block_arc_words L state s' nb
  rw [bit_istrue_bit, uR] at nIJ nR
  rw [drag_update_values] at nIJ nR
  rw [nw, uR] at dR
  rw [nw, uR, uI, uJ] at dIJ
  refine ⟨b, hlast, ?_, ?_⟩
  · intro hR hIJ
    simp only [bit_istrue_bit] at hR hIJ ⊢
    have hR' : (block.value_words.testBit WORD_R && !decide (block.values.r = 0)) = false := by
      rcases hR with hR | hR
      · rw [hR]; rfl
      · simp [hR]
    have hIJ' : ((block.value_words.testBit WORD_I && !decide (block.values.ijk.e0 = 0)) ||
        (block.value_words.testBit WORD_J && !decide (block.values.ijk.e1 = 0))) = true := by
      rcases hIJ with hIJ | hIJ
      · simp [hIJ.1, hIJ.2]
      · simp [hIJ.1, hIJ.2]
    obtain ⟨d1, d2, d3, d4⟩ := dIJ hR' hIJ'
    have e0 : b.values.ijk.e0 =
        (if block.value_words.testBit WORD_I = true then block.values.ijk.e0 else 0) -
          state.d * state.v.e0 := by
      rw [hv, d3, nIJ hR']
      by_cases hi : block.value_words.testBit WORD_I = true
      · by_cases hz : block.values.ijk.e0 = 0
        · simp [hi, hz]; ring
        · simp [hi, hz]; ring
      · simp [hi]; ring
    have e1 : b.values.ijk.e1 =
        (if block.value_words.testBit WORD_J = true then block.values.ijk.e1 else 0) -
          state.d * state.v.e1 := by
      rw [hv, d4, nIJ hR']
      by_cases hi : block.value_words.testBit WORD_J = true
      · by_cases hz : block.values.ijk.e1 = 0
        · simp [hi, hz]; ring
        · simp [hi, hz]; ring
      · simp [hi]; ring
    refine ⟨by rw [hw]; exact d1, by rw [hw]; exact d2, e0, e1, ?_, ?_⟩
    · rw [e0]; ring
    · rw [e1]; ring
  · intro hR hr
    rw [bit_istrue_bit] at hR ⊢
    have hR' : (block.value_words.testBit WORD_R && !decide (block.values.r = 0)) = true := by
      simp [hR, hr]
    obtain ⟨d1, d2⟩ := dR hR'
    have e : b.values.r = L.sqrt (block.values.r * block.values.r + state.d * state.d) := by
      rw [hv, d2, nR hR', hd]
    refine ⟨by rw [hw]; exact d1, e, ?_⟩
    intro hs
    rw [e, pow_two, hs]
    ring

/-- Whenever `normarcs` passes its `assert`s, `dragmode` returns. -/
theorem dragmode_of_normarcs (L : Libm) (state : drag_state_t) (block nb : parser_block_t)
    (hn : normarcs L (drag_update state block).2.2 (drag_update state block).1.motion
        ((drag_update state block).2.1.xyz.e0 - state.values.xyz.e0)
        ((drag_update state block).2.1.xyz.e1 - state.values.xyz.e1) = some nb) :
    ∃ s' out, dragmode L state block = some (s', out) :=
  ⟨_, _, dragmode_eq L state block nb _ _ hn rfl⟩

/-- The I/J branch of `normarcs` when both `assert`s hold. -/
theorem normarcs_IJ (L : Libm) (b : parser_block_t) (motion : Nat) (x y : ℚ)
    (hR : bit_istrue b.value_words (bit WORD_R) = false)
    (hIJ : bit_istrue b.value_words (bit WORD_I ||| bit WORD_J) = true)
    (h1 : |hypot_f L (x - b.values.ijk.e0) (y - b.values.ijk.e1) -
        hypot_f L b.values.ijk.e0 b.values.ijk.e1| < 1 / 2)
    (h2 : |hypot_f L (x - b.values.ijk.e0) (y - b.values.ijk.e1) -
        hypot_f L b.values.ijk.e0 b.values.ijk.e1| <
        (1 / 1000) * hypot_f L b.values.ijk.e0 b.values.ijk.e1) :
    normarcs L b motion x y =
      some { b with values := { b.values with
        r := hypot_f L b.values.ijk.e0 b.values.ijk.e1 } } := by
  unfold normarcs
  simp only [hR, hIJ, h1, h2, if_true, Bool.false_eq_true, if_false]

theorem libmQ_sqrt_25 : libmQ.sqrt 25 = 5 := by
  have h := Rat.sqrt_eq 5
  rw [show (5 : ℚ) * 5 = 25 by norm_num, abs_of_pos (by norm_num)] at h
  exact h

theorem drag_arc_J_update :
    (drag_update (drag_S4_state_1 1) block_arc_J).2.1.xyz = ⟨15, -5, -1⟩ := by
  unfold drag_update
  rw [update_state_values, update_state_modal]
  simp +decide [update_axis_shadow, bit_false, block_arc_J, drag_S4_state_1,
    parser_block_t.zero, gc_modal_t.zero, gc_values_t.zero,
    vec3.zero, bit_eq_two_pow, Nat.testBit_or, Nat.testBit_two_pow, testBit_bit_false,
    MODAL_GROUP_G1, MODAL_GROUP_G2, MODAL_GROUP_G3,
    MODAL_GROUP_G5, MODAL_GROUP_G6, MODAL_GROUP_G8, MODAL_GROUP_G12, MODAL_GROUP_M4,
    MODAL_GROUP_M7, MODAL_GROUP_M8, WORD_F, WORD_I, WORD_J, WORD_K, WORD_L, WORD_N,
    WORD_P, WORD_R, WORD_S, WORD_T, WORD_X, WORD_Y, WORD_Z, MOTION_MODE_LINEAR,
    DISTANCE_MODE_ABSOLUTE, -Nat.testBit_zero]

theorem dragmode_arc_J_returns :
    ∃ s' out, dragmode libmQ (drag_S4_state_1 1) block_arc_J = some (s', out) := by
  obtain ⟨uI, uJ, uR⟩ := drag_update_arc_bits (drag_S4_state_1 1) block_arc_J
  have hR : bit_istrue (drag_update (drag_S4_state_1 1) block_arc_J).2.2.value_words
      (bit WORD_R) = false := by
    rw [bit_istrue_bit, uR]
    decide
  have hIJ : bit_istrue (drag_update (drag_S4_state_1 1) block_arc_J).2.2.value_words
      (bit WORD_I ||| bit WORD_J) = true := by
    rw [bit_istrue_IJ, uI, uJ]
    simp +decide [block_arc_J, gc_values_t.zero]
  have e1 : ((15 : ℚ) - 10 - 0) * (15 - 10 - 0) + (-5 - 0 - -5) * (-5 - 0 - -5) = 25 := by
    norm_num
  have e2 : (0 : ℚ) * 0 + -5 * -5 = 25 := by norm_num
  have hh : hypot_f libmQ
      ((drag_update (drag_S4_state_1 1) block_arc_J).2.1.xyz.e0 -
          (drag_S4_state_1 1).values.xyz.e0 -
        (drag_update (drag_S4_state_1 1) block_arc_J).2.2.values.ijk.e0)
      ((drag_update (drag_S4_state_1 1) block_arc_J).2.1.xyz.e1 -
          (drag_S4_state_1 1).values.xyz.e1 -
        (drag_update (drag_S4_state_1 1) block_arc_J).2.2.values.ijk.e1) = 5 ∧
      hypot_f libmQ (drag_update (drag_S4_state_1 1) block_arc_J).2.2.values.ijk.e0
        (drag_update (drag_S4_state_1 1) block_arc_J).2.2.values.ijk.e1 = 5 := by
    rw [drag_arc_J_update, drag_update_values]
    simp only [hypot_f, block_arc_J, drag_S4_state_1, gc_values_t.zero, e1, e2, libmQ_sqrt_25]
    exact ⟨trivial, trivial⟩
  exact dragmode_of_normarcs libmQ _ _ _
    (normarcs_IJ libmQ _ _ _ _ hR hIJ (by rw [hh.1, hh.2]; norm_num)
      (by rw [hh.1, hh.2]; norm_num))

/-- Witness of C30: from the state after `G1 X10 Y0 Z-1` (blade tip (10, 0), direction
(1, 0), `d = 1`) the arc `G2 X15 Y-5 J-5` is returned with I-1 and J-5. -/
theorem drag_arc_centre_witness :
    ∃ s' out b, dragmode libmQ (drag_S4_state_1 1) block_arc_J = some (s', out) ∧
      out.getLast? = some b ∧
      bit_istrue b.value_words (bit WORD_I) = true ∧
      bit_istrue b.value_words (bit WORD_J) = true ∧
      b.values.ijk.e0 = -1 ∧ b.values.ijk.e1 = -5 := by
  obtain ⟨s', out, h⟩ := dragmode_arc_J_returns
  obtain ⟨b, hl, hIJ, -⟩ := drag_arc_centre libmQ (drag_S4_state_1 1) block_arc_J s' out h
  obtain ⟨b1, b2, b3, b4, -⟩ := hIJ (Or.inl (by decide))
    (Or.inr ⟨by decide, by norm_num [block_arc_J, gc_values_t.zero]⟩)
  refine ⟨s', out, b, h, hl, b1, b2, ?_, ?_⟩
  · rw [b3, if_neg (by decide)]
    norm_num [drag_S4_state_1]
  · rw [b4, if_pos (by decide)]
    norm_num [drag_S4_state_1, block_arc_J, gc_values_t.zero]

/-- An arc block whose I and J values are both zero (and that has no R word) is returned
without I and J words. -/
theorem dragmode_zero_centre (L : Libm) (state : drag_state_t) (block : parser_block_t)
    (hR : bit_istrue block.value_words (bit WORD_R) = false)
    (h0 : block.values.ijk.e0 = 0) (h1 : block.values.ijk.e1 = 0) :
    ∃ s' out, dragmode L state block = some (s', out) ∧
      ∀ b ∈ out, bit_istrue b.value_words (bit WORD_I) = false ∧
        bit_istrue b.value_words (bit WORD_J) = false := by
  obtain ⟨uI, uJ, uR⟩ := drag_update_arc_bits state block
  rw [bit_istrue_bit] at hR
  rw [h0] at uI
  rw [h1] at uJ
  rw [hR] at uR
  simp only [decide_True, Bool.not_true, Bool.and_false, Bool.false_and] at uI uJ uR
  have hn := normarcs_no_arc_words L (drag_update state block).2.2
    (drag_update state block).1.motion
    ((drag_update state block).2.1.xyz.e0 - state.values.xyz.e0)
    ((drag_update state block).2.1.xyz.e1 - state.values.xyz.e1)
    (by rw [bit_istrue_bit]; exact uR) (by rw [bit_istrue_IJ, uI, uJ]; rfl)
  obtain ⟨s', out, h⟩ := dragmode_of_normarcs L state block _ hn
  refine ⟨s', out, h, ?_⟩
  obtain ⟨nb, v0, v1, hn', -, -, hout⟩ := dragmode_some L state block s' out h
  rw [hn] at hn'
  simp only [Option.some.injEq] at hn'
  subst hn'
  obtain ⟨-, -, d0⟩ := drag_block_arc_words L state s' (drag_update state block).2.2
  obtain ⟨dI, dJ⟩ := d0 uR (by rw [uI, uJ]; rfl)
  have hpivot : ∀ b : parser_block_t,
      bit_istrue (drag_pivot state s' v0 b).value_words (bit WORD_I) = false ∧
      bit_istrue (drag_pivot state s' v0 b).value_words (bit WORD_J) = false := by
    intro b
    simp only [drag_pivot]
    exact ⟨by decide, by decide⟩
  intro b hb
  split_ifs at hout
  · rw [hout, List.mem_cons, List.mem_singleton] at hb
    rcases hb with hb | hb
    · rw [hb]
      exact hpivot _
    · rw [hb, bit_istrue_bit, bit_istrue_bit]
      exact ⟨dI, dJ⟩
  · rw [hout, List.mem_singleton] at hb
    rw [hb, bit_istrue_bit, bit_istrue_bit]
    exact ⟨dI, dJ⟩

/-- Counterexample to C30 as stated: the block of the line `G2 X15 Y-5 I0 J0` carries an
I and a J word, `dragmode` returns, and no block it returns carries an I or a J word. -/
theorem drag_zero_centre_words_dropped :
    bit_istrue block_arc_0.value_words (bit WORD_I) = true ∧
    bit_istrue block_arc_0.value_words (bit WORD_J) = true ∧
    ∃ s' out, dragmode libmQ (drag_S4_state_1 1) block_arc_0 = some (s', out) ∧
      ∀ b ∈ out, bit_istrue b.value_words (bit WORD_I) = false ∧
        bit_istrue b.value_words (bit WORD_J) = false :=
  ⟨by decide, by decide,
    dragmode_zero_centre libmQ (drag_S4_state_1 1) block_arc_0 (by decide) rfl rfl⟩

/-! ## The rules of `update_state` -/

theorem strip_or_update_rule_of {α : Type} [DecidableEq α] (present kept : Bool)
    (bv sv sv' : α) (hk : kept = (present && !decide (bv = sv)))
    (hs : sv' = if present = true ∧ bv ≠ sv then bv else sv) :
    strip_or_update_rule present kept bv sv sv' := by
  subst hk hs
  unfold strip_or_update_rule
  by_cases h : bv = sv <;> cases present <;> simp [h]

/-- C25: `update_state` strip-or-update. For each of the value words F, L, N, P, S, T
and each of the modal groups motion, plane, distance, feed-rate mode, units, tool length,
coordinate system, program flow, spindle and coolant: when the field is present in the
block, its bit is cleared if and only if the block's value equals the shadow's value
before the call, and afterwards the shadow holds the block's value; when it is absent,
the shadow keeps its value. A present I, J, K or R whose value is zero is cleared. -/
theorem update_state_strip_or_update (m : gc_modal_t) (v : gc_values_t)
    (b : parser_block_t) :
    strip_or_update_rule (bit_istrue b.value_words (bit WORD_F))
      (bit_istrue (update_state m v b).2.2.value_words (bit WORD_F))
      b.values.f v.f (update_state m v b).2.1.f ∧
    strip_or_update_rule (bit_istrue b.value_words (bit WORD_L))
      (bit_istrue (update_state m v b).2.2.value_words (bit WORD_L))
      b.values.l v.l (update_state m v b).2.1.l ∧
    strip_or_update_rule (bit_istrue b.value_words (bit WORD_N))
      (bit_istrue (update_state m v b).2.2.value_words (bit WORD_N))
      b.values.n v.n (update_state m v b).2.1.n ∧
    strip_or_update_rule (bit_istrue b.value_words (bit WORD_P))
      (bit_istrue (update_state m v b).2.2.value_words (bit WORD_P))
      b.values.p v.p (update_state m v b).2.1.p ∧
    strip_or_update_rule (bit_istrue b.value_words (bit WORD_S))
      (bit_istrue (update_state m v b).2.2.value_words (bit WORD_S))
      b.values.s v.s (update_state m v b).2.1.s ∧
    strip_or_update_rule (bit_istrue b.value_words (bit WORD_T))
      (bit_istrue (update_state m v b).2.2.value_words (bit WORD_T))
      b.values.t v.t (update_state m v b).2.1.t ∧
    strip_or_update_rule (bit_istrue b.command_words (bit MODAL_GROUP_G1))
      (bit_istrue (update_state m v b).2.2.command_words (bit MODAL_GROUP_G1))
      b.modal.motion m.motion (update_state m v b).1.motion ∧
    strip_or_update_rule (bit_istrue b.command_words (bit MODAL_GROUP_G2))
      (bit_istrue (update_state m v b).2.2.command_words (bit MODAL_GROUP_G2))
      b.modal.plane_select m.plane_select (update_state m v b).1.plane_select ∧
    strip_or_update_rule (bit_istrue b.command_words (bit MODAL_GROUP_G3))
      (bit_istrue (update_state m v b).2.2.command_words (bit MODAL_GROUP_G3))
      b.modal.distance m.distance (update_state m v b).1.distance ∧
    strip_or_update_rule (bit_istrue b.command_words (bit MODAL_GROUP_G5))
      (bit_istrue (update_state m v b).2.2.command_words (bit MODAL_GROUP_G5))
      b.modal.feed_rate m.feed_rate (update_state m v b).1.feed_rate ∧
    strip_or_update_rule (bit_istrue b.command_words (bit MODAL_GROUP_G6))
      (bit_istrue (update_state m v b).2.2.command_words (bit MODAL_GROUP_G6))
      b.modal.units m.units (update_state m v b).1.units ∧
    strip_or_update_rule (bit_istrue b.command_words (bit MODAL_GROUP_G8))
      (bit_istrue (update_state m v b).2.2.command_words (bit MODAL_GROUP_G8))
      b.modal.tool_length m.tool_length (update_state m v b).1.tool_length ∧
    strip_or_update_rule (bit_istrue b.command_words (bit MODAL_GROUP_G12))
      (bit_istrue (update_state m v b).2.2.command_words (bit MODAL_GROUP_G12))
      b.modal.coord_select m.coord_select (update_state m v b).1.coord_select ∧
    strip_or_update_rule (bit_istrue b.command_words (bit MODAL_GROUP_M4))
      (bit_istrue (update_state m v b).2.2.command_words (bit MODAL_GROUP_M4))
      b.modal.program_flow m.program_flow (update_state m v b).1.program_flow ∧
    strip_or_update_rule (bit_istrue b.command_words (bit MODAL_GROUP_M7))
      (bit_istrue (update_state m v b).2.2.command_words (bit MODAL_GROUP_M7))
      b.modal.spindle m.spindle (update_state m v b).1.spindle ∧
    strip_or_update_rule (bit_istrue b.command_words (bit MODAL_GROUP_M8))
      (bit_istrue (update_state m v b).2.2.command_words (bit MODAL_GROUP_M8))
      b.modal.coolant m.coolant (update_state m v b).1.coolant ∧
    (bit_istrue b.value_words (bit WORD_I) = true → b.values.ijk.e0 = 0 →
      bit_istrue (update_state m v b).2.2.value_words (bit WORD_I) = false) ∧
    (bit_istrue b.value_words (bit WORD_J) = true → b.values.ijk.e1 = 0 →
      bit_istrue (update_state m v b).2.2.value_words (bit WORD_J) = false) ∧
    (bit_istrue b.value_words (bit WORD_K) = true → b.values.ijk.e2 = 0 →
      bit_istrue (update_state m v b).2.2.value_words (bit WORD_K) = false) ∧
    (bit_istrue b.value_words (bit WORD_R) = true → b.values.r = 0 →
      bit_istrue (update_state m v b).2.2.value_words (bit WORD_R) = false) := by
  obtain ⟨c1, c2, c3, c5, c6, c8, c12, c4, c7, c9⟩ := update_state_command_bits m v b
  obtain ⟨wF, wI, wJ, wK, wL, wN, wP, wR, wS, wT, -⟩ := update_state_value_bits m v b
  have hm := update_state_modal m v b
  have hv := update_state_values m v b
  simp only [bit_istrue_bit]
  refine ⟨?_, ?_, ?_, ?_, ?_, ?_, ?_, ?_, ?_, ?_, ?_, ?_, ?_, ?_, ?_, ?_, ?_, ?_, ?_, ?_⟩
  · exact strip_or_update_rule_of _ _ _ _ _ wF (by rw [hv])
  · exact strip_or_update_rule_of _ _ _ _ _ wL (by rw [hv])
  · exact strip_or_update_rule_of _ _ _ _ _ wN (by rw [hv])
  · exact strip_or_update_rule_of _ _ _ _ _ wP (by rw [hv])
  · exact strip_or_update_rule_of _ _ _ _ _ wS (by rw [hv])
  · exact strip_or_update_rule_of _ _ _ _ _ wT (by rw [hv])
  · exact strip_or_update_rule_of _ _ _ _ _ c1 (by rw [hm])
  · exact strip_or_update_rule_of _ _ _ _ _ c2 (by rw [hm])
  · exact strip_or_update_rule_of _ _ _ _ _ c3 (by rw [hm])
  · exact strip_or_update_rule_of _ _ _ _ _ c5 (by rw [hm])
  · exact strip_or_update_rule_of _ _ _ _ _ c6 (by rw [hm])
  · exact strip_or_update_rule_of _ _ _ _ _ c8 (by rw [hm])
  · exact strip_or_update_rule_of _ _ _ _ _ c12 (by rw [hm])
  · exact strip_or_update_rule_of _ _ _ _ _ c4 (by rw [hm])
  · exact strip_or_update_rule_of _ _ _ _ _ c7 (by rw [hm])
  · exact strip_or_update_rule_of _ _ _ _ _ c9 (by rw [hm])
  · intro h1 h2
    rw [wI, h1, h2]
    simp
  · intro h1 h2
    rw [wJ, h1, h2]
    simp
  · intro h1 h2
    rw [wK, h1, h2]
    simp
  · intro h1 h2
    rw [wR, h1, h2]
    simp

/-- C26 (amended): the incremental branch of `update_state`. Whenever the distance mode
of the shadow after the modal update is incremental, for each of the axes X, Y, Z: the
bit of the axis word is cleared exactly when the word is present with the value zero, and
the value of a present axis word is added to the shadow position. -/
theorem update_state_incremental (m : gc_modal_t) (v : gc_values_t) (b : parser_block_t)
    (h : (update_state m v b).1.distance = DISTANCE_MODE_INCREMENTAL) :
    (bit_istrue (update_state m v b).2.2.value_words (bit (WORD_X + 0)) =
      (bit_istrue b.value_words (bit (WORD_X + 0)) && !decide (b.values.xyz.e0 = 0))) ∧
    (bit_istrue (update_state m v b).2.2.value_words (bit (WORD_X + 1)) =
      (bit_istrue b.value_words (bit (WORD_X + 1)) && !decide (b.values.xyz.e1 = 0))) ∧
    (bit_istrue (update_state m v b).2.2.value_words (bit (WORD_X + 2)) =
      (bit_istrue b.value_words (bit (WORD_X + 2)) && !decide (b.values.xyz.e2 = 0))) ∧
    (bit_istrue b.value_words (bit (WORD_X + 0)) = true →
      (update_state m v b).2.1.xyz.e0 = v.xyz.e0 + b.values.xyz.e0) ∧
    (bit_istrue b.value_words (bit (WORD_X + 1)) = true →
      (update_state m v b).2.1.xyz.e1 = v.xyz.e1 + b.values.xyz.e1) ∧
    (bit_istrue b.value_words (bit (WORD_X + 2)) = true →
      (update_state m v b).2.1.xyz.e2 = v.xyz.e2 + b.values.xyz.e2) := by
  obtain ⟨-, -, -, -, -, -, -, -, -, -, wX, wY, wZ⟩ := update_state_value_bits m v b
  have hne : ¬(DISTANCE_MODE_INCREMENTAL = DISTANCE_MODE_ABSOLUTE) := by decide
  have hv := update_state_values m v b
  rw [h] at wX wY wZ hv
  simp only [hne, if_false] at wX wY wZ
  simp only [bit_istrue_bit]
  refine ⟨wX, wY, wZ, ?_, ?_, ?_⟩
  · intro _
    rw [hv]
    simp only [update_axis_shadow, hne, if_false]
    split_ifs with h0
    · rw [h0.2, add_zero]
    · rfl
  · intro _
    rw [hv]
    simp only [update_axis_shadow, hne, if_false]
    split_ifs with h0
    · rw [h0.2, add_zero]
    · rfl
  · intro _
    rw [hv]
    simp only [update_axis_shadow, hne, if_false]
    split_ifs with h0
    · rw [h0.2, add_zero]
    · rfl

theorem update_state_incremental_distance (v : gc_values_t) (b : parser_block_t)
    (hb : b.command_words = 0) :
    (update_state modal_incremental v b).1.distance = DISTANCE_MODE_INCREMENTAL := by
  rw [update_state_modal, hb]
  simp [modal_incremental, gc_modal_t.zero]

/-- Witness of C26: in incremental mode at (1, 2, 3) the line `X5 Z-2` keeps both words
and moves the shadow to (6, 2, 1). -/
theorem update_state_incremental_witness :
    (update_state modal_incremental { gc_values_t.zero with xyz := ⟨1, 2, 3⟩ }
        block_X5_Z).1.distance = DISTANCE_MODE_INCREMENTAL ∧
    bit_istrue (update_state modal_incremental { gc_values_t.zero with xyz := ⟨1, 2, 3⟩ }
        block_X5_Z).2.2.value_words (bit (WORD_X + 0)) = true ∧
    (update_state modal_incremental { gc_values_t.zero with xyz := ⟨1, 2, 3⟩ }
        block_X5_Z).2.1.xyz.e0 = 6 ∧
    (update_state modal_incremental { gc_values_t.zero with xyz := ⟨1, 2, 3⟩ }
        block_X5_Z).2.1.xyz.e2 = 1 := by
  have hd := update_state_incremental_distance { gc_values_t.zero with xyz := ⟨1, 2, 3⟩ }
    block_X5_Z rfl
  obtain ⟨h1, -, -, h4, -, h6⟩ := update_state_incremental modal_incremental
    { gc_values_t.zero with xyz := ⟨1, 2, 3⟩ } block_X5_Z hd
  refine ⟨hd, ?_, ?_, ?_⟩
  · rw [h1]
    simp +decide [block_X5_Z, gc_values_t.zero]
  · rw [h4 (by decide)]
    norm_num [block_X5_Z, gc_values_t.zero]
  · rw [h6 (by decide)]
    norm_num [block_X5_Z, gc_values_t.zero]

/-- Counterexample to C26 as stated: in incremental mode the X word of the line `X0` is
present in the block and cleared by `update_state`. -/
theorem update_state_incremental_clears_zero :
    (update_state modal_incremental gc_values_t.zero block_X0).1.distance =
      DISTANCE_MODE_INCREMENTAL ∧
    bit_istrue block_X0.value_words (bit (WORD_X + 0)) = true ∧
    bit_istrue (update_state modal_incremental gc_values_t.zero
      block_X0).2.2.value_words (bit (WORD_X + 0)) = false := by
  have hd := update_state_incremental_distance gc_values_t.zero block_X0 rfl
  obtain ⟨-, -, -, -, -, -, -, -, -, -, wX, -⟩ :=
    update_state_value_bits modal_incremental gc_values_t.zero block_X0
  refine ⟨hd, by decide, ?_⟩
  rw [bit_istrue_bit, wX]
  simp [block_X0, parser_block_t.zero, gc_values_t.zero, vec3.zero]

/-! ## Arc normalisation -/

/-- The R branch of `normarcs` when its `assert` holds. -/
theorem normarcs_R (L : Libm) (b : parser_block_t) (motion : Nat) (x y : ℚ)
    (hR : bit_istrue b.value_words (bit WORD_R) = true)
    (hge : 4 * b.values.r * b.values.r - L.fl (x * x) - L.fl (y * y) ≥ 0) :
    ∃ nb h, normarcs L b motion x y = some nb ∧
      (h = -(L.sqrt (4 * b.values.r * b.values.r - L.fl (x * x) - L.fl (y * y))) /
          hypot_f L x y ∨
       h = -(-(L.sqrt (4 * b.values.r * b.values.r - L.fl (x * x) - L.fl (y * y))) /
          hypot_f L x y)) ∧
      nb.values.r = |b.values.r| ∧
      nb.values.ijk.e0 = 1 / 2 * (x - y * h) ∧ nb.values.ijk.e1 = 1 / 2 * (y + x * h) := by
  unfold normarcs
  simp only [hR, hge, if_true]
  refine ⟨_, (if b.values.r < 0 then
      ((-if motion = MOTION_MODE_CCW_ARC then
          -(-L.sqrt (4 * b.values.r * b.values.r - L.fl (x * x) - L.fl (y * y)) /
            hypot_f L x y)
        else -L.sqrt (4 * b.values.r * b.values.r - L.fl (x * x) - L.fl (y * y)) /
          hypot_f L x y),
        -b.values.r)
    else
      ((if motion = MOTION_MODE_CCW_ARC then
          -(-L.sqrt (4 * b.values.r * b.values.r - L.fl (x * x) - L.fl (y * y)) /
            hypot_f L x y)
        else -L.sqrt (4 * b.values.r * b.values.r - L.fl (x * x) - L.fl (y * y)) /
          hypot_f L x y),
        b.values.r)).1, rfl, ?_, ?_, rfl, rfl⟩
  · by_cases hm : motion = MOTION_MODE_CCW_ARC <;> by_cases hr : b.values.r < 0
    · simp only [hm, hr, if_true]
      left
      ring
    · simp only [hm, hr, if_true, if_false]
      right
      trivial
    · simp only [hm, hr, if_true, if_false]
      right
      trivial
    · simp only [hm, hr, if_false]
      left
      trivial
  · by_cases hr : b.values.r < 0
    · simp only [hr, if_true, abs_of_neg hr]
    · simp only [hr, if_false, abs_of_nonneg (not_lt.mp hr)]

/-! ## The parser -/

theorem gc_parse_words_cons (K : gcode_consts) (s : parse_state) (w : gc_word)
    (ws : List gc_word) :
    gc_parse_words K s (w :: ws) =
      if (gc_parse_word K s w).1 = STATUS_OK then gc_parse_words K (gc_parse_word K s w).2 ws
      else gc_parse_word K s w := rfl

theorem gc_parse_words_append (K : gcode_consts) (pre rest : List gc_word) (s : parse_state) :
    gc_parse_words K s (pre ++ rest) =
      if (gc_parse_words K s pre).1 = STATUS_OK then
        gc_parse_words K (gc_parse_words K s pre).2 rest
      else gc_parse_words K s pre := by
  induction pre generalizing s with
  | nil => simp [gc_parse_words]
  | cons w ws ih =>
    rw [List.cons_append, gc_parse_words_cons, gc_parse_words_cons]
    by_cases h : (gc_parse_word K s w).1 = STATUS_OK
    · rw [if_pos h, if_pos h, ih]
    · rw [if_neg h, if_neg h, if_neg h]

/-- The status of a line whose words before `w` are accepted: it is the status of `w`
when `w` fails. -/
theorem gc_parse_line_fail_at (K : gcode_consts) (pre post : List gc_word) (w : gc_word)
    (s1 : parse_state) (hpre : gc_parse_words K parse_init pre = (STATUS_OK, s1))
    (hw : (gc_parse_word K s1 w).1 ≠ STATUS_OK) :
    (gc_parse_line K (pre ++ w :: post)).1 = (gc_parse_word K s1 w).1 := by
  show (gc_parse_words K parse_init (pre ++ w :: post)).1 = _
  rw [gc_parse_words_append, hpre, if_pos rfl, gc_parse_words_cons, if_neg hw]

theorem gc_command_bit_frame (r : switch_result) :
    (gc_command_bit r).2.axis_command = r.state.axis_command ∧
    (gc_command_bit r).2.block.value_words = r.state.block.value_words ∧
    (gc_command_bit r).2.block.values = r.state.block.values ∧
    (gc_command_bit r).2.block.modal = r.state.block.modal ∧
    (gc_command_bit r).2.block.non_modal_command = r.state.block.non_modal_command := by
  unfold gc_command_bit
  split_ifs <;> exact ⟨rfl, rfl, rfl, rfl, rfl⟩

theorem gc_command_bit_status (r : switch_result) :
    (gc_command_bit r).1 =
      if r.state.block.command_words.testBit r.word_bit = true then
        STATUS_GCODE_MODAL_GROUP_VIOLATION
      else STATUS_OK := by
  unfold gc_command_bit
  rw [bit_istrue_bit]
  split_ifs <;> rfl

theorem gc_command_bit_words (r : switch_result) (h : (gc_command_bit r).1 = STATUS_OK) :
    r.state.block.command_words.testBit r.word_bit = false ∧
    (gc_command_bit r).2.block.command_words =
      bit_true r.state.block.command_words (bit r.word_bit) := by
  rw [gc_command_bit_status] at h
  unfold gc_command_bit
  rw [bit_istrue_bit]
  split_ifs at h with hb
  rw [if_neg hb]
  exact ⟨by simpa using hb, rfl⟩

/-! ### The `switch` for the letter G -/

theorem gc_G_non_modal_facts (s : parse_state) (iv m : Nat) :
    (gc_G_non_modal s iv m).state.block.command_words = s.block.command_words ∧
    (gc_G_non_modal s iv m).state.block.value_words = s.block.value_words ∧
    (gc_G_non_modal s iv m).state.block.values = s.block.values ∧
    (gc_G_non_modal s iv m).state.axis_command = s.axis_command ∧
    (gc_G_non_modal s iv m).word_bit = MODAL_GROUP_G0 ∧
    (gc_G_non_modal s iv m).fail ≠ some STATUS_GCODE_AXIS_COMMAND_CONFLICT := by
  unfold gc_G_non_modal
  split_ifs <;> exact ⟨rfl, rfl, rfl, rfl, rfl, by simp⟩

theorem gc_G_motion_facts (s : parse_state) (iv m : Nat) :
    (gc_G_motion s iv m).state.block.command_words = s.block.command_words ∧
    (gc_G_motion s iv m).state.block.value_words = s.block.value_words ∧
    (gc_G_motion s iv m).state.block.values = s.block.values ∧
    (gc_G_motion s iv m).state.axis_command = s.axis_command ∧
    (gc_G_motion s iv m).word_bit = MODAL_GROUP_G1 ∧
    (gc_G_motion s iv m).fail ≠ some STATUS_GCODE_AXIS_COMMAND_CONFLICT := by
  unfold gc_G_motion
  split_ifs <;> exact ⟨rfl, rfl, rfl, rfl, rfl, by simp⟩

theorem gc_G_distance_facts (s : parse_state) (iv m : Nat) :
    (gc_G_distance s iv m).state.block.command_words = s.block.command_words ∧
    (gc_G_distance s iv m).state.block.value_words = s.block.value_words ∧
    (gc_G_distance s iv m).state.block.values = s.block.values ∧
    (gc_G_distance s iv m).state.axis_command = s.axis_command ∧
    (gc_G_distance s iv m).word_bit = (if m = 0 then MODAL_GROUP_G3 else MODAL_GROUP_G4) ∧
    (gc_G_distance s iv m).fail ≠ some STATUS_GCODE_AXIS_COMMAND_CONFLICT := by
  unfold gc_G_distance
  split_ifs <;> exact ⟨rfl, rfl, rfl, rfl, rfl, by simp⟩

theorem gc_G_tool_length_facts (s : parse_state) (iv m : Nat) :
    (gc_G_tool_length s iv m).state.block.command_words = s.block.command_words ∧
    (gc_G_tool_length s iv m).state.block.value_words = s.block.value_words ∧
    (gc_G_tool_length s iv m).state.block.values = s.block.values ∧
    (gc_G_tool_length s iv m).word_bit = MODAL_GROUP_G8 ∧
    ((gc_G_tool_length s iv m).fail = some STATUS_GCODE_AXIS_COMMAND_CONFLICT ↔
      s.axis_command ≠ 0) ∧
    ((gc_G_tool_length s iv m).fail = none →
      s.axis_command = 0 ∧
      (gc_G_tool_length s iv m).state.axis_command = AXIS_COMMAND_TOOL_LENGTH_OFFSET) := by
  unfold gc_G_tool_length
  split_ifs with h1 h2 h3
  · exact ⟨rfl, rfl, rfl, rfl, by simp [h1], by simp⟩
  · exact ⟨rfl, rfl, rfl, rfl, by simp [h1], fun _ => ⟨not_not.mp h1, rfl⟩⟩
  · exact ⟨rfl, rfl, rfl, rfl, by simp [h1], fun _ => ⟨not_not.mp h1, rfl⟩⟩
  · exact ⟨rfl, rfl, rfl, rfl, by simp [h1], by simp⟩

/-- Case analysis of the `switch` for G: a property holds of its result when it holds in
each case of the `switch`. -/
theorem gc_G_cases (P : switch_result → Prop) (s : parse_state) (iv m : Nat)
    (h1 : (iv = 10 ∨ iv = 28 ∨ iv = 30 ∨ iv = 92) → m = 0 → s.axis_command ≠ 0 →
      P ⟨some STATUS_GCODE_AXIS_COMMAND_CONFLICT, 0, s, m⟩)
    (h2 : (iv = 10 ∨ iv = 28 ∨ iv = 30 ∨ iv = 92) → m = 0 → s.axis_command = 0 →
      P (gc_G_non_modal (set_axis_command s AXIS_COMMAND_NON_MODAL) iv m))
    (h3 : (iv = 10 ∨ iv = 28 ∨ iv = 30 ∨ iv = 92) → m ≠ 0 → P (gc_G_non_modal s iv m))
    (h4 : (iv = 4 ∨ iv = 53) → P (gc_G_non_modal s iv m))
    (h5 : (iv = 0 ∨ iv = 1 ∨ iv = 2 ∨ iv = 3 ∨ iv = 38) → s.axis_command ≠ 0 →
      P ⟨some STATUS_GCODE_AXIS_COMMAND_CONFLICT, 0, s, m⟩)
    (h6 : (iv = 0 ∨ iv = 1 ∨ iv = 2 ∨ iv = 3 ∨ iv = 38) → s.axis_command = 0 →
      P (gc_G_motion (set_axis_command s AXIS_COMMAND_MOTION_MODE) iv m))
    (h7 : iv = 80 → P (gc_G_motion s iv m))
    (h8 : (iv = 17 ∨ iv = 18 ∨ iv = 19) →
      P ⟨none, MODAL_GROUP_G2, set_plane_select s (iv - 17), m⟩)
    (h9 : (iv = 90 ∨ iv = 91) → P (gc_G_distance s iv m))
    (h10 : (iv = 93 ∨ iv = 94) → P ⟨none, MODAL_GROUP_G5, set_feed_rate s (94 - iv), m⟩)
    (h11 : (iv = 20 ∨ iv = 21) → P ⟨none, MODAL_GROUP_G6, set_units s (21 - iv), m⟩)
    (h12 : iv = 40 → P ⟨none, MODAL_GROUP_G7, s, m⟩)
    (h13 : (iv = 43 ∨ iv = 49) → P (gc_G_tool_length s iv m))
    (h14 : (iv = 54 ∨ iv = 55 ∨ iv = 56 ∨ iv = 57 ∨ iv = 58 ∨ iv = 59) →
      P ⟨none, MODAL_GROUP_G12, set_coord_select s (iv - 54), m⟩)
    (h15 : iv = 61 → m ≠ 0 → P ⟨some STATUS_GCODE_UNSUPPORTED_COMMAND, MODAL_GROUP_G13, s, m⟩)
    (h16 : iv = 61 → m = 0 → P ⟨none, MODAL_GROUP_G13, s, m⟩)
    (h17 : ¬(iv = 10 ∨ iv = 28 ∨ iv = 30 ∨ iv = 92) → ¬(iv = 4 ∨ iv = 53) →
      ¬(iv = 0 ∨ iv = 1 ∨ iv = 2 ∨ iv = 3 ∨ iv = 38) → iv ≠ 80 →
      ¬(iv = 17 ∨ iv = 18 ∨ iv = 19) → ¬(iv = 90 ∨ iv = 91) → ¬(iv = 93 ∨ iv = 94) →
      ¬(iv = 20 ∨ iv = 21) → iv ≠ 40 → ¬(iv = 43 ∨ iv = 49) →
      ¬(iv = 54 ∨ iv = 55 ∨ iv = 56 ∨ iv = 57 ∨ iv = 58 ∨ iv = 59) → iv ≠ 61 →
      P ⟨some STATUS_GCODE_UNSUPPORTED_COMMAND, 0, s, m⟩) :
    P (gc_G s iv m) := by
  unfold gc_G
  by_cases c1 : iv = 10 ∨ iv = 28 ∨ iv = 30 ∨ iv = 92
  · rw [if_pos c1]
    by_cases cm : m = 0
    · rw [if_pos cm]
      by_cases ca : s.axis_command ≠ 0
      · rw [if_pos ca]; exact h1 c1 cm ca
      · rw [if_neg ca]; exact h2 c1 cm (not_not.mp ca)
    · rw [if_neg cm]; exact h3 c1 cm
  rw [if_neg c1]
  by_cases c2 : iv = 4 ∨ iv = 53
  · rw [if_pos c2]; exact h4 c2
  rw [if_neg c2]
  by_cases c3 : iv = 0 ∨ iv = 1 ∨ iv = 2 ∨ iv = 3 ∨ iv = 38
  · rw [if_pos c3]
    by_cases ca : s.axis_command ≠ 0
    · rw [if_pos ca]; exact h5 c3 ca
    · rw [if_neg ca]; exact h6 c3 (not_not.mp ca)
  rw [if_neg c3]
  by_cases c4 : iv = 80
  · rw [if_pos c4]; exact h7 c4
  rw [if_neg c4]
  by_cases c5 : iv = 17 ∨ iv = 18 ∨ iv = 19
  · rw [if_pos c5]; exact h8 c5
  rw [if_neg c5]
  by_cases c6 : iv = 90 ∨ iv = 91
  · rw [if_pos c6]; exact h9 c6
  rw [if_neg c6]
  by_cases c7 : iv = 93 ∨ iv = 94
  · rw [if_pos c7]; exact h10 c7
  rw [if_neg c7]
  by_cases c8 : iv = 20 ∨ iv = 21
  · rw [if_pos c8]; exact h11 c8
  rw [if_neg c8]
  by_cases c9 : iv = 40
  · rw [if_pos c9]; exact h12 c9
  rw [if_neg c9]
  by_cases c10 : iv = 43 ∨ iv = 49
  · rw [if_pos c10]; exact h13 c10
  rw [if_neg c10]
  by_cases c11 : iv = 54 ∨ iv = 55 ∨ iv = 56 ∨ iv = 57 ∨ iv = 58 ∨ iv = 59
  · rw [if_pos c11]; exact h14 c11
  rw [if_neg c11]
  by_cases c12 : iv = 61
  · rw [if_pos c12]
    by_cases cm : m ≠ 0
    · rw [if_pos cm]; exact h15 c12 cm
    · rw [if_neg cm]; exact h16 c12 (not_not.mp cm)
  rw [if_neg c12]
  exact h17 c1 c2 c3 c4 c5 c6 c7 c8 c9 c10 c11 c12

/-- The `switch` for G leaves the two bit sets and the value slots as they are. -/
theorem gc_G_frame (s : parse_state) (iv m : Nat) :
    (gc_G s iv m).state.block.command_words = s.block.command_words ∧
    (gc_G s iv m).state.block.value_words = s.block.value_words ∧
    (gc_G s iv m).state.block.values = s.block.values := by
  refine gc_G_cases (fun r => r.state.block.command_words = s.block.command_words ∧
    r.state.block.value_words = s.block.value_words ∧
    r.state.block.values = s.block.values) s iv m ?_ ?_ ?_ ?_ ?_ ?_ ?_ ?_ ?_ ?_ ?_ ?_ ?_ ?_
    ?_ ?_ ?_
  all_goals intros
  all_goals first
    | exact ⟨rfl, rfl, rfl⟩
    | exact ⟨(gc_G_non_modal_facts _ _ _).1, (gc_G_non_modal_facts _ _ _).2.1,
        (gc_G_non_modal_facts _ _ _).2.2.1⟩
    | exact ⟨(gc_G_motion_facts _ _ _).1, (gc_G_motion_facts _ _ _).2.1,
        (gc_G_motion_facts _ _ _).2.2.1⟩
    | exact ⟨(gc_G_distance_facts _ _ _).1, (gc_G_distance_facts _ _ _).2.1,
        (gc_G_distance_facts _ _ _).2.2.1⟩
    | exact ⟨(gc_G_tool_length_facts _ _ _).1, (gc_G_tool_length_facts _ _ _).2.1,
        (gc_G_tool_length_facts _ _ _).2.2.1⟩

/-- The `switch` for G fails with an axis-command conflict exactly when an axis command
is met after another one. -/
theorem gc_G_conflict (s : parse_state) (iv m : Nat) :
    (gc_G s iv m).fail = some STATUS_GCODE_AXIS_COMMAND_CONFLICT ↔
      (s.axis_command ≠ 0 ∧ is_axis_command iv m) := by
  unfold is_axis_command
  refine gc_G_cases (fun r => r.fail = some STATUS_GCODE_AXIS_COMMAND_CONFLICT ↔
      (s.axis_command ≠ 0 ∧
        (((iv = 10 ∨ iv = 28 ∨ iv = 30 ∨ iv = 92) ∧ m = 0) ∨
         (iv = 0 ∨ iv = 1 ∨ iv = 2 ∨ iv = 3 ∨ iv = 38) ∨ (iv = 43 ∨ iv = 49)))) s iv m
    ?_ ?_ ?_ ?_ ?_ ?_ ?_ ?_ ?_ ?_ ?_ ?_ ?_ ?_ ?_ ?_ ?_
  · intro c cm ca
    exact ⟨fun _ => ⟨ca, Or.inl ⟨c, cm⟩⟩, fun _ => rfl⟩
  · intro c cm ca
    exact ⟨fun h => absurd h (gc_G_non_modal_facts _ _ _).2.2.2.2.2, fun h => absurd ca h.1⟩
  · intro c cm
    refine ⟨fun h => absurd h (gc_G_non_modal_facts _ _ _).2.2.2.2.2, fun h => ?_⟩
    exfalso
    omega
  · intro c
    refine ⟨fun h => absurd h (gc_G_non_modal_facts _ _ _).2.2.2.2.2, fun h => ?_⟩
    exfalso
    omega
  · intro c ca
    exact ⟨fun _ => ⟨ca, Or.inr (Or.inl c)⟩, fun _ => rfl⟩
  · intro c ca
    exact ⟨fun h => absurd h (gc_G_motion_facts _ _ _).2.2.2.2.2, fun h => absurd ca h.1⟩
  · intro c
    refine ⟨fun h => absurd h (gc_G_motion_facts _ _ _).2.2.2.2.2, fun h => ?_⟩
    exfalso
    omega
  · intro c
    refine ⟨fun h => by simp at h, fun h => ?_⟩
    exfalso
    omega
  · intro c
    refine ⟨fun h => absurd h (gc_G_distance_facts _ _ _).2.2.2.2.2, fun h => ?_⟩
    exfalso
    omega
  · intro c
    refine ⟨fun h => by simp at h, fun h => ?_⟩
    exfalso
    omega
  · intro c
    refine ⟨fun h => by simp at h, fun h => ?_⟩
    exfalso
    omega
  · intro c
    refine ⟨fun h => by simp at h, fun h => ?_⟩
    exfalso
    omega
  · intro c
    rw [(gc_G_tool_length_facts s iv m).2.2.2.2.1]
    exact ⟨fun h => ⟨h, Or.inr (Or.inr c)⟩, fun h => h.1⟩
  · intro c
    refine ⟨fun h => by simp at h, fun h => ?_⟩
    exfalso
    omega
  · intro c cm
    refine ⟨fun h => by simp at h, fun h => ?_⟩
    exfalso
    omega
  · intro c cm
    refine ⟨fun h => by simp at h, fun h => ?_⟩
    exfalso
    omega
  · intro n1 n2 n3 n4 n5 n6 n7 n8 n9 n10 n11 n12
    refine ⟨fun h => by simp at h, fun h => ?_⟩
    exfalso
    omega

/-- When the `switch` for G does not fail, `axis_command` is set exactly by an axis
command, which is then the first of the line. -/
theorem gc_G_axis (s : parse_state) (iv m : Nat) (h : (gc_G s iv m).fail = none) :
    ((gc_G s iv m).state.axis_command ≠ 0 ↔ (s.axis_command ≠ 0 ∨ is_axis_command iv m)) ∧
    (is_axis_command iv m → s.axis_command = 0) := by
  have hc := gc_G_conflict s iv m
  rw [h] at hc
  have hno : is_axis_command iv m → s.axis_command = 0 := by
    intro ha
    by_contra h0
    exact absurd (hc.mpr ⟨h0, ha⟩) (by simp)
  refine ⟨?_, hno⟩
  revert h hno
  unfold is_axis_command
  refine gc_G_cases (fun r => r.fail = none →
      ((((iv = 10 ∨ iv = 28 ∨ iv = 30 ∨ iv = 92) ∧ m = 0) ∨
         (iv = 0 ∨ iv = 1 ∨ iv = 2 ∨ iv = 3 ∨ iv = 38) ∨ (iv = 43 ∨ iv = 49)) →
        s.axis_command = 0) →
      (r.state.axis_command ≠ 0 ↔ (s.axis_command ≠ 0 ∨
        (((iv = 10 ∨ iv = 28 ∨ iv = 30 ∨ iv = 92) ∧ m = 0) ∨
         (iv = 0 ∨ iv = 1 ∨ iv = 2 ∨ iv = 3 ∨ iv = 38) ∨ (iv = 43 ∨ iv = 49))))) s iv m
    ?_ ?_ ?_ ?_ ?_ ?_ ?_ ?_ ?_ ?_ ?_ ?_ ?_ ?_ ?_ ?_ ?_
  · intro c cm ca h
    simp at h
  · intro c cm ca h hno
    rw [(gc_G_non_modal_facts _ _ _).2.2.2.1]
    exact ⟨fun _ => Or.inr (Or.inl ⟨c, cm⟩), fun _ => (by decide : AXIS_COMMAND_NON_MODAL ≠ 0)⟩
  · intro c cm h hno
    rw [(gc_G_non_modal_facts _ _ _).2.2.2.1]
    refine ⟨fun h => Or.inl h, fun h => ?_⟩
    rcases h with h | h
    · exact h
    · exfalso; omega
  · intro c h hno
    rw [(gc_G_non_modal_facts _ _ _).2.2.2.1]
    refine ⟨fun h => Or.inl h, fun h => ?_⟩
    rcases h with h | h
    · exact h
    · exfalso; omega
  · intro c ca h
    simp at h
  · intro c ca h hno
    rw [(gc_G_motion_facts _ _ _).2.2.2.1]
    exact ⟨fun _ => Or.inr (Or.inr (Or.inl c)), fun _ => (by decide : AXIS_COMMAND_MOTION_MODE ≠ 0)⟩
  · intro c h hno
    rw [(gc_G_motion_facts _ _ _).2.2.2.1]
    refine ⟨fun h => Or.inl h, fun h => ?_⟩
    rcases h with h | h
    · exact h
    · exfalso; omega
  · intro c h hno
    refine ⟨fun h => Or.inl h, fun h => ?_⟩
    rcases h with h | h
    · exact h
    · exfalso; omega
  · intro c h hno
    rw [(gc_G_distance_facts _ _ _).2.2.2.1]
    refine ⟨fun h => Or.inl h, fun h => ?_⟩
    rcases h with h | h
    · exact h
    · exfalso; omega
  · intro c h hno
    refine ⟨fun h => Or.inl h, fun h => ?_⟩
    rcases h with h | h
    · exact h
    · exfalso; omega
  · intro c h hno
    refine ⟨fun h => Or.inl h, fun h => ?_⟩
    rcases h with h | h
    · exact h
    · exfalso; omega
  · intro c h hno
    refine ⟨fun h => Or.inl h, fun h => ?_⟩
    rcases h with h | h
    · exact h
    · exfalso; omega
  · intro c h hno
    rw [((gc_G_tool_length_facts s iv m).2.2.2.2.2 h).2]
    exact ⟨fun _ => Or.inr (Or.inr (Or.inr c)), fun _ => (by decide : AXIS_COMMAND_TOOL_LENGTH_OFFSET ≠ 0)⟩
  · intro c h hno
    refine ⟨fun h => Or.inl h, fun h => ?_⟩
    rcases h with h | h
    · exact h
    · exfalso; omega
  · intro c cm h
    simp at h
  · intro c cm h hno
    refine ⟨fun h => Or.inl h, fun h => ?_⟩
    rcases h with h | h
    · exact h
    · exfalso; omega
  · intro n1 n2 n3 n4 n5 n6 n7 n8 n9 n10 n11 n12 h
    simp at h

/-- Case analysis of the `switch` for G in two states at once: the two calls take the
same case of the `switch`. -/
theorem gc_G_cases2 (P : switch_result → switch_result → Prop) (s s' : parse_state)
    (iv m : Nat)
    (h1 : (iv = 10 ∨ iv = 28 ∨ iv = 30 ∨ iv = 92) → m = 0 →
      P (if s.axis_command ≠ 0 then ⟨some STATUS_GCODE_AXIS_COMMAND_CONFLICT, 0, s, m⟩
          else gc_G_non_modal (set_axis_command s AXIS_COMMAND_NON_MODAL) iv m)
        (if s'.axis_command ≠ 0 then ⟨some STATUS_GCODE_AXIS_COMMAND_CONFLICT, 0, s', m⟩
          else gc_G_non_modal (set_axis_command s' AXIS_COMMAND_NON_MODAL) iv m))
    (h3 : P (gc_G_non_modal s iv m) (gc_G_non_modal s' iv m))
    (h5 : (iv = 0 ∨ iv = 1 ∨ iv = 2 ∨ iv = 3 ∨ iv = 38) →
      P (if s.axis_command ≠ 0 then ⟨some STATUS_GCODE_AXIS_COMMAND_CONFLICT, 0, s, m⟩
          else gc_G_motion (set_axis_command s AXIS_COMMAND_MOTION_MODE) iv m)
        (if s'.axis_command ≠ 0 then ⟨some STATUS_GCODE_AXIS_COMMAND_CONFLICT, 0, s', m⟩
          else gc_G_motion (set_axis_command s' AXIS_COMMAND_MOTION_MODE) iv m))
    (h7 : P (gc_G_motion s iv m) (gc_G_motion s' iv m))
    (h8 : P ⟨none, MODAL_GROUP_G2, set_plane_select s (iv - 17), m⟩
      ⟨none, MODAL_GROUP_G2, set_plane_select s' (iv - 17), m⟩)
    (h9 : P (gc_G_distance s iv m) (gc_G_distance s' iv m))
    (h10 : P ⟨none, MODAL_GROUP_G5, set_feed_rate s (94 - iv), m⟩
      ⟨none, MODAL_GROUP_G5, set_feed_rate s' (94 - iv), m⟩)
    (h11 : P ⟨none, MODAL_GROUP_G6, set_units s (21 - iv), m⟩
      ⟨none, MODAL_GROUP_G6, set_units s' (21 - iv), m⟩)
    (h12 : P ⟨none, MODAL_GROUP_G7, s, m⟩ ⟨none, MODAL_GROUP_G7, s', m⟩)
    (h13 : (iv = 43 ∨ iv = 49) → P (gc_G_tool_length s iv m) (gc_G_tool_length s' iv m))
    (h14 : P ⟨none, MODAL_GROUP_G12, set_coord_select s (iv - 54), m⟩
      ⟨none, MODAL_GROUP_G12, set_coord_select s' (iv - 54), m⟩)
    (h15 : P ⟨some STATUS_GCODE_UNSUPPORTED_COMMAND, MODAL_GROUP_G13, s, m⟩
      ⟨some STATUS_GCODE_UNSUPPORTED_COMMAND, MODAL_GROUP_G13, s', m⟩)
    (h16 : P ⟨none, MODAL_GROUP_G13, s, m⟩ ⟨none, MODAL_GROUP_G13, s', m⟩)
    (h17 : P ⟨some STATUS_GCODE_UNSUPPORTED_COMMAND, 0, s, m⟩
      ⟨some STATUS_GCODE_UNSUPPORTED_COMMAND, 0, s', m⟩) :
    P (gc_G s iv m) (gc_G s' iv m) := by
  unfold gc_G
  by_cases c1 : iv = 10 ∨ iv = 28 ∨ iv = 30 ∨ iv = 92
  · rw [if_pos c1, if_pos c1]
    by_cases cm : m = 0
    · rw [if_pos cm, if_pos cm]; exact h1 c1 cm
    · rw [if_neg cm, if_neg cm]; exact h3
  rw [if_neg c1, if_neg c1]
  by_cases c2 : iv = 4 ∨ iv = 53
  · rw [if_pos c2, if_pos c2]; exact h3
  rw [if_neg c2, if_neg c2]
  by_cases c3 : iv = 0 ∨ iv = 1 ∨ iv = 2 ∨ iv = 3 ∨ iv = 38
  · rw [if_pos c3, if_pos c3]; exact h5 c3
  rw [if_neg c3, if_neg c3]
  by_cases c4 : iv = 80
  · rw [if_pos c4, if_pos c4]; exact h7
  rw [if_neg c4, if_neg c4]
  by_cases c5 : iv = 17 ∨ iv = 18 ∨ iv = 19
  · rw [if_pos c5, if_pos c5]; exact h8
  rw [if_neg c5, if_neg c5]
  by_cases c6 : iv = 90 ∨ iv = 91
  · rw [if_pos c6, if_pos c6]; exact h9
  rw [if_neg c6, if_neg c6]
  by_cases c7 : iv = 93 ∨ iv = 94
  · rw [if_pos c7, if_pos c7]; exact h10
  rw [if_neg c7, if_neg c7]
  by_cases c8 : iv = 20 ∨ iv = 21
  · rw [if_pos c8, if_pos c8]; exact h11
  rw [if_neg c8, if_neg c8]
  by_cases c9 : iv = 40
  · rw [if_pos c9, if_pos c9]; exact h12
  rw [if_neg c9, if_neg c9]
  by_cases c10 : iv = 43 ∨ iv = 49
  · rw [if_pos c10, if_pos c10]; exact h13 c10
  rw [if_neg c10, if_neg c10]
  by_cases c11 : iv = 54 ∨ iv = 55 ∨ iv = 56 ∨ iv = 57 ∨ iv = 58 ∨ iv = 59
  · rw [if_pos c11, if_pos c11]; exact h14
  rw [if_neg c11, if_neg c11]
  by_cases c12 : iv = 61
  · rw [if_pos c12, if_pos c12]
    by_cases cm : m ≠ 0
    · rw [if_pos cm, if_pos cm]; exact h15
    · rw [if_neg cm, if_neg cm]; exact h16
  rw [if_neg c12, if_neg c12]
  exact h17

theorem gc_G_non_modal_sig (s s' : parse_state) (iv m : Nat) :
    (gc_G_non_modal s iv m).fail = (gc_G_non_modal s' iv m).fail ∧
    (gc_G_non_modal s iv m).word_bit = (gc_G_non_modal s' iv m).word_bit ∧
    (gc_G_non_modal s iv m).mantissa = (gc_G_non_modal s' iv m).mantissa := by
  unfold gc_G_non_modal
  split_ifs <;> exact ⟨rfl, rfl, rfl⟩

theorem gc_G_motion_sig (s s' : parse_state) (iv m : Nat) :
    (gc_G_motion s iv m).fail = (gc_G_motion s' iv m).fail ∧
    (gc_G_motion s iv m).word_bit = (gc_G_motion s' iv m).word_bit ∧
    (gc_G_motion s iv m).mantissa = (gc_G_motion s' iv m).mantissa := by
  unfold gc_G_motion
  split_ifs <;> exact ⟨rfl, rfl, rfl⟩

theorem gc_G_distance_sig (s s' : parse_state) (iv m : Nat) :
    (gc_G_distance s iv m).fail = (gc_G_distance s' iv m).fail ∧
    (gc_G_distance s iv m).word_bit = (gc_G_distance s' iv m).word_bit ∧
    (gc_G_distance s iv m).mantissa = (gc_G_distance s' iv m).mantissa := by
  unfold gc_G_distance
  split_ifs <;> exact ⟨rfl, rfl, rfl⟩

theorem gc_G_tool_length_sig (s s' : parse_state) (iv m : Nat)
    (h : s.axis_command = 0 ↔ s'.axis_command = 0) :
    (gc_G_tool_length s iv m).fail = (gc_G_tool_length s' iv m).fail ∧
    (gc_G_tool_length s iv m).word_bit = (gc_G_tool_length s' iv m).word_bit ∧
    (gc_G_tool_length s iv m).mantissa = (gc_G_tool_length s' iv m).mantissa := by
  unfold gc_G_tool_length
  by_cases h0 : s.axis_command = 0
  · rw [if_neg (not_not.mpr h0), if_neg (not_not.mpr (h.mp h0))]
    split_ifs <;> exact ⟨rfl, rfl, rfl⟩
  · rw [if_pos h0, if_pos (fun h1 => h0 (h.mpr h1))]
    exact ⟨rfl, rfl, rfl⟩

/-- What the `switch` for G decides (failure, bit index, mantissa) depends on the state
only through the test whether an axis command was met, and only for an axis command. -/
theorem gc_G_sig (s s' : parse_state) (iv m : Nat)
    (h : ¬is_axis_command iv m ∨ (s.axis_command = 0 ↔ s'.axis_command = 0)) :
    (gc_G s iv m).fail = (gc_G s' iv m).fail ∧
    (gc_G s iv m).word_bit = (gc_G s' iv m).word_bit ∧
    (gc_G s iv m).mantissa = (gc_G s' iv m).mantissa := by
  have hax : is_axis_command iv m → (s.axis_command = 0 ↔ s'.axis_command = 0) := by
    intro ha
    rcases h with h | h
    · exact absurd ha h
    · exact h
  unfold is_axis_command at hax
  refine gc_G_cases2 (fun r r' => r.fail = r'.fail ∧ r.word_bit = r'.word_bit ∧
    r.mantissa = r'.mantissa) s s' iv m ?_ (gc_G_non_modal_sig _ _ _ _) ?_
    (gc_G_motion_sig _ _ _ _) ⟨rfl, rfl, rfl⟩ (gc_G_distance_sig _ _ _ _) ⟨rfl, rfl, rfl⟩
    ⟨rfl, rfl, rfl⟩ ⟨rfl, rfl, rfl⟩ ?_ ⟨rfl, rfl, rfl⟩ ⟨rfl, rfl, rfl⟩ ⟨rfl, rfl, rfl⟩
    ⟨rfl, rfl, rfl⟩
  · intro c cm
    have e := hax (Or.inl ⟨c, cm⟩)
    by_cases h0 : s.axis_command = 0
    · rw [if_neg (not_not.mpr h0), if_neg (not_not.mpr (e.mp h0))]
      exact gc_G_non_modal_sig _ _ _ _
    · rw [if_pos h0, if_pos (fun h1 => h0 (e.mpr h1))]
      exact ⟨rfl, rfl, rfl⟩
  · intro c
    have e := hax (Or.inr (Or.inl c))
    by_cases h0 : s.axis_command = 0
    · rw [if_neg (not_not.mpr h0), if_neg (not_not.mpr (e.mp h0))]
      exact gc_G_motion_sig _ _ _ _
    · rw [if_pos h0, if_pos (fun h1 => h0 (e.mpr h1))]
      exact ⟨rfl, rfl, rfl⟩
  · intro c
    exact gc_G_tool_length_sig s s' iv m (hax (Or.inr (Or.inr c)))

/-- A G word that the `switch` accepts in some state is accepted as the first word of a
line, with the same bit index and mantissa. -/
theorem gc_G_accepted (s : parse_state) (iv m : Nat) (h : (gc_G s iv m).fail = none) :
    (gc_G parse_init iv m).fail = none ∧
    (gc_G parse_init iv m).word_bit = (gc_G s iv m).word_bit ∧
    (gc_G parse_init iv m).mantissa = (gc_G s iv m).mantissa := by
  have hs : ¬is_axis_command iv m ∨ (s.axis_command = 0 ↔ parse_init.axis_command = 0) := by
    by_cases ha : is_axis_command iv m
    · exact Or.inr ⟨fun _ => rfl, fun _ => (gc_G_axis s iv m h).2 ha⟩
    · exact Or.inl ha
  obtain ⟨e1, e2, e3⟩ := gc_G_sig s parse_init iv m hs
  exact ⟨by rw [← e1, h], e2.symm, e3.symm⟩

/-- A G word that is accepted as the first word of a line meets, in any state, either an
axis-command conflict or the same decision of the `switch`. -/
theorem gc_G_later (s : parse_state) (iv m : Nat) :
    ((s.axis_command ≠ 0 ∧ is_axis_command iv m) ∧
      (gc_G s iv m).fail = some STATUS_GCODE_AXIS_COMMAND_CONFLICT) ∨
    (¬(s.axis_command ≠ 0 ∧ is_axis_command iv m) ∧
      (gc_G s iv m).fail = (gc_G parse_init iv m).fail ∧
      (gc_G s iv m).word_bit = (gc_G parse_init iv m).word_bit ∧
      (gc_G s iv m).mantissa = (gc_G parse_init iv m).mantissa) := by
  by_cases hc : s.axis_command ≠ 0 ∧ is_axis_command iv m
  · exact Or.inl ⟨hc, (gc_G_conflict s iv m).mpr hc⟩
  · refine Or.inr ⟨hc, gc_G_sig s parse_init iv m ?_⟩
    by_cases ha : is_axis_command iv m
    · right
      have h0 : s.axis_command = 0 := by
        by_contra h0
        exact hc ⟨h0, ha⟩
      exact ⟨fun _ => rfl, fun _ => h0⟩
    · exact Or.inl ha

/-! ### The `switch` for the letter M and the value words -/

/-- Case analysis of the `switch` for M in two states at once. -/
theorem gc_M_cases2 (K : gcode_consts) (P : switch_result → switch_result → Prop)
    (s s' : parse_state) (iv m : Nat)
    (h1 : ∀ x, P ⟨none, MODAL_GROUP_M4, set_program_flow s x, m⟩
      ⟨none, MODAL_GROUP_M4, set_program_flow s' x, m⟩)
    (h2 : P ⟨none, MODAL_GROUP_M4, s, m⟩ ⟨none, MODAL_GROUP_M4, s', m⟩)
    (h3 : ∀ x, P ⟨none, MODAL_GROUP_M7, set_spindle s x, m⟩
      ⟨none, MODAL_GROUP_M7, set_spindle s' x, m⟩)
    (h4 : ∀ x x', P ⟨none, MODAL_GROUP_M8, set_coolant s x, m⟩
      ⟨none, MODAL_GROUP_M8, set_coolant s' x', m⟩)
    (h5 : ∀ x, P ⟨none, MODAL_GROUP_M9, set_override s x, m⟩
      ⟨none, MODAL_GROUP_M9, set_override s' x, m⟩)
    (h6 : P ⟨some STATUS_GCODE_UNSUPPORTED_COMMAND, 0, s, m⟩
      ⟨some STATUS_GCODE_UNSUPPORTED_COMMAND, 0, s', m⟩) :
    P (gc_M K s iv m) (gc_M K s' iv m) := by
  unfold gc_M
  by_cases c1 : iv = 0 ∨ iv = 1 ∨ iv = 2 ∨ iv = 30
  · rw [if_pos c1, if_pos c1]
    by_cases c0 : iv = 0
    · rw [if_pos c0, if_pos c0]; exact h1 _
    rw [if_neg c0, if_neg c0]
    by_cases c01 : iv = 1
    · rw [if_pos c01, if_pos c01]; exact h2
    rw [if_neg c01, if_neg c01]; exact h1 _
  rw [if_neg c1, if_neg c1]
  by_cases c2 : iv = 3 ∨ iv = 4 ∨ iv = 5
  · rw [if_pos c2, if_pos c2]; exact h3 _
  rw [if_neg c2, if_neg c2]
  by_cases c3 : (K.ENABLE_M7 = true ∧ iv = 7) ∨ iv = 8 ∨ iv = 9
  · rw [if_pos c3, if_pos c3]; exact h4 _ _
  rw [if_neg c3, if_neg c3]
  by_cases c4 : K.ENABLE_PARKING_OVERRIDE_CONTROL = true ∧ iv = 56
  · rw [if_pos c4, if_pos c4]; exact h5 _
  rw [if_neg c4, if_neg c4]; exact h6

theorem gc_M_frame (K : gcode_consts) (s : parse_state) (iv m : Nat) :
    (gc_M K s iv m).state.block.command_words = s.block.command_words ∧
    (gc_M K s iv m).state.block.value_words = s.block.value_words ∧
    (gc_M K s iv m).state.block.values = s.block.values ∧
    (gc_M K s iv m).state.axis_command = s.axis_command ∧
    (gc_M K s iv m).mantissa = m :=
  gc_M_cases2 K (fun r _ => r.state.block.command_words = s.block.command_words ∧
    r.state.block.value_words = s.block.value_words ∧
    r.state.block.values = s.block.values ∧
    r.state.axis_command = s.axis_command ∧ r.mantissa = m) s s iv m
    (fun _ => ⟨rfl, rfl, rfl, rfl, rfl⟩) ⟨rfl, rfl, rfl, rfl, rfl⟩
    (fun _ => ⟨rfl, rfl, rfl, rfl, rfl⟩) (fun _ _ => ⟨rfl, rfl, rfl, rfl, rfl⟩)
    (fun _ => ⟨rfl, rfl, rfl, rfl, rfl⟩) ⟨rfl, rfl, rfl, rfl, rfl⟩

theorem gc_M_sig (K : gcode_consts) (s s' : parse_state) (iv m : Nat) :
    (gc_M K s iv m).fail = (gc_M K s' iv m).fail ∧
    (gc_M K s iv m).word_bit = (gc_M K s' iv m).word_bit :=
  gc_M_cases2 K (fun r r' => r.fail = r'.fail ∧ r.word_bit = r'.word_bit) s s' iv m
    (fun _ => ⟨rfl, rfl⟩) ⟨rfl, rfl⟩ (fun _ => ⟨rfl, rfl⟩) (fun _ _ => ⟨rfl, rfl⟩)
    (fun _ => ⟨rfl, rfl⟩) ⟨rfl, rfl⟩

theorem value_index_some (letter : Char) (i : Nat) (h : value_index letter = some i) :
    (letter = 'F' ∧ i = WORD_F) ∨
    (letter = 'I' ∧ i = WORD_I) ∨
    (letter = 'J' ∧ i = WORD_J) ∨
    (letter = 'K' ∧ i = WORD_K) ∨
    (letter = 'L' ∧ i = WORD_L) ∨
    (letter = 'N' ∧ i = WORD_N) ∨
    (letter = 'P' ∧ i = WORD_P) ∨
    (letter = 'R' ∧ i = WORD_R) ∨
    (letter = 'S' ∧ i = WORD_S) ∨
    (letter = 'T' ∧ i = WORD_T) ∨
    (letter = 'X' ∧ i = WORD_X) ∨
    (letter = 'Y' ∧ i = WORD_Y) ∨
    (letter = 'Z' ∧ i = WORD_Z) := by
  unfold value_index at h
  by_cases c0 : letter = 'F'
  · rw [if_pos c0] at h
    exact Or.inl ⟨c0, (Option.some.inj h).symm⟩
  rw [if_neg c0] at h
  by_cases c1 : letter = 'I'
  · rw [if_pos c1] at h
    exact Or.inr (Or.inl ⟨c1, (Option.some.inj h).symm⟩)
  rw [if_neg c1] at h
  by_cases c2 : letter = 'J'
  · rw [if_pos c2] at h
    exact Or.inr (Or.inr (Or.inl ⟨c2, (Option.some.inj h).symm⟩))
  rw [if_neg c2] at h
  by_cases c3 : letter = 'K'
  · rw [if_pos c3] at h
    exact Or.inr (Or.inr (Or.inr (Or.inl ⟨c3, (Option.some.inj h).symm⟩)))
  rw [if_neg c3] at h
  by_cases c4 : letter = 'L'
  · rw [if_pos c4] at h
    exact Or.inr (Or.inr (Or.inr (Or.inr (Or.inl ⟨c4, (Option.some.inj h).symm⟩))))
  rw [if_neg c4] at h
  by_cases c5 : letter = 'N'
  · rw [if_pos c5] at h
    exact Or.inr (Or.inr (Or.inr (Or.inr (Or.inr (Or.inl ⟨c5, (Option.some.inj h).symm⟩)))))
  rw [if_neg c5] at h
  by_cases c6 : letter = 'P'
  · rw [if_pos c6] at h
    exact Or.inr (Or.inr (Or.inr (Or.inr (Or.inr (Or.inr (Or.inl ⟨c6, (Option.some.inj h).symm⟩))))))
  rw [if_neg c6] at h
  by_cases c7 : letter = 'R'
  · rw [if_pos c7] at h
    exact Or.inr (Or.inr (Or.inr (Or.inr (Or.inr (Or.inr (Or.inr (Or.inl ⟨c7, (Option.some.inj h).symm⟩)))))))
  rw [if_neg c7] at h
  by_cases c8 : letter = 'S'
  · rw [if_pos c8] at h
    exact Or.inr (Or.inr (Or.inr (Or.inr (Or.inr (Or.inr (Or.inr (Or.inr (Or.inl ⟨c8, (Option.some.inj h).symm⟩))))))))
  rw [if_neg c8] at h
  by_cases c9 : letter = 'T'
  · rw [if_pos c9] at h
    exact Or.inr (Or.inr (Or.inr (Or.inr (Or.inr (Or.inr (Or.inr (Or.inr (Or.inr (Or.inl ⟨c9, (Option.some.inj h).symm⟩)))))))))
  rw [if_neg c9] at h
  by_cases c10 : letter = 'X'
  · rw [if_pos c10] at h
    exact Or.inr (Or.inr (Or.inr (Or.inr (Or.inr (Or.inr (Or.inr (Or.inr (Or.inr (Or.inr (Or.inl ⟨c10, (Option.some.inj h).symm⟩))))))))))
  rw [if_neg c10] at h
  by_cases c11 : letter = 'Y'
  · rw [if_pos c11] at h
    exact Or.inr (Or.inr (Or.inr (Or.inr (Or.inr (Or.inr (Or.inr (Or.inr (Or.inr (Or.inr (Or.inr (Or.inl ⟨c11, (Option.some.inj h).symm⟩)))))))))))
  rw [if_neg c11] at h
  by_cases c12 : letter = 'Z'
  · rw [if_pos c12] at h
    exact Or.inr (Or.inr (Or.inr (Or.inr (Or.inr (Or.inr (Or.inr (Or.inr (Or.inr (Or.inr (Or.inr (Or.inr ⟨c12, (Option.some.inj h).symm⟩)))))))))))
  rw [if_neg c12] at h
  exact absurd h (by simp)

theorem value_index_lt (letter : Char) (i : Nat) (h : value_index letter = some i) : i < 13 := by
  rcases value_index_some letter i h with h | h | h | h | h | h | h | h | h | h | h | h | h
  all_goals rw [h.2]
  all_goals decide

theorem value_index_not_command (letter : Char) (i : Nat) (h : value_index letter = some i) :
    letter ≠ 'G' ∧ letter ≠ 'M' ∧ ¬(letter < 'A' ∨ letter > 'Z') := by
  rcases value_index_some letter i h with h | h | h | h | h | h | h | h | h | h | h | h | h
  all_goals rw [h.1]
  all_goals decide

/-- An index that is not the index of a value word has the slot 0. -/
theorem value_slot_beyond (c : parser_block_t) (j : Nat) (h : ¬ j < 13) :
    value_slot c j = 0 := by
  have hne : ∀ k : Nat, k < 13 → ¬ j = k := fun k hk e => h (e ▸ hk)
  unfold value_slot
  simp only [WORD_F, WORD_I, WORD_J, WORD_K, WORD_L, WORD_N, WORD_P, WORD_R, WORD_S,
    WORD_T, WORD_X, WORD_Y, WORD_Z]
  repeat rw [if_neg (hne _ (by norm_num))]

theorem value_slot_store (a b : parser_block_t) (i : Nat) (x : ℚ) (hi : i < 13)
    (hs : value_slot a i = x) (ho : ∀ j, j < 13 → j ≠ i → value_slot a j = value_slot b j)
    (j : Nat) :
    value_slot a j = if j = i then x else value_slot b j := by
  by_cases hj : j = i
  · rw [if_pos hj, hj, hs]
  · rw [if_neg hj]
    by_cases h13 : j < 13
    · exact ho j h13 hj
    · rw [value_slot_beyond a j h13, value_slot_beyond b j h13]

/-- The `switch` on the letter of a value word: the bit index is that of the letter, the
only failure is a tool number above 255, and the block changes in the slot of the letter
only. -/
theorem gc_value_facts (b : parser_block_t) (letter : Char) (v : ℚ) (i : Nat)
    (h : value_index letter = some i) :
    (gc_value b letter v (int_value_of v)).2.1 = i ∧
    (gc_value b letter v (int_value_of v)).2.2.value_words = b.value_words ∧
    (gc_value b letter v (int_value_of v)).2.2.command_words = b.command_words ∧
    (gc_value b letter v (int_value_of v)).2.2.modal = b.modal ∧
    (gc_value b letter v (int_value_of v)).2.2.non_modal_command = b.non_modal_command ∧
    (gc_value b letter v (int_value_of v)).1 =
      (if letter = 'T' ∧ v > MAX_TOOL_NUMBER then some STATUS_GCODE_MAX_VALUE_EXCEEDED
        else none) ∧
    ((gc_value b letter v (int_value_of v)).1 = none →
      ∀ j, value_slot (gc_value b letter v (int_value_of v)).2.2 j =
        if j = i then stored_value i v else value_slot b j) := by
  rcases value_index_some letter i h with h | h | h | h | h | h | h | h | h | h | h | h | h
  all_goals obtain ⟨hl, hi⟩ := h
  all_goals subst hl hi
  case' inr.inr.inr.inr.inr.inr.inr.inr.inr.inl.intro => by_cases hv : v > MAX_TOOL_NUMBER
  all_goals first
    | simp only [gc_value, Char.reduceEq, if_false, if_true, false_and, true_and, hv]
    | simp only [gc_value, Char.reduceEq, if_false, if_true, false_and, true_and]
  all_goals first
    | (intro _ j
       exact value_slot_store _ _ _ _ (by decide) rfl
         (fun j h13 hj => by interval_cases j <;> first | rfl | exact absurd rfl hj) j)
    | (intro hn
       simp at hn)

/-! ### One word -/

theorem gc_parse_word_G (K : gcode_consts) (s : parse_state) (v : ℚ) :
    gc_parse_word K s ⟨'G', some v⟩ = gc_parse_G s (int_value_of v) (mantissa_of v) := by
  unfold gc_parse_word
  rw [if_neg (show ¬('G' < 'A' ∨ 'G' > 'Z') by decide)]
  simp only [if_true]

theorem gc_parse_word_M (K : gcode_consts) (s : parse_state) (v : ℚ) :
    gc_parse_word K s ⟨'M', some v⟩ = gc_parse_M K s (int_value_of v) (mantissa_of v) := by
  unfold gc_parse_word
  rw [if_neg (show ¬('M' < 'A' ∨ 'M' > 'Z') by decide)]
  simp only [Char.reduceEq, if_false, if_true]

theorem gc_parse_word_value (K : gcode_consts) (s : parse_state) (letter : Char) (v : ℚ)
    (i : Nat) (h : value_index letter = some i) :
    gc_parse_word K s ⟨letter, some v⟩ = gc_parse_value s letter v (int_value_of v) := by
  obtain ⟨h1, h2, h3⟩ := value_index_not_command letter i h
  unfold gc_parse_word
  simp only [h1, h2, h3, if_false]

/-- The status of a G word. -/
theorem gc_parse_G_status (s : parse_state) (iv m : Nat) :
    (gc_parse_G s iv m).1 =
      match (gc_G s iv m).fail with
      | some status => status
      | none =>
        if (gc_G s iv m).mantissa > 0 then STATUS_GCODE_COMMAND_VALUE_NOT_INTEGER
        else if s.block.command_words.testBit (gc_G s iv m).word_bit = true then
          STATUS_GCODE_MODAL_GROUP_VIOLATION
        else STATUS_OK := by
  unfold gc_parse_G
  cases hf : (gc_G s iv m).fail with
  | some st => rfl
  | none =>
    simp only []
    split_ifs with h1 h2 h2
    · rfl
    · rw [gc_command_bit_status, (gc_G_frame s iv m).1, if_pos h2]
    · rw [gc_command_bit_status, (gc_G_frame s iv m).1, if_neg h2]

/-- The status of an M word. -/
theorem gc_parse_M_status (K : gcode_consts) (s : parse_state) (iv m : Nat) :
    (gc_parse_M K s iv m).1 =
      if m > 0 then STATUS_GCODE_COMMAND_VALUE_NOT_INTEGER
      else
        match (gc_M K s iv m).fail with
        | some status => status
        | none =>
          if s.block.command_words.testBit (gc_M K s iv m).word_bit = true then
            STATUS_GCODE_MODAL_GROUP_VIOLATION
          else STATUS_OK := by
  unfold gc_parse_M
  by_cases h1 : m > 0
  · rw [if_pos h1, if_pos h1]
  · rw [if_neg h1, if_neg h1]
    cases hf : (gc_M K s iv m).fail with
    | some st => rfl
    | none =>
      simp only []
      rw [gc_command_bit_status, (gc_M_frame K s iv m).1]

/-- The test of line 306: the words F, N, P, T and S. -/
theorem negative_forbidden (i : Nat) (hi : i < 13) :
    bit_istrue (bit i) (bit WORD_F ||| bit WORD_N ||| bit WORD_P ||| bit WORD_T ||| bit WORD_S) =
      decide (i = WORD_F ∨ i = WORD_N ∨ i = WORD_P ∨ i = WORD_T ∨ i = WORD_S) := by
  interval_cases i <;> decide

/-- The status of a value word. -/
theorem gc_parse_value_status (s : parse_state) (letter : Char) (v : ℚ) (i : Nat)
    (h : value_index letter = some i) :
    (gc_parse_value s letter v (int_value_of v)).1 =
      if letter = 'T' ∧ v > MAX_TOOL_NUMBER then STATUS_GCODE_MAX_VALUE_EXCEEDED
      else if s.block.value_words.testBit i = true then STATUS_GCODE_WORD_REPEATED
      else if (i = WORD_F ∨ i = WORD_N ∨ i = WORD_P ∨ i = WORD_T ∨ i = WORD_S) ∧ v < 0 then
        STATUS_NEGATIVE_VALUE
      else STATUS_OK := by
  obtain ⟨g1, g2, -, -, -, g6, -⟩ := gc_value_facts s.block letter v i h
  unfold gc_parse_value
  rw [g6, g1, g2, bit_istrue_bit, negative_forbidden i (value_index_lt letter i h)]
  by_cases c1 : letter = 'T' ∧ v > MAX_TOOL_NUMBER
  · rw [if_pos c1, if_pos c1]
  · rw [if_neg c1, if_neg c1]
    simp only [decide_eq_true_eq]
    split_ifs <;> rfl

/-- The state after an accepted value word. -/
theorem gc_parse_value_ok (s s1 : parse_state) (letter : Char) (v : ℚ) (i : Nat)
    (h : value_index letter = some i)
    (hok : gc_parse_value s letter v (int_value_of v) = (STATUS_OK, s1)) :
    s.block.value_words.testBit i = false ∧
    s1.block.value_words = bit_true s.block.value_words (bit i) ∧
    s1.block.command_words = s.block.command_words ∧
    s1.axis_command = s.axis_command ∧
    s1.block.modal = s.block.modal ∧
    s1.block.non_modal_command = s.block.non_modal_command ∧
    (∀ j, value_slot s1.block j = if j = i then stored_value i v else value_slot s.block j) ∧
    ¬(letter = 'T' ∧ v > MAX_TOOL_NUMBER) ∧
    ¬((i = WORD_F ∨ i = WORD_N ∨ i = WORD_P ∨ i = WORD_T ∨ i = WORD_S) ∧ v < 0) := by
  have hst := gc_parse_value_status s letter v i h
  rw [hok] at hst
  obtain ⟨g1, g2, g3, g4, g5, g6, g7⟩ := gc_value_facts s.block letter v i h
  have c1 : ¬(letter = 'T' ∧ v > MAX_TOOL_NUMBER) := by
    intro c
    rw [if_pos c] at hst
    simp at hst
  rw [if_neg c1] at hst
  have c2 : ¬(s.block.value_words.testBit i = true) := by
    intro c
    rw [if_pos c] at hst
    simp at hst
  rw [if_neg c2] at hst
  have c3 : ¬((i = WORD_F ∨ i = WORD_N ∨ i = WORD_P ∨ i = WORD_T ∨ i = WORD_S) ∧ v < 0) := by
    intro c
    rw [if_pos c] at hst
    simp at hst
  rw [if_neg c1] at g6
  have g7' := g7 g6
  unfold gc_parse_value at hok
  rw [g6] at hok
  simp only [] at hok
  rw [g1, g2, bit_istrue_bit, negative_forbidden i (value_index_lt letter i h)] at hok
  simp only [decide_eq_true_eq] at hok
  rw [if_neg c2, if_neg c3] at hok
  simp only [Prod.mk.injEq, true_and] at hok
  subst hok
  exact ⟨by simpa using c2, rfl, g3, rfl, g4, g5, g7', c1, c3⟩

theorem gc_G_fail_kinds (s : parse_state) (iv m : Nat) :
    (gc_G s iv m).fail = none ∨
    (gc_G s iv m).fail = some STATUS_GCODE_AXIS_COMMAND_CONFLICT ∨
    (gc_G s iv m).fail = some STATUS_GCODE_UNSUPPORTED_COMMAND := by
  have nm : ∀ t, (gc_G_non_modal t iv m).fail = none ∨
      (gc_G_non_modal t iv m).fail = some STATUS_GCODE_AXIS_COMMAND_CONFLICT ∨
      (gc_G_non_modal t iv m).fail = some STATUS_GCODE_UNSUPPORTED_COMMAND := by
    intro t
    unfold gc_G_non_modal
    split_ifs <;> simp
  have mo : ∀ t, (gc_G_motion t iv m).fail = none ∨
      (gc_G_motion t iv m).fail = some STATUS_GCODE_AXIS_COMMAND_CONFLICT ∨
      (gc_G_motion t iv m).fail = some STATUS_GCODE_UNSUPPORTED_COMMAND := by
    intro t
    unfold gc_G_motion
    split_ifs <;> simp
  have di : (gc_G_distance s iv m).fail = none ∨
      (gc_G_distance s iv m).fail = some STATUS_GCODE_AXIS_COMMAND_CONFLICT ∨
      (gc_G_distance s iv m).fail = some STATUS_GCODE_UNSUPPORTED_COMMAND := by
    unfold gc_G_distance
    split_ifs <;> simp
  have tl : (gc_G_tool_length s iv m).fail = none ∨
      (gc_G_tool_length s iv m).fail = some STATUS_GCODE_AXIS_COMMAND_CONFLICT ∨
      (gc_G_tool_length s iv m).fail = some STATUS_GCODE_UNSUPPORTED_COMMAND := by
    unfold gc_G_tool_length
    split_ifs <;> simp
  refine gc_G_cases (fun r => r.fail = none ∨
    r.fail = some STATUS_GCODE_AXIS_COMMAND_CONFLICT ∨
    r.fail = some STATUS_GCODE_UNSUPPORTED_COMMAND) s iv m ?_ ?_ ?_ ?_ ?_ ?_ ?_ ?_ ?_ ?_ ?_ ?_
    ?_ ?_ ?_ ?_ ?_
  all_goals intros
  all_goals first
    | exact nm _
    | exact mo _
    | exact di
    | exact tl
    | exact Or.inl rfl
    | exact Or.inr (Or.inl rfl)
    | exact Or.inr (Or.inr rfl)

theorem gc_M_fail_kinds (K : gcode_consts) (s : parse_state) (iv m : Nat) :
    (gc_M K s iv m).fail = none ∨
    (gc_M K s iv m).fail = some STATUS_GCODE_UNSUPPORTED_COMMAND :=
  gc_M_cases2 K (fun r _ => r.fail = none ∨ r.fail = some STATUS_GCODE_UNSUPPORTED_COMMAND)
    s s iv m (fun _ => Or.inl rfl) (Or.inl rfl) (fun _ => Or.inl rfl) (fun _ _ => Or.inl rfl)
    (fun _ => Or.inl rfl) (Or.inr rfl)

/-- The state after an accepted G word. -/
theorem gc_parse_G_ok (s s1 : parse_state) (iv m : Nat)
    (hok : gc_parse_G s iv m = (STATUS_OK, s1)) :
    (gc_G s iv m).fail = none ∧ (gc_G s iv m).mantissa = 0 ∧
    s.block.command_words.testBit (gc_G s iv m).word_bit = false ∧
    s1.block.command_words = bit_true s.block.command_words (bit (gc_G s iv m).word_bit) ∧
    s1.block.value_words = s.block.value_words ∧
    s1.block.values = s.block.values ∧
    s1.axis_command = (gc_G s iv m).state.axis_command := by
  obtain ⟨f1, f2, f3⟩ := gc_G_frame s iv m
  unfold gc_parse_G at hok
  rcases gc_G_fail_kinds s iv m with hf | hf | hf
  · rw [hf] at hok
    simp only [] at hok
    by_cases hm : (gc_G s iv m).mantissa > 0
    · rw [if_pos hm] at hok
      simp at hok
    · rw [if_neg hm] at hok
      obtain ⟨b1, b2⟩ := gc_command_bit_words (gc_G s iv m) (by rw [hok])
      obtain ⟨a1, a2, a3, -, -⟩ := gc_command_bit_frame (gc_G s iv m)
      rw [hok] at b2 a1 a2 a3
      rw [f1] at b1 b2
      exact ⟨hf, by omega, b1, b2, by rw [a2, f2], by rw [a3, f3], a1⟩
  · rw [hf] at hok
    simp at hok
  · rw [hf] at hok
    simp at hok

/-- The state after an accepted M word. -/
theorem gc_parse_M_ok (K : gcode_consts) (s s1 : parse_state) (iv m : Nat)
    (hok : gc_parse_M K s iv m = (STATUS_OK, s1)) :
    (gc_M K s iv m).fail = none ∧ m = 0 ∧
    s.block.command_words.testBit (gc_M K s iv m).word_bit = false ∧
    s1.block.command_words = bit_true s.block.command_words (bit (gc_M K s iv m).word_bit) ∧
    s1.block.value_words = s.block.value_words ∧
    s1.block.values = s.block.values ∧
    s1.axis_command = s.axis_command := by
  obtain ⟨f1, f2, f3, f4, -⟩ := gc_M_frame K s iv m
  unfold gc_parse_M at hok
  by_cases hm : m > 0
  · rw [if_pos hm] at hok
    simp at hok
  rw [if_neg hm] at hok
  rcases gc_M_fail_kinds K s iv m with hf | hf
  · rw [hf] at hok
    simp only [] at hok
    obtain ⟨b1, b2⟩ := gc_command_bit_words (gc_M K s iv m) (by rw [hok])
    obtain ⟨a1, a2, a3, -, -⟩ := gc_command_bit_frame (gc_M K s iv m)
    rw [hok] at b2 a1 a2 a3
    rw [f1] at b1 b2
    exact ⟨hf, by omega, b1, b2, by rw [a2, f2], by rw [a3, f3], by rw [a1, f4]⟩
  · rw [hf] at hok
    simp at hok

theorem gc_value_unsupported (b : parser_block_t) (letter : Char) (v : ℚ) (iv : Nat)
    (h : value_index letter = none) :
    (gc_value b letter v iv).1 = some STATUS_GCODE_UNSUPPORTED_COMMAND := by
  unfold value_index at h
  unfold gc_value
  by_cases c0 : letter = 'F'
  · rw [if_pos c0] at h
    simp at h
  rw [if_neg c0] at h ⊢
  by_cases c1 : letter = 'I'
  · rw [if_pos c1] at h
    simp at h
  rw [if_neg c1] at h ⊢
  by_cases c2 : letter = 'J'
  · rw [if_pos c2] at h
    simp at h
  rw [if_neg c2] at h ⊢
  by_cases c3 : letter = 'K'
  · rw [if_pos c3] at h
    simp at h
  rw [if_neg c3] at h ⊢
  by_cases c4 : letter = 'L'
  · rw [if_pos c4] at h
    simp at h
  rw [if_neg c4] at h ⊢
  by_cases c5 : letter = 'N'
  · rw [if_pos c5] at h
    simp at h
  rw [if_neg c5] at h ⊢
  by_cases c6 : letter = 'P'
  · rw [if_pos c6] at h
    simp at h
  rw [if_neg c6] at h ⊢
  by_cases c7 : letter = 'R'
  · rw [if_pos c7] at h
    simp at h
  rw [if_neg c7] at h ⊢
  by_cases c8 : letter = 'S'
  · rw [if_pos c8] at h
    simp at h
  rw [if_neg c8] at h ⊢
  by_cases c9 : letter = 'T'
  · rw [if_pos c9] at h
    simp at h
  rw [if_neg c9] at h ⊢
  by_cases c10 : letter = 'X'
  · rw [if_pos c10] at h
    simp at h
  rw [if_neg c10] at h ⊢
  by_cases c11 : letter = 'Y'
  · rw [if_pos c11] at h
    simp at h
  rw [if_neg c11] at h ⊢
  by_cases c12 : letter = 'Z'
  · rw [if_pos c12] at h
    simp at h
  rw [if_neg c12] at h ⊢

theorem command_group_G (K : gcode_consts) (v : ℚ) :
    command_group K ⟨'G', some v⟩ =
      if (gc_G parse_init (int_value_of v) (mantissa_of v)).fail = none then
        some (gc_G parse_init (int_value_of v) (mantissa_of v)).word_bit
      else none := by
  unfold command_group
  simp only [if_true]

theorem command_group_M (K : gcode_consts) (v : ℚ) :
    command_group K ⟨'M', some v⟩ =
      if (gc_M K parse_init (int_value_of v) (mantissa_of v)).fail = none then
        some (gc_M K parse_init (int_value_of v) (mantissa_of v)).word_bit
      else none := by
  unfold command_group
  simp only [Char.reduceEq, if_false, if_true]

theorem command_group_value (K : gcode_consts) (w : gc_word) (h1 : w.letter ≠ 'G')
    (h2 : w.letter ≠ 'M') : command_group K w = none := by
  unfold command_group
  cases w.value with
  | none => rfl
  | some v => simp only [h1, h2, if_false]

theorem axis_word_G (v : ℚ) :
    axis_word ⟨'G', some v⟩ ↔ is_axis_command (int_value_of v) (mantissa_of v) := by
  unfold axis_word
  constructor
  · rintro ⟨-, v', hv, h⟩
    simp only [Option.some.injEq] at hv
    subst hv
    exact h
  · intro h
    exact ⟨rfl, v, rfl, h⟩

/-- The effect of an accepted word: it is either a command word, which sets the bit of
its modal group, not set before, or a value word, which sets the bit of its letter, not
set before, and stores its value. -/
theorem gc_parse_word_ok (K : gcode_consts) (s s1 : parse_state) (w : gc_word)
    (hok : gc_parse_word K s w = (STATUS_OK, s1)) :
    ∃ v, w.value = some v ∧
      ((∃ g, command_group K w = some g ∧ value_index w.letter = none ∧
          s.block.command_words.testBit g = false ∧
          s1.block.command_words = bit_true s.block.command_words (bit g) ∧
          s1.block.value_words = s.block.value_words ∧
          s1.block.values = s.block.values ∧
          (s1.axis_command ≠ 0 ↔ s.axis_command ≠ 0 ∨ axis_word w) ∧
          (axis_word w → s.axis_command = 0)) ∨
       (∃ i, value_index w.letter = some i ∧ command_group K w = none ∧ ¬axis_word w ∧
          s.block.value_words.testBit i = false ∧
          s1.block.value_words = bit_true s.block.value_words (bit i) ∧
          s1.block.command_words = s.block.command_words ∧
          s1.axis_command = s.axis_command ∧
          (∀ j, value_slot s1.block j =
            if j = i then stored_value i v else value_slot s.block j))) := by
  obtain ⟨letter, value⟩ := w
  have hrange : ¬(letter < 'A' ∨ letter > 'Z') := by
    intro h
    unfold gc_parse_word at hok
    rw [if_pos h] at hok
    simp at hok
  cases value with
  | none =>
    unfold gc_parse_word at hok
    rw [if_neg hrange] at hok
    simp at hok
  | some v =>
    refine ⟨v, rfl, ?_⟩
    by_cases hG : letter = 'G'
    · subst hG
      left
      rw [gc_parse_word_G] at hok
      obtain ⟨a1, a2, a3, a4, a5, a6, a7⟩ := gc_parse_G_ok s s1 _ _ hok
      obtain ⟨i1, i2, -⟩ := gc_G_accepted s _ _ a1
      obtain ⟨x1, x2⟩ := gc_G_axis s _ _ a1
      refine ⟨(gc_G s (int_value_of v) (mantissa_of v)).word_bit, ?_,
        (show value_index 'G' = none by decide), a3, a4, a5,
        a6, ?_, ?_⟩
      · rw [command_group_G, if_pos i1, i2]
      · rw [a7, axis_word_G]
        exact x1
      · rw [axis_word_G]
        exact x2
    by_cases hM : letter = 'M'
    · subst hM
      left
      rw [gc_parse_word_M] at hok
      obtain ⟨a1, a2, a3, a4, a5, a6, a7⟩ := gc_parse_M_ok K s s1 _ _ hok
      obtain ⟨i1, i2⟩ := gc_M_sig K s parse_init (int_value_of v) (mantissa_of v)
      have hax : ¬axis_word ⟨'M', some v⟩ := fun h => absurd h.1 (show ¬('M' = 'G') by decide)
      refine ⟨(gc_M K s (int_value_of v) (mantissa_of v)).word_bit, ?_,
        (show value_index 'M' = none by decide), a3, a4, a5,
        a6, ?_, fun h => absurd h hax⟩
      · rw [command_group_M, ← i1, if_pos a1, i2]
      · rw [a7]
        exact ⟨fun h => Or.inl h, fun h => h.resolve_right hax⟩
    right
    cases hi : value_index letter with
    | none =>
      unfold gc_parse_word at hok
      simp only [hrange, hG, hM, if_false] at hok
      unfold gc_parse_value at hok
      rw [gc_value_unsupported _ _ _ _ hi] at hok
      simp at hok
    | some i =>
      rw [gc_parse_word_value K s letter v i hi] at hok
      obtain ⟨a1, a2, a3, a4, -, -, a7, -, -⟩ := gc_parse_value_ok s s1 letter v i hi hok
      exact ⟨i, rfl, command_group_value K _ hG hM, fun h => hG h.1, a1, a2, a3, a4, a7⟩

/-! ### Accepted lines -/

theorem value_slot_congr (a b : parser_block_t) (h : a.values = b.values) (j : Nat) :
    value_slot a j = value_slot b j := by
  unfold value_slot
  rw [h]

/-- What an accepted sequence of words has done to the state: `axis_command` is set
exactly when an axis command occurred, the bits of `command_words` and `value_words` are
those set before and those of the words, each value word has its value in its slot, the
other slots are as before, and no modal group and no letter occurs twice. -/
theorem gc_parse_words_ok (K : gcode_consts) (ws : List gc_word) (s s1 : parse_state)
    (hok : gc_parse_words K s ws = (STATUS_OK, s1)) :
    (s1.axis_command ≠ 0 ↔ s.axis_command ≠ 0 ∨ ∃ w ∈ ws, axis_word w) ∧
    (∀ g, s1.block.command_words.testBit g = true ↔
      s.block.command_words.testBit g = true ∨ ∃ w ∈ ws, command_group K w = some g) ∧
    (∀ i, s1.block.value_words.testBit i = true ↔
      s.block.value_words.testBit i = true ∨ ∃ w ∈ ws, value_index w.letter = some i) ∧
    (∀ w ∈ ws, ∀ g, command_group K w = some g → s.block.command_words.testBit g = false) ∧
    (∀ w ∈ ws, ∀ i, value_index w.letter = some i → s.block.value_words.testBit i = false) ∧
    (∀ w ∈ ws, ∀ i v, value_index w.letter = some i → w.value = some v →
      value_slot s1.block i = stored_value i v) ∧
    (∀ i, (∀ w ∈ ws, value_index w.letter ≠ some i) →
      value_slot s1.block i = value_slot s.block i) ∧
    (ws.filterMap (command_group K)).Nodup ∧
    (ws.filterMap (fun w => value_index w.letter)).Nodup := by
  induction ws generalizing s with
  | nil =>
    simp only [gc_parse_words, Prod.mk.injEq, true_and] at hok
    subst hok
    simp
  | cons w ws ih =>
    rw [gc_parse_words_cons] at hok
    by_cases h : (gc_parse_word K s w).1 = STATUS_OK
    swap
    · rw [if_neg h] at hok
      rw [hok] at h
      exact absurd rfl h
    rw [if_pos h] at hok
    have hw : gc_parse_word K s w = (STATUS_OK, (gc_parse_word K s w).2) := Prod.ext h rfl
    generalize (gc_parse_word K s w).2 = s' at hw hok
    obtain ⟨i1, i2, i3, i4, i5, i6, i7, i8, i9⟩ := ih s' hok
    obtain ⟨v, hv, hcase⟩ := gc_parse_word_ok K s s' w hw
    rcases hcase with ⟨g, hg, hvi, c1, c2, c3, c4, c5, c6⟩ | ⟨i, hi, hg, hax, c1, c2, c3, c4, c5⟩
    · have hbit : ∀ j, s'.block.command_words.testBit j = (s.block.command_words.testBit j ||
          decide (g = j)) := by
        intro j
        rw [c2, testBit_bit_true]
      refine ⟨?_, ?_, ?_, ?_, ?_, ?_, ?_, ?_, ?_⟩
      · rw [i1, c5, List.exists_mem_cons_iff, or_assoc]
      · intro g'
        rw [i2 g', hbit, List.exists_mem_cons_iff, hg, Bool.or_eq_true, decide_eq_true_eq,
          Option.some.injEq, or_assoc]
      · intro i
        rw [i3 i, c3, List.exists_mem_cons_iff, hvi]
        simp
      · intro w' hw' g' hg'
        rcases List.mem_cons.mp hw' with e | e
        · rw [e, hg] at hg'
          simp only [Option.some.injEq] at hg'
          rw [← hg']
          exact c1
        · have := i4 w' e g' hg'
          rw [hbit, Bool.or_eq_false_iff] at this
          exact this.1
      · intro w' hw' i hi'
        rcases List.mem_cons.mp hw' with e | e
        · rw [e, hvi] at hi'
          simp at hi'
        · rw [← c3]
          exact i5 w' e i hi'
      · intro w' hw' i v' hi' hv'
        rcases List.mem_cons.mp hw' with e | e
        · rw [e, hvi] at hi'
          simp at hi'
        · exact i6 w' e i v' hi' hv'
      · intro i hno
        rw [i7 i (fun w' hw' => hno w' (List.mem_cons_of_mem _ hw'))]
        exact value_slot_congr _ _ c4 i
      · rw [List.filterMap_cons_some hg, List.nodup_cons]
        refine ⟨?_, i8⟩
        intro hmem
        obtain ⟨w', hw', hg'⟩ := List.mem_filterMap.mp hmem
        have := i4 w' hw' g hg'
        rw [hbit] at this
        simp at this
      · simp only [List.filterMap_cons, hvi]
        exact i9
    · have hbit : ∀ j, s'.block.value_words.testBit j = (s.block.value_words.testBit j ||
          decide (i = j)) := by
        intro j
        rw [c2, testBit_bit_true]
      have hnotin : ∀ w' ∈ ws, value_index w'.letter ≠ some i := by
        intro w' hw' hi'
        have := i5 w' hw' i hi'
        rw [hbit] at this
        simp at this
      refine ⟨?_, ?_, ?_, ?_, ?_, ?_, ?_, ?_, ?_⟩
      · rw [i1, c4, List.exists_mem_cons_iff]
        simp [hax]
      · intro g'
        rw [i2 g', c3, List.exists_mem_cons_iff, hg]
        simp
      · intro j
        rw [i3 j, hbit, List.exists_mem_cons_iff, hi, Bool.or_eq_true, decide_eq_true_eq,
          Option.some.injEq, or_assoc]
      · intro w' hw' g' hg'
        rcases List.mem_cons.mp hw' with e | e
        · rw [e, hg] at hg'
          simp at hg'
        · rw [← c3]
          exact i4 w' e g' hg'
      · intro w' hw' j hj
        rcases List.mem_cons.mp hw' with e | e
        · rw [e, hi] at hj
          simp only [Option.some.injEq] at hj
          rw [← hj]
          exact c1
        · have := i5 w' e j hj
          rw [hbit, Bool.or_eq_false_iff] at this
          exact this.1
      · intro w' hw' j v' hj hv'
        rcases List.mem_cons.mp hw' with e | e
        · rw [e, hi] at hj
          rw [e, hv] at hv'
          simp only [Option.some.injEq] at hj hv'
          rw [← hj, ← hv', i7 i hnotin, c5 i, if_pos rfl]
        · exact i6 w' e j v' hj hv'
      · intro j hno
        have hji : j ≠ i := by
          intro e
          exact hno w (List.mem_cons_self _ _) (by rw [hi, e])
        rw [i7 j (fun w' hw' => hno w' (List.mem_cons_of_mem _ hw')), c5 j, if_neg hji]
      · rw [List.filterMap_cons_none hg]
        exact i8
      · simp only [List.filterMap_cons, hi, List.nodup_cons]
        refine ⟨?_, i9⟩
        intro hmem
        obtain ⟨w', hw', hj⟩ := List.mem_filterMap.mp hmem
        exact hnotin w' hw' hj

/-! ## The rules of the parser -/

/-- The integer part and the mantissa of a number with at most two decimals. -/
theorem int_value_of_eq (v : ℚ) (iv m : ℕ) (hiv : iv < 256) (hm : m < 100)
    (hv : v = (iv : ℚ) + (m : ℚ) / 100) : int_value_of v = iv ∧ mantissa_of v = m := by
  have h0 : (0 : ℚ) ≤ v := by rw [hv]; positivity
  have hm' : (m : ℚ) < 100 := by exact_mod_cast hm
  have hfl : ⌊v⌋ = (iv : ℤ) := by
    rw [Int.floor_eq_iff, hv]
    constructor
    · push_cast
      have : (0 : ℚ) ≤ (m : ℚ) / 100 := by positivity
      linarith
    · push_cast
      have : (m : ℚ) / 100 < 1 := by
        rw [div_lt_one (by norm_num)]
        exact hm'
      linarith
  have hi : int_value_of v = iv := by
    unfold int_value_of c_trunc
    rw [if_pos h0, hfl]
    omega
  refine ⟨hi, ?_⟩
  unfold mantissa_of c_round
  rw [hi]
  have e : 100 * (v - (iv : ℚ)) = (m : ℚ) := by
    rw [hv]
    ring
  rw [e, if_pos (by positivity)]
  have hfl2 : ⌊(m : ℚ) + 1 / 2⌋ = (m : ℤ) := by
    rw [Int.floor_eq_iff]
    constructor
    · push_cast
      linarith
    · push_cast
      linarith
  rw [hfl2]
  omega

theorem gc_parse_line_single (K : gcode_consts) (w : gc_word) :
    (gc_parse_line K [w]).1 = (gc_parse_word K parse_init w).1 := by
  show (gc_parse_words K parse_init [w]).1 = _
  rw [gc_parse_words_cons]
  split_ifs with h
  · rw [h]
    rfl
  · rfl

theorem gc_parse_words_single (K : gcode_consts) (s : parse_state) (w : gc_word)
    (h : (gc_parse_word K s w).1 = STATUS_OK) :
    gc_parse_words K s [w] = (STATUS_OK, (gc_parse_word K s w).2) := by
  rw [gc_parse_words_cons, if_pos h]
  rfl

theorem gc_parse_words_init (K : gcode_consts) (pre : List gc_word) (s1 : parse_state)
    (hpre : gc_parse_words K parse_init pre = (STATUS_OK, s1)) :
    (s1.axis_command ≠ 0 ↔ ∃ w ∈ pre, axis_word w) ∧
    (∀ g, s1.block.command_words.testBit g = true ↔ ∃ w ∈ pre, command_group K w = some g) ∧
    (∀ i, s1.block.value_words.testBit i = true ↔
      ∃ w ∈ pre, value_index w.letter = some i) := by
  obtain ⟨h1, h2, h3, -⟩ := gc_parse_words_ok K pre parse_init s1 hpre
  refine ⟨?_, ?_, ?_⟩
  · rw [h1]
    exact ⟨fun h => h.resolve_left (fun h0 => h0 rfl), fun h => Or.inr h⟩
  · intro g
    rw [h2 g]
    refine ⟨fun h => h.resolve_left ?_, fun h => Or.inr h⟩
    show ¬((0 : Nat).testBit g = true)
    simp
  · intro i
    rw [h3 i]
    refine ⟨fun h => h.resolve_left ?_, fun h => Or.inr h⟩
    show ¬((0 : Nat).testBit i = true)
    simp

theorem command_group_cases (K : gcode_consts) (w : gc_word) (g : Nat)
    (hg : command_group K w = some g) :
    ∃ v, (w = ⟨'G', some v⟩ ∧
        (gc_G parse_init (int_value_of v) (mantissa_of v)).fail = none ∧
        (gc_G parse_init (int_value_of v) (mantissa_of v)).word_bit = g) ∨
      (w = ⟨'M', some v⟩ ∧
        (gc_M K parse_init (int_value_of v) (mantissa_of v)).fail = none ∧
        (gc_M K parse_init (int_value_of v) (mantissa_of v)).word_bit = g) := by
  obtain ⟨letter, value⟩ := w
  cases value with
  | none =>
    unfold command_group at hg
    simp at hg
  | some v =>
    refine ⟨v, ?_⟩
    by_cases hG : letter = 'G'
    · subst hG
      rw [command_group_G] at hg
      left
      by_cases hf : (gc_G parse_init (int_value_of v) (mantissa_of v)).fail = none
      · rw [if_pos hf] at hg
        exact ⟨rfl, hf, Option.some.inj hg⟩
      · rw [if_neg hf] at hg
        simp at hg
    by_cases hM : letter = 'M'
    · subst hM
      rw [command_group_M] at hg
      right
      by_cases hf : (gc_M K parse_init (int_value_of v) (mantissa_of v)).fail = none
      · rw [if_pos hf] at hg
        exact ⟨rfl, hf, Option.some.inj hg⟩
      · rw [if_neg hf] at hg
        simp at hg
    rw [command_group_value K _ hG hM] at hg
    simp at hg

/-- C13 (amended): the modal-group rule. Let the words before `w` be accepted, let `w` be
a command word that is accepted as the only word of a line, and let its modal group occur
among the words before it. Then `gc_parse_line` fails: with
`STATUS_GCODE_AXIS_COMMAND_CONFLICT` when `w` is an axis command (a motion mode, a
non-modal axis command or a tool-length command) and an axis command occurred before it,
and with `STATUS_GCODE_MODAL_GROUP_VIOLATION` otherwise. And in no line that is parsed
with `STATUS_OK` do two command words have the same modal group. -/
theorem modal_group_rule (K : gcode_consts) (pre post : List gc_word) (w : gc_word)
    (s1 : parse_state) (g : Nat)
    (hpre : gc_parse_words K parse_init pre = (STATUS_OK, s1))
    (hg : command_group K w = some g) (halone : (gc_parse_line K [w]).1 = STATUS_OK)
    (hin : ∃ w0 ∈ pre, command_group K w0 = some g) :
    ((axis_word w ∧ (∃ w0 ∈ pre, axis_word w0)) →
      (gc_parse_line K (pre ++ w :: post)).1 = STATUS_GCODE_AXIS_COMMAND_CONFLICT) ∧
    (¬(axis_word w ∧ (∃ w0 ∈ pre, axis_word w0)) →
      (gc_parse_line K (pre ++ w :: post)).1 = STATUS_GCODE_MODAL_GROUP_VIOLATION) ∧
    (∀ line b, gc_parse_line K line = (STATUS_OK, b) →
      (line.filterMap (command_group K)).Nodup) := by
  obtain ⟨j1, j2, -⟩ := gc_parse_words_init K pre s1 hpre
  have hbit : s1.block.command_words.testBit g = true := (j2 g).mpr hin
  rw [gc_parse_line_single] at halone
  have key : (gc_parse_word K s1 w).1 =
      STATUS_GCODE_AXIS_COMMAND_CONFLICT ∧ (axis_word w ∧ (∃ w0 ∈ pre, axis_word w0)) ∨
      (gc_parse_word K s1 w).1 = STATUS_GCODE_MODAL_GROUP_VIOLATION ∧
        ¬(axis_word w ∧ (∃ w0 ∈ pre, axis_word w0)) := by
    obtain ⟨v, hw | hw⟩ := command_group_cases K w g hg
    · obtain ⟨hw, hf, hwb⟩ := hw
      subst hw
      rw [gc_parse_word_G, gc_parse_G_status] at halone ⊢
      rw [hf] at halone
      simp only [] at halone
      have hm0 : (gc_G parse_init (int_value_of v) (mantissa_of v)).mantissa = 0 := by
        by_contra hm
        rw [if_pos (by omega)] at halone
        exact absurd halone (by decide)
      rw [axis_word_G, ← j1]
      rcases gc_G_later s1 (int_value_of v) (mantissa_of v) with ⟨hc, hfail⟩ | ⟨hc, e1, e2, e3⟩
      · left
        rw [hfail]
        exact ⟨rfl, hc.2, hc.1⟩
      · right
        rw [e1, hf]
        simp only []
        rw [e3, hm0, if_neg (by decide), e2, hwb, if_pos hbit]
        exact ⟨rfl, fun h => hc ⟨h.2, h.1⟩⟩
    · obtain ⟨hw, hf, hwb⟩ := hw
      subst hw
      rw [gc_parse_word_M, gc_parse_M_status] at halone ⊢
      have hm0 : ¬(mantissa_of v > 0) := by
        intro hm
        rw [if_pos hm] at halone
        exact absurd halone (by decide)
      obtain ⟨e1, e2⟩ := gc_M_sig K s1 parse_init (int_value_of v) (mantissa_of v)
      right
      rw [if_neg hm0, e1, hf]
      simp only []
      rw [e2, hwb, if_pos hbit]
      exact ⟨rfl, fun h => absurd h.1.1 (show ¬('M' = 'G') by decide)⟩
  refine ⟨?_, ?_, ?_⟩
  · intro hax
    rcases key with ⟨k1, -⟩ | ⟨-, k2⟩
    · rw [gc_parse_line_fail_at K pre post w s1 hpre (by rw [k1]; decide), k1]
    · exact absurd hax k2
  · intro hax
    rcases key with ⟨-, k2⟩ | ⟨k1, -⟩
    · exact absurd k2 hax
    · rw [gc_parse_line_fail_at K pre post w s1 hpre (by rw [k1]; decide), k1]
  · intro line b hline
    have h1 : (gc_parse_words K parse_init line).1 = STATUS_OK := congrArg Prod.fst hline
    have hl : gc_parse_words K parse_init line =
        (STATUS_OK, (gc_parse_words K parse_init line).2) := Prod.ext h1 rfl
    exact (gc_parse_words_ok K line parse_init _ hl).2.2.2.2.2.2.2.1

theorem int_value_17_18 :
    (int_value_of 17 = 17 ∧ mantissa_of 17 = 0) ∧ (int_value_of 18 = 18 ∧ mantissa_of 18 = 0) :=
  ⟨int_value_of_eq 17 17 0 (by decide) (by decide) (by norm_num),
   int_value_of_eq 18 18 0 (by decide) (by decide) (by norm_num)⟩

/-- Witness of C13: the line `G17 G18` fails with `STATUS_GCODE_MODAL_GROUP_VIOLATION`. -/
theorem modal_group_rule_witness :
    (gc_parse_line grbl_consts line_G17_G18).1 = STATUS_GCODE_MODAL_GROUP_VIOLATION := by
  have h17 : gc_parse_word grbl_consts parse_init ⟨'G', some 17⟩ = gc_parse_G parse_init 17 0 := by
    rw [gc_parse_word_G, int_value_17_18.1.1, int_value_17_18.1.2]
  have hg17 : command_group grbl_consts ⟨'G', some 17⟩ = some MODAL_GROUP_G2 := by
    rw [command_group_G, int_value_17_18.1.1, int_value_17_18.1.2]
    decide
  have hg18 : command_group grbl_consts ⟨'G', some 18⟩ = some MODAL_GROUP_G2 := by
    rw [command_group_G, int_value_17_18.2.1, int_value_17_18.2.2]
    decide
  have hpre : gc_parse_words grbl_consts parse_init [⟨'G', some 17⟩] =
      (STATUS_OK, (gc_parse_word grbl_consts parse_init ⟨'G', some 17⟩).2) :=
    gc_parse_words_single _ _ _ (by rw [h17]; decide)
  have halone : (gc_parse_line grbl_consts [⟨'G', some 18⟩]).1 = STATUS_OK := by
    rw [gc_parse_line_single, gc_parse_word_G, int_value_17_18.2.1, int_value_17_18.2.2]
    decide
  have hax : ¬(axis_word ⟨'G', some 18⟩ ∧ ∃ w0 ∈ [(⟨'G', some 17⟩ : gc_word)], axis_word w0) := by
    rintro ⟨h, -⟩
    rw [axis_word_G, int_value_17_18.2.1, int_value_17_18.2.2] at h
    revert h
    decide
  exact (modal_group_rule grbl_consts [⟨'G', some 17⟩] [] ⟨'G', some 18⟩ _ MODAL_GROUP_G2 hpre
    hg18 halone ⟨_, List.mem_singleton.mpr rfl, hg17⟩).2.1 hax

theorem int_value_0_1 :
    (int_value_of 0 = 0 ∧ mantissa_of 0 = 0) ∧ (int_value_of 1 = 1 ∧ mantissa_of 1 = 0) :=
  ⟨int_value_of_eq 0 0 0 (by decide) (by decide) (by norm_num),
   int_value_of_eq 1 1 0 (by decide) (by decide) (by norm_num)⟩

/-- Counterexample to C13 as stated: the line `G0 G1 X5` has two commands of the motion
group, and `gc_parse_line` returns `STATUS_GCODE_AXIS_COMMAND_CONFLICT` for it, not
`STATUS_GCODE_MODAL_GROUP_VIOLATION`. -/
theorem G0_G1_X5_axis_conflict :
    command_group grbl_consts ⟨'G', some 0⟩ = some MODAL_GROUP_G1 ∧
    command_group grbl_consts ⟨'G', some 1⟩ = some MODAL_GROUP_G1 ∧
    (gc_parse_line grbl_consts line_G0_G1_X5).1 = STATUS_GCODE_AXIS_COMMAND_CONFLICT := by
  have h0 : gc_parse_word grbl_consts parse_init ⟨'G', some 0⟩ = gc_parse_G parse_init 0 0 := by
    rw [gc_parse_word_G, int_value_0_1.1.1, int_value_0_1.1.2]
  have hpre : gc_parse_words grbl_consts parse_init [⟨'G', some 0⟩] =
      (STATUS_OK, (gc_parse_G parse_init 0 0).2) := by
    rw [gc_parse_words_single _ _ _ (by rw [h0]; decide), h0]
  have h1 : (gc_parse_word grbl_consts (gc_parse_G parse_init 0 0).2 ⟨'G', some 1⟩).1 =
      STATUS_GCODE_AXIS_COMMAND_CONFLICT := by
    rw [gc_parse_word_G, int_value_0_1.2.1, int_value_0_1.2.2]
    decide
  refine ⟨?_, ?_, ?_⟩
  · rw [command_group_G, int_value_0_1.1.1, int_value_0_1.1.2]
    decide
  · rw [command_group_G, int_value_0_1.2.1, int_value_0_1.2.2]
    decide
  · have := gc_parse_line_fail_at grbl_consts [⟨'G', some 0⟩] [⟨'X', some 5⟩] ⟨'G', some 1⟩ _
      hpre (by rw [h1]; decide)
    rw [h1] at this
    exact this

theorem value_index_inj (a b : Char) (i : Nat) (ha : value_index a = some i)
    (hb : value_index b = some i) : a = b := by
  rcases value_index_some a i ha with h | h | h | h | h | h | h | h | h | h | h | h | h <;>
  rcases value_index_some b i hb with k | k | k | k | k | k | k | k | k | k | k | k | k <;>
  first
    | (exfalso
       have e := h.2.symm.trans k.2
       revert e
       decide)
    | (rw [h.1, k.1])

/-- The status of a value word after accepted words. -/
theorem gc_parse_word_value_status (K : gcode_consts) (pre : List gc_word) (s1 : parse_state)
    (w : gc_word) (i : Nat) (v : ℚ)
    (hpre : gc_parse_words K parse_init pre = (STATUS_OK, s1))
    (hi : value_index w.letter = some i) (hv : w.value = some v) :
    (gc_parse_word K s1 w).1 =
      if w.letter = 'T' ∧ v > MAX_TOOL_NUMBER then STATUS_GCODE_MAX_VALUE_EXCEEDED
      else if ∃ w0 ∈ pre, w0.letter = w.letter then STATUS_GCODE_WORD_REPEATED
      else if (i = WORD_F ∨ i = WORD_N ∨ i = WORD_P ∨ i = WORD_T ∨ i = WORD_S) ∧ v < 0 then
        STATUS_NEGATIVE_VALUE
      else STATUS_OK := by
  obtain ⟨letter, value⟩ := w
  simp only [] at hi hv
  subst hv
  obtain ⟨-, -, j3⟩ := gc_parse_words_init K pre s1 hpre
  have hbit : s1.block.value_words.testBit i = true ↔ ∃ w0 ∈ pre, w0.letter = letter := by
    rw [j3 i]
    constructor
    · rintro ⟨w0, h0, h1⟩
      exact ⟨w0, h0, value_index_inj _ _ i h1 hi⟩
    · rintro ⟨w0, h0, h1⟩
      exact ⟨w0, h0, by rw [h1]; exact hi⟩
  rw [gc_parse_word_value K s1 letter v i hi, gc_parse_value_status s1 letter v i hi]
  simp only [hbit]

/-- C14 (amended): the word-repeat rule. Let the words before `w` be accepted and let `w`
be a value word (letter F, I, J, K, L, N, P, R, S, T, X, Y or Z) whose letter occurs
among them; unless `w` is a T word above 255, `gc_parse_line` returns
`STATUS_GCODE_WORD_REPEATED`. -/
theorem word_repeat_rule (K : gcode_consts) (pre post : List gc_word) (w : gc_word)
    (s1 : parse_state) (i : Nat) (v : ℚ)
    (hpre : gc_parse_words K parse_init pre = (STATUS_OK, s1))
    (hi : value_index w.letter = some i) (hv : w.value = some v)
    (hin : ∃ w0 ∈ pre, w0.letter = w.letter)
    (hT : ¬(w.letter = 'T' ∧ v > MAX_TOOL_NUMBER)) :
    (gc_parse_line K (pre ++ w :: post)).1 = STATUS_GCODE_WORD_REPEATED := by
  have h := gc_parse_word_value_status K pre s1 w i v hpre hi hv
  rw [if_neg hT, if_pos hin] at h
  rw [gc_parse_line_fail_at K pre post w s1 hpre (by rw [h]; decide), h]

theorem gc_parse_words_two (K : gcode_consts) (s : parse_state) (w1 w2 : gc_word)
    (h1 : (gc_parse_word K s w1).1 = STATUS_OK)
    (h2 : (gc_parse_word K (gc_parse_word K s w1).2 w2).1 = STATUS_OK) :
    gc_parse_words K s [w1, w2] =
      (STATUS_OK, (gc_parse_word K (gc_parse_word K s w1).2 w2).2) := by
  rw [gc_parse_words_cons, if_pos h1, gc_parse_words_single _ _ _ h2]

theorem gc_parse_word_G0 (K : gcode_consts) :
    gc_parse_word K parse_init ⟨'G', some 0⟩ = gc_parse_G parse_init 0 0 := by
  rw [gc_parse_word_G, int_value_0_1.1.1, int_value_0_1.1.2]

/-- Witness of C14: the line `G0 X1 X2` (scenario S6) returns
`STATUS_GCODE_WORD_REPEATED`. -/
theorem word_repeat_rule_witness :
    (gc_parse_line grbl_consts line_G0_X1_X2).1 = STATUS_GCODE_WORD_REPEATED := by
  have h1 : (gc_parse_word grbl_consts parse_init ⟨'G', some 0⟩).1 = STATUS_OK := by
    rw [gc_parse_word_G0]
    decide
  have h2 : (gc_parse_word grbl_consts (gc_parse_word grbl_consts parse_init ⟨'G', some 0⟩).2
      ⟨'X', some 1⟩).1 = STATUS_OK := by
    rw [gc_parse_word_value _ _ 'X' 1 WORD_X (by decide),
      gc_parse_value_status _ 'X' 1 WORD_X (by decide), gc_parse_word_G0,
      if_neg (by decide), if_neg (by decide), if_neg (by decide)]
  exact word_repeat_rule grbl_consts [⟨'G', some 0⟩, ⟨'X', some 1⟩] [] ⟨'X', some 2⟩ _ WORD_X 2
    (gc_parse_words_two _ _ _ _ h1 h2) (by decide) rfl
    ⟨⟨'X', some 1⟩, List.mem_cons_of_mem _ (List.mem_singleton.mpr rfl), rfl⟩ (by decide)

/-- Counterexample to C14 as stated: in the line `T1 T300` the letter T occurs a second
time after an accepted word, and `gc_parse_line` returns
`STATUS_GCODE_MAX_VALUE_EXCEEDED`. -/
theorem T1_T300_max_value_exceeded :
    (gc_parse_line grbl_consts [⟨'T', some 1⟩]).1 = STATUS_OK ∧
    (gc_parse_line grbl_consts line_T1_T300).1 = STATUS_GCODE_MAX_VALUE_EXCEEDED := by
  have h1 : (gc_parse_word grbl_consts parse_init ⟨'T', some 1⟩).1 = STATUS_OK := by
    rw [gc_parse_word_value _ _ 'T' 1 WORD_T (by decide),
      gc_parse_value_status _ 'T' 1 WORD_T (by decide),
      if_neg (by norm_num [MAX_TOOL_NUMBER]), if_neg (by decide), if_neg (by norm_num)]
  have hpre := gc_parse_words_single grbl_consts parse_init ⟨'T', some 1⟩ h1
  have h2 := gc_parse_word_value_status grbl_consts _ _ ⟨'T', some 300⟩ WORD_T 300 hpre
    (by decide) rfl
  rw [if_pos ⟨rfl, by norm_num [MAX_TOOL_NUMBER]⟩] at h2
  refine ⟨by rw [gc_parse_line_single]; exact h1, ?_⟩
  rw [← h2]
  exact gc_parse_line_fail_at grbl_consts [⟨'T', some 1⟩] [] ⟨'T', some 300⟩ _ hpre
    (by rw [h2]; decide)

/-! ### Axis-command conflicts -/

/-- A line that fails stops at a word after accepted words. -/
theorem gc_parse_words_fail_split (K : gcode_consts) (ws : List gc_word) (s : parse_state)
    (h : (gc_parse_words K s ws).1 ≠ STATUS_OK) :
    ∃ pre w post s1, ws = pre ++ w :: post ∧ gc_parse_words K s pre = (STATUS_OK, s1) ∧
      (gc_parse_word K s1 w).1 = (gc_parse_words K s ws).1 := by
  induction ws generalizing s with
  | nil => exact absurd rfl h
  | cons w ws ih =>
    rw [gc_parse_words_cons] at h ⊢
    by_cases hw : (gc_parse_word K s w).1 = STATUS_OK
    · rw [if_pos hw] at h ⊢
      obtain ⟨pre, w', post, s1, e1, e2, e3⟩ := ih _ h
      refine ⟨w :: pre, w', post, s1, by rw [e1]; rfl, ?_, e3⟩
      rw [gc_parse_words_cons, if_pos hw, e2]
    · rw [if_neg hw]
      exact ⟨[], w, ws, s, rfl, rfl, rfl⟩

/-- A word fails with an axis-command conflict only if it is an axis command met after
another one. -/
theorem gc_parse_word_conflict (K : gcode_consts) (s : parse_state) (w : gc_word)
    (h : (gc_parse_word K s w).1 = STATUS_GCODE_AXIS_COMMAND_CONFLICT) :
    axis_word w ∧ s.axis_command ≠ 0 := by
  obtain ⟨letter, value⟩ := w
  by_cases hrange : letter < 'A' ∨ letter > 'Z'
  · unfold gc_parse_word at h
    rw [if_pos hrange] at h
    simp at h
  cases value with
  | none =>
    unfold gc_parse_word at h
    rw [if_neg hrange] at h
    simp at h
  | some v =>
    by_cases hG : letter = 'G'
    · subst hG
      rw [gc_parse_word_G, gc_parse_G_status] at h
      rcases gc_G_fail_kinds s (int_value_of v) (mantissa_of v) with hf | hf | hf
      · rw [hf] at h
        simp only [] at h
        split_ifs at h
      · obtain ⟨c1, c2⟩ := (gc_G_conflict s _ _).mp hf
        exact ⟨(axis_word_G v).mpr c2, c1⟩
      · rw [hf] at h
        simp at h
    by_cases hM : letter = 'M'
    · subst hM
      rw [gc_parse_word_M, gc_parse_M_status] at h
      rcases gc_M_fail_kinds K s (int_value_of v) (mantissa_of v) with hf | hf
      · rw [hf] at h
        simp only [] at h
        split_ifs at h
      · rw [hf] at h
        simp only [] at h
        split_ifs at h
    cases hi : value_index letter with
    | none =>
      unfold gc_parse_word at h
      simp only [hrange, hG, hM, if_false] at h
      unfold gc_parse_value at h
      rw [gc_value_unsupported _ _ _ _ hi] at h
      simp at h
    | some i =>
      rw [gc_parse_word_value K s letter v i hi, gc_parse_value_status s letter v i hi] at h
      split_ifs at h

/-- The status of an axis command after accepted words among which an axis command
occurs. -/
theorem gc_parse_word_axis (K : gcode_consts) (pre : List gc_word) (s1 : parse_state)
    (w : gc_word) (hpre : gc_parse_words K parse_init pre = (STATUS_OK, s1))
    (hw : axis_word w) (hin : ∃ w0 ∈ pre, axis_word w0) :
    (gc_parse_word K s1 w).1 = STATUS_GCODE_AXIS_COMMAND_CONFLICT := by
  obtain ⟨j1, -, -⟩ := gc_parse_words_init K pre s1 hpre
  obtain ⟨letter, value⟩ := w
  obtain ⟨hl, v, hv, hax⟩ := hw
  simp only [] at hl hv
  subst hl hv
  rw [gc_parse_word_G, gc_parse_G_status, (gc_G_conflict s1 _ _).mpr ⟨j1.mpr hin, hax⟩]

/-! ### Negative values -/

/-- C16: the negative-value rule. After accepted words, a word with the letter F, N, P, S
or T whose value is below zero and whose letter has not occurred makes `gc_parse_line`
return `STATUS_NEGATIVE_VALUE`; and a word with the letter I, J, K, R, X, Y or Z whose
letter has not occurred is accepted whatever its value, negative or not. The line
`X1 F-100` is an instance of the first. -/
theorem negative_value_rule (K : gcode_consts) :
    (∀ pre post w s1 v, gc_parse_words K parse_init pre = (STATUS_OK, s1) →
      (w.letter = 'F' ∨ w.letter = 'N' ∨ w.letter = 'P' ∨ w.letter = 'S' ∨ w.letter = 'T') →
      w.value = some v → v < 0 → (∀ w0 ∈ pre, w0.letter ≠ w.letter) →
      (gc_parse_line K (pre ++ w :: post)).1 = STATUS_NEGATIVE_VALUE) ∧
    (∀ pre w s1 v, gc_parse_words K parse_init pre = (STATUS_OK, s1) →
      (w.letter = 'I' ∨ w.letter = 'J' ∨ w.letter = 'K' ∨ w.letter = 'R' ∨ w.letter = 'X' ∨
        w.letter = 'Y' ∨ w.letter = 'Z') →
      w.value = some v → (∀ w0 ∈ pre, w0.letter ≠ w.letter) →
      (gc_parse_line K (pre ++ [w])).1 = STATUS_OK) ∧
    (gc_parse_line K line_X1_Fneg).1 = STATUS_NEGATIVE_VALUE := by
  have part1 : ∀ pre post w s1 v, gc_parse_words K parse_init pre = (STATUS_OK, s1) →
      (w.letter = 'F' ∨ w.letter = 'N' ∨ w.letter = 'P' ∨ w.letter = 'S' ∨ w.letter = 'T') →
      w.value = some v → v < 0 → (∀ w0 ∈ pre, w0.letter ≠ w.letter) →
      (gc_parse_line K (pre ++ w :: post)).1 = STATUS_NEGATIVE_VALUE := by
    intro pre post w s1 v hpre hl hv hneg hnew
    have hnot : ¬∃ w0 ∈ pre, w0.letter = w.letter := by
      rintro ⟨w0, h0, h1⟩
      exact hnew w0 h0 h1
    have hT : ¬(w.letter = 'T' ∧ v > MAX_TOOL_NUMBER) := by
      rintro ⟨-, h⟩
      unfold MAX_TOOL_NUMBER at h
      linarith
    have key : ∃ i, value_index w.letter = some i ∧
        (i = WORD_F ∨ i = WORD_N ∨ i = WORD_P ∨ i = WORD_T ∨ i = WORD_S) := by
      rcases hl with h | h | h | h | h <;> rw [h]
      · exact ⟨WORD_F, by decide, by decide⟩
      · exact ⟨WORD_N, by decide, by decide⟩
      · exact ⟨WORD_P, by decide, by decide⟩
      · exact ⟨WORD_S, by decide, by decide⟩
      · exact ⟨WORD_T, by decide, by decide⟩
    obtain ⟨i, hi, hset⟩ := key
    have h := gc_parse_word_value_status K pre s1 w i v hpre hi hv
    rw [if_neg hT, if_neg hnot, if_pos ⟨hset, hneg⟩] at h
    rw [gc_parse_line_fail_at K pre post w s1 hpre (by rw [h]; decide), h]
  refine ⟨part1, ?_, ?_⟩
  · intro pre w s1 v hpre hl hv hnew
    have hnot : ¬∃ w0 ∈ pre, w0.letter = w.letter := by
      rintro ⟨w0, h0, h1⟩
      exact hnew w0 h0 h1
    have key : ∃ i, value_index w.letter = some i ∧ w.letter ≠ 'T' ∧
        ¬(i = WORD_F ∨ i = WORD_N ∨ i = WORD_P ∨ i = WORD_T ∨ i = WORD_S) := by
      rcases hl with h | h | h | h | h | h | h <;> rw [h]
      · exact ⟨WORD_I, by decide, by decide, by decide⟩
      · exact ⟨WORD_J, by decide, by decide, by decide⟩
      · exact ⟨WORD_K, by decide, by decide, by decide⟩
      · exact ⟨WORD_R, by decide, by decide, by decide⟩
      · exact ⟨WORD_X, by decide, by decide, by decide⟩
      · exact ⟨WORD_Y, by decide, by decide, by decide⟩
      · exact ⟨WORD_Z, by decide, by decide, by decide⟩
    obtain ⟨i, hi, hT, hset⟩ := key
    have h := gc_parse_word_value_status K pre s1 w i v hpre hi hv
    rw [if_neg (fun c => hT c.1), if_neg hnot, if_neg (fun c => hset c.1)] at h
    show (gc_parse_words K parse_init (pre ++ [w])).1 = STATUS_OK
    rw [gc_parse_words_append, hpre, if_pos rfl, gc_parse_words_single K s1 w h]
  · have h1 : (gc_parse_word K parse_init ⟨'X', some 1⟩).1 = STATUS_OK := by
      rw [gc_parse_word_value _ _ 'X' 1 WORD_X (by decide),
        gc_parse_value_status _ 'X' 1 WORD_X (by decide),
        if_neg (by decide), if_neg (by decide), if_neg (by decide)]
    exact part1 [⟨'X', some 1⟩] [] ⟨'F', some (-100)⟩ _ (-100)
      (gc_parse_words_single K parse_init _ h1) (Or.inl rfl) rfl (by norm_num) (by simp)

/-! ### Fractions of G words -/

theorem gc_parse_G_single (K : gcode_consts) (v : ℚ) :
    (gc_parse_line K [⟨'G', some v⟩]).1 =
      (gc_parse_G parse_init (int_value_of v) (mantissa_of v)).1 := by
  rw [gc_parse_line_single, gc_parse_word_G]

/-- C17 (amended): G words with a fraction. For a line that consists of one G word whose
mantissa (two-digit fraction) is not zero: `gc_parse_line` returns
`STATUS_GCODE_UNSUPPORTED_COMMAND` for G28, G30 and G92 with a fraction other than .1,
for G38 with a fraction other than .2, .3, .4, .5, for G43 with a fraction other than .1,
for G61 and G90 with any fraction and for G91 with a fraction other than .1; and it
returns `STATUS_GCODE_COMMAND_VALUE_NOT_INTEGER` for the recognised integer parts 0, 1,
2, 3, 4, 10, 17-21, 40, 53-59, 80, 93, 94. -/
theorem G_fraction_rule (K : gcode_consts) (v : ℚ) (hm : mantissa_of v ≠ 0) :
    (((int_value_of v = 28 ∨ int_value_of v = 30 ∨ int_value_of v = 92) ∧
        mantissa_of v ≠ 10) →
      (gc_parse_line K [⟨'G', some v⟩]).1 = STATUS_GCODE_UNSUPPORTED_COMMAND) ∧
    ((int_value_of v = 38 ∧ ¬(mantissa_of v = 20 ∨ mantissa_of v = 30 ∨ mantissa_of v = 40 ∨
        mantissa_of v = 50)) →
      (gc_parse_line K [⟨'G', some v⟩]).1 = STATUS_GCODE_UNSUPPORTED_COMMAND) ∧
    ((int_value_of v = 43 ∧ mantissa_of v ≠ 10) →
      (gc_parse_line K [⟨'G', some v⟩]).1 = STATUS_GCODE_UNSUPPORTED_COMMAND) ∧
    ((int_value_of v = 61 ∨ int_value_of v = 90) →
      (gc_parse_line K [⟨'G', some v⟩]).1 = STATUS_GCODE_UNSUPPORTED_COMMAND) ∧
    ((int_value_of v = 91 ∧ mantissa_of v ≠ 10) →
      (gc_parse_line K [⟨'G', some v⟩]).1 = STATUS_GCODE_UNSUPPORTED_COMMAND) ∧
    ((int_value_of v = 0 ∨ int_value_of v = 1 ∨ int_value_of v = 2 ∨ int_value_of v = 3 ∨
        int_value_of v = 4 ∨ int_value_of v = 10 ∨ int_value_of v = 17 ∨
        int_value_of v = 18 ∨ int_value_of v = 19 ∨ int_value_of v = 20 ∨
        int_value_of v = 21 ∨ int_value_of v = 40 ∨ int_value_of v = 53 ∨
        int_value_of v = 54 ∨ int_value_of v = 55 ∨ int_value_of v = 56 ∨
        int_value_of v = 57 ∨ int_value_of v = 58 ∨ int_value_of v = 59 ∨
        int_value_of v = 80 ∨ int_value_of v = 93 ∨ int_value_of v = 94) →
      (gc_parse_line K [⟨'G', some v⟩]).1 = STATUS_GCODE_COMMAND_VALUE_NOT_INTEGER) := by
  rw [gc_parse_G_single]
  generalize int_value_of v = iv
  generalize mantissa_of v = m at hm
  have hpos : m > 0 := Nat.pos_of_ne_zero hm
  have h0 : parse_init.axis_command = 0 := rfl
  have hcw : ∀ j, parse_init.block.command_words.testBit j = false := by
    intro j
    show (0 : Nat).testBit j = false
    simp
  refine ⟨?_, ?_, ?_, ?_, ?_, ?_⟩
  · rintro ⟨hiv, h10⟩
    rcases hiv with h | h | h <;> subst h <;>
      simp [gc_parse_G, gc_G, gc_G_non_modal, hm, h10]
  · rintro ⟨hiv, h10⟩
    subst hiv
    simp [gc_parse_G, gc_G, gc_G_motion, h0, h10]
  · rintro ⟨hiv, h10⟩
    subst hiv
    simp [gc_parse_G, gc_G, gc_G_tool_length, h0, h10]
  · intro hiv
    rcases hiv with h | h <;> subst h <;>
      simp [gc_parse_G, gc_G, gc_G_distance, hm]
  · rintro ⟨hiv, h10⟩
    subst hiv
    simp [gc_parse_G, gc_G, gc_G_distance, hm, h10]
  · intro hiv
    rcases hiv with h | h | h | h | h | h | h | h | h | h | h | h | h | h | h | h | h | h |
      h | h | h | h <;> subst h <;>
      simp [gc_parse_G, gc_G, gc_G_non_modal, gc_G_motion, h0, hm, hpos]

/-- Witness of C17: the line `G17.1` returns `STATUS_GCODE_COMMAND_VALUE_NOT_INTEGER`. -/
theorem G_fraction_rule_witness :
    (gc_parse_line grbl_consts [⟨'G', some (171 / 10)⟩]).1 =
      STATUS_GCODE_COMMAND_VALUE_NOT_INTEGER := by
  have e := int_value_of_eq (171 / 10) 17 10 (by decide) (by decide) (by norm_num)
  exact (G_fraction_rule grbl_consts (171 / 10) (by rw [e.2]; decide)).2.2.2.2.2
    (by rw [e.1]; decide)

/-- Counterexample to C17 as stated: the line `G0.5` has the recognised integer part 0
and a fraction that is no recognised variant, and `gc_parse_line` returns
`STATUS_GCODE_COMMAND_VALUE_NOT_INTEGER` for it, not `STATUS_GCODE_UNSUPPORTED_COMMAND`. -/
theorem G0_5_not_integer :
    (gc_parse_line grbl_consts [⟨'G', some (1 / 2)⟩]).1 =
      STATUS_GCODE_COMMAND_VALUE_NOT_INTEGER := by
  have e := int_value_of_eq (1 / 2) 0 50 (by decide) (by decide) (by norm_num)
  rw [gc_parse_G_single, e.1, e.2]
  decide

/-! ### The block of an accepted line -/

/-- Every word of an accepted sequence is accepted in the state in which it is met. -/
theorem gc_parse_words_mem (K : gcode_consts) (ws : List gc_word) (s s1 : parse_state)
    (hok : gc_parse_words K s ws = (STATUS_OK, s1)) (w : gc_word) (hw : w ∈ ws) :
    ∃ sa sb, gc_parse_word K sa w = (STATUS_OK, sb) := by
  induction ws generalizing s with
  | nil => simp at hw
  | cons w0 ws ih =>
    rw [gc_parse_words_cons] at hok
    by_cases h : (gc_parse_word K s w0).1 = STATUS_OK
    · rw [if_pos h] at hok
      rcases List.mem_cons.mp hw with e | e
      · exact ⟨s, _, by rw [e]; exact Prod.ext h rfl⟩
      · exact ih _ hok e
    · rw [if_neg h] at hok
      rw [hok] at h
      exact absurd rfl h

theorem int_value_of_trunc (v : ℚ) (h0 : 0 ≤ v) (h1 : v < 256) :
    ((int_value_of v : ℕ) : ℤ) = c_trunc v := by
  unfold int_value_of c_trunc
  rw [if_pos h0]
  have hf0 : 0 ≤ ⌊v⌋ := Int.floor_nonneg.mpr h0
  have hf1 : ⌊v⌋ < 256 := by
    rw [Int.floor_lt]
    exact_mod_cast h1
  omega

theorem c_float_to_int_trunc (v : ℚ) (h0 : 0 ≤ v) (h1 : v < 2147483648) :
    c_float_to_int (c_trunc v) = c_trunc v := by
  unfold c_float_to_int c_trunc
  rw [if_pos h0]
  have hf0 : 0 ≤ ⌊v⌋ := Int.floor_nonneg.mpr h0
  have hf1 : ⌊v⌋ < 2147483648 := by
    rw [Int.floor_lt]
    exact_mod_cast h1
  rw [if_pos ⟨by omega, by omega⟩]

theorem value_slot_zero (i : Nat) : value_slot parse_init.block i = 0 := by
  have e : ∀ j, j < 13 → value_slot parse_init.block j = 0 := by
    intro j hj
    interval_cases j <;> rfl
  by_cases hi : i < 13
  · exact e i hi
  · have := value_slot_store parse_init.block parse_init.block 0 0 (by decide) rfl
      (fun _ _ _ => rfl) i
    rw [this, if_neg (by omega)]
    exact value_slot_beyond _ i hi

/-- C19 (amended): the parser postcondition. Whenever `gc_parse_line` returns `STATUS_OK`
with the block `b`: `value_words` has the bit of exactly those value letters that occur
in the line; the slot of each such letter holds the number given in the line, where the
slot of N holds the integer part converted to `int`, which is the integer part whenever N
is below 2^31, and the slots of L and T hold the low byte of the integer part, which for
T is the integer part (an accepted T is between 0 and 255) and for L is the integer part
whenever L is at least 0 and below 256; every slot of an absent letter is zero; and
`command_words` has the bit of exactly the modal groups of the commands that occur in the
line. -/
theorem parser_postcondition (K : gcode_consts) (line : List gc_word) (b : parser_block_t)
    (h : gc_parse_line K line = (STATUS_OK, b)) :
    (∀ i, b.value_words.testBit i = true ↔ ∃ w ∈ line, value_index w.letter = some i) ∧
    (∀ w ∈ line, ∀ i v, value_index w.letter = some i → w.value = some v →
      value_slot b i = stored_value i v) ∧
    (∀ w ∈ line, ∀ v, w.letter = 'T' → w.value = some v →
      ((int_value_of v : ℕ) : ℤ) = c_trunc v) ∧
    (∀ v : ℚ, 0 ≤ v → v < 256 → ((int_value_of v : ℕ) : ℤ) = c_trunc v) ∧
    (∀ v : ℚ, 0 ≤ v → v < 2147483648 → c_float_to_int (c_trunc v) = c_trunc v) ∧
    (∀ i, (∀ w ∈ line, value_index w.letter ≠ some i) → value_slot b i = 0) ∧
    (∀ g, b.command_words.testBit g = true ↔ ∃ w ∈ line, command_group K w = some g) := by
  have h1 : (gc_parse_words K parse_init line).1 = STATUS_OK := congrArg Prod.fst h
  have hb : (gc_parse_words K parse_init line).2.block = b := congrArg Prod.snd h
  have hl : gc_parse_words K parse_init line =
      (STATUS_OK, (gc_parse_words K parse_init line).2) := Prod.ext h1 rfl
  obtain ⟨-, j2, j3⟩ := gc_parse_words_init K line _ hl
  obtain ⟨-, -, -, -, -, k6, k7, -, -⟩ := gc_parse_words_ok K line parse_init _ hl
  rw [hb] at j2 j3 k6 k7
  refine ⟨j3, k6, ?_, int_value_of_trunc, c_float_to_int_trunc, ?_, j2⟩
  · intro w hw v hT hv
    obtain ⟨sa, sb, hstep⟩ := gc_parse_words_mem K line parse_init _ hl w hw
    obtain ⟨letter, value⟩ := w
    simp only [] at hT hv
    subst hT hv
    rw [gc_parse_word_value K sa 'T' v WORD_T (by decide)] at hstep
    obtain ⟨-, -, -, -, -, -, -, c1, c2⟩ := gc_parse_value_ok sa sb 'T' v WORD_T (by decide) hstep
    have hle : v ≤ 255 := by
      by_contra hgt
      exact c1 ⟨rfl, by unfold MAX_TOOL_NUMBER; linarith⟩
    have hge : 0 ≤ v := by
      by_contra hlt
      exact c2 ⟨by decide, by linarith⟩
    exact int_value_of_trunc v hge (by linarith)
  · intro i hno
    rw [k7 i hno]
    exact value_slot_zero i

theorem gc_parse_word_X5 (K : gcode_consts) :
    (gc_parse_word K parse_init ⟨'X', some 5⟩).1 = STATUS_OK := by
  rw [gc_parse_word_value _ _ 'X' 5 WORD_X (by decide),
    gc_parse_value_status _ 'X' 5 WORD_X (by decide),
    if_neg (by decide), if_neg (by decide), if_neg (by decide)]

/-- Witness of C19: the line `X5` is parsed with `STATUS_OK` into a block with the X bit
and 5 in the X slot. -/
theorem parser_postcondition_witness :
    (gc_parse_line grbl_consts line_X5).1 = STATUS_OK ∧
    value_slot (gc_parse_line grbl_consts line_X5).2 WORD_X = 5 ∧
    (gc_parse_line grbl_consts line_X5).2.value_words.testBit WORD_X = true := by
  have hs : (gc_parse_line grbl_consts line_X5).1 = STATUS_OK := by
    unfold line_X5
    rw [gc_parse_line_single]
    exact gc_parse_word_X5 grbl_consts
  obtain ⟨p1, p2, -⟩ := parser_postcondition grbl_consts line_X5
    (gc_parse_line grbl_consts line_X5).2 (Prod.ext hs rfl)
  refine ⟨hs, ?_, ?_⟩
  · rw [p2 ⟨'X', some 5⟩ (List.mem_singleton.mpr rfl) WORD_X 5 (by decide) rfl]
    simp +decide [stored_value]
  · rw [p1 WORD_X]
    exact ⟨⟨'X', some 5⟩, List.mem_singleton.mpr rfl, by decide⟩

theorem int_value_of_300 : int_value_of 300 = 44 := by
  unfold int_value_of c_trunc
  rw [if_pos (by norm_num)]
  have : ⌊(300 : ℚ)⌋ = 300 := by
    rw [Int.floor_eq_iff]
    norm_num
  rw [this]
  decide

/-- Counterexample to C19 as stated: the line `L300` is parsed with `STATUS_OK`, and the
L slot of the block holds 44, not 300. -/
theorem L300_stores_44 :
    (gc_parse_line grbl_consts line_L300).1 = STATUS_OK ∧
    (gc_parse_line grbl_consts line_L300).2.values.l = 44 := by
  have hw : (gc_parse_word grbl_consts parse_init ⟨'L', some 300⟩).1 = STATUS_OK := by
    rw [gc_parse_word_value _ _ 'L' 300 WORD_L (by decide),
      gc_parse_value_status _ 'L' 300 WORD_L (by decide),
      if_neg (by decide), if_neg (by decide), if_neg (by decide)]
  have hs : (gc_parse_line grbl_consts line_L300).1 = STATUS_OK := by
    unfold line_L300
    rw [gc_parse_line_single]
    exact hw
  refine ⟨hs, ?_⟩
  have hl : gc_parse_words grbl_consts parse_init line_L300 =
      (STATUS_OK, (gc_parse_words grbl_consts parse_init line_L300).2) := Prod.ext hs rfl
  obtain ⟨-, -, -, -, -, k6, -⟩ := gc_parse_words_ok grbl_consts line_L300 parse_init _ hl
  have h := k6 ⟨'L', some 300⟩ (List.mem_singleton.mpr rfl) WORD_L 300 (by decide) rfl
  have e1 : stored_value WORD_L 300 = (int_value_of 300 : ℚ) := by
    unfold stored_value
    rw [if_pos (Or.inl rfl)]
  have e2 : ∀ c : parser_block_t, value_slot c WORD_L = (c.values.l : ℚ) := fun _ => rfl
  rw [e1, e2, int_value_of_300] at h
  exact_mod_cast h



/-! ## The printer -/

theorem gc_parse_line_single_eq (K : gcode_consts) (w : gc_word) :
    gc_parse_line K [w] =
      ((gc_parse_word K parse_init w).1, (gc_parse_word K parse_init w).2.block) := by
  show ((gc_parse_words K parse_init [w]).1, (gc_parse_words K parse_init [w]).2.block) = _
  rw [gc_parse_words_cons]
  split_ifs with h
  · simp only [gc_parse_words, h]
  · rfl

theorem print_commands_only (P : Printf) (K : gcode_consts) (b : parser_block_t)
    (h : b.value_words = 0) :
    gc_print_line P K b = print_G0 b ++ print_G1 P b ++ print_G2_G13 b ++ print_M K b := by
  unfold gc_print_line print_value_words
  rw [h]
  simp +decide [bit_istrue]

theorem print_M_absent (K : gcode_consts) (b : parser_block_t)
    (h : bit_istrue b.command_words (bit MODAL_GROUP_M4) = false ∧
      bit_istrue b.command_words (bit MODAL_GROUP_M7) = false ∧
      bit_istrue b.command_words (bit MODAL_GROUP_M8) = false ∧
      bit_istrue b.command_words (bit MODAL_GROUP_M9) = false) :
    print_M K b = "" := by
  unfold print_M
  rw [h.1, h.2.1, h.2.2.1, h.2.2.2]
  simp only [Bool.false_eq_true, if_false]
  decide

theorem round_trip_G_plain (P : Printf) (K : gcode_consts) (v : ℚ) (iv m : ℕ) (txt : String)
    (hiv : iv < 256) (hm : m < 100) (hv : v = (iv : ℚ) + (m : ℚ) / 100)
    (hs : (gc_parse_G parse_init iv m).1 = STATUS_OK)
    (hvw : (gc_parse_G parse_init iv m).2.block.value_words = 0)
    (h1 : bit_istrue (gc_parse_G parse_init iv m).2.block.command_words
      (bit MODAL_GROUP_G1) = false)
    (hM : bit_istrue (gc_parse_G parse_init iv m).2.block.command_words
        (bit MODAL_GROUP_M4) = false ∧
      bit_istrue (gc_parse_G parse_init iv m).2.block.command_words
        (bit MODAL_GROUP_M7) = false ∧
      bit_istrue (gc_parse_G parse_init iv m).2.block.command_words
        (bit MODAL_GROUP_M8) = false ∧
      bit_istrue (gc_parse_G parse_init iv m).2.block.command_words
        (bit MODAL_GROUP_M9) = false)
    (hp : print_G0 (gc_parse_G parse_init iv m).2.block ++ "" ++
      print_G2_G13 (gc_parse_G parse_init iv m).2.block ++ "" = txt) :
    (gc_parse_line K [⟨'G', some v⟩]).1 = STATUS_OK ∧
    gc_print_line P K (gc_parse_line K [⟨'G', some v⟩]).2 = txt := by
  obtain ⟨e1, e2⟩ := int_value_of_eq v iv m hiv hm hv
  rw [gc_parse_line_single_eq, gc_parse_word_G, e1, e2]
  refine ⟨hs, ?_⟩
  rw [print_commands_only P K _ hvw, print_M_absent K _ hM]
  unfold print_G1
  rw [h1]
  exact hp

theorem round_trip_G_motion (P : Printf) (K : gcode_consts) (v : ℚ) (iv m : ℕ)
    (txt s : String) (x : ℚ)
    (hiv : iv < 256) (hm : m < 100) (hv : v = (iv : ℚ) + (m : ℚ) / 100)
    (hs : (gc_parse_G parse_init iv m).1 = STATUS_OK)
    (hvw : (gc_parse_G parse_init iv m).2.block.value_words = 0)
    (h1 : bit_istrue (gc_parse_G parse_init iv m).2.block.command_words
      (bit MODAL_GROUP_G1) = true)
    (hM : bit_istrue (gc_parse_G parse_init iv m).2.block.command_words
        (bit MODAL_GROUP_M4) = false ∧
      bit_istrue (gc_parse_G parse_init iv m).2.block.command_words
        (bit MODAL_GROUP_M7) = false ∧
      bit_istrue (gc_parse_G parse_init iv m).2.block.command_words
        (bit MODAL_GROUP_M8) = false ∧
      bit_istrue (gc_parse_G parse_init iv m).2.block.command_words
        (bit MODAL_GROUP_M9) = false)
    (h0 : print_G0 (gc_parse_G parse_init iv m).2.block = "" ∧
      print_G2_G13 (gc_parse_G parse_init iv m).2.block = "")
    (mo : Nat) (hmo : (gc_parse_G parse_init iv m).2.block.modal.motion = mo)
    (hx : (if (mo : ℚ) > 100 then ((mo : ℚ) - 138) / 10 + 38 else (mo : ℚ)) = x)
    (hP : P.g x = s) (htxt : "" ++ ("G" ++ s) ++ "" ++ "" = txt) :
    (gc_parse_line K [⟨'G', some v⟩]).1 = STATUS_OK ∧
    gc_print_line P K (gc_parse_line K [⟨'G', some v⟩]).2 = txt := by
  obtain ⟨e1, e2⟩ := int_value_of_eq v iv m hiv hm hv
  rw [gc_parse_line_single_eq, gc_parse_word_G, e1, e2]
  refine ⟨hs, ?_⟩
  rw [print_commands_only P K _ hvw, print_M_absent K _ hM, h0.1, h0.2]
  unfold print_G1
  rw [h1, if_pos rfl, hmo, hx, hP]
  exact htxt

theorem gc_parse_M_value (K : gcode_consts) (v : ℚ) (iv : ℕ) (hiv : iv < 256)
    (hv : v = (iv : ℚ) + ((0 : ℕ) : ℚ) / 100) :
    gc_parse_line K [⟨'M', some v⟩] =
      ((gc_parse_M K parse_init iv 0).1, (gc_parse_M K parse_init iv 0).2.block) := by
  obtain ⟨e1, e2⟩ := int_value_of_eq v iv 0 hiv (by decide) hv
  rw [gc_parse_line_single_eq, gc_parse_word_M, e1, e2]

theorem print_M_block (P : Printf) (K : gcode_consts) (b : parser_block_t)
    (h : b.value_words = 0) (g : Nat) (hcw : b.command_words = bit g)
    (hg : g = MODAL_GROUP_M4 ∨ g = MODAL_GROUP_M7 ∨ g = MODAL_GROUP_M8) :
    gc_print_line P K b = print_M K b := by
  rw [print_commands_only P K b h]
  unfold print_G0 print_G1 print_G2_G13
  rw [hcw]
  rcases hg with hg | hg | hg <;> subst hg <;> simp +decide [bit_istrue]

theorem round_trip_M (P : Printf) (K : gcode_consts) (v : ℚ) (iv : ℕ) (txt : String)
    (hiv : iv < 256) (hv : v = (iv : ℚ) + ((0 : ℕ) : ℚ) / 100)
    (hs : (gc_parse_M K parse_init iv 0).1 = STATUS_OK)
    (hvw : (gc_parse_M K parse_init iv 0).2.block.value_words = 0)
    (g : Nat) (hcw : (gc_parse_M K parse_init iv 0).2.block.command_words = bit g)
    (hg : g = MODAL_GROUP_M4 ∨ g = MODAL_GROUP_M7 ∨ g = MODAL_GROUP_M8)
    (hp : print_M K (gc_parse_M K parse_init iv 0).2.block = txt) :
    (gc_parse_line K [⟨'M', some v⟩]).1 = STATUS_OK ∧
    gc_print_line P K (gc_parse_line K [⟨'M', some v⟩]).2 = txt := by
  rw [gc_parse_M_value K v iv hiv hv]
  exact ⟨hs, by rw [print_M_block P K _ hvw g hcw hg]; exact hp⟩

theorem gc_parse_M_flow (K : gcode_consts) (iv : Nat) (h : iv = 0 ∨ iv = 2 ∨ iv = 30) :
    gc_parse_M K parse_init iv 0 =
      (STATUS_OK, ⟨{ parser_block_t.zero with
        command_words := bit MODAL_GROUP_M4
        modal := { gc_modal_t.zero with
          program_flow := if iv = 0 then K.PROGRAM_FLOW_PAUSED else iv } }, 0⟩) := by
  rcases h with h | h | h <;> subst h <;>
    simp +decide [gc_parse_M, gc_M, gc_command_bit, set_program_flow, parse_init,
      parser_block_t.zero, bit_istrue, bit_true, AXIS_COMMAND_NONE]

theorem gc_parse_M_spindle (K : gcode_consts) (iv : Nat) (h : iv = 3 ∨ iv = 4 ∨ iv = 5) :
    gc_parse_M K parse_init iv 0 =
      (STATUS_OK, ⟨{ parser_block_t.zero with
        command_words := bit MODAL_GROUP_M7
        modal := { gc_modal_t.zero with
          spindle := if iv = 3 then K.SPINDLE_ENABLE_CW
            else if iv = 4 then K.SPINDLE_ENABLE_CCW else K.SPINDLE_DISABLE } }, 0⟩) := by
  rcases h with h | h | h <;> subst h <;>
    simp +decide [gc_parse_M, gc_M, gc_command_bit, set_spindle, parse_init,
      parser_block_t.zero, bit_istrue, bit_true, AXIS_COMMAND_NONE]

theorem gc_parse_M_coolant (K : gcode_consts) (iv : Nat) (h : iv = 8 ∨ iv = 9) :
    gc_parse_M K parse_init iv 0 =
      (STATUS_OK, ⟨{ parser_block_t.zero with
        command_words := bit MODAL_GROUP_M8
        modal := { gc_modal_t.zero with
          coolant := if iv = 8 then K.COOLANT_FLOOD_ENABLE else K.COOLANT_DISABLE } }, 0⟩) := by
  rcases h with h | h <;> subst h <;>
    simp +decide [gc_parse_M, gc_M, gc_command_bit, set_coolant, parse_init,
      parser_block_t.zero, gc_modal_t.zero, bit_istrue, bit_true, AXIS_COMMAND_NONE]

theorem round_trip_M0 (P : Printf) (K : gcode_consts)
    (hflow : K.PROGRAM_FLOW_PAUSED ≠ 2 ∧ K.PROGRAM_FLOW_PAUSED ≠ 30)
    (hsp : K.SPINDLE_ENABLE_CCW ≠ K.SPINDLE_ENABLE_CW ∧
      K.SPINDLE_DISABLE ≠ K.SPINDLE_ENABLE_CW ∧ K.SPINDLE_DISABLE ≠ K.SPINDLE_ENABLE_CCW)
    (hco : K.COOLANT_FLOOD_ENABLE ≠ 0 ∧
      K.COOLANT_FLOOD_ENABLE &&& K.COOLANT_MIST_ENABLE = 0 ∧
      K.COOLANT_FLOOD_ENABLE ≠ K.COOLANT_DISABLE ∧
      K.COOLANT_DISABLE &&& K.COOLANT_MIST_ENABLE = 0 ∧
      K.COOLANT_DISABLE &&& K.COOLANT_FLOOD_ENABLE = 0) :
    (gc_parse_line K [⟨'M', some 0⟩]).1 = STATUS_OK ∧
    gc_print_line P K (gc_parse_line K [⟨'M', some 0⟩]).2 = "M0" := by
  have e := gc_parse_M_flow K 0 (Or.inl rfl)
  refine round_trip_M P K _ 0 _ (by decide) (by norm_num) (by rw [e]) (by rw [e]; rfl)
    MODAL_GROUP_M4 (by rw [e]) (Or.inl rfl) ?_
  · rw [e]
    simp +decide [print_M, bit_istrue, parser_block_t.zero, gc_modal_t.zero]

theorem round_trip_M2 (P : Printf) (K : gcode_consts)
    (hflow : K.PROGRAM_FLOW_PAUSED ≠ 2 ∧ K.PROGRAM_FLOW_PAUSED ≠ 30)
    (hsp : K.SPINDLE_ENABLE_CCW ≠ K.SPINDLE_ENABLE_CW ∧
      K.SPINDLE_DISABLE ≠ K.SPINDLE_ENABLE_CW ∧ K.SPINDLE_DISABLE ≠ K.SPINDLE_ENABLE_CCW)
    (hco : K.COOLANT_FLOOD_ENABLE ≠ 0 ∧
      K.COOLANT_FLOOD_ENABLE &&& K.COOLANT_MIST_ENABLE = 0 ∧
      K.COOLANT_FLOOD_ENABLE ≠ K.COOLANT_DISABLE ∧
      K.COOLANT_DISABLE &&& K.COOLANT_MIST_ENABLE = 0 ∧
      K.COOLANT_DISABLE &&& K.COOLANT_FLOOD_ENABLE = 0) :
    (gc_parse_line K [⟨'M', some 2⟩]).1 = STATUS_OK ∧
    gc_print_line P K (gc_parse_line K [⟨'M', some 2⟩]).2 = "M2" := by
  have e := gc_parse_M_flow K 2 (Or.inr (Or.inl rfl))
  refine round_trip_M P K _ 2 _ (by decide) (by norm_num) (by rw [e]) (by rw [e]; rfl)
    MODAL_GROUP_M4 (by rw [e]) (Or.inl rfl) ?_
  · rw [e]
    simp +decide [print_M, bit_istrue, parser_block_t.zero, gc_modal_t.zero, hflow.1.symm]

theorem round_trip_M3 (P : Printf) (K : gcode_consts)
    (hflow : K.PROGRAM_FLOW_PAUSED ≠ 2 ∧ K.PROGRAM_FLOW_PAUSED ≠ 30)
    (hsp : K.SPINDLE_ENABLE_CCW ≠ K.SPINDLE_ENABLE_CW ∧
      K.SPINDLE_DISABLE ≠ K.SPINDLE_ENABLE_CW ∧ K.SPINDLE_DISABLE ≠ K.SPINDLE_ENABLE_CCW)
    (hco : K.COOLANT_FLOOD_ENABLE ≠ 0 ∧
      K.COOLANT_FLOOD_ENABLE &&& K.COOLANT_MIST_ENABLE = 0 ∧
      K.COOLANT_FLOOD_ENABLE ≠ K.COOLANT_DISABLE ∧
      K.COOLANT_DISABLE &&& K.COOLANT_MIST_ENABLE = 0 ∧
      K.COOLANT_DISABLE &&& K.COOLANT_FLOOD_ENABLE = 0) :
    (gc_parse_line K [⟨'M', some 3⟩]).1 = STATUS_OK ∧
    gc_print_line P K (gc_parse_line K [⟨'M', some 3⟩]).2 = "M3" := by
  have e := gc_parse_M_spindle K 3 (Or.inl rfl)
  refine round_trip_M P K _ 3 _ (by decide) (by norm_num) (by rw [e]) (by rw [e]; rfl)
    MODAL_GROUP_M7 (by rw [e]) (Or.inr (Or.inl rfl)) ?_
  · rw [e]
    simp +decide [print_M, bit_istrue, parser_block_t.zero, gc_modal_t.zero]

theorem round_trip_M4 (P : Printf) (K : gcode_consts)
    (hflow : K.PROGRAM_FLOW_PAUSED ≠ 2 ∧ K.PROGRAM_FLOW_PAUSED ≠ 30)
    (hsp : K.SPINDLE_ENABLE_CCW ≠ K.SPINDLE_ENABLE_CW ∧
      K.SPINDLE_DISABLE ≠ K.SPINDLE_ENABLE_CW ∧ K.SPINDLE_DISABLE ≠ K.SPINDLE_ENABLE_CCW)
    (hco : K.COOLANT_FLOOD_ENABLE ≠ 0 ∧
      K.COOLANT_FLOOD_ENABLE &&& K.COOLANT_MIST_ENABLE = 0 ∧
      K.COOLANT_FLOOD_ENABLE ≠ K.COOLANT_DISABLE ∧
      K.COOLANT_DISABLE &&& K.COOLANT_MIST_ENABLE = 0 ∧
      K.COOLANT_DISABLE &&& K.COOLANT_FLOOD_ENABLE = 0) :
    (gc_parse_line K [⟨'M', some 4⟩]).1 = STATUS_OK ∧
    gc_print_line P K (gc_parse_line K [⟨'M', some 4⟩]).2 = "M4" := by
  have e := gc_parse_M_spindle K 4 (Or.inr (Or.inl rfl))
  refine round_trip_M P K _ 4 _ (by decide) (by norm_num) (by rw [e]) (by rw [e]; rfl)
    MODAL_GROUP_M7 (by rw [e]) (Or.inr (Or.inl rfl)) ?_
  · rw [e]
    simp +decide [print_M, bit_istrue, parser_block_t.zero, gc_modal_t.zero, hsp.1]

theorem round_trip_M5 (P : Printf) (K : gcode_consts)
    (hflow : K.PROGRAM_FLOW_PAUSED ≠ 2 ∧ K.PROGRAM_FLOW_PAUSED ≠ 30)
    (hsp : K.SPINDLE_ENABLE_CCW ≠ K.SPINDLE_ENABLE_CW ∧
      K.SPINDLE_DISABLE ≠ K.SPINDLE_ENABLE_CW ∧ K.SPINDLE_DISABLE ≠ K.SPINDLE_ENABLE_CCW)
    (hco : K.COOLANT_FLOOD_ENABLE ≠ 0 ∧
      K.COOLANT_FLOOD_ENABLE &&& K.COOLANT_MIST_ENABLE = 0 ∧
      K.COOLANT_FLOOD_ENABLE ≠ K.COOLANT_DISABLE ∧
      K.COOLANT_DISABLE &&& K.COOLANT_MIST_ENABLE = 0 ∧
      K.COOLANT_DISABLE &&& K.COOLANT_FLOOD_ENABLE = 0) :
    (gc_parse_line K [⟨'M', some 5⟩]).1 = STATUS_OK ∧
    gc_print_line P K (gc_parse_line K [⟨'M', some 5⟩]).2 = "M5" := by
  have e := gc_parse_M_spindle K 5 (Or.inr (Or.inr rfl))
  refine round_trip_M P K _ 5 _ (by decide) (by norm_num) (by rw [e]) (by rw [e]; rfl)
    MODAL_GROUP_M7 (by rw [e]) (Or.inr (Or.inl rfl)) ?_
  · rw [e]
    simp +decide [print_M, bit_istrue, parser_block_t.zero, gc_modal_t.zero, hsp.2.1, hsp.2.2]

theorem round_trip_M8 (P : Printf) (K : gcode_consts)
    (hflow : K.PROGRAM_FLOW_PAUSED ≠ 2 ∧ K.PROGRAM_FLOW_PAUSED ≠ 30)
    (hsp : K.SPINDLE_ENABLE_CCW ≠ K.SPINDLE_ENABLE_CW ∧
      K.SPINDLE_DISABLE ≠ K.SPINDLE_ENABLE_CW ∧ K.SPINDLE_DISABLE ≠ K.SPINDLE_ENABLE_CCW)
    (hco : K.COOLANT_FLOOD_ENABLE ≠ 0 ∧
      K.COOLANT_FLOOD_ENABLE &&& K.COOLANT_MIST_ENABLE = 0 ∧
      K.COOLANT_FLOOD_ENABLE ≠ K.COOLANT_DISABLE ∧
      K.COOLANT_DISABLE &&& K.COOLANT_MIST_ENABLE = 0 ∧
      K.COOLANT_DISABLE &&& K.COOLANT_FLOOD_ENABLE = 0) :
    (gc_parse_line K [⟨'M', some 8⟩]).1 = STATUS_OK ∧
    gc_print_line P K (gc_parse_line K [⟨'M', some 8⟩]).2 = "M8" := by
  have e := gc_parse_M_coolant K 8 (Or.inl rfl)
  refine round_trip_M P K _ 8 _ (by decide) (by norm_num) (by rw [e]) (by rw [e]; rfl)
    MODAL_GROUP_M8 (by rw [e]) (Or.inr (Or.inr rfl)) ?_
  · rw [e]
    simp +decide [print_M, bit_istrue, parser_block_t.zero, gc_modal_t.zero, hco.1, hco.2.1, hco.2.2.1]

theorem round_trip_M9 (P : Printf) (K : gcode_consts)
    (hflow : K.PROGRAM_FLOW_PAUSED ≠ 2 ∧ K.PROGRAM_FLOW_PAUSED ≠ 30)
    (hsp : K.SPINDLE_ENABLE_CCW ≠ K.SPINDLE_ENABLE_CW ∧
      K.SPINDLE_DISABLE ≠ K.SPINDLE_ENABLE_CW ∧ K.SPINDLE_DISABLE ≠ K.SPINDLE_ENABLE_CCW)
    (hco : K.COOLANT_FLOOD_ENABLE ≠ 0 ∧
      K.COOLANT_FLOOD_ENABLE &&& K.COOLANT_MIST_ENABLE = 0 ∧
      K.COOLANT_FLOOD_ENABLE ≠ K.COOLANT_DISABLE ∧
      K.COOLANT_DISABLE &&& K.COOLANT_MIST_ENABLE = 0 ∧
      K.COOLANT_DISABLE &&& K.COOLANT_FLOOD_ENABLE = 0) :
    (gc_parse_line K [⟨'M', some 9⟩]).1 = STATUS_OK ∧
    gc_print_line P K (gc_parse_line K [⟨'M', some 9⟩]).2 = "M9" := by
  have e := gc_parse_M_coolant K 9 (Or.inr rfl)
  refine round_trip_M P K _ 9 _ (by decide) (by norm_num) (by rw [e]) (by rw [e]; rfl)
    MODAL_GROUP_M8 (by rw [e]) (Or.inr (Or.inr rfl)) ?_
  · rw [e]
    simp +decide [print_M, bit_istrue, parser_block_t.zero, gc_modal_t.zero, hco.2.2.2.1, hco.2.2.2.2]

theorem round_trip_M30 (P : Printf) (K : gcode_consts)
    (hflow : K.PROGRAM_FLOW_PAUSED ≠ 2 ∧ K.PROGRAM_FLOW_PAUSED ≠ 30)
    (hsp : K.SPINDLE_ENABLE_CCW ≠ K.SPINDLE_ENABLE_CW ∧
      K.SPINDLE_DISABLE ≠ K.SPINDLE_ENABLE_CW ∧ K.SPINDLE_DISABLE ≠ K.SPINDLE_ENABLE_CCW)
    (hco : K.COOLANT_FLOOD_ENABLE ≠ 0 ∧
      K.COOLANT_FLOOD_ENABLE &&& K.COOLANT_MIST_ENABLE = 0 ∧
      K.COOLANT_FLOOD_ENABLE ≠ K.COOLANT_DISABLE ∧
      K.COOLANT_DISABLE &&& K.COOLANT_MIST_ENABLE = 0 ∧
      K.COOLANT_DISABLE &&& K.COOLANT_FLOOD_ENABLE = 0) :
    (gc_parse_line K [⟨'M', some 30⟩]).1 = STATUS_OK ∧
    gc_print_line P K (gc_parse_line K [⟨'M', some 30⟩]).2 = "M30" := by
  have e := gc_parse_M_flow K 30 (Or.inr (Or.inr rfl))
  refine round_trip_M P K _ 30 _ (by decide) (by norm_num) (by rw [e]) (by rw [e]; rfl)
    MODAL_GROUP_M4 (by rw [e]) (Or.inl rfl) ?_
  · rw [e]
    simp +decide [print_M, bit_istrue, parser_block_t.zero, gc_modal_t.zero, hflow.2.symm]

/-- C20: the command round trip. Let `%g` print the numbers 0, 1, 2, 3, 80, 38.2, 38.3,
38.4 and 38.5 as these numerals, and let the constants of `gcode.h` be distinct where the
printer tells them apart (the pause code is neither 2 nor 30, the three spindle codes
differ, the flood bit is not zero, not part of the mist mask and not the code of "coolant
off", and "coolant off" has neither the mist nor the flood bit). Then for each recognised
G command and each of M0, M2, M3, M4, M5, M8, M9, M30, the line that consists of that
command is parsed with `STATUS_OK`, and `gc_print_line` applied to the block prints
exactly the text of the command. -/
theorem command_round_trip (P : Printf) (K : gcode_consts)
    (hg : P.g 0 = "0" ∧ P.g 1 = "1" ∧ P.g 2 = "2" ∧ P.g 3 = "3" ∧ P.g 80 = "80" ∧
      P.g (191 / 5) = "38.2" ∧ P.g (383 / 10) = "38.3" ∧ P.g (192 / 5) = "38.4" ∧
      P.g (77 / 2) = "38.5")
    (hflow : K.PROGRAM_FLOW_PAUSED ≠ 2 ∧ K.PROGRAM_FLOW_PAUSED ≠ 30)
    (hsp : K.SPINDLE_ENABLE_CCW ≠ K.SPINDLE_ENABLE_CW ∧
      K.SPINDLE_DISABLE ≠ K.SPINDLE_ENABLE_CW ∧ K.SPINDLE_DISABLE ≠ K.SPINDLE_ENABLE_CCW)
    (hco : K.COOLANT_FLOOD_ENABLE ≠ 0 ∧
      K.COOLANT_FLOOD_ENABLE &&& K.COOLANT_MIST_ENABLE = 0 ∧
      K.COOLANT_FLOOD_ENABLE ≠ K.COOLANT_DISABLE ∧
      K.COOLANT_DISABLE &&& K.COOLANT_MIST_ENABLE = 0 ∧
      K.COOLANT_DISABLE &&& K.COOLANT_FLOOD_ENABLE = 0) :
    ∀ c ∈ recognised_commands,
      (gc_parse_line K [c.2]).1 = STATUS_OK ∧
      gc_print_line P K (gc_parse_line K [c.2]).2 = c.1 := by
  intro c hc
  simp only [recognised_commands, List.mem_cons, List.mem_singleton, List.not_mem_nil,
    or_false] at hc
  rcases hc with h | h | h | h | h | h | h | h | h | h | h | h | h | h | h | h | h | h | h | h | h | h | h | h | h | h | h | h | h | h | h | h | h | h | h | h | h | h | h | h | h | h | h | h | h | h
  all_goals subst h
  all_goals simp only []
  · exact round_trip_G_motion P K _ 0 0 _ _ 0 (by decide) (by decide) (by norm_num)
      (by decide) (by decide) (by decide) (by decide) (by decide) 0 (by decide)
      (by norm_num) hg.1 (by decide)
  · exact round_trip_G_motion P K _ 1 0 _ _ 1 (by decide) (by decide) (by norm_num)
      (by decide) (by decide) (by decide) (by decide) (by decide) 1 (by decide)
      (by norm_num) hg.2.1 (by decide)
  · exact round_trip_G_motion P K _ 2 0 _ _ 2 (by decide) (by decide) (by norm_num)
      (by decide) (by decide) (by decide) (by decide) (by decide) 2 (by decide)
      (by norm_num) hg.2.2.1 (by decide)
  · exact round_trip_G_motion P K _ 3 0 _ _ 3 (by decide) (by decide) (by norm_num)
      (by decide) (by decide) (by decide) (by decide) (by decide) 3 (by decide)
      (by norm_num) hg.2.2.2.1 (by decide)
  · exact round_trip_G_plain P K _ 4 0 _ (by decide) (by decide) (by norm_num)
      (by decide) (by decide) (by decide) (by decide) (by decide)
  · exact round_trip_G_plain P K _ 10 0 _ (by decide) (by decide) (by norm_num)
      (by decide) (by decide) (by decide) (by decide) (by decide)
  · exact round_trip_G_plain P K _ 17 0 _ (by decide) (by decide) (by norm_num)
      (by decide) (by decide) (by decide) (by decide) (by decide)
  · exact round_trip_G_plain P K _ 18 0 _ (by decide) (by decide) (by norm_num)
      (by decide) (by decide) (by decide) (by decide) (by decide)
  · exact round_trip_G_plain P K _ 19 0 _ (by decide) (by decide) (by norm_num)
      (by decide) (by decide) (by decide) (by decide) (by decide)
  · exact round_trip_G_plain P K _ 20 0 _ (by decide) (by decide) (by norm_num)
      (by decide) (by decide) (by decide) (by decide) (by decide)
  · exact round_trip_G_plain P K _ 21 0 _ (by decide) (by decide) (by norm_num)
      (by decide) (by decide) (by decide) (by decide) (by decide)
  · exact round_trip_G_plain P K _ 28 0 _ (by decide) (by decide) (by norm_num)
      (by decide) (by decide) (by decide) (by decide) (by decide)
  · exact round_trip_G_plain P K _ 28 10 _ (by decide) (by decide) (by norm_num)
      (by decide) (by decide) (by decide) (by decide) (by decide)
  · exact round_trip_G_plain P K _ 30 0 _ (by decide) (by decide) (by norm_num)
      (by decide) (by decide) (by decide) (by decide) (by decide)
  · exact round_trip_G_plain P K _ 30 10 _ (by decide) (by decide) (by norm_num)
      (by decide) (by decide) (by decide) (by decide) (by decide)
  · exact round_trip_G_motion P K _ 38 20 _ _ (191 / 5) (by decide) (by decide) (by norm_num)
      (by decide) (by decide) (by decide) (by decide) (by decide) 140 (by decide)
      (by norm_num) hg.2.2.2.2.2.1 (by decide)
  · exact round_trip_G_motion P K _ 38 30 _ _ (383 / 10) (by decide) (by decide) (by norm_num)
      (by decide) (by decide) (by decide) (by decide) (by decide) 141 (by decide)
      (by norm_num) hg.2.2.2.2.2.2.1 (by decide)
  · exact round_trip_G_motion P K _ 38 40 _ _ (192 / 5) (by decide) (by decide) (by norm_num)
      (by decide) (by decide) (by decide) (by decide) (by decide) 142 (by decide)
      (by norm_num) hg.2.2.2.2.2.2.2.1 (by decide)
  · exact round_trip_G_motion P K _ 38 50 _ _ (77 / 2) (by decide) (by decide) (by norm_num)
      (by decide) (by decide) (by decide) (by decide) (by decide) 143 (by decide)
      (by norm_num) hg.2.2.2.2.2.2.2.2 (by decide)
  · exact round_trip_G_plain P K _ 40 0 _ (by decide) (by decide) (by norm_num)
      (by decide) (by decide) (by decide) (by decide) (by decide)
  · exact round_trip_G_plain P K _ 43 10 _ (by decide) (by decide) (by norm_num)
      (by decide) (by decide) (by decide) (by decide) (by decide)
  · exact round_trip_G_plain P K _ 49 0 _ (by decide) (by decide) (by norm_num)
      (by decide) (by decide) (by decide) (by decide) (by decide)
  · exact round_trip_G_plain P K _ 53 0 _ (by decide) (by decide) (by norm_num)
      (by decide) (by decide) (by decide) (by decide) (by decide)
  · exact round_trip_G_plain P K _ 54 0 _ (by decide) (by decide) (by norm_num)
      (by decide) (by decide) (by decide) (by decide) (by decide)
  · exact round_trip_G_plain P K _ 55 0 _ (by decide) (by decide) (by norm_num)
      (by decide) (by decide) (by decide) (by decide) (by decide)
  · exact round_trip_G_plain P K _ 56 0 _ (by decide) (by decide) (by norm_num)
      (by decide) (by decide) (by decide) (by decide) (by decide)
  · exact round_trip_G_plain P K _ 57 0 _ (by decide) (by decide) (by norm_num)
      (by decide) (by decide) (by decide) (by decide) (by decide)
  · exact round_trip_G_plain P K _ 58 0 _ (by decide) (by decide) (by norm_num)
      (by decide) (by decide) (by decide) (by decide) (by decide)
  · exact round_trip_G_plain P K _ 59 0 _ (by decide) (by decide) (by norm_num)
      (by decide) (by decide) (by decide) (by decide) (by decide)
  · exact round_trip_G_plain P K _ 61 0 _ (by decide) (by decide) (by norm_num)
      (by decide) (by decide) (by decide) (by decide) (by decide)
  · exact round_trip_G_motion P K _ 80 0 _ _ 80 (by decide) (by decide) (by norm_num)
      (by decide) (by decide) (by decide) (by decide) (by decide) 80 (by decide)
      (by norm_num) hg.2.2.2.2.1 (by decide)
  · exact round_trip_G_plain P K _ 90 0 _ (by decide) (by decide) (by norm_num)
      (by decide) (by decide) (by decide) (by decide) (by decide)
  · exact round_trip_G_plain P K _ 91 0 _ (by decide) (by decide) (by norm_num)
      (by decide) (by decide) (by decide) (by decide) (by decide)
  · exact round_trip_G_plain P K _ 91 10 _ (by decide) (by decide) (by norm_num)
      (by decide) (by decide) (by decide) (by decide) (by decide)
  · exact round_trip_G_plain P K _ 92 0 _ (by decide) (by decide) (by norm_num)
      (by decide) (by decide) (by decide) (by decide) (by decide)
  · exact round_trip_G_plain P K _ 92 10 _ (by decide) (by decide) (by norm_num)
      (by decide) (by decide) (by decide) (by decide) (by decide)
  · exact round_trip_G_plain P K _ 93 0 _ (by decide) (by decide) (by norm_num)
      (by decide) (by decide) (by decide) (by decide) (by decide)
  · exact round_trip_G_plain P K _ 94 0 _ (by decide) (by decide) (by norm_num)
      (by decide) (by decide) (by decide) (by decide) (by decide)
  · exact round_trip_M0 P K hflow hsp hco
  · exact round_trip_M2 P K hflow hsp hco
  · exact round_trip_M3 P K hflow hsp hco
  · exact round_trip_M4 P K hflow hsp hco
  · exact round_trip_M5 P K hflow hsp hco
  · exact round_trip_M8 P K hflow hsp hco
  · exact round_trip_M9 P K hflow hsp hco
  · exact round_trip_M30 P K hflow hsp hco

theorem printf_example_facts :
    printf_example.g 0 = "0" ∧ printf_example.g 1 = "1" ∧ printf_example.g 2 = "2" ∧
    printf_example.g 3 = "3" ∧ printf_example.g 80 = "80" ∧
    printf_example.g (191 / 5) = "38.2" ∧ printf_example.g (383 / 10) = "38.3" ∧
    printf_example.g (192 / 5) = "38.4" ∧ printf_example.g (77 / 2) = "38.5" := by
  have e1 : (191 / 5 : ℚ) = mkRat 191 5 := by norm_num [mkRat]
  have e2 : (383 / 10 : ℚ) = mkRat 383 10 := by norm_num [mkRat]
  have e3 : (192 / 5 : ℚ) = mkRat 192 5 := by norm_num [mkRat]
  have e4 : (77 / 2 : ℚ) = mkRat 77 2 := by norm_num [mkRat]
  rw [e1, e2, e3, e4]
  unfold printf_example
  simp only []
  refine ⟨?_, ?_, ?_, ?_, ?_, ?_, ?_, ?_, ?_⟩
  · simp
    decide
  · simp
    decide
  · simp
    decide
  · simp
    decide
  · simp
    decide
  · decide
  · decide
  · decide
  · decide

/-- Witness of C20: with the constants of Grbl and the example `%g`, the line `G38.2` is
parsed and printed back as `G38.2`. -/
theorem command_round_trip_witness :
    (gc_parse_line grbl_consts [⟨'G', some 38.2⟩]).1 = STATUS_OK ∧
    gc_print_line printf_example grbl_consts
      (gc_parse_line grbl_consts [⟨'G', some 38.2⟩]).2 = "G38.2" :=
  command_round_trip printf_example grbl_consts printf_example_facts
    (by decide) (by decide) (by decide) ("G38.2", ⟨'G', some 38.2⟩)
    (by simp [recognised_commands])

/-! ### The optional stop M1 -/

theorem int_value_2 : int_value_of 2 = 2 ∧ mantissa_of 2 = 0 :=
  int_value_of_eq 2 2 0 (by decide) (by decide) (by norm_num)

theorem gc_parse_M1 (K : gcode_consts) :
    gc_parse_M K parse_init 1 0 =
      (STATUS_OK, ⟨{ parser_block_t.zero with command_words := bit MODAL_GROUP_M4 }, 0⟩) := by
  simp +decide [gc_parse_M, gc_M, gc_command_bit, parse_init, parser_block_t.zero,
    bit_istrue, bit_true, AXIS_COMMAND_NONE]

/-- C18 (code): M1 is not ignored. The line `M1` is parsed into a block with the bit of the
program-flow group set and the program flow 0, which `gc_print_line` prints as `M0`,
whereas the empty line is parsed into the zero block, which prints nothing; and the line
`M1 M2` fails with `STATUS_GCODE_MODAL_GROUP_VIOLATION` whereas the line `M2` is
accepted. -/
theorem M1_not_ignored (P : Printf) (K : gcode_consts) :
    gc_parse_line K [⟨'M', some 1⟩] =
      (STATUS_OK, { parser_block_t.zero with command_words := bit MODAL_GROUP_M4 }) ∧
    gc_parse_line K [] = (STATUS_OK, parser_block_t.zero) ∧
    gc_print_line P K (gc_parse_line K [⟨'M', some 1⟩]).2 = "M0" ∧
    gc_print_line P K (gc_parse_line K []).2 = "" ∧
    (gc_parse_line K line_M1_M2).1 = STATUS_GCODE_MODAL_GROUP_VIOLATION ∧
    (gc_parse_line K [⟨'M', some 2⟩]).1 = STATUS_OK := by
  have h1 : gc_parse_line K [⟨'M', some 1⟩] =
      (STATUS_OK, { parser_block_t.zero with command_words := bit MODAL_GROUP_M4 }) := by
    rw [gc_parse_M_value K 1 1 (by decide) (by norm_num), gc_parse_M1]
  have h2 : (gc_parse_line K [⟨'M', some 2⟩]).1 = STATUS_OK := by
    rw [gc_parse_M_value K 2 2 (by decide) (by norm_num), gc_parse_M_flow K 2 (Or.inr (Or.inl rfl))]
  have hw1 : gc_parse_word K parse_init ⟨'M', some 1⟩ =
      (STATUS_OK, ⟨{ parser_block_t.zero with command_words := bit MODAL_GROUP_M4 }, 0⟩) := by
    rw [gc_parse_word_M, int_value_0_1.2.1, int_value_0_1.2.2, gc_parse_M1]
  refine ⟨h1, rfl, ?_, ?_, ?_, h2⟩
  · rw [h1, print_M_block P K _ rfl MODAL_GROUP_M4 rfl (Or.inl rfl)]
    simp +decide [print_M, bit_istrue, parser_block_t.zero, gc_modal_t.zero]
  · show gc_print_line P K parser_block_t.zero = ""
    rw [print_commands_only P K _ rfl]
    simp +decide [print_G0, print_G1, print_G2_G13, print_M, bit_istrue, parser_block_t.zero]
  · have hpre : gc_parse_words K parse_init [⟨'M', some 1⟩] =
        (STATUS_OK, ⟨{ parser_block_t.zero with command_words := bit MODAL_GROUP_M4 }, 0⟩) := by
      rw [gc_parse_words_single K parse_init _ (by rw [hw1]), hw1]
    have hst : (gc_parse_word K
        ⟨{ parser_block_t.zero with command_words := bit MODAL_GROUP_M4 }, 0⟩
        ⟨'M', some 2⟩).1 = STATUS_GCODE_MODAL_GROUP_VIOLATION := by
      rw [gc_parse_word_M, int_value_2.1, int_value_2.2, gc_parse_M_status]
      simp +decide [gc_M, bit, MODAL_GROUP_M4]
    have := gc_parse_line_fail_at K [⟨'M', some 1⟩] [] ⟨'M', some 2⟩ _ hpre
      (by rw [hst]; decide)
    rw [hst] at this
    exact this

/-! ## Cleanup and the position of the stream -/

theorem cleanup_G91_slot :
    cleanup cleanup_init block_G91_slot =
      (⟨{ cleanup_init.modal with distance := DISTANCE_MODE_INCREMENTAL },
        { gc_values_t.zero with xyz := ⟨5, 0, 0⟩ }⟩, block_G91_slot) := by
  simp +decide [cleanup, update_state, cleanup_init, block_G91_slot, strip_or_update, strip_zero,
    update_axis, incremental_axis, parser_block_t.zero, gc_values_t.zero, gc_modal_t.zero, vec3.zero, bit_istrue, bit_false, bit]

theorem cleanup_G90_X5 :
    cleanup ⟨{ cleanup_init.modal with distance := DISTANCE_MODE_INCREMENTAL },
        { gc_values_t.zero with xyz := ⟨5, 0, 0⟩ }⟩ block_G90_X5 =
      (⟨{ cleanup_init.modal with distance := DISTANCE_MODE_ABSOLUTE },
        { gc_values_t.zero with xyz := ⟨5, 0, 0⟩ }⟩,
       { block_G90_X5 with value_words := 0 }) := by
  simp +decide [cleanup, update_state, cleanup_init, block_G90_X5, strip_or_update, strip_zero,
    update_axis, incremental_axis, parser_block_t.zero, gc_values_t.zero, gc_modal_t.zero, vec3.zero, bit_istrue, bit_false, bit]

/-- Counterexample to C12 as stated (for every block stream): on a stream in incremental
mode `cleanup` does not preserve the position. The stream is the block `G91` whose
slot of the absent word X holds 5, followed by the block `G90 X5`. Interpreted from the
origin in absolute mode, the stream ends at X = 5. `cleanup`, started from
`cleanup_init`, adds the slot of the absent X to its shadow position while the distance
mode is incremental, so the X word of the second block equals the shadow and is removed;
the cleaned stream ends at X = 0. The X word that is removed does not equal the position
in force, which is 0. -/
theorem cleanup_changes_position :
    position_after DISTANCE_MODE_ABSOLUTE vec3.zero stream_G91_G90_X5 = ⟨5, 0, 0⟩ ∧
    (run_stream cleanup cleanup_init stream_G91_G90_X5).2 =
      [block_G91_slot, { block_G90_X5 with value_words := 0 }] ∧
    position_after DISTANCE_MODE_ABSOLUTE vec3.zero
      (run_stream cleanup cleanup_init stream_G91_G90_X5).2 = ⟨0, 0, 0⟩ ∧
    bit_istrue block_G90_X5.value_words (bit WORD_X) = true ∧
    bit_istrue block_G91_slot.value_words (bit WORD_X) = false := by
  have hrun : (run_stream cleanup cleanup_init stream_G91_G90_X5).2 =
      [block_G91_slot, { block_G90_X5 with value_words := 0 }] := by
    simp only [stream_G91_G90_X5, run_stream_cons, cleanup_G91_slot, cleanup_G90_X5]
    rfl
  refine ⟨?_, hrun, ?_, by decide, by decide⟩
  · simp +decide [position_after, stream_G91_G90_X5, block_G91_slot, block_G90_X5, axis_target,
      parser_block_t.zero, gc_values_t.zero, gc_modal_t.zero, vec3.zero, bit_istrue, bit]
  · rw [hrun]
    simp +decide [position_after, block_G91_slot, block_G90_X5, axis_target,
      parser_block_t.zero, gc_values_t.zero, gc_modal_t.zero, vec3.zero, bit_istrue, bit]

/-! ## The driver -/

theorem gc_parse_G0_init :
    gc_parse_G parse_init 0 0 =
      (STATUS_OK, ⟨{ parser_block_t.zero with command_words := bit MODAL_GROUP_G1 },
        AXIS_COMMAND_MOTION_MODE⟩) := by
  decide

/-- An X word stores its value; it is accepted when the X bit is clear and fails as a
repeated word when the bit is set. -/
theorem gc_parse_value_X (s : parse_state) (v : ℚ) (iv : Nat) :
    gc_parse_value s 'X' v iv =
      if bit_istrue s.block.value_words (bit WORD_X) then
        (STATUS_GCODE_WORD_REPEATED, { s with block := { s.block with
          values := { s.block.values with xyz := { s.block.values.xyz with e0 := v } } } })
      else
        (STATUS_OK, { s with block := { s.block with
          values := { s.block.values with xyz := { s.block.values.xyz with e0 := v } },
          value_words := bit_true s.block.value_words (bit WORD_X) } }) := by
  have hg : gc_value s.block 'X' v iv = (none, WORD_X, { s.block with
          values := { s.block.values with xyz := { s.block.values.xyz with e0 := v } } }) := by
    simp only [gc_value, Char.reduceEq, if_false, if_true]
  unfold gc_parse_value
  rw [hg]
  simp only []
  have hn : bit_istrue (bit WORD_X)
      (bit WORD_F ||| bit WORD_N ||| bit WORD_P ||| bit WORD_T ||| bit WORD_S) = false := by
    decide
  rw [hn]
  simp

theorem gc_parse_line_G0_X1_X2 (K : gcode_consts) :
    gc_parse_line K line_G0_X1_X2 = (STATUS_GCODE_WORD_REPEATED, block_G0_X2) := by
  have h1 : gc_parse_word K parse_init ⟨'G', some 0⟩ =
      (STATUS_OK, ⟨{ parser_block_t.zero with command_words := bit MODAL_GROUP_G1 },
        AXIS_COMMAND_MOTION_MODE⟩) := by
    rw [gc_parse_word_G0, gc_parse_G0_init]
  have h2 : gc_parse_word K ⟨{ parser_block_t.zero with command_words := bit MODAL_GROUP_G1 },
        AXIS_COMMAND_MOTION_MODE⟩ ⟨'X', some 1⟩ =
      (STATUS_OK, ⟨{ parser_block_t.zero with
        command_words := bit MODAL_GROUP_G1
        value_words := bit WORD_X
        values := { gc_values_t.zero with xyz := ⟨1, 0, 0⟩ } }, AXIS_COMMAND_MOTION_MODE⟩) := by
    rw [gc_parse_word_value _ _ 'X' 1 WORD_X (by decide), gc_parse_value_X, if_neg (by decide)]
    rfl
  have h3 : gc_parse_word K ⟨{ parser_block_t.zero with
        command_words := bit MODAL_GROUP_G1
        value_words := bit WORD_X
        values := { gc_values_t.zero with xyz := ⟨1, 0, 0⟩ } }, AXIS_COMMAND_MOTION_MODE⟩
        ⟨'X', some 2⟩ =
      (STATUS_GCODE_WORD_REPEATED, ⟨block_G0_X2, AXIS_COMMAND_MOTION_MODE⟩) := by
    rw [gc_parse_word_value _ _ 'X' 2 WORD_X (by decide), gc_parse_value_X, if_pos (by decide)]
    rfl
  have h : gc_parse_words K ⟨parser_block_t.zero, AXIS_COMMAND_NONE⟩ line_G0_X1_X2 =
      (STATUS_GCODE_WORD_REPEATED, ⟨block_G0_X2, AXIS_COMMAND_MOTION_MODE⟩) := by
    change gc_parse_words K parse_init line_G0_X1_X2 = _
    unfold line_G0_X1_X2
    rw [gc_parse_words_cons, h1, if_pos rfl]
    simp only []
    rw [gc_parse_words_cons, h2, if_pos rfl]
    simp only []
    rw [gc_parse_words_cons, h3, if_neg (by decide)]
  unfold gc_parse_line
  rw [h]



theorem filter_char_no_overflow (s : line_state_t) (c : Nat) (hc : s.char_counter < 256)
    (hf : s.line_flags &&& LINE_FLAG_OVERFLOW = 0) :
    (filter_char s c).char_counter < 256 ∧
    (filter_char s c).line_flags &&& LINE_FLAG_OVERFLOW = 0 := by
  have hlt : ∀ n : Nat, n % 256 < 256 := fun n => Nat.mod_lt _ (by norm_num)
  have hge : ¬ (s.char_counter ≥ LINE_BUFFER_SIZE - 1) := by
    simp only [LINE_BUFFER_SIZE]
    omega
  by_cases h0 : s.line_flags = 0
  · unfold filter_char
    rw [if_neg (not_not.mpr h0), if_neg hge]
    split_ifs
    all_goals first
      | exact ⟨hc, hf⟩
      | exact ⟨hlt _, hf⟩
      | (refine ⟨hc, ?_⟩
         simp only [h0]
         decide)
  · unfold filter_char
    rw [if_pos h0]
    split_ifs
    · refine ⟨hc, ?_⟩
      show s.line_flags &&& (255 ^^^ LINE_FLAG_COMMENT_PARENTHESES) &&& LINE_FLAG_OVERFLOW = 0
      rw [Nat.land_assoc, Nat.land_comm (255 ^^^ LINE_FLAG_COMMENT_PARENTHESES), ← Nat.land_assoc,
        hf, Nat.zero_and]
    · exact ⟨hc, hf⟩
    · exact ⟨hc, hf⟩

theorem read_chars_no_overflow (cs : List Nat) (s : line_state_t) (hc : s.char_counter < 256)
    (hf : s.line_flags &&& LINE_FLAG_OVERFLOW = 0) :
    (read_chars s cs).char_counter < 256 ∧
    (read_chars s cs).line_flags &&& LINE_FLAG_OVERFLOW = 0 := by
  induction cs generalizing s with
  | nil => exact ⟨hc, hf⟩
  | cons c cs ih =>
    obtain ⟨h1, h2⟩ := filter_char_no_overflow s c hc hf
    exact ih (filter_char s c) h1 h2

theorem filter_char_stored (s : line_state_t) (c : Nat) (hc : s.char_counter < 256)
    (hf : s.line_flags = 0) (h : stored_char c) :
    (filter_char s c).line_flags = 0 ∧
    (filter_char s c).char_counter = (s.char_counter + 1) % 256 := by
  obtain ⟨h1, h2, h3, h4⟩ := h
  have hge : ¬ (s.char_counter ≥ LINE_BUFFER_SIZE - 1) := by
    simp only [LINE_BUFFER_SIZE]
    omega
  unfold filter_char
  rw [if_neg (not_not.mpr hf), if_neg (not_le.mpr h1), if_neg h2, if_neg h3, if_neg h4,
    if_neg hge]
  split_ifs <;> exact ⟨hf, rfl⟩

theorem read_chars_stored (cs : List Nat) (s : line_state_t) (hc : s.char_counter < 256)
    (hf : s.line_flags = 0) (h : ∀ c ∈ cs, stored_char c) :
    (read_chars s cs).line_flags = 0 ∧
    (read_chars s cs).char_counter = (s.char_counter + cs.length) % 256 := by
  induction cs generalizing s with
  | nil => exact ⟨hf, (Nat.mod_eq_of_lt hc).symm⟩
  | cons c cs ih =>
    obtain ⟨h1, h2⟩ := filter_char_stored s c hc hf (h c (List.mem_cons_self _ _))
    obtain ⟨h3, h4⟩ := ih (filter_char s c) (by rw [h2]; exact Nat.mod_lt _ (by norm_num)) h1
      (fun c' hc' => h c' (List.mem_cons_of_mem _ hc'))
    refine ⟨h3, ?_⟩
    show (read_chars (filter_char s c) cs).char_counter = _
    rw [h4, h2, List.length_cons]
    omega

theorem end_of_line_action (s : line_state_t) :
    (s.line_flags &&& LINE_FLAG_OVERFLOW = 0 → (end_of_line s).1 ≠ line_action_t.overflow) ∧
    (s.line_flags = 0 → s.char_counter = 0 → (end_of_line s).1 = line_action_t.empty) := by
  constructor
  · intro h
    simp only [end_of_line, h, ne_eq, not_true_eq_false, if_false]
    split_ifs <;> simp
  · intro h0 hc
    have hz : Function.update s.line s.char_counter 0 0 = 0 := by
      rw [hc]
      exact Function.update_same _ _ _
    simp [end_of_line, h0, hz, LINE_FLAG_OVERFLOW]

/-- C23: the line-buffer limit does not hold. `char_counter` is a `uint8_t`, so it stays
below 256 and the test `char_counter >= LINE_BUFFER_SIZE - 1` never succeeds: from the
start of any line, whatever characters follow, the end of the line does not report
`STATUS_OVERFLOW`. After 256 stored characters the counter is back at 0: the terminator
is written to `line[0]` and the line is treated as an empty line, neither parsed nor
reported. After `n` stored characters the counter is `n % 256`. -/
theorem line_buffer_limit_fails :
    (∀ (cs : List Nat) (s : line_state_t), s.char_counter < 256 →
      s.line_flags &&& LINE_FLAG_OVERFLOW = 0 →
      (end_of_line (read_chars s cs)).1 ≠ line_action_t.overflow) ∧
    (∀ (cs : List Nat) (line0 : Nat → Nat), (∀ c ∈ cs, stored_char c) →
      (read_chars ⟨line0, 0, 0⟩ cs).line_flags = 0 ∧
      (read_chars ⟨line0, 0, 0⟩ cs).char_counter = cs.length % 256) ∧
    (∀ (cs : List Nat) (line0 : Nat → Nat), cs.length = 256 → (∀ c ∈ cs, stored_char c) →
      (end_of_line (read_chars ⟨line0, 0, 0⟩ cs)).1 = line_action_t.empty) ∧
    (∀ line0 : Nat → Nat,
      (end_of_line (read_chars ⟨line0, 0, 0⟩ (List.replicate 2000 'X'.toNat))).1 ≠
        line_action_t.overflow ∧
      (end_of_line (read_chars ⟨line0, 0, 0⟩ (List.replicate 256 'X'.toNat))).1 =
        line_action_t.empty) := by
  have h2 : ∀ (cs : List Nat) (line0 : Nat → Nat), (∀ c ∈ cs, stored_char c) →
      (read_chars ⟨line0, 0, 0⟩ cs).line_flags = 0 ∧
      (read_chars ⟨line0, 0, 0⟩ cs).char_counter = cs.length % 256 := by
    intro cs line0 h
    have := read_chars_stored cs ⟨line0, 0, 0⟩ (by norm_num) rfl h
    simpa using this
  have h3 : ∀ (cs : List Nat) (line0 : Nat → Nat), cs.length = 256 →
      (∀ c ∈ cs, stored_char c) →
      (end_of_line (read_chars ⟨line0, 0, 0⟩ cs)).1 = line_action_t.empty := by
    intro cs line0 hl h
    obtain ⟨ha, hb⟩ := h2 cs line0 h
    rw [hl] at hb
    exact (end_of_line_action _).2 ha hb
  have h1 : ∀ (cs : List Nat) (s : line_state_t), s.char_counter < 256 →
      s.line_flags &&& LINE_FLAG_OVERFLOW = 0 →
      (end_of_line (read_chars s cs)).1 ≠ line_action_t.overflow := by
    intro cs s hc hf
    exact (end_of_line_action _).1 (read_chars_no_overflow cs s hc hf).2
  refine ⟨h1, h2, h3, fun line0 => ⟨h1 _ _ (by norm_num) (Nat.zero_and _),
    h3 _ _ (List.length_replicate _ _) ?_⟩⟩
  intro c hc
  rw [List.eq_of_mem_replicate hc]
  decide

theorem emit_blocks_ne_nil (P : Printf) (K : gcode_consts)
    (s : toabs_state_t × to_mm_state_t × cleanup_state_t) (bs : List parser_block_t)
    (h : bs ≠ []) : (emit_blocks P K s bs).2 ≠ [] := by
  cases bs with
  | nil => exact absurd rfl h
  | cons b bs => simp [emit_blocks]

theorem laser_blocks_ne_nil (SD : Nat) (o s : laser_state_t) (v0 : vec2) (b : parser_block_t) :
    laser_blocks SD o s v0 b ≠ [] := by
  obtain ⟨h1, h2, h3, h4⟩ := laser_blocks_cases SD o s v0 b
  cases hp : laser_extprev SD o s v0 <;> cases hn : laser_extnext SD o s v0
  · rw [h4 hp hn]; simp
  · rw [h3 hp hn]; simp
  · rw [h2 hp hn]; simp
  · rw [h1 hp hn]; simp

theorem mode_step_laser (L : Libm) (K : gcode_consts) (state : laser_state_t)
    (b : parser_block_t) :
    mode_step L K (mode_state_t.laser state) b =
      (lasermode L K.SPINDLE_DISABLE state b).map (fun r => (mode_state_t.laser r.1, r.2)) :=
  rfl

theorem mode_step_drag (L : Libm) (K : gcode_consts) (state : drag_state_t)
    (b : parser_block_t) :
    mode_step L K (mode_state_t.drag state) b =
      (dragmode L state b).map (fun r => (mode_state_t.drag r.1, r.2)) :=
  rfl

theorem mode_step_ne_nil (L : Libm) (K : gcode_consts) (m m' : mode_state_t)
    (b : parser_block_t) (out : List parser_block_t)
    (h : mode_step L K m b = some (m', out)) : out ≠ [] := by
  cases m with
  | laser state =>
    rw [mode_step_laser] at h
    cases hl : lasermode L K.SPINDLE_DISABLE state b with
    | none => rw [hl] at h; simp at h
    | some r =>
      rw [hl] at h
      simp only [Option.map_some', Option.some.injEq, Prod.mk.injEq] at h
      obtain ⟨_, _, _, _, _, _, ho⟩ := lasermode_some L K.SPINDLE_DISABLE state b r.1 r.2 hl
      rw [← h.2, ho]
      exact laser_blocks_ne_nil _ _ _ _ _
  | drag state =>
    rw [mode_step_drag] at h
    cases hl : dragmode L state b with
    | none => rw [hl] at h; simp at h
    | some r =>
      rw [hl] at h
      simp only [Option.map_some', Option.some.injEq, Prod.mk.injEq] at h
      obtain ⟨_, _, _, _, _, _, ho⟩ := dragmode_some L state b r.1 r.2 hl
      rw [← h.2, ho]
      split_ifs <;> simp

theorem mode_step_defined (L : Libm) (K : gcode_consts) (m : mode_state_t)
    (b : parser_block_t)
    (hR : bit_istrue b.value_words (bit WORD_R) = false)
    (hIJ : bit_istrue b.value_words (bit WORD_I ||| bit WORD_J) = false) :
    ∃ r, mode_step L K m b = some r := by
  cases m with
  | laser state =>
    obtain ⟨s', out, h⟩ := lasermode_defined L K.SPINDLE_DISABLE state b hR hIJ
    exact ⟨_, by rw [mode_step_laser, h]; rfl⟩
  | drag state =>
    obtain ⟨s', out, h⟩ := dragmode_defined L state b hR hIJ
    exact ⟨_, by rw [mode_step_drag, h]; rfl⟩

theorem execute_line_ne_nil (L : Libm) (P : Printf) (K : gcode_consts) (s s' : main_state_t)
    (line : List gc_word) (status : status_t) (out : List String)
    (h : execute_line L P K s line = some (status, s', out)) : out ≠ [] := by
  unfold execute_line at h
  simp only [] at h
  split at h
  · simp at h
  · rename_i r hr
    simp only [Option.some.injEq, Prod.mk.injEq] at h
    rw [← h.2.2]
    exact emit_blocks_ne_nil P K _ _ (mode_step_ne_nil L K _ r.1 _ r.2 hr)

theorem block_G0_X2_bits :
    bit_istrue block_G0_X2.command_words (bit MODAL_GROUP_G6) = false ∧
    bit_istrue block_G0_X2.command_words (bit MODAL_GROUP_G3) = false ∧
    bit_istrue block_G0_X2.value_words (bit (WORD_X + 0)) = true ∧
    bit_istrue block_G0_X2.value_words (bit (WORD_X + 1)) = false ∧
    bit_istrue block_G0_X2.value_words (bit (WORD_X + 2)) = false ∧
    bit_istrue block_G0_X2.value_words (bit WORD_R) = false ∧
    bit_istrue block_G0_X2.value_words (bit WORD_I ||| bit WORD_J) = false := by
  decide

theorem to_mm_G0_X2 : to_mm to_mm_init block_G0_X2 = (to_mm_init, block_G0_X2) := by
  have h := block_G0_X2_bits.1
  simp only [to_mm, to_mm_group, h]
  simp +decide [to_mm_init]

theorem toabs_G0_X2 :
    toabs toabs_init block_G0_X2 = (⟨⟨2, 0, 0⟩, DISTANCE_MODE_ABSOLUTE⟩, block_G0_X2) := by
  obtain ⟨-, h3, hx, hy, hz, -, -⟩ := block_G0_X2_bits
  simp only [toabs, toabs_group, h3]
  simp only [abs_axes, hx, hy, hz]
  have hx' : bit_istrue (bit WORD_X) (bit WORD_X) = true := by decide
  simp [toabs_axis, toabs_init, block_G0_X2, parser_block_t.zero, gc_values_t.zero, vec3.zero,
    DISTANCE_MODE_ABSOLUTE, hx']

/-- C22: a parse error does not discard the line. The line `G0 X1 X2` fails with
`STATUS_GCODE_WORD_REPEATED`; `main` reports the status and goes on with the block that
the parser left (G0 with X = 2): from the initial states, in either mode, the step
returns, prints at least one block and leaves X = 2 in the position of `toabs`, which was
0. In general the step prints at least one block for every line on which it returns,
whatever the status of the parser. -/
theorem parse_error_line_executed (L : Libm) (P : Printf) (K : gcode_consts)
    (m : mode_state_t) :
    (gc_parse_line K line_G0_X1_X2).1 = STATUS_GCODE_WORD_REPEATED ∧
    STATUS_GCODE_WORD_REPEATED ≠ STATUS_OK ∧
    (∃ s' out, execute_line L P K (main_init m) line_G0_X1_X2 =
        some (STATUS_GCODE_WORD_REPEATED, s', out) ∧
      out ≠ [] ∧ (main_init m).toabs_state.xyz = ⟨0, 0, 0⟩ ∧
      s'.toabs_state.xyz = ⟨2, 0, 0⟩) ∧
    (∀ (s s' : main_state_t) (line : List gc_word) (status : status_t) (out : List String),
      execute_line L P K s line = some (status, s', out) → out ≠ []) := by
  have hp := gc_parse_line_G0_X1_X2 K
  obtain ⟨r, hr⟩ := mode_step_defined L K m block_G0_X2 block_G0_X2_bits.2.2.2.2.2.1
    block_G0_X2_bits.2.2.2.2.2.2
  have he : execute_line L P K (main_init m) line_G0_X1_X2 =
      some (STATUS_GCODE_WORD_REPEATED,
        ⟨to_mm_init, ⟨⟨2, 0, 0⟩, DISTANCE_MODE_ABSOLUTE⟩, r.1,
          (emit_blocks P K (fromabs_init, from_mm_init, cleanup_init) r.2).1.1,
          (emit_blocks P K (fromabs_init, from_mm_init, cleanup_init) r.2).1.2.1,
          (emit_blocks P K (fromabs_init, from_mm_init, cleanup_init) r.2).1.2.2⟩,
        (emit_blocks P K (fromabs_init, from_mm_init, cleanup_init) r.2).2) := by
    unfold execute_line
    simp only [hp, main_init, to_mm_G0_X2, toabs_G0_X2, hr]
  refine ⟨by rw [hp], by decide, ⟨_, _, he, ?_, rfl, rfl⟩, ?_⟩
  · exact execute_line_ne_nil L P K _ _ _ _ _ he
  · intro s s' line status out h
    exact execute_line_ne_nil L P K s s' line status out h

/-! ## Tangents and the assertions of `normarcs` -/

/-- The two tangents that `calcv` returns for an arc (a block whose R slot is not zero). -/
theorem calcv_arc (L : Libm) (b : parser_block_t) (motion : Nat) (dx dy : ℚ) (v : vec2)
    (hr : b.values.r ≠ 0) :
    (calcv L b motion dx dy v).1 =
      (if motion = MOTION_MODE_CCW_ARC then
        ⟨-(-b.values.ijk.e1 / b.values.r), -(b.values.ijk.e0 / b.values.r)⟩
       else ⟨-b.values.ijk.e1 / b.values.r, b.values.ijk.e0 / b.values.r⟩) ∧
    (calcv L b motion dx dy v).2 =
      ⟨(dy - b.values.ijk.e1) / b.values.r, (-dx + b.values.ijk.e0) / b.values.r⟩ := by
  unfold calcv
  rw [if_pos hr]
  exact ⟨rfl, rfl⟩

/-- C33: the exit tangent of a counter-clockwise arc is reversed. For an arc with
consistent geometry (R not zero, R^2 = I^2 + J^2 = (dx - I)^2 + (dy - J)^2) both vectors
that `calcv` returns are unit vectors. The exit tangent `v1` does not depend on the
direction of the arc: `calcv` negates `v0` for a G3 arc but not `v1`. For a full circle
(dx = dy = 0) the exit tangent equals the entry tangent when the arc is clockwise and is
its opposite when the arc is counter-clockwise; for the full circle `G3 I5` the entry
tangent is (0, -1) and the exit tangent is (0, 1). -/
theorem calcv_ccw_exit_reversed (L : Libm) (b : parser_block_t) (dx dy : ℚ) (v : vec2) :
    (∀ motion : Nat, b.values.r ≠ 0 →
      b.values.r * b.values.r =
        b.values.ijk.e0 * b.values.ijk.e0 + b.values.ijk.e1 * b.values.ijk.e1 →
      b.values.r * b.values.r =
        (dx - b.values.ijk.e0) * (dx - b.values.ijk.e0) +
          (dy - b.values.ijk.e1) * (dy - b.values.ijk.e1) →
      (calcv L b motion dx dy v).1.e0 * (calcv L b motion dx dy v).1.e0 +
        (calcv L b motion dx dy v).1.e1 * (calcv L b motion dx dy v).1.e1 = 1 ∧
      (calcv L b motion dx dy v).2.e0 * (calcv L b motion dx dy v).2.e0 +
        (calcv L b motion dx dy v).2.e1 * (calcv L b motion dx dy v).2.e1 = 1) ∧
    (b.values.r ≠ 0 →
      (calcv L b MOTION_MODE_CCW_ARC dx dy v).2 = (calcv L b MOTION_MODE_CW_ARC dx dy v).2) ∧
    (b.values.r ≠ 0 →
      (calcv L b MOTION_MODE_CW_ARC 0 0 v).2 = (calcv L b MOTION_MODE_CW_ARC 0 0 v).1) ∧
    (b.values.r ≠ 0 →
      (calcv L b MOTION_MODE_CCW_ARC 0 0 v).2 =
        ⟨-(calcv L b MOTION_MODE_CCW_ARC 0 0 v).1.e0,
         -(calcv L b MOTION_MODE_CCW_ARC 0 0 v).1.e1⟩) ∧
    calcv L block_circle_I5 MOTION_MODE_CCW_ARC 0 0 v = (⟨0, -1⟩, ⟨0, 1⟩) ∧
    (calcv L block_circle_I5 MOTION_MODE_CCW_ARC 0 0 v).2 ≠
      (calcv L block_circle_I5 MOTION_MODE_CCW_ARC 0 0 v).1 := by
  have hI5 : calcv L block_circle_I5 MOTION_MODE_CCW_ARC 0 0 v = (⟨0, -1⟩, ⟨0, 1⟩) := by
    have hr : block_circle_I5.values.r ≠ 0 := by
      simp [block_circle_I5]
    obtain ⟨h0, h1⟩ := calcv_arc L block_circle_I5 MOTION_MODE_CCW_ARC 0 0 v hr
    refine Prod.ext ?_ ?_
    · rw [h0, if_pos rfl]
      simp [block_circle_I5, gc_values_t.zero]
    · rw [h1]
      simp [block_circle_I5, gc_values_t.zero]
  refine ⟨?_, ?_, ?_, ?_, hI5, ?_⟩
  · intro motion hr h1 h2
    obtain ⟨e0, e1⟩ := calcv_arc L b motion dx dy v hr
    rw [e0, e1]
    constructor
    · split_ifs
      · simp only []
        field_simp
        linear_combination -h1
      · simp only []
        field_simp
        linear_combination -h1
    · simp only []
      field_simp
      linear_combination -h2
  · intro hr
    rw [(calcv_arc L b _ dx dy v hr).2, (calcv_arc L b _ dx dy v hr).2]
  · intro hr
    rw [(calcv_arc L b _ 0 0 v hr).2, (calcv_arc L b _ 0 0 v hr).1,
      if_neg (by decide)]
    simp
  · intro hr
    rw [(calcv_arc L b _ 0 0 v hr).2, (calcv_arc L b _ 0 0 v hr).1, if_pos rfl]
    simp
  · rw [hI5]
    intro h
    have := congrArg vec2.e1 h
    norm_num at this

/-! ## Moves of length zero in drag mode -/

/-- The tangents of `calcv` for a straight move of length zero: the entry tangent is the
zero vector and the exit tangent is left as it was. -/
theorem calcv_zero_move (L : Libm) (b : parser_block_t) (motion : Nat) (v : vec2)
    (hr : b.values.r = 0) : calcv L b motion 0 0 v = (⟨0, 0⟩, v) := by
  unfold calcv
  rw [if_neg (not_not.mpr hr)]
  simp

/-- C31: a move of length zero in the material inserts a pivot arc. For every block
without R, I and J words and with a zero R slot that leaves the blade tip where it is in
XY (dx = dy = 0), with the blade in the material before and after the block (Z < 0) and
a positive threshold `cosminangle`: `dragmode` returns 2 blocks. `calcv` leaves the zero
vector as entry tangent, whose dot product with the blade direction, 0, is below the
threshold. The first block is a counter-clockwise arc of radius `d` whose target is the
position of the blade tip; the blade direction of the state is unchanged. -/
theorem drag_zero_move_pivots (L : Libm) (state : drag_state_t) (b : parser_block_t)
    (hR : bit_istrue b.value_words (bit WORD_R) = false)
    (hIJ : bit_istrue b.value_words (bit WORD_I ||| bit WORD_J) = false)
    (hr : b.values.r = 0)
    (hx : (drag_update state b).2.1.xyz.e0 = state.values.xyz.e0)
    (hy : (drag_update state b).2.1.xyz.e1 = state.values.xyz.e1)
    (hz0 : state.values.xyz.e2 < 0) (hz1 : (drag_update state b).2.1.xyz.e2 < 0)
    (hc : 0 < state.cosminangle) :
    ∃ s' pivot move, dragmode L state b = some (s', [pivot, move]) ∧
      s'.v = state.v ∧
      pivot.modal.motion = MOTION_MODE_CCW_ARC ∧
      pivot.command_words = bit MODAL_GROUP_G1 ∧
      pivot.value_words = bit WORD_R ||| bit WORD_X ||| bit WORD_Y ∧
      pivot.values.r = state.d ∧
      pivot.values.xyz.e0 = state.values.xyz.e0 ∧
      pivot.values.xyz.e1 = state.values.xyz.e1 := by
  obtain ⟨h1, h2⟩ := update_state_no_arc_words state.modal state.values
    { b with command_words := bit_false b.command_words (bit MODAL_GROUP_M7) } hR hIJ
  have hn : normarcs L (drag_update state b).2.2 (drag_update state b).1.motion
      ((drag_update state b).2.1.xyz.e0 - state.values.xyz.e0)
      ((drag_update state b).2.1.xyz.e1 - state.values.xyz.e1) =
      some (drag_update state b).2.2 := normarcs_no_arc_words L _ _ _ _ h1 h2
  have hbr : (drag_update state b).2.2.values.r = 0 := hr
  have hcv : calcv L (drag_update state b).2.2 (drag_update state b).1.motion
      ((drag_update state b).2.1.xyz.e0 - state.values.xyz.e0)
      ((drag_update state b).2.1.xyz.e1 - state.values.xyz.e1) state.v = (⟨0, 0⟩, state.v) := by
    rw [hx, hy, sub_self, sub_self]
    exact calcv_zero_move L _ _ _ hbr
  have hd := dragmode_eq L state b _ _ _ hn hcv
  rw [if_pos ⟨by simpa using hc, hz1, hz0⟩] at hd
  refine ⟨_, _, _, hd, ?_, ?_, rfl, rfl, rfl, ?_, ?_⟩
  · simp [drag_new_state]
  · simp [drag_pivot, MOTION_MODE_CCW_ARC]
  · simp [drag_pivot]
  · simp [drag_pivot]

theorem drag_update_Z_down (c : ℚ) :
    (drag_update (drag_S4_state_1 c) block_Z_down).2.1.xyz = ⟨10, 0, -2⟩ := by
  unfold drag_update
  rw [update_state_values, update_state_modal]
  simp +decide [update_axis_shadow, bit_false, block_Z_down, drag_S4_state_1,
    parser_block_t.zero, gc_modal_t.zero, gc_values_t.zero,
    vec3.zero, bit_eq_two_pow, Nat.testBit_or, Nat.testBit_two_pow, testBit_bit_false,
    MODAL_GROUP_G1, MODAL_GROUP_G2, MODAL_GROUP_G3,
    MODAL_GROUP_G5, MODAL_GROUP_G6, MODAL_GROUP_G8, MODAL_GROUP_G12, MODAL_GROUP_M4,
    MODAL_GROUP_M7, MODAL_GROUP_M8, WORD_F, WORD_I, WORD_J, WORD_K, WORD_L, WORD_N,
    WORD_P, WORD_R, WORD_S, WORD_T, WORD_X, WORD_Y, WORD_Z, MOTION_MODE_LINEAR,
    DISTANCE_MODE_ABSOLUTE, -Nat.testBit_zero]

/-- Witness of C31: with the blade tip at (10, 0, -1), the blade along +X, the offset 1
and the threshold 0.999, the line `Z-2` makes `dragmode` return 2 blocks, the first a G3
arc of radius 1 to (10, 0). -/
theorem drag_zero_move_pivots_witness :
    ∃ s' pivot move,
      dragmode libmQ (drag_S4_state_1 (999 / 1000)) block_Z_down = some (s', [pivot, move]) ∧
      s'.v = ⟨1, 0⟩ ∧
      pivot.modal.motion = MOTION_MODE_CCW_ARC ∧
      pivot.command_words = bit MODAL_GROUP_G1 ∧
      pivot.value_words = bit WORD_R ||| bit WORD_X ||| bit WORD_Y ∧
      pivot.values.r = 1 ∧ pivot.values.xyz.e0 = 10 ∧ pivot.values.xyz.e1 = 0 := by
  have hu := drag_update_Z_down (999 / 1000)
  have hz0 : (drag_S4_state_1 (999 / 1000)).values.xyz.e2 < 0 := by
    norm_num [drag_S4_state_1]
  have hc : 0 < (drag_S4_state_1 (999 / 1000)).cosminangle := by
    norm_num [drag_S4_state_1]
  exact drag_zero_move_pivots libmQ (drag_S4_state_1 (999 / 1000)) block_Z_down
    (by decide) (by decide) rfl (by rw [hu]; rfl) (by rw [hu]; rfl) hz0
    (by rw [hu]; norm_num) hc

/-! ## Output modality -/

/-- A block is normalised when a distance command in it is G90 and a units command in it
is G21, as `toabs` and `to_mm` leave it. `update_state` with an absolute, millimetre
shadow keeps the shadow so and removes both commands. -/
theorem update_state_modality (m : gc_modal_t) (v : gc_values_t) (b : parser_block_t)
    (hd : m.distance = DISTANCE_MODE_ABSOLUTE) (hu : m.units = UNITS_MODE_MM)
    (h3 : b.command_words.testBit MODAL_GROUP_G3 = true →
      b.modal.distance = DISTANCE_MODE_ABSOLUTE)
    (h6 : b.command_words.testBit MODAL_GROUP_G6 = true → b.modal.units = UNITS_MODE_MM) :
    (update_state m v b).1.distance = DISTANCE_MODE_ABSOLUTE ∧
    (update_state m v b).1.units = UNITS_MODE_MM ∧
    (update_state m v b).2.2.command_words.testBit MODAL_GROUP_G3 = false ∧
    (update_state m v b).2.2.command_words.testBit MODAL_GROUP_G6 = false := by
  obtain ⟨-, -, c3, -, c6, -⟩ := update_state_command_bits m v b
  rw [c3, c6, update_state_modal]
  refine ⟨?_, ?_, ?_, ?_⟩
  · show (if _ then _ else _) = _
    split_ifs with h
    · exact h3 h.1
    · exact hd
  · show (if _ then _ else _) = _
    split_ifs with h
    · exact h6 h.1
    · exact hu
  · cases hb : b.command_words.testBit MODAL_GROUP_G3
    · rfl
    · simp [h3 hb, hd]
  · cases hb : b.command_words.testBit MODAL_GROUP_G6
    · rfl
    · simp [h6 hb, hu]

/-- The blocks that `lasermode` returns carry the commands of the block that `normarcs`
left, or the motion command alone. -/
theorem laser_blocks_commands (SD : Nat) (o s : laser_state_t) (v0 : vec2)
    (nb : parser_block_t) (j : Nat) (hj : j ≠ MODAL_GROUP_G1)
    (hnb : nb.command_words.testBit j = false) :
    ∀ blk ∈ laser_blocks SD o s v0 nb, blk.command_words.testBit j = false := by
  have hlead : ∀ (x : parser_block_t) (p : vec2),
      (lead_block x p).command_words.testBit j = false := by
    intro x p
    rw [(lead_block_is_lead x p).2.1, ← bit_istrue_bit, bit_istrue_bit, bit_eq_two_pow,
      Nat.testBit_two_pow]
    exact decide_eq_false (fun e => hj e.symm)
  have hlast : (laser_last s nb).command_words.testBit j = false := by
    rw [(laser_last_facts s nb).2.2.2.2.2 j hj, hnb]
  obtain ⟨c1, c2, c3, c4⟩ := laser_blocks_cases SD o s v0 nb
  intro blk hmem
  cases hp : laser_extprev SD o s v0 <;> cases hx : laser_extnext SD o s v0
  · rw [c4 hp hx] at hmem
    rw [List.mem_singleton.mp hmem]
    exact hnb
  · rw [c3 hp hx] at hmem
    simp only [List.mem_cons, List.mem_singleton, List.not_mem_nil, or_false] at hmem
    rcases hmem with e | e | e <;> rw [e]
    · exact hlead _ _
    · exact hlead _ _
    · exact hlast
  · rw [c2 hp hx] at hmem
    simp only [List.mem_cons, List.mem_singleton, List.not_mem_nil, or_false] at hmem
    rcases hmem with e | e | e <;> rw [e]
    · exact hlead _ _
    · exact hlead _ _
    · exact hlast
  · rw [c1 hp hx] at hmem
    simp only [List.mem_cons, List.mem_singleton, List.not_mem_nil, or_false] at hmem
    rcases hmem with e | e | e | e <;> rw [e]
    · exact hlead _ _
    · exact hlead _ _
    · exact hlead _ _
    · exact hlast

/-- The blocks that `dragmode` returns carry the commands of the block that `normarcs`
left, with or without the motion command, or the motion command alone. -/
theorem drag_blocks_commands (L : Libm) (state s' : drag_state_t) (b : parser_block_t)
    (out : List parser_block_t) (h : dragmode L state b = some (s', out)) (j : Nat)
    (hj : j ≠ MODAL_GROUP_G1)
    (hu : (drag_update state b).2.2.command_words.testBit j = false) :
    ∀ blk ∈ out, blk.command_words.testBit j = false := by
  obtain ⟨nb, v0, v1, hn, -, -, ho⟩ := dragmode_some L state b s' out h
  obtain ⟨-, n2, -⟩ := normarcs_frame L _ nb _ _ _ hn
  have hblock : (drag_block L state s' nb).command_words.testBit j = false := by
    rw [(drag_block_frame L state s' nb).1, n2]
    exact hu
  have hmoved : (drag_moved s' (drag_block L state s' nb)).command_words.testBit j = false := by
    simp only [drag_moved]
    rw [testBit_bit_true, hblock]
    simpa using fun e : MODAL_GROUP_G1 = j => hj e.symm
  have hpivot : (drag_pivot state s' v0 (drag_block L state s' nb)).command_words.testBit j =
      false := by
    show (bit MODAL_GROUP_G1).testBit j = false
    rw [bit_eq_two_pow, Nat.testBit_two_pow]
    exact decide_eq_false (fun e => hj e.symm)
  intro blk hmem
  rw [ho] at hmem
  split_ifs at hmem
  · simp only [List.mem_cons, List.mem_singleton, List.not_mem_nil, or_false] at hmem
    rcases hmem with e | e <;> rw [e]
    · exact hpivot
    · exact hmoved
  · rw [List.mem_singleton.mp hmem]
    exact hblock

/-- The transformer of the mode on a normalised block: the shadow stays absolute and in
millimetres, and no block returned carries a distance or a units command. -/
theorem mode_step_modality (L : Libm) (K : gcode_consts) (m m' : mode_state_t)
    (b : parser_block_t) (out : List parser_block_t)
    (hd : (mode_modal m).distance = DISTANCE_MODE_ABSOLUTE)
    (hu : (mode_modal m).units = UNITS_MODE_MM)
    (h3 : b.command_words.testBit MODAL_GROUP_G3 = true →
      b.modal.distance = DISTANCE_MODE_ABSOLUTE)
    (h6 : b.command_words.testBit MODAL_GROUP_G6 = true → b.modal.units = UNITS_MODE_MM)
    (h : mode_step L K m b = some (m', out)) :
    (mode_modal m').distance = DISTANCE_MODE_ABSOLUTE ∧
    (mode_modal m').units = UNITS_MODE_MM ∧
    ∀ blk ∈ out, blk.command_words.testBit MODAL_GROUP_G3 = false ∧
      blk.command_words.testBit MODAL_GROUP_G6 = false := by
  cases m with
  | laser state =>
    rw [mode_step_laser] at h
    cases hl : lasermode L K.SPINDLE_DISABLE state b with
    | none => rw [hl] at h; simp at h
    | some r =>
      rw [hl] at h
      simp only [Option.map_some', Option.some.injEq, Prod.mk.injEq] at h
      obtain ⟨hm', hout⟩ := h
      obtain ⟨nb, v0, v1, hn, -, hs, ho⟩ :=
        lasermode_some L K.SPINDLE_DISABLE state b r.1 r.2 hl
      obtain ⟨u1, u2, u3, u4⟩ := update_state_modality state.modal state.values b hd hu h3 h6
      obtain ⟨-, n2, -⟩ := normarcs_frame L _ nb _ _ _ hn
      rw [← hm', ← hout]
      refine ⟨?_, ?_, ?_⟩
      · show r.1.modal.distance = _
        rw [hs]
        exact u1
      · show r.1.modal.units = _
        rw [hs]
        exact u2
      · intro blk hmem
        rw [ho] at hmem
        exact ⟨laser_blocks_commands _ _ _ _ nb _ (by decide) (by rw [n2]; exact u3) blk hmem,
          laser_blocks_commands _ _ _ _ nb _ (by decide) (by rw [n2]; exact u4) blk hmem⟩
  | drag state =>
    rw [mode_step_drag] at h
    cases hl : dragmode L state b with
    | none => rw [hl] at h; simp at h
    | some r =>
      rw [hl] at h
      simp only [Option.map_some', Option.some.injEq, Prod.mk.injEq] at h
      obtain ⟨hm', hout⟩ := h
      obtain ⟨nb, v0, v1, hn, -, hs, ho⟩ := dragmode_some L state b r.1 r.2 hl
      have e3 : (bit_false b.command_words (bit MODAL_GROUP_M7)).testBit MODAL_GROUP_G3 =
          b.command_words.testBit MODAL_GROUP_G3 := by
        rw [testBit_bit_false _ _ _ (by decide)]
        simp +decide
      have e6 : (bit_false b.command_words (bit MODAL_GROUP_M7)).testBit MODAL_GROUP_G6 =
          b.command_words.testBit MODAL_GROUP_G6 := by
        rw [testBit_bit_false _ _ _ (by decide)]
        simp +decide
      obtain ⟨u1, u2, u3, u4⟩ := update_state_modality state.modal state.values
        { b with command_words := bit_false b.command_words (bit MODAL_GROUP_M7) } hd hu
        (fun hb => h3 (by rw [← e3]; exact hb)) (fun hb => h6 (by rw [← e6]; exact hb))
      rw [← hm', ← hout]
      refine ⟨?_, ?_, ?_⟩
      · show r.1.modal.distance = _
        rw [hs]
        exact u1
      · show r.1.modal.units = _
        rw [hs]
        exact u2
      · intro blk hmem
        exact ⟨drag_blocks_commands L state r.1 b r.2 hl _ (by decide) u3 blk hmem,
          drag_blocks_commands L state r.1 b r.2 hl _ (by decide) u4 blk hmem⟩

theorem toabs_units_frame (s : toabs_state_t) (b : parser_block_t) :
    (toabs s b).2.command_words.testBit MODAL_GROUP_G6 =
      b.command_words.testBit MODAL_GROUP_G6 ∧
    (toabs s b).2.modal.units = b.modal.units := by
  simp only [toabs, abs_axes]
  unfold toabs_group
  split_ifs
  · refine ⟨?_, rfl⟩
    show (bit_false b.command_words (bit MODAL_GROUP_G3)).testBit MODAL_GROUP_G6 = _
    rw [testBit_bit_false _ _ _ (by decide)]
    simp +decide
  · exact ⟨rfl, rfl⟩
  · exact ⟨rfl, rfl⟩

/-- After `to_mm` and `toabs` a block is normalised: a distance command in it is G90 and
a units command in it is G21. -/
theorem front_normalised (sm : to_mm_state_t) (sa : toabs_state_t) (b : parser_block_t) :
    ((toabs sa (to_mm sm b).2).2.command_words.testBit MODAL_GROUP_G3 = true →
      (toabs sa (to_mm sm b).2).2.modal.distance = DISTANCE_MODE_ABSOLUTE) ∧
    ((toabs sa (to_mm sm b).2).2.command_words.testBit MODAL_GROUP_G6 = true →
      (toabs sa (to_mm sm b).2).2.modal.units = UNITS_MODE_MM) := by
  obtain ⟨-, -, -, -, -, -, h3, -⟩ := toabs_facts sa (to_mm sm b).2
  obtain ⟨f1, f2⟩ := toabs_units_frame sa (to_mm sm b).2
  obtain ⟨-, -, h6⟩ := to_mm_block sm b
  refine ⟨fun h => h3 (by rw [bit_istrue_bit]; exact h), fun h => ?_⟩
  rw [f2]
  rw [f1] at h
  exact h6 (by rw [bit_istrue_bit]; exact h)

theorem transform_line_modality (L : Libm) (K : gcode_consts)
    (s s' : to_mm_state_t × toabs_state_t × mode_state_t) (b : parser_block_t)
    (out : List parser_block_t)
    (hd : (mode_modal s.2.2).distance = DISTANCE_MODE_ABSOLUTE)
    (hu : (mode_modal s.2.2).units = UNITS_MODE_MM)
    (h : transform_line L K s b = some (s', out)) :
    (mode_modal s'.2.2).distance = DISTANCE_MODE_ABSOLUTE ∧
    (mode_modal s'.2.2).units = UNITS_MODE_MM ∧
    ∀ blk ∈ out, blk.command_words.testBit MODAL_GROUP_G3 = false ∧
      blk.command_words.testBit MODAL_GROUP_G6 = false := by
  unfold transform_line at h
  cases hm : mode_step L K s.2.2 (toabs s.2.1 (to_mm s.1 b).2).2 with
  | none => rw [hm] at h; simp at h
  | some r =>
    rw [hm] at h
    simp only [Option.map_some', Option.some.injEq, Prod.mk.injEq] at h
    obtain ⟨hs', hout⟩ := h
    obtain ⟨n3, n6⟩ := front_normalised s.1 s.2.1 b
    have := mode_step_modality L K s.2.2 r.1 _ r.2 hd hu n3 n6 hm
    rw [← hs', ← hout]
    exact this

theorem transform_stream_modality (L : Libm) (K : gcode_consts) (bs : List parser_block_t)
    (s s' : to_mm_state_t × toabs_state_t × mode_state_t) (out : List parser_block_t)
    (hd : (mode_modal s.2.2).distance = DISTANCE_MODE_ABSOLUTE)
    (hu : (mode_modal s.2.2).units = UNITS_MODE_MM)
    (h : transform_stream L K s bs = some (s', out)) :
    (mode_modal s'.2.2).distance = DISTANCE_MODE_ABSOLUTE ∧
    (mode_modal s'.2.2).units = UNITS_MODE_MM ∧
    ∀ blk ∈ out, blk.command_words.testBit MODAL_GROUP_G3 = false ∧
      blk.command_words.testBit MODAL_GROUP_G6 = false := by
  induction bs generalizing s s' out with
  | nil =>
    simp only [transform_stream, Option.some.injEq, Prod.mk.injEq] at h
    rw [← h.1, ← h.2]
    exact ⟨hd, hu, fun blk hmem => absurd hmem (List.not_mem_nil _)⟩
  | cons b bs ih =>
    simp only [transform_stream] at h
    cases h1 : transform_line L K s b with
    | none => rw [h1] at h; simp at h
    | some r =>
      rw [h1] at h
      simp only [] at h
      cases h2 : transform_stream L K r.1 bs with
      | none => rw [h2] at h; simp at h
      | some r' =>
        rw [h2] at h
        simp only [Option.some.injEq, Prod.mk.injEq] at h
        obtain ⟨a1, a2, a3⟩ := transform_line_modality L K s r.1 b r.2 hd hu h1
        obtain ⟨b1, b2, b3⟩ := ih r.1 r'.1 r'.2 a1 a2 h2
        rw [← h.1, ← h.2]
        refine ⟨b1, b2, ?_⟩
        intro blk hmem
        rcases List.mem_append.mp hmem with hm | hm
        · exact a3 blk hm
        · exact b3 blk hm

/-- The first call of `fromabs` on a block without a distance command adds G90; a later
call, in absolute mode, leaves the block as it is. -/
theorem fromabs_no_distance (s : toabs_state_t) (b : parser_block_t)
    (h3 : b.command_words.testBit MODAL_GROUP_G3 = false) :
    (s.distance = 255 →
      (fromabs s b).1.distance = DISTANCE_MODE_ABSOLUTE ∧
      (fromabs s b).2 = { b with
        command_words := bit_true b.command_words (bit MODAL_GROUP_G3)
        modal := { b.modal with distance := DISTANCE_MODE_ABSOLUTE } }) ∧
    (s.distance = DISTANCE_MODE_ABSOLUTE →
      (fromabs s b).1.distance = DISTANCE_MODE_ABSOLUTE ∧ (fromabs s b).2 = b) := by
  have hb : bit_istrue b.command_words (bit MODAL_GROUP_G3) = false := by
    rw [bit_istrue_bit, h3]
  have hax : ∀ (p : Bool) (x y : ℚ), (fromabs_axis DISTANCE_MODE_ABSOLUTE p x y).2 = y := by
    intro p x y
    unfold fromabs_axis
    cases p <;> simp
  constructor
  · intro hs
    have hg : fromabs_group s b = ({ s with distance := DISTANCE_MODE_ABSOLUTE },
        { b with
          command_words := bit_true b.command_words (bit MODAL_GROUP_G3)
          modal := { b.modal with distance := DISTANCE_MODE_ABSOLUTE } }) := by
      unfold fromabs_group
      rw [if_pos hs, hb]
      simp
    simp only [fromabs, hg, abs_axes, hax]
    exact ⟨trivial, trivial⟩
  · intro hs
    have hne : ¬ s.distance = 255 := by
      rw [hs]
      decide
    have hg : fromabs_group s b = (s, b) := by
      unfold fromabs_group
      rw [if_neg hne, hb]
      simp
    simp only [fromabs, hg, abs_axes, hs, hax]
    exact ⟨trivial, trivial⟩

/-- The first call of `from_mm` on a block without a units command adds G21; a later
call, in millimetres, leaves the block as it is. -/
theorem from_mm_no_units (s : to_mm_state_t) (b : parser_block_t)
    (h6 : b.command_words.testBit MODAL_GROUP_G6 = false) :
    (s.units = 255 →
      (from_mm s b).1.units = UNITS_MODE_MM ∧
      (from_mm s b).2 = { b with
        command_words := bit_true b.command_words (bit MODAL_GROUP_G6)
        modal := { b.modal with units := UNITS_MODE_MM } }) ∧
    (s.units = UNITS_MODE_MM → (from_mm s b).1.units = UNITS_MODE_MM ∧ (from_mm s b).2 = b) := by
  have hb : bit_istrue b.command_words (bit MODAL_GROUP_G6) = false := by
    rw [bit_istrue_bit, h6]
  constructor
  · intro hs
    have hg : from_mm_group s b = (({ units := UNITS_MODE_MM } : to_mm_state_t),
        { b with
          command_words := bit_true b.command_words (bit MODAL_GROUP_G6)
          modal := { b.modal with units := UNITS_MODE_MM } }) := by
      unfold from_mm_group
      rw [if_pos hs, hb]
      simp
    simp only [from_mm, hg]
    rw [if_neg (by decide)]
    exact ⟨rfl, rfl⟩
  · intro hs
    have hne : ¬ s.units = 255 := by
      rw [hs]
      decide
    have hg : from_mm_group s b = (s, b) := by
      unfold from_mm_group
      rw [if_neg hne, hb]
      simp
    simp only [from_mm, hg]
    rw [if_neg (by rw [hs]; decide)]
    exact ⟨hs, rfl⟩

/-- In absolute mode and in millimetres, `fromabs` and `from_mm` leave a stream of blocks
without distance and units commands as it is, and stay in that mode. -/
theorem output_stream_later (bs : List parser_block_t) (s : toabs_state_t × to_mm_state_t)
    (hd : s.1.distance = DISTANCE_MODE_ABSOLUTE) (hu : s.2.units = UNITS_MODE_MM)
    (h : ∀ blk ∈ bs, blk.command_words.testBit MODAL_GROUP_G3 = false ∧
      blk.command_words.testBit MODAL_GROUP_G6 = false) :
    (run_stream (chain fromabs from_mm) s bs).2 = bs ∧
    (run_stream (chain fromabs from_mm) s bs).1.1.distance = DISTANCE_MODE_ABSOLUTE ∧
    (run_stream (chain fromabs from_mm) s bs).1.2.units = UNITS_MODE_MM := by
  induction bs generalizing s with
  | nil => exact ⟨rfl, hd, hu⟩
  | cons b bs ih =>
    obtain ⟨h3, h6⟩ := h b (List.mem_cons_self _ _)
    obtain ⟨a1, a2⟩ := (fromabs_no_distance s.1 b h3).2 hd
    obtain ⟨b1, b2⟩ := (from_mm_no_units s.2 b h6).2 hu
    have hc2 : (chain fromabs from_mm s b).2 = b := by
      show (from_mm s.2 (fromabs s.1 b).2).2 = b
      rw [a2, b2]
    have hc1 : (chain fromabs from_mm s b).1.1.distance = DISTANCE_MODE_ABSOLUTE := a1
    have hc3 : (chain fromabs from_mm s b).1.2.units = UNITS_MODE_MM := by
      show (from_mm s.2 (fromabs s.1 b).2).1.units = _
      rw [a2]
      exact b1
    obtain ⟨i1, i2, i3⟩ := ih (chain fromabs from_mm s b).1 hc1 hc3
      (fun blk hmem => h blk (List.mem_cons_of_mem _ hmem))
    rw [run_stream_cons]
    exact ⟨by rw [hc2, i1], i2, i3⟩

/-- From their initial states, `fromabs` and `from_mm` add G90 and G21 to the first block
of a stream of blocks without distance and units commands and leave every later block as
it is. -/
theorem output_stream_first (b : parser_block_t) (bs : List parser_block_t)
    (h : ∀ blk ∈ b :: bs, blk.command_words.testBit MODAL_GROUP_G3 = false ∧
      blk.command_words.testBit MODAL_GROUP_G6 = false) :
    (run_stream (chain fromabs from_mm) (fromabs_init, from_mm_init) (b :: bs)).2 =
      with_G90_G21 b :: bs ∧
    (run_stream (chain fromabs from_mm) (fromabs_init, from_mm_init)
      (b :: bs)).1.1.distance = DISTANCE_MODE_ABSOLUTE ∧
    (run_stream (chain fromabs from_mm) (fromabs_init, from_mm_init)
      (b :: bs)).1.2.units = UNITS_MODE_MM := by
  obtain ⟨h3, h6⟩ := h b (List.mem_cons_self _ _)
  obtain ⟨a1, a2⟩ := (fromabs_no_distance fromabs_init b h3).1 rfl
  have h6' : (fromabs fromabs_init b).2.command_words.testBit MODAL_GROUP_G6 = false := by
    rw [a2]
    show (bit_true b.command_words (bit MODAL_GROUP_G3)).testBit MODAL_GROUP_G6 = false
    rw [testBit_bit_true, h6]
    decide
  obtain ⟨b1, b2⟩ := (from_mm_no_units from_mm_init (fromabs fromabs_init b).2 h6').1 rfl
  have hc2 : (chain fromabs from_mm (fromabs_init, from_mm_init) b).2 = with_G90_G21 b := by
    show (from_mm from_mm_init (fromabs fromabs_init b).2).2 = _
    rw [b2, a2]
    rfl
  obtain ⟨i1, i2, i3⟩ := output_stream_later bs
    (chain fromabs from_mm (fromabs_init, from_mm_init) b).1 a1 b1
    (fun blk hmem => h blk (List.mem_cons_of_mem _ hmem))
  rw [run_stream_cons]
  exact ⟨by rw [hc2, i1], i2, i3⟩

theorem to_mm_value_words (s : to_mm_state_t) (b : parser_block_t) :
    (to_mm s b).2.value_words = b.value_words := by
  simp only [to_mm]
  unfold to_mm_group
  split_ifs <;> rfl

/-- C35: output modality in laser and drag mode. For every stream of blocks run through
`to_mm`, `toabs` and the transformer of the mode, the latter started with an absolute,
millimetre shadow (as `lasermode_init` and `dragmode_init` leave it) and `to_mm`, `toabs`
in any state: whenever the run returns, the shadow of the transformer is still absolute
and in millimetres and no block returned carries a distance or a units command. Run over
the returned blocks from their initial states, `fromabs` and `from_mm` add G90 and G21 to
the first block and change nothing else: every later block, and every value of the first
block, is as the transformer returned it, and both end in absolute mode and in
millimetres. -/
theorem output_modality (L : Libm) (K : gcode_consts)
    (s s' : to_mm_state_t × toabs_state_t × mode_state_t) (bs out : List parser_block_t)
    (hd : (mode_modal s.2.2).distance = DISTANCE_MODE_ABSOLUTE)
    (hu : (mode_modal s.2.2).units = UNITS_MODE_MM)
    (h : transform_stream L K s bs = some (s', out)) :
    (mode_modal s'.2.2).distance = DISTANCE_MODE_ABSOLUTE ∧
    (mode_modal s'.2.2).units = UNITS_MODE_MM ∧
    (∀ blk ∈ out, bit_istrue blk.command_words (bit MODAL_GROUP_G3) = false ∧
      bit_istrue blk.command_words (bit MODAL_GROUP_G6) = false) ∧
    (∀ b rest, out = b :: rest →
      (run_stream (chain fromabs from_mm) (fromabs_init, from_mm_init) out).2 =
        with_G90_G21 b :: rest ∧
      (with_G90_G21 b).values = b.values ∧
      (with_G90_G21 b).value_words = b.value_words ∧
      bit_istrue (with_G90_G21 b).command_words (bit MODAL_GROUP_G3) = true ∧
      bit_istrue (with_G90_G21 b).command_words (bit MODAL_GROUP_G6) = true ∧
      (run_stream (chain fromabs from_mm) (fromabs_init, from_mm_init)
        out).1.1.distance = DISTANCE_MODE_ABSOLUTE ∧
      (run_stream (chain fromabs from_mm) (fromabs_init, from_mm_init)
        out).1.2.units = UNITS_MODE_MM) ∧
    (∀ (st : laser_state_t) (a max_angle_deg : ℚ),
      (mode_modal (mode_state_t.laser (lasermode_init L st a max_angle_deg))).distance =
        DISTANCE_MODE_ABSOLUTE ∧
      (mode_modal (mode_state_t.laser (lasermode_init L st a max_angle_deg))).units =
        UNITS_MODE_MM) ∧
    (∀ d angle0 minangle : ℚ,
      (mode_modal (mode_state_t.drag (dragmode_init L d angle0 minangle))).distance =
        DISTANCE_MODE_ABSOLUTE ∧
      (mode_modal (mode_state_t.drag (dragmode_init L d angle0 minangle))).units =
        UNITS_MODE_MM) := by
  obtain ⟨m1, m2, m3⟩ := transform_stream_modality L K bs s s' out hd hu h
  refine ⟨m1, m2, ?_, ?_, fun _ _ _ => ⟨rfl, rfl⟩, fun _ _ _ => ⟨rfl, rfl⟩⟩
  · intro blk hmem
    rw [bit_istrue_bit, bit_istrue_bit]
    exact m3 blk hmem
  · intro b rest ho
    subst ho
    obtain ⟨o1, o2, o3⟩ := output_stream_first b rest m3
    refine ⟨o1, rfl, rfl, ?_, ?_, o2, o3⟩
    · rw [bit_istrue_bit]
      simp only [with_G90_G21]
      rw [testBit_bit_true, testBit_bit_true]
      simp
    · rw [bit_istrue_bit]
      simp only [with_G90_G21]
      rw [testBit_bit_true]
      simp


theorem transform_stream_single (L : Libm) (K : gcode_consts)
    (s : to_mm_state_t × toabs_state_t × mode_state_t) (b : parser_block_t) :
    transform_stream L K s [b] =
      (transform_line L K s b).map (fun r => (r.1, r.2 ++ [])) := by
  simp only [transform_stream]
  cases transform_line L K s b <;> rfl

/-- Witness of C35: in drag mode, from the initial states, the stream of the single line
`G20 G91 X1` (inches, incremental) returns blocks without distance and units commands,
and the output stage emits them in absolute millimetres with G90 and G21 on the first. -/
theorem output_modality_witness :
    (mode_modal (mode_state_t.drag (dragmode_init libmQ 1 0 2))).distance =
      DISTANCE_MODE_ABSOLUTE ∧
    (mode_modal (mode_state_t.drag (dragmode_init libmQ 1 0 2))).units = UNITS_MODE_MM ∧
    ∃ s' out, transform_stream libmQ grbl_consts
        (to_mm_init, toabs_init, mode_state_t.drag (dragmode_init libmQ 1 0 2))
        [block_G20_G91_X1] = some (s', out) ∧
      out ≠ [] ∧
      (∀ blk ∈ out, bit_istrue blk.command_words (bit MODAL_GROUP_G3) = false ∧
        bit_istrue blk.command_words (bit MODAL_GROUP_G6) = false) ∧
      (mode_modal s'.2.2).distance = DISTANCE_MODE_ABSOLUTE := by
  have hR : bit_istrue (toabs toabs_init (to_mm to_mm_init block_G20_G91_X1).2).2.value_words
      (bit WORD_R) = false := by
    rw [(toabs_facts _ _).2.2.1, to_mm_value_words]
    decide
  have hIJ : bit_istrue (toabs toabs_init (to_mm to_mm_init block_G20_G91_X1).2).2.value_words
      (bit WORD_I ||| bit WORD_J) = false := by
    rw [(toabs_facts _ _).2.2.1, to_mm_value_words]
    decide
  obtain ⟨r, hr⟩ := mode_step_defined libmQ grbl_consts
    (mode_state_t.drag (dragmode_init libmQ 1 0 2)) _ hR hIJ
  have hne : r.2 ≠ [] := mode_step_ne_nil libmQ grbl_consts _ r.1 _ r.2 hr
  have hl : transform_line libmQ grbl_consts
      (to_mm_init, toabs_init, mode_state_t.drag (dragmode_init libmQ 1 0 2))
      block_G20_G91_X1 =
      some (((to_mm to_mm_init block_G20_G91_X1).1,
        (toabs toabs_init (to_mm to_mm_init block_G20_G91_X1).2).1, r.1), r.2) := by
    unfold transform_line
    rw [hr]
    rfl
  have hs : transform_stream libmQ grbl_consts
      (to_mm_init, toabs_init, mode_state_t.drag (dragmode_init libmQ 1 0 2))
      [block_G20_G91_X1] =
      some (((to_mm to_mm_init block_G20_G91_X1).1,
        (toabs toabs_init (to_mm to_mm_init block_G20_G91_X1).2).1, r.1), r.2) := by
    rw [transform_stream_single, hl]
    simp only [Option.map_some', List.append_nil]
  have hd : (mode_modal (mode_state_t.drag (dragmode_init libmQ 1 0 2))).distance =
      DISTANCE_MODE_ABSOLUTE := rfl
  have hu : (mode_modal (mode_state_t.drag (dragmode_init libmQ 1 0 2))).units =
      UNITS_MODE_MM := rfl
  obtain ⟨w1, -, w3, -⟩ := output_modality libmQ grbl_consts
    (to_mm_init, toabs_init, mode_state_t.drag (dragmode_init libmQ 1 0 2))
    ((to_mm to_mm_init block_G20_G91_X1).1,
      (toabs toabs_init (to_mm to_mm_init block_G20_G91_X1).2).1, r.1)
    [block_G20_G91_X1] r.2 hd hu hs
  exact ⟨hd, hu, _, _, hs, hne, w3, w1⟩

/-! ## Float rounding -/

theorem round_half_even_floor (x : ℚ) (n : ℤ) (hf : ⌊x⌋ = n) :
    round_half_even x =
      if x - n < 1 / 2 then n else if 1 / 2 < x - n then n + 1
      else if n % 2 = 0 then n else n + 1 := by
  unfold round_half_even
  rw [hf]

/-- The value of `f32` at a number of which the binary exponent `e` and the rounded
significand `n` are given. -/
theorem f32_eq (q : ℚ) (e n : ℤ) (hq : q ≠ 0) (h1 : (2 : ℚ) ^ e ≤ |q|)
    (h2 : |q| < (2 : ℚ) ^ (e + 1)) (hn : round_half_even (q / 2 ^ (e - 23)) = n) :
    f32 q = n * 2 ^ (e - 23) := by
  have he : Int.log 2 |q| = e := by
    apply le_antisymm
    · have := (Int.lt_zpow_iff_log_lt (b := 2) (by norm_num) (abs_pos.mpr hq)).mp
        (show |q| < ((2 : ℕ) : ℚ) ^ (e + 1) by exact_mod_cast h2)
      omega
    · exact (Int.zpow_le_iff_le_log (b := 2) (by norm_num) (abs_pos.mpr hq)).mp
        (by exact_mod_cast h1)
  unfold f32
  rw [if_neg hq, he, hn]

theorem f32_zero : f32 0 = 0 := by
  unfold f32
  rw [if_pos rfl]

/-- The float sum 16777216 + 1 is 16777216: the exact sum lies halfway between two floats
and is rounded to the even one. -/
theorem f32_2pow24_succ : f32 (16777216 + 1) = 16777216 := by
  have hr : round_half_even ((16777216 + 1 : ℚ) / 2 ^ ((24 : ℤ) - 23)) = 8388608 := by
    rw [round_half_even_floor _ 8388608 (by rw [Int.floor_eq_iff]; norm_num)]
    norm_num
  rw [f32_eq (16777216 + 1) 24 8388608 (by norm_num) (by norm_num) (by norm_num) hr]
  norm_num

theorem f32_2pow24 : f32 16777216 = 16777216 := by
  have hr : round_half_even ((16777216 : ℚ) / 2 ^ ((24 : ℤ) - 23)) = 8388608 := by
    rw [round_half_even_floor _ 8388608 (by rw [Int.floor_eq_iff]; norm_num)]
    norm_num
  rw [f32_eq 16777216 24 8388608 (by norm_num) (by norm_num) (by norm_num) hr]
  norm_num

/-! ## The distance round trip in float arithmetic -/

theorem bit_X_present : bit_istrue (bit WORD_X) (bit WORD_X) = true := by decide

theorem bit_G3_present :
    bit_istrue (bit MODAL_GROUP_G3) (bit MODAL_GROUP_G3) = true := by decide

theorem bit_X_not_Y : bit_istrue (bit WORD_X) (bit (WORD_X + 1)) = false := by decide

theorem bit_X_not_Z : bit_istrue (bit WORD_X) (bit (WORD_X + 2)) = false := by decide

theorem bit_zero_absent (w : Nat) : bit_istrue 0 w = false := by
  simp [bit_istrue]

theorem toabs_fl_X_2pow24 :
    toabs_fl f32 toabs_init block_X_2pow24 =
      (⟨⟨16777216, 0, 0⟩, DISTANCE_MODE_ABSOLUTE⟩, block_X_2pow24) := by
  simp [toabs_fl, toabs_group, abs_axes, toabs_axis_fl, toabs_init, block_X_2pow24,
    parser_block_t.zero, gc_values_t.zero, vec3.zero, bit_X_present, bit_X_not_Y,
    bit_X_not_Z, bit_zero_absent]

theorem toabs_fl_G91_X1 :
    toabs_fl f32 ⟨⟨16777216, 0, 0⟩, DISTANCE_MODE_ABSOLUTE⟩ block_G91_X1 =
      (⟨⟨16777216, 0, 0⟩, DISTANCE_MODE_INCREMENTAL⟩,
       { block_G91_X1 with
           modal := { block_G91_X1.modal with distance := DISTANCE_MODE_ABSOLUTE }
           values := { block_G91_X1.values with xyz := ⟨16777216, 0, 0⟩ } }) := by
  simp [toabs_fl, toabs_group, abs_axes, toabs_axis_fl, block_G91_X1,
    parser_block_t.zero, gc_values_t.zero, vec3.zero, bit_X_present, bit_X_not_Y,
    bit_X_not_Z, bit_zero_absent, bit_G3_present, f32_2pow24_succ,
    DISTANCE_MODE_ABSOLUTE, DISTANCE_MODE_INCREMENTAL]

theorem fromabs_fl_X_2pow24 :
    fromabs_fl f32 fromabs_init block_X_2pow24 =
      (⟨⟨16777216, 0, 0⟩, DISTANCE_MODE_ABSOLUTE⟩,
       { block_X_2pow24 with command_words := bit MODAL_GROUP_G3 }) := by
  simp [fromabs_fl, fromabs_group, abs_axes, fromabs_axis_fl, fromabs_init, block_X_2pow24,
    parser_block_t.zero, gc_values_t.zero, gc_modal_t.zero, vec3.zero, bit_X_present,
    bit_X_not_Y, bit_X_not_Z, bit_zero_absent, DISTANCE_MODE_ABSOLUTE, bit_true]

theorem fromabs_fl_G91_X1 :
    fromabs_fl f32 ⟨⟨16777216, 0, 0⟩, DISTANCE_MODE_ABSOLUTE⟩
        { block_G91_X1 with
            modal := { block_G91_X1.modal with distance := DISTANCE_MODE_ABSOLUTE }
            values := { block_G91_X1.values with xyz := ⟨16777216, 0, 0⟩ } } =
      (⟨⟨16777216, 0, 0⟩, DISTANCE_MODE_INCREMENTAL⟩,
       { block_G91_X1 with values := { block_G91_X1.values with xyz := ⟨0, 0, 0⟩ } }) := by
  simp [fromabs_fl, fromabs_group, abs_axes, fromabs_axis_fl, block_G91_X1,
    parser_block_t.zero, gc_values_t.zero, vec3.zero, bit_X_present, bit_X_not_Y,
    bit_X_not_Z, bit_zero_absent, bit_G3_present, f32_2pow24, f32_zero,
    DISTANCE_MODE_ABSOLUTE, DISTANCE_MODE_INCREMENTAL]

/-- Counterexample to C9 as stated: in float arithmetic the stream `X16777216`, `G91 X1`
does not come back. `toabs` adds 1 to 16777216 in `float`, which gives 16777216, and
`fromabs` then subtracts its position 16777216 from it: the second block leaves the chain
as `G91 X0`, a move of 0 where the input has a move of 1. -/
theorem distance_round_trip_float_fails :
    (run_stream (chain (toabs_fl f32) (fromabs_fl f32)) (toabs_init, fromabs_init)
        [block_X_2pow24, block_G91_X1]).2 =
      [{ block_X_2pow24 with command_words := bit MODAL_GROUP_G3 },
       { block_G91_X1 with values := { block_G91_X1.values with xyz := ⟨0, 0, 0⟩ } }] ∧
    block_G91_X1.values.xyz.e0 = 1 ∧
    bit_istrue block_G91_X1.value_words (bit WORD_X) = true := by
  refine ⟨?_, rfl, by decide⟩
  simp only [run_stream, chain, toabs_fl_X_2pow24, toabs_fl_G91_X1, fromabs_fl_X_2pow24,
    fromabs_fl_G91_X1]

/-! ## The reference semantics of `cleanup` -/

theorem field_shadow {α : Type} [DecidableEq α] (c : Bool) (bv sv : α) :
    (if c = true ∧ bv ≠ sv then bv else sv) = (if c = true then bv else sv) := by
  cases c <;> by_cases h : bv = sv <;> simp [h]

theorem field_kept {α : Type} [DecidableEq α] (c : Bool) (bv sv : α) :
    (if (c && !decide (bv = sv)) = true then bv else sv) = (if c = true then bv else sv) := by
  cases c <;> by_cases h : bv = sv <;> simp [h]

/-- The shadow that `update_state` leaves is the reference state after the block, when the
distance mode after the commands of the block is absolute. -/
theorem update_state_interprets (m : gc_modal_t) (v : gc_values_t) (b : parser_block_t)
    (hd : (if bit_istrue b.command_words (bit MODAL_GROUP_G3) then b.modal.distance
      else m.distance) = DISTANCE_MODE_ABSOLUTE) :
    (update_state m v b).1 = (interpret_block m v b).1 ∧
    (update_state m v b).2.1 = (interpret_block m v b).2 := by
  have hm : (update_state m v b).1 = (interpret_block m v b).1 := by
    rw [update_state_modal]
    simp only [interpret_block, bit_istrue_bit, field_shadow]
  have hdist : (update_state m v b).1.distance = DISTANCE_MODE_ABSOLUTE := by
    rw [hm]
    exact hd
  have hd' := hd
  rw [bit_istrue_bit] at hd'
  refine ⟨hm, ?_⟩
  rw [update_state_values, hdist]
  simp only [interpret_block, update_axis_shadow, if_true, axis_target, bit_istrue_bit,
    field_shadow, WORD_X, WORD_Y, WORD_Z, hd', Nat.add_zero, Nat.reduceAdd]

/-- The block that `update_state` leaves has the same reference effect as the block it
was given, when the distance mode after the commands of the block is absolute. -/
theorem update_state_same_effect (m : gc_modal_t) (v : gc_values_t) (b : parser_block_t)
    (hd : (if bit_istrue b.command_words (bit MODAL_GROUP_G3) then b.modal.distance
      else m.distance) = DISTANCE_MODE_ABSOLUTE) :
    interpret_block m v (update_state m v b).2.2 = interpret_block m v b := by
  have hdist : (update_state m v b).1.distance = DISTANCE_MODE_ABSOLUTE := by
    rw [(update_state_interprets m v b hd).1]
    exact hd
  have hd' := hd
  rw [bit_istrue_bit] at hd'
  obtain ⟨c1, c2, c3, c5, c6, c8, c12, c4, c7, c9⟩ := update_state_command_bits m v b
  obtain ⟨wF, -, -, -, wL, wN, wP, -, wS, wT, wX, wY, wZ⟩ := update_state_value_bits m v b
  rw [hdist] at wX wY wZ
  simp only [if_true] at wX wY wZ
  have hvals : (update_state m v b).2.2.values = b.values := rfl
  have hmod : (update_state m v b).2.2.modal = b.modal := rfl
  simp only [WORD_X, Nat.add_zero, Nat.reduceAdd] at wX wY wZ
  simp only [interpret_block, bit_istrue_bit, hvals, hmod, c1, c2, c3, c5, c6, c8, c12, c4,
    c7, c9, wF, wL, wN, wP, wS, wT, WORD_X, WORD_Y, WORD_Z, wX, wY, wZ, field_kept, hd',
    axis_target, if_true]

theorem cleanup_step_interprets (s : cleanup_state_t) (b : parser_block_t)
    (hd : (if bit_istrue b.command_words (bit MODAL_GROUP_G3) then b.modal.distance
      else s.modal.distance) = DISTANCE_MODE_ABSOLUTE) :
    (cleanup s b).1.modal = (interpret_block s.modal s.values b).1 ∧
    (cleanup s b).1.values = (interpret_block s.modal s.values b).2 ∧
    interpret_block s.modal s.values (cleanup s b).2 = interpret_block s.modal s.values b :=
  ⟨(update_state_interprets s.modal s.values b hd).1,
    (update_state_interprets s.modal s.values b hd).2,
    update_state_same_effect s.modal s.values b hd⟩

theorem cleanup_trace (bs : List parser_block_t) (s : cleanup_state_t)
    (h : stays_absolute s.modal.distance bs) :
    interpret_trace s.modal s.values (run_stream cleanup s bs).2 =
      interpret_trace s.modal s.values bs ∧
    ((run_stream cleanup s bs).1.modal, (run_stream cleanup s bs).1.values) =
      (interpret_trace s.modal s.values bs).getLastD (s.modal, s.values) := by
  induction bs generalizing s with
  | nil => exact ⟨rfl, rfl⟩
  | cons b bs ih =>
    obtain ⟨hd, hrest⟩ := h
    obtain ⟨e1, e2, e3⟩ := cleanup_step_interprets s b hd
    have hdist : (cleanup s b).1.modal.distance = DISTANCE_MODE_ABSOLUTE := by
      rw [e1]
      exact hd
    obtain ⟨i1, i2⟩ := ih (cleanup s b).1 (by rw [hdist]; exact hrest)
    rw [run_stream_cons]
    constructor
    · simp only [interpret_trace]
      rw [e3, ← e1, ← e2, i1]
    · simp only [interpret_trace]
      rw [List.getLastD_cons, ← e1, ← e2, i2]
      congr 1
      exact Prod.ext e1 e2

/-- A stream whose first block carries G90 (as `fromabs` leaves the first block that
`main` hands to `cleanup`) and whose later blocks carry no distance command stays
absolute, whatever the distance mode before it. -/
theorem stays_absolute_no_distance (bs : List parser_block_t)
    (h : ∀ blk ∈ bs, bit_istrue blk.command_words (bit MODAL_GROUP_G3) = false) :
    stays_absolute DISTANCE_MODE_ABSOLUTE bs := by
  induction bs with
  | nil => exact trivial
  | cons b bs ih =>
    refine ⟨?_, ih (fun blk hmem => h blk (List.mem_cons_of_mem _ hmem))⟩
    rw [h b (List.mem_cons_self _ _)]
    rfl

theorem stays_absolute_first_G90 (d : Nat) (b : parser_block_t) (rest : List parser_block_t)
    (h : ∀ blk ∈ rest, bit_istrue blk.command_words (bit MODAL_GROUP_G3) = false) :
    stays_absolute d (with_G90_G21 b :: rest) := by
  refine ⟨?_, stays_absolute_no_distance rest h⟩
  have hb : bit_istrue (with_G90_G21 b).command_words (bit MODAL_GROUP_G3) = true := by
    rw [bit_istrue_bit]
    simp only [with_G90_G21]
    rw [testBit_bit_true, testBit_bit_true]
    simp
  rw [hb]
  rfl

/-- C12 (amended): cleanup preserves semantics while the distance mode in force is
absolute. For every stream of blocks (the slots of absent words arbitrary) over which the
distance mode stays absolute, and from any state of `cleanup`: interpreting the blocks that `cleanup` returns gives, after every
block, the same modal state, the same values F, L, N, P, S, T and the same XYZ position as
interpreting the blocks of the input, both from the shadow of `cleanup` before the stream;
the shadow of `cleanup` after the stream is that state; and `cleanup` removes an axis word
of a block only when its value is the position in force before the block. The stream that
`main` hands to `cleanup` is of this kind: its first block carries the G90 that `fromabs`
adds, and no later block carries a distance command. -/
theorem cleanup_preserves_semantics (s : cleanup_state_t) (bs : List parser_block_t)
    (h : stays_absolute s.modal.distance bs) :
    interpret_trace s.modal s.values (run_stream cleanup s bs).2 =
      interpret_trace s.modal s.values bs ∧
    ((run_stream cleanup s bs).1.modal, (run_stream cleanup s bs).1.values) =
      (interpret_trace s.modal s.values bs).getLastD (s.modal, s.values) ∧
    (∀ b bs', bs = b :: bs' →
      (bit_istrue b.value_words (bit WORD_X) = true →
        bit_istrue (cleanup s b).2.value_words (bit WORD_X) = false →
        b.values.xyz.e0 = s.values.xyz.e0) ∧
      (bit_istrue b.value_words (bit WORD_Y) = true →
        bit_istrue (cleanup s b).2.value_words (bit WORD_Y) = false →
        b.values.xyz.e1 = s.values.xyz.e1) ∧
      (bit_istrue b.value_words (bit WORD_Z) = true →
        bit_istrue (cleanup s b).2.value_words (bit WORD_Z) = false →
        b.values.xyz.e2 = s.values.xyz.e2)) ∧
    (∀ (d : Nat) (b : parser_block_t) (rest : List parser_block_t),
      (∀ blk ∈ rest, bit_istrue blk.command_words (bit MODAL_GROUP_G3) = false) →
      stays_absolute d (with_G90_G21 b :: rest)) := by
  obtain ⟨t1, t2⟩ := cleanup_trace bs s h
  refine ⟨t1, t2, ?_, stays_absolute_first_G90⟩
  intro b bs' hbs
  subst hbs
  obtain ⟨hd, -⟩ := h
  have hdist : (update_state s.modal s.values b).1.distance = DISTANCE_MODE_ABSOLUTE := by
    rw [(update_state_interprets s.modal s.values b hd).1]
    exact hd
  obtain ⟨-, -, -, -, -, -, -, -, -, -, wX, wY, wZ⟩ :=
    update_state_value_bits s.modal s.values b
  rw [hdist] at wX wY wZ
  simp only [if_true, WORD_X, Nat.add_zero, Nat.reduceAdd] at wX wY wZ
  simp only [bit_istrue_bit, cleanup, WORD_X, WORD_Y, WORD_Z]
  refine ⟨?_, ?_, ?_⟩
  · intro hp hc
    rw [wX, hp] at hc
    simpa using hc
  · intro hp hc
    rw [wY, hp] at hc
    simpa using hc
  · intro hp hc
    rw [wZ, hp] at hc
    simpa using hc

/-- Witness of C12: the stream `G90 X5`, `G90 X5` keeps the distance mode absolute from
the initial state of `cleanup`; interpreting the cleaned stream gives the same states as
interpreting the stream, with X = 5 after each block. -/
theorem cleanup_preserves_semantics_witness :
    stays_absolute cleanup_init.modal.distance stream_G90_X5_twice ∧
    interpret_trace cleanup_init.modal cleanup_init.values
        (run_stream cleanup cleanup_init stream_G90_X5_twice).2 =
      interpret_trace cleanup_init.modal cleanup_init.values stream_G90_X5_twice ∧
    (interpret_trace cleanup_init.modal cleanup_init.values stream_G90_X5_twice).map
      (fun st => st.2.xyz.e0) = [5, 5] := by
  have h : stays_absolute cleanup_init.modal.distance stream_G90_X5_twice := by
    simp +decide [stays_absolute, stream_G90_X5_twice, block_G90_X5, parser_block_t.zero,
      gc_modal_t.zero, DISTANCE_MODE_ABSOLUTE]
  refine ⟨h, (cleanup_preserves_semantics cleanup_init stream_G90_X5_twice h).1, ?_⟩
  simp +decide [interpret_trace, interpret_block, stream_G90_X5_twice, block_G90_X5,
    axis_target, parser_block_t.zero, gc_modal_t.zero, gc_values_t.zero, cleanup_init,
    DISTANCE_MODE_ABSOLUTE]

/-! ## Axis-command conflicts against the three classes -/

/-- A G word with the integer part `iv` and the mantissa `m` that satisfy the test of the
`switch` is an axis command. -/
theorem axis_word_of_value (v : ℚ) (iv m : ℕ) (hiv : iv < 256) (hm : m < 100)
    (hv : v = (iv : ℚ) + (m : ℚ) / 100) (hax : is_axis_command iv m) :
    axis_word ⟨'G', some v⟩ := by
  rw [axis_word_G, (int_value_of_eq v iv m hiv hm hv).1, (int_value_of_eq v iv m hiv hm hv).2]
  exact hax

/-- Every command of the three classes of C15 is an axis command for the parser. -/
theorem claimed_axis_word_axis (w : gc_word) (c : Nat) (h : claimed_axis_class w = some c) :
    axis_word w := by
  obtain ⟨letter, value⟩ := w
  unfold claimed_axis_class at h
  simp only [] at h
  by_cases hl : letter = 'G'
  swap
  · rw [if_neg hl] at h
    exact absurd h (by simp)
  subst hl
  rw [if_pos rfl] at h
  cases value with
  | none => exact absurd h (by simp)
  | some v =>
    simp only [] at h
    split_ifs at h with h1 h2 h3
    · rcases h1 with rfl | rfl | rfl | rfl
      · exact axis_word_of_value _ 10 0 (by decide) (by decide) (by norm_num) (by decide)
      · exact axis_word_of_value _ 28 0 (by decide) (by decide) (by norm_num) (by decide)
      · exact axis_word_of_value _ 30 0 (by decide) (by decide) (by norm_num) (by decide)
      · exact axis_word_of_value _ 92 0 (by decide) (by decide) (by norm_num) (by decide)
    · rcases h2 with rfl | rfl | rfl | rfl | rfl | rfl | rfl | rfl
      · exact axis_word_of_value _ 0 0 (by decide) (by decide) (by norm_num) (by decide)
      · exact axis_word_of_value _ 1 0 (by decide) (by decide) (by norm_num) (by decide)
      · exact axis_word_of_value _ 2 0 (by decide) (by decide) (by norm_num) (by decide)
      · exact axis_word_of_value _ 3 0 (by decide) (by decide) (by norm_num) (by decide)
      · exact axis_word_of_value _ 38 20 (by decide) (by decide) (by norm_num) (by decide)
      · exact axis_word_of_value _ 38 30 (by decide) (by decide) (by norm_num) (by decide)
      · exact axis_word_of_value _ 38 40 (by decide) (by decide) (by norm_num) (by decide)
      · exact axis_word_of_value _ 38 50 (by decide) (by decide) (by norm_num) (by decide)
    · rcases h3 with rfl | rfl
      · exact axis_word_of_value _ 43 10 (by decide) (by decide) (by norm_num) (by decide)
      · exact axis_word_of_value _ 49 0 (by decide) (by decide) (by norm_num) (by decide)

/-- An axis command after accepted words among which an axis command occurs makes
`gc_parse_line` return the conflict status. -/
theorem axis_conflict_after (K : gcode_consts) (pre post : List gc_word) (w : gc_word)
    (s1 : parse_state) (hpre : gc_parse_words K parse_init pre = (STATUS_OK, s1))
    (hw : axis_word w) (hin : ∃ w0 ∈ pre, axis_word w0) :
    (gc_parse_line K (pre ++ w :: post)).1 = STATUS_GCODE_AXIS_COMMAND_CONFLICT := by
  have h := gc_parse_word_axis K pre s1 w hpre hw hin
  rw [gc_parse_line_fail_at K pre post w s1 hpre (by rw [h]; decide), h]

/-- The word G1 is accepted as the first word of a line. -/
theorem gc_parse_words_G1 (K : gcode_consts) :
    ∃ s1, gc_parse_words K parse_init [⟨'G', some 1⟩] = (STATUS_OK, s1) := by
  have h1 : gc_parse_word K parse_init ⟨'G', some 1⟩ = gc_parse_G parse_init 1 0 := by
    rw [gc_parse_word_G, int_value_0_1.2.1, int_value_0_1.2.2]
  exact ⟨_, gc_parse_words_single K parse_init _ (by rw [h1]; decide)⟩

/-- C15 (amended): axis-command conflicts. A line in which, the earlier words accepted, a
command of the three classes (G10, G28, G30 or G92 without suffix; G0, G1, G2, G3 or
G38.2 to G38.5; G43.1 or G49) follows a command of these classes, of the same class or of
another, returns `STATUS_GCODE_AXIS_COMMAND_CONFLICT`; so does every line in which a G
word for which the `switch` tests `axis_command` follows another such word. A line for
which `gc_parse_line` returns that status has such a G word after another one, so a line
with at most one of them never does. The commands of the three classes are among these G
words, and for a number below 256 the integer part that the `switch` reads is the integer
part of the number. The line `G1 G92 X0` is an instance. -/
theorem axis_command_conflict_rule (K : gcode_consts) :
    (∀ pre post w s1 c, gc_parse_words K parse_init pre = (STATUS_OK, s1) →
      claimed_axis_class w = some c →
      (∃ w0 ∈ pre, ∃ c0, claimed_axis_class w0 = some c0) →
      (gc_parse_line K (pre ++ w :: post)).1 = STATUS_GCODE_AXIS_COMMAND_CONFLICT) ∧
    (∀ pre post w s1, gc_parse_words K parse_init pre = (STATUS_OK, s1) → axis_word w →
      (∃ w0 ∈ pre, axis_word w0) →
      (gc_parse_line K (pre ++ w :: post)).1 = STATUS_GCODE_AXIS_COMMAND_CONFLICT) ∧
    (∀ line, (gc_parse_line K line).1 = STATUS_GCODE_AXIS_COMMAND_CONFLICT →
      ∃ pre w post, line = pre ++ w :: post ∧ axis_word w ∧ ∃ w0 ∈ pre, axis_word w0) ∧
    (∀ w c, claimed_axis_class w = some c → axis_word w) ∧
    (∀ v : ℚ, 0 ≤ v → v < 256 → ((int_value_of v : ℕ) : ℤ) = c_trunc v) ∧
    (gc_parse_line K line_G1_G92_X0).1 = STATUS_GCODE_AXIS_COMMAND_CONFLICT := by
  refine ⟨?_, axis_conflict_after K, ?_, claimed_axis_word_axis, int_value_of_trunc, ?_⟩
  · intro pre post w s1 c hpre hw hin
    obtain ⟨w0, hmem, c0, hc0⟩ := hin
    exact axis_conflict_after K pre post w s1 hpre (claimed_axis_word_axis w c hw)
      ⟨w0, hmem, claimed_axis_word_axis w0 c0 hc0⟩
  · intro line h
    have h' : (gc_parse_words K parse_init line).1 = STATUS_GCODE_AXIS_COMMAND_CONFLICT := h
    obtain ⟨pre, w, post, s1, e1, e2, e3⟩ := gc_parse_words_fail_split K line parse_init
      (by rw [h']; decide)
    rw [h'] at e3
    obtain ⟨c1, c2⟩ := gc_parse_word_conflict K s1 w e3
    exact ⟨pre, w, post, e1, c1, (gc_parse_words_init K pre s1 e2).1.mp c2⟩
  · obtain ⟨s1, hs1⟩ := gc_parse_words_G1 K
    exact axis_conflict_after K [⟨'G', some 1⟩] [⟨'X', some 0⟩] ⟨'G', some 92⟩ s1 hs1
      (axis_word_of_value _ 92 0 (by decide) (by decide) (by norm_num) (by decide))
      ⟨⟨'G', some 1⟩, List.mem_singleton.mpr rfl,
        axis_word_of_value _ 1 0 (by decide) (by decide) (by norm_num) (by decide)⟩

/-- Counterexample to C15 as stated: the line `G1 G43` holds one command of the three
classes, G1 (G43 without suffix belongs to none of them), and `gc_parse_line` returns
`STATUS_GCODE_AXIS_COMMAND_CONFLICT` for it: the `switch` tests `axis_command` for G43
whatever its suffix. -/
theorem G1_G43_axis_conflict :
    claimed_axis_class ⟨'G', some 1⟩ = some 2 ∧
    claimed_axis_class ⟨'G', some 43⟩ = none ∧
    (gc_parse_line grbl_consts line_G1_G43).1 = STATUS_GCODE_AXIS_COMMAND_CONFLICT := by
  refine ⟨?_, ?_, ?_⟩
  · simp [claimed_axis_class]
  · norm_num [claimed_axis_class]
  · obtain ⟨s1, hs1⟩ := gc_parse_words_G1 grbl_consts
    exact axis_conflict_after grbl_consts [⟨'G', some 1⟩] [] ⟨'G', some 43⟩ s1 hs1
      (axis_word_of_value _ 43 0 (by decide) (by decide) (by norm_num) (by decide))
      ⟨⟨'G', some 1⟩, List.mem_singleton.mpr rfl,
        axis_word_of_value _ 1 0 (by decide) (by decide) (by norm_num) (by decide)⟩

/-! ## Accuracy of the float rounding and of the square root -/

theorem round_half_even_near (x : ℚ) : |(round_half_even x : ℚ) - x| ≤ 1 / 2 := by
  have h1 := Int.floor_le x
  have h2 := Int.lt_floor_add_one x
  unfold round_half_even
  split_ifs with a b c
  · rw [abs_le]
    constructor <;> linarith
  · rw [abs_le]
    push_cast
    constructor <;> linarith
  · rw [abs_le]
    constructor <;> linarith
  · rw [abs_le]
    push_cast
    constructor <;> linarith

/-- The rounding to `float` changes a number by at most 2^-24 of its magnitude. -/
theorem f32_accurate (q : ℚ) : |f32 q - q| ≤ |q| / 2 ^ 24 := by
  unfold f32
  by_cases hq : q = 0
  · rw [if_pos hq, hq]
    simp
  rw [if_neg hq]
  have hpos : 0 < |q| := abs_pos.mpr hq
  have hlog : ((2 : ℕ) : ℚ) ^ Int.log 2 |q| ≤ |q| := Int.zpow_log_le_self (by norm_num) hpos
  have hlog' : (2 : ℚ) ^ Int.log 2 |q| ≤ |q| := by exact_mod_cast hlog
  set e := Int.log 2 |q| with he
  have hp : (0 : ℚ) < 2 ^ (e - 23) := by positivity
  have hn := round_half_even_near (q / 2 ^ (e - 23))
  have hmul : |(round_half_even (q / 2 ^ (e - 23)) : ℚ) * 2 ^ (e - 23) - q| =
      |(round_half_even (q / 2 ^ (e - 23)) : ℚ) - q / 2 ^ (e - 23)| * 2 ^ (e - 23) := by
    rw [← abs_of_pos hp, ← abs_mul, abs_of_pos hp]
    congr 1
    field_simp
  rw [hmul]
  have h24 : (2 : ℚ) ^ (e - 23) = 2 ^ e / 2 ^ 23 := by
    rw [zpow_sub₀ (by norm_num)]
    norm_num
  calc |(round_half_even (q / 2 ^ (e - 23)) : ℚ) - q / 2 ^ (e - 23)| * 2 ^ (e - 23)
      ≤ 1 / 2 * 2 ^ (e - 23) := by
        exact mul_le_mul_of_nonneg_right hn hp.le
    _ = 2 ^ e / 2 ^ 24 := by
        rw [h24]
        ring
    _ ≤ |q| / 2 ^ 24 := by
        exact div_le_div_of_nonneg_right hlog' (by positivity)

theorem sqrt_approx_nonneg (x : ℚ) : 0 ≤ sqrt_approx x := by
  unfold sqrt_approx
  positivity

/-- The square of `sqrt_approx x` is at most `x` and at least `x - x / 2^15`. -/
theorem sqrt_approx_accurate (x : ℚ) (hx : 0 ≤ x) :
    sqrt_approx x * sqrt_approx x ≤ x ∧ x - x / 2 ^ 15 ≤ sqrt_approx x * sqrt_approx x := by
  have hnum : (0 : ℤ) ≤ x.num := Rat.num_nonneg.mpr hx
  have hden : (0 : ℚ) < (x.den : ℚ) := by exact_mod_cast x.den_pos
  have h1 : ((x.num.toNat : ℕ) : ℚ) = (x.num : ℚ) := by
    have : ((x.num.toNat : ℕ) : ℤ) = x.num := Int.toNat_of_nonneg hnum
    exact_mod_cast this
  have hx2 : x * (x.den : ℚ) = (x.num : ℚ) := Rat.mul_den_eq_num x
  have hD : (0 : ℚ) < ((x.den : ℚ) * 2 ^ 16) * ((x.den : ℚ) * 2 ^ 16) := by positivity
  have hxN : x * (((x.den : ℚ) * 2 ^ 16) * ((x.den : ℚ) * 2 ^ 16)) =
      ((x.num.toNat * x.den * 4 ^ 16 : ℕ) : ℚ) := by
    push_cast
    rw [h1, ← hx2]
    ring
  have hsq : sqrt_approx x * sqrt_approx x =
      ((Nat.sqrt (x.num.toNat * x.den * 4 ^ 16) : ℚ) *
        (Nat.sqrt (x.num.toNat * x.den * 4 ^ 16) : ℚ)) /
        (((x.den : ℚ) * 2 ^ 16) * ((x.den : ℚ) * 2 ^ 16)) := by
    unfold sqrt_approx
    field_simp
  have hN : x.num.toNat * x.den * 4 ^ 16 = 0 ∨ 4 ^ 16 ≤ x.num.toNat * x.den * 4 ^ 16 := by
    rcases Nat.eq_zero_or_pos (x.num.toNat * x.den) with h0 | h0
    · left
      rw [h0, Nat.zero_mul]
    · right
      exact Nat.le_mul_of_pos_left _ h0
  generalize x.num.toNat * x.den * 4 ^ 16 = N at hxN hsq hN
  have hm1 : Nat.sqrt N * Nat.sqrt N ≤ N := Nat.sqrt_le N
  have hm2 : N < (Nat.sqrt N + 1) * (Nat.sqrt N + 1) := Nat.lt_succ_sqrt N
  have hm1' : (Nat.sqrt N : ℚ) * (Nat.sqrt N : ℚ) ≤ (N : ℚ) := by exact_mod_cast hm1
  have hm2' : (N : ℚ) < ((Nat.sqrt N : ℚ) + 1) * ((Nat.sqrt N : ℚ) + 1) := by
    exact_mod_cast hm2
  rw [hsq]
  constructor
  · rw [div_le_iff₀ hD, hxN]
    exact hm1'
  · rw [le_div_iff₀ hD, sub_mul, div_mul_eq_mul_div, hxN]
    rcases hN with hN0 | hN1
    · rw [hN0]
      simp
    · have hm3 : 2 ^ 16 ≤ Nat.sqrt N := by
        rw [Nat.le_sqrt]
        exact le_trans (by norm_num) hN1
      have hm3' : (2 : ℚ) ^ 16 ≤ (Nat.sqrt N : ℚ) := by exact_mod_cast hm3
      have hm0 : (0 : ℚ) ≤ (Nat.sqrt N : ℚ) := Nat.cast_nonneg _
      have hk : (2 : ℚ) ^ 16 * (Nat.sqrt N : ℚ) ≤ (Nat.sqrt N : ℚ) * (Nat.sqrt N : ℚ) :=
        mul_le_mul_of_nonneg_right hm3' hm0
      have hm4 : (N : ℚ) ≤ (Nat.sqrt N : ℚ) * (Nat.sqrt N : ℚ) + 2 * (Nat.sqrt N : ℚ) := by
        have : N ≤ Nat.sqrt N * Nat.sqrt N + 2 * Nat.sqrt N := by
          have := hm2
          ring_nf at this ⊢
          omega
        exact_mod_cast this
      have hdiv : 2 * (Nat.sqrt N : ℚ) ≤ (N : ℚ) / 2 ^ 15 := by
        rw [le_div_iff₀ (by positivity)]
        linarith
      linarith

/-! ## The assertions of `normarcs` -/

/-- The `assert` of the R branch of `normarcs` fails exactly when the sum of the two float
squares exceeds the product `4 r r`. -/
theorem normarcs_R_none (L : Libm) (b : parser_block_t) (motion : Nat) (x y : ℚ)
    (hR : bit_istrue b.value_words (bit WORD_R) = true) :
    normarcs L b motion x y = none ↔
      4 * b.values.r * b.values.r < L.fl (x * x) + L.fl (y * y) := by
  unfold normarcs
  simp only [hR, if_true]
  by_cases hge : 4 * b.values.r * b.values.r - L.fl (x * x) - L.fl (y * y) ≥ 0
  · rw [if_pos hge]
    simp only [reduceCtorEq, false_iff, not_lt]
    linarith
  · rw [if_neg hge]
    simp only [true_iff]
    linarith [not_le.mp hge]

/-- The centre offset that the R branch of `normarcs` computes is at the same distance
from both ends of the chord, for any ratio `h`. -/
theorem normarcs_centre_equidistant (x y h : ℚ) :
    (x - 1 / 2 * (x - y * h)) * (x - 1 / 2 * (x - y * h)) +
        (y - 1 / 2 * (y + x * h)) * (y - 1 / 2 * (y + x * h)) =
      (1 / 2 * (x - y * h)) * (1 / 2 * (x - y * h)) +
        (1 / 2 * (y + x * h)) * (1 / 2 * (y + x * h)) := by
  ring

/-- The squared distance of the centre offset from the start of the arc differs from R^2
by at most `(ε + 3 η) R^2`, where `ε` bounds the relative error of the sum `cp` of the
float squares and `η` that of the squares of the two square roots `s` and `hyp`. -/
theorem normarcs_centre_error (x y R cp s hyp h ε η : ℚ)
    (hε : 0 ≤ ε) (hη : 0 ≤ η) (hη' : η ≤ 1 / 10000)
    (hc : 0 < x * x + y * y) (hle : x * x + y * y ≤ 4 * R * R)
    (hcp : |cp - (x * x + y * y)| ≤ ε * (x * x + y * y))
    (hcp0 : 0 ≤ cp) (hA : cp ≤ 4 * R * R)
    (hs : |s * s - (4 * R * R - cp)| ≤ η * (4 * R * R - cp))
    (hh : |hyp * hyp - (x * x + y * y)| ≤ η * (x * x + y * y))
    (hsign : h = -s / hyp ∨ h = -(-s / hyp)) :
    |(1 / 2 * (x - y * h)) * (1 / 2 * (x - y * h)) +
        (1 / 2 * (y + x * h)) * (1 / 2 * (y + x * h)) - R * R| ≤ (ε + 3 * η) * (R * R) := by
  obtain ⟨hs1, hs2⟩ := abs_le.mp hs
  obtain ⟨hh1, hh2⟩ := abs_le.mp hh
  obtain ⟨hc1, hc2⟩ := abs_le.mp hcp
  have hu : 0 < hyp * hyp := by nlinarith
  have hne : hyp ≠ 0 := fun h0 => by rw [h0, mul_zero] at hu; exact lt_irrefl _ hu
  have hA0 : 0 ≤ 4 * R * R - cp := by linarith
  have h2 : h * h * (hyp * hyp) = s * s := by
    rcases hsign with e | e
    · rw [e]
      field_simp
    · rw [e]
      field_simp
  -- T = c h^2
  have hT : |(x * x + y * y) * (h * h) - (4 * R * R - cp)| ≤ 3 * η * (4 * R * R - cp) := by
    have key : |(x * x + y * y) * (h * h) - (4 * R * R - cp)| * (hyp * hyp) ≤
        3 * η * (4 * R * R - cp) * (hyp * hyp) := by
      rw [← abs_of_pos hu, ← abs_mul, abs_of_pos hu]
      have e : ((x * x + y * y) * (h * h) - (4 * R * R - cp)) * (hyp * hyp) =
          (x * x + y * y) * (s * s) - (4 * R * R - cp) * (hyp * hyp) := by
        rw [← h2]
        ring
      rw [e, abs_le]
      have p1 : 0 ≤ η * (4 * R * R - cp) * (x * x + y * y) :=
        mul_nonneg (mul_nonneg hη hA0) hc.le
      have p2 : 0 ≤ η * (4 * R * R - cp) * (x * x + y * y) * (1 - 3 * η) :=
        mul_nonneg p1 (by linarith)
      constructor
      · nlinarith [mul_le_mul_of_nonneg_left hs1 hc.le, mul_le_mul_of_nonneg_left hh2 hA0,
          mul_le_mul_of_nonneg_left hh1 (mul_nonneg hη hA0)]
      · nlinarith [mul_le_mul_of_nonneg_left hs2 hc.le, mul_le_mul_of_nonneg_left hh1 hA0,
          mul_le_mul_of_nonneg_left hh1 (mul_nonneg hη hA0)]
    exact le_of_mul_le_mul_right key hu
  obtain ⟨hT1, hT2⟩ := abs_le.mp hT
  have e : (1 / 2 * (x - y * h)) * (1 / 2 * (x - y * h)) +
      (1 / 2 * (y + x * h)) * (1 / 2 * (y + x * h)) - R * R =
      (((x * x + y * y) - cp) + ((x * x + y * y) * (h * h) - (4 * R * R - cp))) / 4 := by
    ring
  rw [e, abs_le]
  have q1 : ε * (x * x + y * y) ≤ ε * (4 * R * R) := mul_le_mul_of_nonneg_left hle hε
  have q2 : η * (4 * R * R - cp) ≤ η * (4 * R * R) :=
    mul_le_mul_of_nonneg_left (by linarith) hη
  constructor <;> linarith

/-- The radius that a square root gives for a squared distance `Q` near R^2. -/
theorem normarcs_radius_error (R Q r2 δ η : ℚ) (hR : R ≠ 0)
    (hδ' : δ ≤ 4 / 10000) (hη : 0 ≤ η) (hη' : η ≤ 1 / 10000)
    (hQ : |Q - R * R| ≤ δ * (R * R)) (hr0 : 0 ≤ r2) (hr : |r2 * r2 - Q| ≤ η * Q) :
    0 < r2 ∧ abs (r2 - |R|) ≤ (δ + 2 * η) * |R| := by
  obtain ⟨hQ1, hQ2⟩ := abs_le.mp hQ
  obtain ⟨hr1, hr2⟩ := abs_le.mp hr
  have hRR : 0 < R * R := mul_self_pos.mpr hR
  have habs : 0 < |R| := abs_pos.mpr hR
  have hsq : |R| * |R| = R * R := abs_mul_abs_self R
  have hQpos : 0 < Q := by nlinarith
  have hr2pos : 0 < r2 * r2 := by nlinarith
  have hpos : 0 < r2 := by
    rcases hr0.lt_or_eq with h | h
    · exact h
    · rw [← h, mul_zero] at hr2pos
      exact absurd hr2pos (lt_irrefl _)
  refine ⟨hpos, ?_⟩
  have hηQ : η * Q ≤ η * ((1 + δ) * (R * R)) := mul_le_mul_of_nonneg_left (by linarith) hη
  have hηδ : η * δ * (R * R) ≤ η * (R * R) := by
    have : η * δ ≤ η * 1 := mul_le_mul_of_nonneg_left (by linarith) hη
    nlinarith
  have hd : |r2 * r2 - R * R| ≤ (δ + 2 * η) * (R * R) := by
    rw [abs_le]
    constructor <;> nlinarith
  have hfac : abs (r2 - |R|) * (r2 + |R|) = |r2 * r2 - R * R| := by
    rw [← abs_of_pos (show 0 < r2 + |R| by linarith), ← abs_mul]
    congr 1
    rw [← hsq]
    ring
  have hle : abs (r2 - |R|) * |R| ≤ (δ + 2 * η) * |R| * |R| := by
    calc abs (r2 - |R|) * |R| ≤ abs (r2 - |R|) * (r2 + |R|) :=
          mul_le_mul_of_nonneg_left (by linarith) (abs_nonneg _)
      _ = |r2 * r2 - R * R| := hfac
      _ ≤ (δ + 2 * η) * (R * R) := hd
      _ = (δ + 2 * η) * |R| * |R| := by rw [← hsq]; ring
  exact le_of_mul_le_mul_right hle habs

/-- C21: arc normalisation is reversible. Let the block have an R word with R not zero,
the motion be any (G2 or G3), and the arithmetic be exact up to the rounding of the two
float products, of relative error at most `ε`, and up to the square root, whose square
has a relative error of at most `η` (both at most 1/10000, and zero in exact arithmetic).
For every chord with 0 < dx^2 + dy^2 and (dx^2 + dy^2)(1 + ε) <= 4 R^2 the R branch of
`normarcs` returns, with R replaced by |R| and with I and J such that the centre is at
the same distance from both ends of the chord, the square of that distance being within
`(ε + 3 η) R^2` of R^2, and equal to R^2 where the two products and the two square roots
of the R branch are exact; `hypot_f(dx - I, dy - J)` and
`hypot_f(I, J)` are the same number, positive and within `(ε + 5 η) |R|` of |R|, so
within 0.1 % of it; and `normarcs` on any block in I/J form with these I and J passes
both `assert`s and stores that number as R. -/
theorem normarcs_reversible (L : Libm) (b : parser_block_t) (motion : Nat) (dx dy ε η : ℚ)
    (hbit : bit_istrue b.value_words (bit WORD_R) = true) (hR : b.values.r ≠ 0)
    (hε : 0 ≤ ε) (hε' : ε ≤ 1 / 10000) (hη : 0 ≤ η) (hη' : η ≤ 1 / 10000)
    (hfl : ∀ q : ℚ, |L.fl q - q| ≤ ε * |q|)
    (hsq : ∀ x : ℚ, 0 ≤ x → 0 ≤ L.sqrt x ∧ |L.sqrt x * L.sqrt x - x| ≤ η * x)
    (hpos : 0 < dx * dx + dy * dy)
    (hle : (dx * dx + dy * dy) * (1 + ε) ≤ 4 * b.values.r * b.values.r) :
    ∃ nb, normarcs L b motion dx dy = some nb ∧
      nb.values.r = |b.values.r| ∧
      (dx - nb.values.ijk.e0) * (dx - nb.values.ijk.e0) +
          (dy - nb.values.ijk.e1) * (dy - nb.values.ijk.e1) =
        nb.values.ijk.e0 * nb.values.ijk.e0 + nb.values.ijk.e1 * nb.values.ijk.e1 ∧
      |nb.values.ijk.e0 * nb.values.ijk.e0 + nb.values.ijk.e1 * nb.values.ijk.e1 -
          b.values.r * b.values.r| ≤ (ε + 3 * η) * (b.values.r * b.values.r) ∧
      (L.fl (dx * dx) + L.fl (dy * dy) = dx * dx + dy * dy →
        L.sqrt (4 * b.values.r * b.values.r - L.fl (dx * dx) - L.fl (dy * dy)) *
            L.sqrt (4 * b.values.r * b.values.r - L.fl (dx * dx) - L.fl (dy * dy)) =
          4 * b.values.r * b.values.r - L.fl (dx * dx) - L.fl (dy * dy) →
        hypot_f L dx dy * hypot_f L dx dy = dx * dx + dy * dy →
        nb.values.ijk.e0 * nb.values.ijk.e0 + nb.values.ijk.e1 * nb.values.ijk.e1 =
          b.values.r * b.values.r) ∧
      hypot_f L (dx - nb.values.ijk.e0) (dy - nb.values.ijk.e1) =
        hypot_f L nb.values.ijk.e0 nb.values.ijk.e1 ∧
      0 < hypot_f L nb.values.ijk.e0 nb.values.ijk.e1 ∧
      abs (hypot_f L nb.values.ijk.e0 nb.values.ijk.e1 - |b.values.r|) ≤
        (ε + 5 * η) * |b.values.r| ∧
      abs (hypot_f L nb.values.ijk.e0 nb.values.ijk.e1 - |b.values.r|) ≤
        1 / 1000 * |b.values.r| ∧
      ∀ b2 : parser_block_t, bit_istrue b2.value_words (bit WORD_R) = false →
        bit_istrue b2.value_words (bit WORD_I ||| bit WORD_J) = true →
        b2.values.ijk.e0 = nb.values.ijk.e0 → b2.values.ijk.e1 = nb.values.ijk.e1 →
        normarcs L b2 motion dx dy =
          some { b2 with values := { b2.values with
            r := hypot_f L nb.values.ijk.e0 nb.values.ijk.e1 } } := by
  have hx := abs_le.mp (hfl (dx * dx))
  have hy := abs_le.mp (hfl (dy * dy))
  rw [abs_of_nonneg (mul_self_nonneg dx)] at hx
  rw [abs_of_nonneg (mul_self_nonneg dy)] at hy
  have hxx : 0 ≤ dx * dx := mul_self_nonneg dx
  have hyy : 0 ≤ dy * dy := mul_self_nonneg dy
  have hεx : ε * (dx * dx) ≤ dx * dx := by nlinarith
  have hεy : ε * (dy * dy) ≤ dy * dy := by nlinarith
  have hcp0 : 0 ≤ L.fl (dx * dx) + L.fl (dy * dy) := by linarith [hx.1, hy.1]
  have hA : L.fl (dx * dx) + L.fl (dy * dy) ≤ 4 * b.values.r * b.values.r := by
    linarith [hx.2, hy.2]
  have hcp : |L.fl (dx * dx) + L.fl (dy * dy) - (dx * dx + dy * dy)| ≤
      ε * (dx * dx + dy * dy) := by
    rw [abs_le]
    constructor <;> linarith [hx.1, hx.2, hy.1, hy.2]
  have hc4 : dx * dx + dy * dy ≤ 4 * b.values.r * b.values.r := by nlinarith
  obtain ⟨nb, h, hn, hsign, nr, nI, nJ⟩ := normarcs_R L b motion dx dy hbit (by linarith)
  have hs := (hsq (4 * b.values.r * b.values.r - L.fl (dx * dx) - L.fl (dy * dy))
    (by linarith)).2
  have hh := (hsq (dx * dx + dy * dy) hpos.le).2
  have eA : 4 * b.values.r * b.values.r - L.fl (dx * dx) - L.fl (dy * dy) =
      4 * b.values.r * b.values.r - (L.fl (dx * dx) + L.fl (dy * dy)) := by ring
  rw [eA] at hs hsign
  have hexact : L.fl (dx * dx) + L.fl (dy * dy) = dx * dx + dy * dy →
      L.sqrt (4 * b.values.r * b.values.r - L.fl (dx * dx) - L.fl (dy * dy)) *
          L.sqrt (4 * b.values.r * b.values.r - L.fl (dx * dx) - L.fl (dy * dy)) =
        4 * b.values.r * b.values.r - L.fl (dx * dx) - L.fl (dy * dy) →
      hypot_f L dx dy * hypot_f L dx dy = dx * dx + dy * dy →
      nb.values.ijk.e0 * nb.values.ijk.e0 + nb.values.ijk.e1 * nb.values.ijk.e1 =
        b.values.r * b.values.r := by
    intro x1 x2 x3
    rw [eA] at x2
    have hz := normarcs_centre_error dx dy b.values.r (L.fl (dx * dx) + L.fl (dy * dy))
      (L.sqrt (4 * b.values.r * b.values.r - (L.fl (dx * dx) + L.fl (dy * dy))))
      (hypot_f L dx dy) h 0 0 le_rfl le_rfl (by norm_num) hpos hc4
      (by rw [x1, sub_self, abs_zero, zero_mul]) hcp0 hA
      (by rw [x2, sub_self, abs_zero, zero_mul])
      (by rw [x3, sub_self, abs_zero, zero_mul]) hsign
    rw [← nI, ← nJ] at hz
    have hz0 : |nb.values.ijk.e0 * nb.values.ijk.e0 + nb.values.ijk.e1 * nb.values.ijk.e1 -
        b.values.r * b.values.r| ≤ 0 := by
      have e0 : ((0 : ℚ) + 3 * 0) * (b.values.r * b.values.r) = 0 := by ring
      rw [e0] at hz
      exact hz
    exact sub_eq_zero.mp (abs_nonpos_iff.mp hz0)
  have hQ := normarcs_centre_error dx dy b.values.r (L.fl (dx * dx) + L.fl (dy * dy))
    (L.sqrt (4 * b.values.r * b.values.r - (L.fl (dx * dx) + L.fl (dy * dy))))
    (hypot_f L dx dy) h ε η hε hη hη' hpos hc4 hcp hcp0 hA hs hh hsign
  have hQ0 : 0 ≤ nb.values.ijk.e0 * nb.values.ijk.e0 + nb.values.ijk.e1 * nb.values.ijk.e1 :=
    add_nonneg (mul_self_nonneg _) (mul_self_nonneg _)
  rw [← nI, ← nJ] at hQ
  have heq : (dx - nb.values.ijk.e0) * (dx - nb.values.ijk.e0) +
      (dy - nb.values.ijk.e1) * (dy - nb.values.ijk.e1) =
      nb.values.ijk.e0 * nb.values.ijk.e0 + nb.values.ijk.e1 * nb.values.ijk.e1 := by
    rw [nI, nJ]
    exact normarcs_centre_equidistant dx dy h
  have hhyp : hypot_f L (dx - nb.values.ijk.e0) (dy - nb.values.ijk.e1) =
      hypot_f L nb.values.ijk.e0 nb.values.ijk.e1 := by
    unfold hypot_f
    rw [heq]
  obtain ⟨hr0, hr⟩ := hsq _ hQ0
  obtain ⟨hrpos, hrerr⟩ := normarcs_radius_error b.values.r _ _ (ε + 3 * η) η hR
    (by linarith) hη hη' hQ hr0 hr
  have habs : 0 < |b.values.r| := abs_pos.mpr hR
  have e5 : (ε + 3 * η + 2 * η) * |b.values.r| = (ε + 5 * η) * |b.values.r| := by ring
  rw [e5] at hrerr
  have h1000 : (ε + 5 * η) * |b.values.r| ≤ 1 / 1000 * |b.values.r| :=
    mul_le_mul_of_nonneg_right (by linarith) habs.le
  refine ⟨nb, hn, nr, heq, hQ, hexact, hhyp, hrpos, hrerr, le_trans hrerr h1000, ?_⟩
  intro b2 h1 h2 h3 h4
  have hpos2 : 0 < hypot_f L nb.values.ijk.e0 nb.values.ijk.e1 := hrpos
  rw [normarcs_IJ L b2 motion dx dy h1 h2
    (by rw [h3, h4, hhyp, sub_self, abs_zero]; norm_num)
    (by rw [h3, h4, hhyp, sub_self, abs_zero]; linarith), h3, h4]

/-- The float library `libm32` is accurate: a float product is rounded with a relative
error of at most 2^-24, and the square of a square root has one of at most 2^-15. -/
theorem libm32_accurate :
    (∀ q : ℚ, |libm32.fl q - q| ≤ 1 / 2 ^ 24 * |q|) ∧
    (∀ x : ℚ, 0 ≤ x → 0 ≤ libm32.sqrt x ∧
      |libm32.sqrt x * libm32.sqrt x - x| ≤ 1 / 2 ^ 15 * x) := by
  constructor
  · intro q
    have := f32_accurate q
    have e : |q| / 2 ^ 24 = 1 / 2 ^ 24 * |q| := by ring
    rw [e] at this
    exact this
  · intro x hx
    obtain ⟨a1, a2⟩ := sqrt_approx_accurate x hx
    refine ⟨sqrt_approx_nonneg x, ?_⟩
    have e : libm32.sqrt x = sqrt_approx x := rfl
    rw [e, abs_le]
    constructor <;> linarith

/-- Witness of C21 in float arithmetic, with the library `libm32`: the arc `G2 X1 Y1 R1`
has the chord (1, 1), whose length is not a rational number, and `normarcs` stores a
radius within 0.1 % of 1. -/
theorem normarcs_reversible_witness :
    (∀ q : ℚ, |libm32.fl q - q| ≤ 1 / 2 ^ 24 * |q|) ∧
    (0 : ℚ) < 1 * 1 + 1 * 1 ∧
    ((1 : ℚ) * 1 + 1 * 1) * (1 + 1 / 2 ^ 24) ≤
      4 * block_arc_R1.values.r * block_arc_R1.values.r ∧
    ∃ nb, normarcs libm32 block_arc_R1 MOTION_MODE_CW_ARC 1 1 = some nb ∧
      nb.values.r = 1 ∧
      |hypot_f libm32 nb.values.ijk.e0 nb.values.ijk.e1 - 1| ≤ 1 / 1000 := by
  refine ⟨libm32_accurate.1, by norm_num, by
    rw [show block_arc_R1.values.r = 1 from rfl]; norm_num, ?_⟩
  have hv : block_arc_R1.values.r = 1 := rfl
  obtain ⟨nb, h1, h2, -, -, -, -, -, -, h3, -⟩ := normarcs_reversible libm32 block_arc_R1
    MOTION_MODE_CW_ARC 1 1 (1 / 2 ^ 24) (1 / 2 ^ 15) (by decide) (by rw [hv]; norm_num)
    (by norm_num) (by norm_num) (by norm_num) (by norm_num)
    libm32_accurate.1 libm32_accurate.2 (by norm_num) (by rw [hv]; norm_num)
  rw [hv, abs_one] at h2 h3
  exact ⟨nb, h1, h2, by linarith⟩

/-! ## The sign of R -/

/-- A lead block has no R word. -/
theorem lead_block_no_R (b : parser_block_t) (x : vec2) :
    (lead_block b x).value_words.testBit WORD_R = false := by
  rcases lead_block_words b x with h | h <;> rw [h] <;> decide

/-- `normarcs` on a block in R form with a negative R: when it returns, the R word is
still present and its value is the opposite of R. -/
theorem normarcs_R_negative (L : Libm) (b nb : parser_block_t) (motion : Nat) (x y : ℚ)
    (hbit : b.value_words.testBit WORD_R = true) (hneg : b.values.r < 0)
    (h : normarcs L b motion x y = some nb) :
    nb.value_words.testBit WORD_R = true ∧ nb.values.r = -b.values.r := by
  have hR : bit_istrue b.value_words (bit WORD_R) = true := by rw [bit_istrue_bit, hbit]
  have hge : 4 * b.values.r * b.values.r - L.fl (x * x) - L.fl (y * y) ≥ 0 := by
    by_contra hlt
    have := (normarcs_R_none L b motion x y hR).mpr (by linarith [not_le.mp hlt])
    rw [this] at h
    exact absurd h (by simp)
  obtain ⟨nb', _, hn, -, nr, -, -⟩ := normarcs_R L b motion x y hR hge
  rw [hn] at h
  have e : nb' = nb := Option.some.inj h
  subst e
  obtain ⟨hw, -⟩ := normarcs_frame L b nb' motion x y hn
  exact ⟨by rw [hw, hbit], by rw [nr, abs_of_neg hneg]⟩

/-- The R words of the blocks that `lasermode` returns for a block in R form with a
negative R. -/
theorem lasermode_R_negative (L : Libm) (SD : Nat) (state s' : laser_state_t)
    (b : parser_block_t) (out : List parser_block_t)
    (hbit : b.value_words.testBit WORD_R = true) (hneg : b.values.r < 0)
    (h : lasermode L SD state b = some (s', out)) :
    (∃ last, out.getLast? = some last ∧ last.value_words.testBit WORD_R = true ∧
      last.values.r = -b.values.r) ∧
    (∀ blk ∈ out, blk.value_words.testBit WORD_R = true → blk.values.r = -b.values.r) := by
  obtain ⟨nb, v0, v1, hn, -, -, ho⟩ := lasermode_some L SD state b s' out h
  have hub : (update_state state.modal state.values b).2.2.value_words.testBit WORD_R = true := by
    obtain ⟨-, -, -, -, -, -, -, hR, -⟩ := update_state_value_bits state.modal state.values b
    rw [hR, hbit]
    simp [ne_of_lt hneg]
  obtain ⟨nw, nr⟩ := normarcs_R_negative L _ nb _ _ _ hub hneg hn
  obtain ⟨-, -, -, lv, lw, -⟩ := laser_last_facts s' nb
  have hlw : (laser_last s' nb).value_words.testBit WORD_R = true := by
    rw [lw WORD_R (by decide), nw]
  have hlr : (laser_last s' nb).values.r = -b.values.r := by
    rw [lv]
    exact nr
  obtain ⟨c1, c2, c3, c4⟩ := laser_blocks_cases SD state s' v0 nb
  have hlead : ∀ (x : parser_block_t) (p : vec2),
      (lead_block x p).value_words.testBit WORD_R = true → (lead_block x p).values.r = -b.values.r :=
    fun x p hx => absurd hx (by rw [lead_block_no_R]; simp)
  cases hp : laser_extprev SD state s' v0 <;> cases hx : laser_extnext SD state s' v0
  · rw [ho, c4 hp hx]
    refine ⟨⟨nb, rfl, nw, nr⟩, ?_⟩
    intro blk hmem _
    rw [List.mem_singleton.mp hmem]
    exact nr
  · rw [ho, c3 hp hx]
    refine ⟨⟨laser_last s' nb, rfl, hlw, hlr⟩, ?_⟩
    intro blk hmem hw
    simp only [List.mem_cons, List.mem_singleton, List.not_mem_nil, or_false] at hmem
    rcases hmem with e | e | e
    · rw [e] at hw ⊢
      exact hlead _ _ hw
    · rw [e] at hw ⊢
      exact hlead _ _ hw
    · rw [e]
      exact hlr
  · rw [ho, c2 hp hx]
    refine ⟨⟨laser_last s' nb, rfl, hlw, hlr⟩, ?_⟩
    intro blk hmem hw
    simp only [List.mem_cons, List.mem_singleton, List.not_mem_nil, or_false] at hmem
    rcases hmem with e | e | e
    · rw [e] at hw ⊢
      exact hlead _ _ hw
    · rw [e] at hw ⊢
      exact hlead _ _ hw
    · rw [e]
      exact hlr
  · rw [ho, c1 hp hx]
    refine ⟨⟨laser_last s' nb, rfl, hlw, hlr⟩, ?_⟩
    intro blk hmem hw
    simp only [List.mem_cons, List.mem_singleton, List.not_mem_nil, or_false] at hmem
    rcases hmem with e | e | e | e
    · rw [e] at hw ⊢
      exact hlead _ _ hw
    · rw [e] at hw ⊢
      exact hlead _ _ hw
    · rw [e] at hw ⊢
      exact hlead _ _ hw
    · rw [e]
      exact hlr

/-- The R words of the blocks that `dragmode` returns for a block in R form with a
negative R. -/
theorem dragmode_R_negative (L : Libm) (state s' : drag_state_t)
    (b : parser_block_t) (out : List parser_block_t)
    (hbit : b.value_words.testBit WORD_R = true) (hneg : b.values.r < 0)
    (h : dragmode L state b = some (s', out)) :
    (∃ last, out.getLast? = some last ∧ last.value_words.testBit WORD_R = true ∧
      last.values.r = L.sqrt (b.values.r * b.values.r + state.d * state.d)) ∧
    (∀ blk ∈ out, blk.value_words.testBit WORD_R = true →
      blk.values.r = L.sqrt (b.values.r * b.values.r + state.d * state.d) ∨
      blk.values.r = state.d) := by
  obtain ⟨nb, v0, v1, hn, -, hs, ho⟩ := dragmode_some L state b s' out h
  have hd : s'.d = state.d := by rw [hs]; rfl
  have hub : (drag_update state b).2.2.value_words.testBit WORD_R = true := by
    rw [(drag_update_arc_bits state b).2.2, hbit]
    simp [ne_of_lt hneg]
  have hbv : (drag_update state b).2.2.values.r = b.values.r := rfl
  obtain ⟨nw, nr⟩ := normarcs_R_negative L _ nb _ _ _ hub (by rw [hbv]; exact hneg) hn
  rw [hbv] at nr
  obtain ⟨dw, dr⟩ := (drag_block_arc_words L state s' nb).1 nw
  have hr : (drag_block L state s' nb).values.r =
      L.sqrt (b.values.r * b.values.r + state.d * state.d) := by
    rw [dr, nr, hd, neg_mul_neg]
  split_ifs at ho
  · rw [ho]
    refine ⟨⟨drag_moved s' (drag_block L state s' nb), by simp, dw, hr⟩, ?_⟩
    intro blk hmem _
    simp only [List.mem_cons, List.mem_singleton, List.not_mem_nil, or_false] at hmem
    rcases hmem with e | e
    · right
      rw [e]
      exact hd
    · left
      rw [e]
      exact hr
  · rw [ho]
    refine ⟨⟨drag_block L state s' nb, rfl, dw, hr⟩, ?_⟩
    intro blk hmem _
    rw [List.mem_singleton.mp hmem]
    exact Or.inl hr

/-- A block in R form whose R is not zero and for which the float squares of the chord sum
to at most 4 R^2 passes the `assert` of `normarcs` after `update_state`. -/
theorem normarcs_after_update_R (L : Libm) (m : gc_modal_t) (v : gc_values_t)
    (b : parser_block_t) (motion : Nat) (x y : ℚ)
    (hbit : b.value_words.testBit WORD_R = true) (hr : b.values.r ≠ 0)
    (hch : L.fl (x * x) + L.fl (y * y) ≤ 4 * b.values.r * b.values.r) :
    ∃ nb, normarcs L (update_state m v b).2.2 motion x y = some nb := by
  have hub : bit_istrue (update_state m v b).2.2.value_words (bit WORD_R) = true := by
    obtain ⟨-, -, -, -, -, -, -, hR, -⟩ := update_state_value_bits m v b
    rw [bit_istrue_bit, hR, hbit]
    simp [hr]
  have hv : (update_state m v b).2.2.values.r = b.values.r := rfl
  obtain ⟨nb, -, hn, -⟩ := normarcs_R L (update_state m v b).2.2 motion x y hub
    (by rw [hv]; linarith)
  exact ⟨nb, hn⟩

/-- C34 (amended): the sign of R. For every block in R form with R < 0: whenever
`lasermode` returns, the last block it returns (the real move) carries the R word with
the value -R, and every block it returns that carries an R word has that positive value;
whenever `dragmode` returns, the last block it returns carries the R word with the value
sqrt(R^2 + d^2), and every block it returns that carries an R word has that value or, for
the pivot arc, the blade offset d; so when d is not negative, with a square root that is
not negative, no block that `dragmode` returns carries a negative R. Both return when the
`assert` of `normarcs` holds, that is, when the float squares of the chord sum to at most
4 R^2. -/
theorem R_sign_not_preserved (L : Libm) (SD : Nat) (ls : laser_state_t) (ds : drag_state_t)
    (b : parser_block_t) (hbit : bit_istrue b.value_words (bit WORD_R) = true)
    (hneg : b.values.r < 0) :
    (∀ s' out, lasermode L SD ls b = some (s', out) →
      (∃ last, out.getLast? = some last ∧ bit_istrue last.value_words (bit WORD_R) = true ∧
        last.values.r = -b.values.r) ∧
      (∀ blk ∈ out, bit_istrue blk.value_words (bit WORD_R) = true →
        blk.values.r = -b.values.r ∧ 0 < blk.values.r)) ∧
    (∀ s' out, dragmode L ds b = some (s', out) →
      (∃ last, out.getLast? = some last ∧ bit_istrue last.value_words (bit WORD_R) = true ∧
        last.values.r = L.sqrt (b.values.r * b.values.r + ds.d * ds.d)) ∧
      (∀ blk ∈ out, bit_istrue blk.value_words (bit WORD_R) = true →
        blk.values.r = L.sqrt (b.values.r * b.values.r + ds.d * ds.d) ∨
        blk.values.r = ds.d) ∧
      (0 ≤ ds.d → 0 ≤ L.sqrt (b.values.r * b.values.r + ds.d * ds.d) →
        ∀ blk ∈ out, bit_istrue blk.value_words (bit WORD_R) = true → 0 ≤ blk.values.r)) ∧
    (L.fl (((update_state ls.modal ls.values b).2.1.xyz.e0 - ls.values.xyz.e0) *
        ((update_state ls.modal ls.values b).2.1.xyz.e0 - ls.values.xyz.e0)) +
      L.fl (((update_state ls.modal ls.values b).2.1.xyz.e1 - ls.values.xyz.e1) *
        ((update_state ls.modal ls.values b).2.1.xyz.e1 - ls.values.xyz.e1)) ≤
        4 * b.values.r * b.values.r →
      ∃ s' out, lasermode L SD ls b = some (s', out)) ∧
    (L.fl (((drag_update ds b).2.1.xyz.e0 - ds.values.xyz.e0) *
        ((drag_update ds b).2.1.xyz.e0 - ds.values.xyz.e0)) +
      L.fl (((drag_update ds b).2.1.xyz.e1 - ds.values.xyz.e1) *
        ((drag_update ds b).2.1.xyz.e1 - ds.values.xyz.e1)) ≤
        4 * b.values.r * b.values.r →
      ∃ s' out, dragmode L ds b = some (s', out)) := by
  have hb : b.value_words.testBit WORD_R = true := by rw [← bit_istrue_bit, hbit]
  refine ⟨?_, ?_, ?_, ?_⟩
  · intro s' out h
    obtain ⟨⟨last, h1, h2, h3⟩, h4⟩ := lasermode_R_negative L SD ls s' b out hb hneg h
    refine ⟨⟨last, h1, by rw [bit_istrue_bit, h2], h3⟩, ?_⟩
    intro blk hmem hw
    have := h4 blk hmem (by rw [← bit_istrue_bit, hw])
    exact ⟨this, by rw [this]; linarith⟩
  · intro s' out h
    obtain ⟨⟨last, h1, h2, h3⟩, h4⟩ := dragmode_R_negative L ds s' b out hb hneg h
    refine ⟨⟨last, h1, by rw [bit_istrue_bit, h2], h3⟩, ?_, ?_⟩
    · intro blk hmem hw
      exact h4 blk hmem (by rw [← bit_istrue_bit, hw])
    · intro hd hs blk hmem hw
      rcases h4 blk hmem (by rw [← bit_istrue_bit, hw]) with e | e
      · rw [e]
        exact hs
      · rw [e]
        exact hd
  · intro hch
    obtain ⟨nb, hn⟩ := normarcs_after_update_R L ls.modal ls.values b
      (update_state ls.modal ls.values b).1.motion _ _ hb (ne_of_lt hneg) hch
    exact ⟨_, _, lasermode_eq L SD ls b nb _ _ hn rfl⟩
  · intro hch
    obtain ⟨nb, hn⟩ := normarcs_after_update_R L ds.modal ds.values
      { b with command_words := bit_false b.command_words (bit MODAL_GROUP_M7) }
      (drag_update ds b).1.motion _ _ hb (ne_of_lt hneg) hch
    exact ⟨_, _, dragmode_eq L ds b nb _ _ hn rfl⟩

theorem update_arc_Rneg (m : gc_modal_t) (hm : m.distance = DISTANCE_MODE_ABSOLUTE) :
    (update_state m gc_values_t.zero block_arc_Rneg).2.1.xyz = ⟨6, 0, 0⟩ := by
  rw [update_state_values, update_state_modal]
  simp +decide [update_axis_shadow, hm, block_arc_Rneg,
    parser_block_t.zero, gc_modal_t.zero, gc_values_t.zero,
    vec3.zero, bit_eq_two_pow, Nat.testBit_or, Nat.testBit_two_pow,
    MODAL_GROUP_G1, MODAL_GROUP_G2, MODAL_GROUP_G3,
    MODAL_GROUP_G5, MODAL_GROUP_G6, MODAL_GROUP_G8, MODAL_GROUP_G12, MODAL_GROUP_M4,
    MODAL_GROUP_M7, MODAL_GROUP_M8, WORD_F, WORD_I, WORD_J, WORD_K, WORD_L, WORD_N,
    WORD_P, WORD_R, WORD_S, WORD_T, WORD_X, WORD_Y, WORD_Z,
    DISTANCE_MODE_ABSOLUTE, -Nat.testBit_zero]

/-- Witness of C34: for the line `G2 X6 R-5` from the origin, `lasermode` returns and the
last block carries R = 5. -/
theorem R_sign_not_preserved_witness :
    bit_istrue block_arc_Rneg.value_words (bit WORD_R) = true ∧
    block_arc_Rneg.values.r < 0 ∧
    ∃ s' out last, lasermode libmQ 0 (laser_cut_state_0 0 ⟨0, 0⟩) block_arc_Rneg =
        some (s', out) ∧
      out.getLast? = some last ∧ bit_istrue last.value_words (bit WORD_R) = true ∧
      last.values.r = 5 := by
  have hbit : bit_istrue block_arc_Rneg.value_words (bit WORD_R) = true := by decide
  have hneg : block_arc_Rneg.values.r < 0 := by norm_num [block_arc_Rneg]
  obtain ⟨h1, -, h3, -⟩ := R_sign_not_preserved libmQ 0 (laser_cut_state_0 0 ⟨0, 0⟩)
    (drag_S4_state_1 1) block_arc_Rneg hbit hneg
  have hu := update_arc_Rneg (laser_cut_state_0 0 ⟨0, 0⟩).modal rfl
  have hu' : (update_state (laser_cut_state_0 0 ⟨0, 0⟩).modal
      (laser_cut_state_0 0 ⟨0, 0⟩).values block_arc_Rneg).2.1.xyz = ⟨6, 0, 0⟩ := hu
  obtain ⟨s', out, h⟩ := h3 (by
    rw [hu']
    norm_num [laser_cut_state_0, gc_values_t.zero, vec3.zero, block_arc_Rneg, libmQ])
  obtain ⟨⟨last, l1, l2, l3⟩, -⟩ := h1 s' out h
  refine ⟨hbit, hneg, s', out, last, h, l1, l2, ?_⟩
  rw [l3]
  norm_num [block_arc_Rneg]

theorem libmQ_sqrt_64_36 : libmQ.sqrt 64 = 8 ∧ libmQ.sqrt 36 = 6 := by
  constructor
  · have h := Rat.sqrt_eq 8
    rw [show (8 : ℚ) * 8 = 64 by norm_num, abs_of_pos (by norm_num)] at h
    exact h
  · have h := Rat.sqrt_eq 6
    rw [show (6 : ℚ) * 6 = 36 by norm_num, abs_of_pos (by norm_num)] at h
    exact h

theorem drag_update_arc_Rneg :
    (drag_update drag_state_dneg block_arc_Rneg).2.1.xyz = ⟨6, 0, -1⟩ := by
  unfold drag_update
  rw [update_state_values, update_state_modal]
  simp +decide [update_axis_shadow, bit_false, block_arc_Rneg, drag_state_dneg,
    parser_block_t.zero, gc_modal_t.zero, gc_values_t.zero,
    vec3.zero, bit_eq_two_pow, Nat.testBit_or, Nat.testBit_two_pow, testBit_bit_false,
    MODAL_GROUP_G1, MODAL_GROUP_G2, MODAL_GROUP_G3,
    MODAL_GROUP_G5, MODAL_GROUP_G6, MODAL_GROUP_G8, MODAL_GROUP_G12, MODAL_GROUP_M4,
    MODAL_GROUP_M7, MODAL_GROUP_M8, WORD_F, WORD_I, WORD_J, WORD_K, WORD_L, WORD_N,
    WORD_P, WORD_R, WORD_S, WORD_T, WORD_X, WORD_Y, WORD_Z, MOTION_MODE_LINEAR,
    DISTANCE_MODE_ABSOLUTE, -Nat.testBit_zero]

/-- Counterexample to C34 as stated: with the blade offset d = -1 and the blade down, the
arc `G2 X6 R-5` turns the blade by more than the threshold, and `dragmode` returns two
blocks of which the first, the pivot arc, carries the R word with the negative value
-1. -/
theorem dragmode_emits_negative_R :
    bit_istrue block_arc_Rneg.value_words (bit WORD_R) = true ∧
    block_arc_Rneg.values.r < 0 ∧
    ∃ s' pivot moved, dragmode libmQ drag_state_dneg block_arc_Rneg =
        some (s', [pivot, moved]) ∧
      bit_istrue pivot.value_words (bit WORD_R) = true ∧ pivot.values.r = -1 := by
  have hbit : bit_istrue block_arc_Rneg.value_words (bit WORD_R) = true := by decide
  have hneg : block_arc_Rneg.values.r < 0 := by norm_num [block_arc_Rneg]
  refine ⟨hbit, hneg, ?_⟩
  have hu := drag_update_arc_Rneg
  have hub : bit_istrue (drag_update drag_state_dneg block_arc_Rneg).2.2.value_words
      (bit WORD_R) = true := by
    rw [bit_istrue_bit, (drag_update_arc_bits drag_state_dneg block_arc_Rneg).2.2,
      ← bit_istrue_bit, hbit]
    simp [ne_of_lt hneg]
  have hbv : (drag_update drag_state_dneg block_arc_Rneg).2.2.values.r = -5 := rfl
  have hx : (drag_update drag_state_dneg block_arc_Rneg).2.1.xyz.e0 -
      drag_state_dneg.values.xyz.e0 = 6 := by
    rw [hu]
    norm_num [drag_state_dneg, gc_values_t.zero]
  have hy : (drag_update drag_state_dneg block_arc_Rneg).2.1.xyz.e1 -
      drag_state_dneg.values.xyz.e1 = 0 := by
    rw [hu]
    norm_num [drag_state_dneg, gc_values_t.zero]
  have hz : (drag_update drag_state_dneg block_arc_Rneg).2.1.xyz.e2 < 0 := by
    rw [hu]
    norm_num
  have hfl : ∀ q : ℚ, libmQ.fl q = q := fun _ => rfl
  obtain ⟨nb, h, hn, hsign, nr, nI, nJ⟩ := normarcs_R libmQ
    (drag_update drag_state_dneg block_arc_Rneg).2.2
    (drag_update drag_state_dneg block_arc_Rneg).1.motion 6 0 hub
    (by rw [hbv, hfl, hfl]; norm_num)
  rw [hbv, hfl, hfl] at hsign
  have e64 : (4 : ℚ) * -5 * -5 - 6 * 6 - 0 * 0 = 64 := by norm_num
  have e36 : (6 : ℚ) * 6 + 0 * 0 = 36 := by norm_num
  have hh : h = -(4 / 3) ∨ h = 4 / 3 := by
    unfold hypot_f at hsign
    rw [e64, e36, libmQ_sqrt_64_36.1, libmQ_sqrt_64_36.2] at hsign
    rcases hsign with e | e
    · left
      rw [e]
      norm_num
    · right
      rw [e]
      norm_num
  rw [hbv] at nr
  have nr5 : nb.values.r = 5 := by
    rw [nr]
    norm_num
  have hc := calcv_arc libmQ nb (drag_update drag_state_dneg block_arc_Rneg).1.motion 6 0
    drag_state_dneg.v (by rw [nr5]; norm_num)
  have hdp : (calcv libmQ nb (drag_update drag_state_dneg block_arc_Rneg).1.motion 6 0
      drag_state_dneg.v).1.e0 * drag_state_dneg.v.e0 +
      (calcv libmQ nb (drag_update drag_state_dneg block_arc_Rneg).1.motion 6 0
      drag_state_dneg.v).1.e1 * drag_state_dneg.v.e1 < drag_state_dneg.cosminangle := by
    rw [hc.1]
    have hv0 : drag_state_dneg.v = ⟨1, 0⟩ := rfl
    have hcm : drag_state_dneg.cosminangle = 999 / 1000 := rfl
    rw [hv0, hcm, nJ, nI, nr5]
    split_ifs <;> rcases hh with e | e <;> rw [e] <;> norm_num
  have hz0 : drag_state_dneg.values.xyz.e2 < 0 := by
    norm_num [drag_state_dneg, gc_values_t.zero]
  have heq := dragmode_eq libmQ drag_state_dneg block_arc_Rneg nb
    (calcv libmQ nb (drag_update drag_state_dneg block_arc_Rneg).1.motion 6 0
      drag_state_dneg.v).1
    (calcv libmQ nb (drag_update drag_state_dneg block_arc_Rneg).1.motion 6 0
      drag_state_dneg.v).2
    (by rw [hx, hy]; exact hn) (by rw [hx, hy])
  rw [if_pos ⟨hdp, hz, hz0⟩] at heq
  have hw : bit_istrue (bit WORD_R ||| bit WORD_X ||| bit WORD_Y) (bit WORD_R) = true := by
    decide
  exact ⟨_, _, _, heq, hw, rfl⟩

end Gfilter
